import Mathlib

/-!
# Send-side TCP engine with the multipath extension (`net/ipv4/tcp_output.c`)

A shallow embedding of the parts of `tcp_output.c` that decide the admission
tests (congestion window, advertised window, Nagle/cork) and the reshaping of
queued segments (`tcp_fragment`, `tso_fragment`, `tcp_retrans_try_collapse`),
followed by theorems about them.

Conventions of the embedding.

* Unsigned 32-bit quantities are natural numbers; every C operation that can
  wrap is written with an explicit reduction modulo `2^32` (`add32`, `sub32`).
  Signed `int` temporaries are integers (`s32` gives the value a 32-bit
  pattern has when read as signed).
* A function that can hit `BUG_ON`/`BUG` returns an `Option`; `none` is the
  kernel abort.
* Pointers to buffers (`sk_send_head`, the retransmit hints, `highest_sack`)
  are the address of the buffer, kept in the field `addr` of `sk_buff`.
* The write queue `sk->sk_write_queue` is the list of its buffers in order; a
  buffer handed to a function is named by its position in that list.
* Outcomes of collaborators outside the file (the allocator, head expansion,
  the sequence number of the highest selectively acknowledged buffer) are
  arguments of the functions that consult them. The forward-allocation quota,
  which only the allocator's charge and uncharge calls touch, and the
  checksum value of a buffer are not part of the model.
* Payload lengths are exact natural numbers (the kernel keeps them far below
  `2^31`); `data_len <= len` is the buffer invariant under which
  `len - data_len` is the length of the linear part.
-/

set_option autoImplicit false

namespace TcpOutput

/-! ## Machine arithmetic -/

/-- Sum of two unsigned 32-bit values, as C computes it. -/
def add32 (a b : Nat) : Nat := (a + b) % 4294967296

/-- Difference of two unsigned 32-bit values, as C computes it (wraps below zero). -/
def sub32 (a b : Nat) : Nat := (a % 4294967296 + (4294967296 - b % 4294967296)) % 4294967296

/-- The unsigned 32-bit pattern of an integer (conversion to `u32`). -/
def u32 (x : Int) : Nat := (x % 4294967296).toNat

/-- The value of an integer after conversion to a 32-bit signed `int`. -/
def s32 (x : Int) : Int :=
  if x % 4294967296 < 2147483648 then x % 4294967296 else x % 4294967296 - 4294967296

/-- Modelled from the spec: `before` of `include/net/tcp.h`, which is not among the
sources: `(__s32)(seq1 - seq2) < 0`, the serial-number comparison the spec calls
sequence-space arithmetic. -/
def before (seq1 seq2 : Nat) : Bool := decide (2147483648 ≤ sub32 seq1 seq2)

/-- Modelled from the spec: `after` of `include/net/tcp.h`, `after(seq2, seq1)` being
`before(seq1, seq2)`. -/
def after (seq2 seq1 : Nat) : Bool := before seq1 seq2

/-! ## Constants of `include/net/tcp.h` and `include/linux/skbuff.h` -/

def TCPCB_FLAG_FIN : Nat := 0x01
def TCPCB_FLAG_SYN : Nat := 0x02
def TCPCB_FLAG_RST : Nat := 0x04
def TCPCB_FLAG_PSH : Nat := 0x08
def TCPCB_FLAG_ACK : Nat := 0x10
def TCPCB_FLAG_URG : Nat := 0x20
def TCPCB_FLAG_ECE : Nat := 0x40
def TCPCB_FLAG_CWR : Nat := 0x80

def TCPCB_SACKED_ACKED : Nat := 0x01
def TCPCB_SACKED_RETRANS : Nat := 0x02
def TCPCB_LOST : Nat := 0x04
def TCPCB_EVER_RETRANS : Nat := 0x80

def TCP_NAGLE_OFF : Nat := 1
def TCP_NAGLE_CORK : Nat := 2
def TCP_NAGLE_PUSH : Nat := 4

def CHECKSUM_NONE : Nat := 0
def CHECKSUM_PARTIAL : Nat := 3

def ENOMEM : Int := 12

/-! ## Data model -/

/-- One page fragment of a buffer (`skb_frag_t`): offset into the page and size. -/
structure skb_frag_t where
  page_offset : Nat
  size : Nat
deriving DecidableEq, Repr

/-- The TCP control block of a buffer (`struct tcp_skb_cb`). -/
structure tcp_skb_cb where
  seq : Nat
  end_seq : Nat
  data_seq : Nat
  end_data_seq : Nat
  sub_seq : Nat
  data_len : Nat
  when : Nat
  flags : Nat
  sacked : Nat
  ack_seq : Nat
deriving DecidableEq, Repr

/-- A segment buffer (`struct sk_buff` with its `skb_shared_info`).

`len` is the payload length, `data_len` the part of it held in page fragments,
`bufsize` the capacity of the linear area counted from the start of the data
(`end - data`); the linear data occupies its first `len - data_len` bytes. -/
structure sk_buff where
  addr : Nat
  len : Nat
  data_len : Nat
  truesize : Nat
  bufsize : Nat
  cloned : Bool
  ip_summed : Nat
  tstamp : Nat
  gso_segs : Nat
  gso_size : Nat
  gso_type : Nat
  frags : List skb_frag_t
  cb : tcp_skb_cb
deriving DecidableEq, Repr

/-- The connection-level socket of a multipath connection as a subflow sees it
(`tp->mpcb->tp`): its oldest unacknowledged data sequence and its send window. -/
structure multipath_pcb where
  tp_snd_una : Nat
  tp_snd_wnd : Nat
  /-- The fields `mpcb->tp.write_seq` and `mpcb->tp.rcv_nxt`. -/
  tp_write_seq : Nat := 0
  tp_rcv_nxt : Nat := 0
  /-- Bit `MPCB_FLAG_FIN_ENQUEUED` of `mpcb->flags`. -/
  fin_enqueued : Bool := false
  /-- The local addresses to advertise, as (id, IPv4 address) pairs, how many there
  are and how many of them have not been advertised yet. -/
  addr4 : List (Nat × Nat) := []
  num_addr4 : Nat := 0
  addr_unsent : Nat := 0
  /-- The other fields of `mpcb->tp` that the Nagle test reads. -/
  tp_snd_up : Nat := 0
  tp_snd_sml : Nat := 0
  tp_snd_nxt : Nat := 0
  tp_packets_out : Nat := 0
  tp_frto_counter : Nat := 0
  /-- The fields `rcv_wnd` and `rcv_wup` of `mpcb->tp`. -/
  tp_rcv_wnd : Nat := 0
  tp_rcv_wup : Nat := 0
deriving DecidableEq, Repr

/-- A connection (`struct tcp_sock`, with the `struct sock` it starts with). -/
structure tcp_sock where
  snd_una : Nat
  snd_nxt : Nat
  snd_wnd : Nat
  snd_sml : Nat
  snd_up : Nat
  write_seq : Nat
  snd_cwnd : Nat
  packets_out : Nat
  sacked_out : Nat
  lost_out : Nat
  retrans_out : Nat
  fackets_out : Nat
  frto_counter : Nat
  rx_opt_sack_ok : Bool
  mpc : Bool
  is_meta : Bool
  mpcb : Option multipath_pcb
  highest_sack : Option Nat
  lost_skb_hint : Option Nat
  scoreboard_skb_hint : Option Nat
  retransmit_skb_hint : Option Nat
  sk_send_head : Option Nat
  sk_write_queue : List sk_buff
  sk_wmem_queued : Int
  sock_queue_shrunk : Bool
  sk_can_gso : Bool
  sk_gso_type : Nat
  /- Receive side, as far as the output path reads or writes it. -/
  rcv_nxt : Nat := 0
  rcv_wnd : Nat := 0
  rcv_wup : Nat := 0
  rcv_isn : Nat := 0
  snt_isn : Nat := 0
  rx_opt_tstamp_ok : Bool := false
  rx_opt_ts_recent : Nat := 0
  rx_opt_eff_sacks : Nat := 0
  rx_opt_num_sacks : Nat := 0
  rx_opt_dsack : Bool := false
  selective_acks : List (Nat × Nat) := []
  duplicate_sack : List (Nat × Nat) := []
  rx_opt_rcv_wscale : Nat := 0
  rx_opt_mtcp_rem_token : Nat := 0
  mtcp_loc_token : Nat := 0
  advmss : Nat := 0
  mss_too_low : Bool := false
  /- Multipath subflow state. -/
  pending : Bool := false
  is_master : Bool := false
  path_index : Nat := 0
  /- Congestion control. -/
  snd_ssthresh : Nat := 0
  snd_cwnd_cnt : Nat := 0
  snd_cwnd_used : Nat := 0
  snd_cwnd_stamp : Nat := 0
  lsndtime : Nat := 0
  high_seq : Nat := 0
  prior_ssthresh : Nat := 0
  bytes_acked : Nat := 0
  undo_marker : Nat := 0
  undo_retrans : Nat := 0
  ecn_flags : Nat := 0
  reordering : Nat := 0
  icsk_ca_state : Nat := 0
  icsk_rto : Nat := 0
  /- Retransmission. -/
  total_retrans : Nat := 0
  retrans_stamp : Nat := 0
  lost_retrans_low : Nat := 0
  retransmit_high : Nat := 0
  /- Segment sizes and path-MTU discovery. -/
  mss_cache : Nat := 0
  xmit_size_goal : Nat := 0
  max_window : Nat := 0
  tcp_header_len : Nat := 0
  rx_opt_mss_clamp : Nat := 0
  icsk_pmtu_cookie : Nat := 0
  icsk_ext_hdr_len : Nat := 0
  icsk_mtup_enabled : Bool := false
  icsk_mtup_probe_size : Nat := 0
  icsk_mtup_search_high : Nat := 0
  icsk_mtup_search_low : Nat := 0
  mtu_probe_probe_seq_start : Nat := 0
  mtu_probe_probe_seq_end : Nat := 0
  /- Socket state and memory. -/
  sk_state : Nat := 0
  sk_sndbuf : Int := 0
  nonagle : Nat := 0
  pushed_seq : Nat := 0
deriving DecidableEq, Repr

/-! ## Helpers of the headers -/

/-- Modelled from the spec: `tcp_skb_pcount` of `include/net/tcp.h`, the
segmentation-offload factor of a segment. -/
def tcp_skb_pcount (skb : sk_buff) : Nat := skb.gso_segs

/-- Modelled from the spec: `is_meta_tp`, whether the socket is the aggregator of a
multipath connection rather than a subflow. -/
def is_meta_tp (tp : tcp_sock) : Bool := tp.is_meta

/-- Modelled from the spec: `tcp_packets_in_flight` of `include/net/tcp.h`,
`packets_out - (sacked_out + lost_out) + retrans_out` in unsigned arithmetic. -/
def tcp_packets_in_flight (tp : tcp_sock) : Nat :=
  add32 (sub32 tp.packets_out (add32 tp.sacked_out tp.lost_out)) tp.retrans_out

/-- Modelled from the spec: `tcp_wnd_end` of `include/net/tcp.h`, `snd_una + snd_wnd`
of the connection itself, or of the connection-level socket when `data_seq` is
set; a null `mpcb` cannot be followed. -/
def tcp_wnd_end (tp : tcp_sock) (data_seq : Bool) : Option Nat :=
  if data_seq then
    match tp.mpcb with
    | some m => some (add32 m.tp_snd_una m.tp_snd_wnd)
    | none => none
  else some (add32 tp.snd_una tp.snd_wnd)

/-- Test of a flag mask, the C condition `x & mask`. -/
def tst (x mask : Nat) : Bool := decide (x &&& mask ≠ 0)

/-! ## Admission control -/

/-- `tcp_cwnd_test`: how many segments the congestion window allows now. -/
def tcp_cwnd_test (tp : tcp_sock) (skb : sk_buff) : Option Nat :=
  if is_meta_tp tp then none
  else if tst skb.cb.flags TCPCB_FLAG_FIN && decide (tcp_skb_pcount skb = 1) then some 1
  else
    let in_flight := tcp_packets_in_flight tp
    let cwnd := tp.snd_cwnd
    if in_flight < cwnd then some (cwnd - in_flight) else some 0

/-- `tcp_minshall_check`: a small segment is sent and not yet acknowledged. -/
def tcp_minshall_check (tp : tcp_sock) : Bool :=
  after tp.snd_sml tp.snd_una && !after tp.snd_sml tp.snd_nxt

/-- `tcp_nagle_check`: true when Nagle's rules forbid sending the segment now. -/
def tcp_nagle_check (tp : tcp_sock) (skb : sk_buff) (mss_now nonagle : Nat) : Bool :=
  decide (skb.len < mss_now) &&
    (tst nonagle TCP_NAGLE_CORK ||
      (decide (nonagle = 0) && decide (tp.packets_out ≠ 0) && tcp_minshall_check tp))

/-- `tcp_urg_mode`. -/
def tcp_urg_mode (tp : tcp_sock) : Bool := decide (tp.snd_una ≠ tp.snd_up)

/-- `tcp_nagle_test`: true when the Nagle test allows the segment to be sent now. -/
def tcp_nagle_test (tp : tcp_sock) (skb : sk_buff) (cur_mss nonagle : Nat) : Bool :=
  if tst nonagle TCP_NAGLE_PUSH then true
  else if tcp_urg_mode tp || decide (tp.frto_counter = 2) ||
      tst skb.cb.flags TCPCB_FLAG_FIN then true
  else if !tcp_nagle_check tp skb cur_mss nonagle then true
  else false

/-- `tcp_snd_wnd_test`: does at least the first segment of the buffer fit into the
send window? -/
def tcp_snd_wnd_test (tp : tcp_sock) (skb : sk_buff) (cur_mss : Nat) : Option Bool :=
  let end_seq0 := if tp.mpc then skb.cb.end_data_seq else skb.cb.end_seq
  let end_seq :=
    if skb.len > cur_mss then
      add32 (if tp.mpc then skb.cb.data_seq else skb.cb.seq) cur_mss
    else end_seq0
  match tcp_wnd_end tp tp.mpc with
  | some wnd_end => some (!after end_seq wnd_end)
  | none => none

/-! ## Buffer primitives -/

/-- Modelled from the spec: `skb_headlen` of `include/linux/skbuff.h`, the length of the
linear part of the payload. -/
def skb_headlen (skb : sk_buff) : Nat := skb.len - skb.data_len

/-- Modelled from the spec: `skb_is_nonlinear`, whether part of the payload is held in
page fragments. -/
def skb_is_nonlinear (skb : sk_buff) : Bool := decide (skb.data_len ≠ 0)

/-- Modelled from the spec: `skb_tailroom`, the free bytes after the linear data; a
buffer with paged data has none. -/
def skb_tailroom (skb : sk_buff) : Int :=
  if skb_is_nonlinear skb then 0 else (skb.bufsize : Int) - skb_headlen skb

/-- Modelled from the spec: `skb_put`, which appends `n` bytes to the linear data; it
aborts on a buffer with paged data and when the bytes do not fit. -/
def skb_put (skb : sk_buff) (n : Nat) : Option sk_buff :=
  if skb_is_nonlinear skb then none
  else if skb_headlen skb + n > skb.bufsize then none
  else some { skb with len := skb.len + n }

/-- Modelled from the spec: `skb_trim`, which cuts a linear buffer down to `len` bytes
and leaves a buffer with paged data as it is. -/
def skb_trim (skb : sk_buff) (len : Nat) : sk_buff :=
  if skb.len > len then
    if skb.data_len ≠ 0 then skb else { skb with len := len }
  else skb

/-- The page fragments of the two halves in `skb_split_no_header`: running over
the fragments with `pos` the payload offset of the current one, a fragment
ending at or before `len` stays, one starting at or after `len` moves, and the
one that straddles `len` is cut in two. -/
def skb_split_frags (len : Nat) : Nat → List skb_frag_t → List skb_frag_t × List skb_frag_t
  | _, [] => ([], [])
  | pos, f :: fs =>
    let r := skb_split_frags len (pos + f.size) fs
    if pos + f.size > len then
      if pos < len then
        ({ f with size := len - pos } :: r.1,
          { page_offset := f.page_offset + (len - pos), size := f.size - (len - pos) } :: r.2)
      else (r.1, f :: r.2)
    else (f :: r.1, r.2)

/-- Modelled from the spec: `skb_split` of `net/core/skbuff.c`, which leaves the first
`len` payload bytes in `skb` and moves the rest to the empty buffer `skb1`:
when the cut is inside the linear part the rest of that part is copied and
every page fragment moves, otherwise the page fragments are divided. -/
def skb_split (skb skb1 : sk_buff) (len : Nat) : Option (sk_buff × sk_buff) :=
  let pos := skb_headlen skb
  if len < pos then
    match skb_put skb1 (pos - len) with
    | none => none
    | some b =>
      some ({ skb with frags := [], data_len := 0, len := len },
            { b with frags := skb.frags, data_len := skb.data_len, len := b.len + skb.data_len })
  else
    let fr := skb_split_frags len pos skb.frags
    some ({ skb with frags := fr.1, len := len, data_len := len - pos },
          { skb1 with frags := fr.2, len := skb.len - len, data_len := skb.len - len })

/-- An all-zero control block. -/
def cb_zero : tcp_skb_cb :=
  { seq := 0, end_seq := 0, data_seq := 0, end_data_seq := 0, sub_seq := 0,
    data_len := 0, when := 0, flags := 0, sacked := 0, ack_seq := 0 }

/-- Modelled from the spec: the buffer `sk_stream_alloc_skb(sk, size)` of
`net/ipv4/tcp.c` returns when it succeeds: empty, zeroed, unshared, with `size`
rounded up to a multiple of 4 bytes of tail room; its address and true size come
from the allocator. -/
def sk_stream_alloc_skb (a : Nat × Nat) (size : Nat) : sk_buff :=
  { addr := a.1, len := 0, data_len := 0, truesize := a.2,
    bufsize := (size + 3) / 4 * 4, cloned := false, ip_summed := 0, tstamp := 0,
    gso_segs := 0, gso_size := 0, gso_type := 0, frags := [],
    cb := cb_zero }

/-- Modelled from the spec: `tcp_is_reno` of `include/net/tcp.h`, no selective
acknowledgment negotiated. -/
def tcp_is_reno (tp : tcp_sock) : Bool := !tp.rx_opt_sack_ok

/-- Modelled from the spec: `tcp_dec_pcount_approx_int` of `include/net/tcp.h`: a
non-zero counter is decreased and clamped at zero. -/
def tcp_dec_pcount_approx_int (count : Nat) (decr : Int) : Nat :=
  if count ≠ 0 then
    if s32 ((count : Int) - decr) < 0 then 0 else u32 ((count : Int) - decr)
  else count

/-- Modelled from the spec: `tcp_clear_retrans_hints_partial` of `include/net/tcp.h`,
which forgets the cached lost-segment hints. -/
def tcp_clear_retrans_hints_partial (tp : tcp_sock) : tcp_sock :=
  { tp with lost_skb_hint := none, scoreboard_skb_hint := none }

/-- Modelled from the spec: `tcp_highest_sack_combine` of `include/net/tcp.h`: when
selective acknowledgments are outstanding and the highest one is `old`, it
becomes `new`. -/
def tcp_highest_sack_combine (tp : tcp_sock) (old new : sk_buff) : tcp_sock :=
  if tp.sacked_out ≠ 0 ∧ tp.highest_sack = some old.addr then
    { tp with highest_sack := some new.addr }
  else tp

/-- Modelled from the spec: `sk_wmem_free_skb` of `include/net/sock.h`, which releases
a queued buffer: the queue is marked shrunk and the queued-memory count gives
back the buffer's true size. -/
def sk_wmem_free_skb (sk : tcp_sock) (skb : sk_buff) : tcp_sock :=
  { sk with sock_queue_shrunk := true, sk_wmem_queued := sk.sk_wmem_queued - skb.truesize }

/-! ## Fragmentation and coalescing -/

/-- `tcp_set_skb_tso_segs`: the segmentation-offload factor of a buffer for the
given MSS. `none` is the division by a zero MSS. -/
def tcp_set_skb_tso_segs (sk : tcp_sock) (skb : sk_buff) (mss_now : Nat) : Option sk_buff :=
  if skb.len ≤ mss_now || !sk.sk_can_gso then
    some { skb with gso_segs := 1, gso_size := 0, gso_type := 0 }
  else if mss_now = 0 then none
  else
    some { skb with gso_segs := ((skb.len + mss_now - 1) / mss_now) % 65536,
                    gso_size := mss_now % 65536, gso_type := sk.sk_gso_type }

/-- `tcp_adjust_fackets_out`; `highest_sack_seq` is what `tcp_highest_sack_seq(tp)`
returns. -/
def tcp_adjust_fackets_out (tp : tcp_sock) (highest_sack_seq : Nat) (skb : sk_buff)
    (decr : Int) : tcp_sock :=
  if tp.sacked_out = 0 || tcp_is_reno tp then tp
  else if after highest_sack_seq skb.cb.seq then
    { tp with fackets_out := u32 ((tp.fackets_out : Int) - decr) }
  else tp

/-- The sequence-number corrections of a split at `len` (`tcp_fragment` and
`tso_fragment` share them), on the control blocks of the buffer being split and
of the new buffer, which takes the range after the cut; the data-sequence part
is compiled only with `CONFIG_MTCP`. Returns the control blocks of the head and
of the tail. -/
def fragment_seqs (CONFIG_MTCP : Bool) (skb buff : tcp_skb_cb) (len : Nat) :
    tcp_skb_cb × tcp_skb_cb :=
  let bcb := { buff with seq := add32 skb.seq len, end_seq := skb.end_seq }
  let scb := { skb with end_seq := bcb.seq }
  if CONFIG_MTCP then
    let bcb := { bcb with data_seq := add32 skb.data_seq len,
                          end_data_seq := skb.end_data_seq,
                          sub_seq := add32 skb.sub_seq len,
                          data_len := sub32 skb.data_len len }
    let scb := { scb with data_len := len, end_data_seq := bcb.data_seq }
    (scb, bcb)
  else (scb, bcb)

/-- The flag corrections of a split: PSH and FIN stay only on the tail. -/
def fragment_flags (skb buff : tcp_skb_cb) : tcp_skb_cb × tcp_skb_cb :=
  let flags := skb.flags
  ({ skb with flags := flags &&& (4294967295 - (TCPCB_FLAG_FIN ||| TCPCB_FLAG_PSH)) },
   { buff with flags := flags })

/-- The counter corrections `tcp_fragment` makes when the split buffer has been
sent already; `skb` and `buff` are the two halves. -/
def fragment_counters (tp : tcp_sock) (highest_sack_seq : Nat) (old_factor : Nat)
    (skb buff : sk_buff) : tcp_sock :=
  if !before tp.snd_nxt buff.cb.end_seq then
    let diff : Int := (old_factor : Int) - tcp_skb_pcount skb - tcp_skb_pcount buff
    let sacked_out : Nat :=
      if tst skb.cb.sacked TCPCB_SACKED_ACKED then u32 ((tp.sacked_out : Int) - diff)
      else tp.sacked_out
    tcp_adjust_fackets_out
      { tp with
        packets_out := u32 ((tp.packets_out : Int) - diff),
        retrans_out :=
          if tst skb.cb.sacked TCPCB_SACKED_RETRANS then u32 ((tp.retrans_out : Int) - diff)
          else tp.retrans_out,
        lost_out :=
          if tst skb.cb.sacked TCPCB_LOST then u32 ((tp.lost_out : Int) - diff)
          else tp.lost_out,
        sacked_out :=
          if tcp_is_reno tp && decide (diff > 0) then tcp_dec_pcount_approx_int sacked_out diff
          else sacked_out }
      highest_sack_seq skb diff
  else tp

/-- The write queue with `a` at position `i` and `b` linked right after it
(`tcp_insert_write_queue_after` on the buffer at position `i`). -/
def queue_split (q : List sk_buff) (i : Nat) (a b : sk_buff) : List sk_buff :=
  q.take i ++ a :: b :: q.drop (i + 1)

/-- The two halves `tcp_fragment` makes of `skb` once the new buffer `buff` is
allocated: true sizes, sequence numbers, flags and SACK state are corrected,
the payload after `len` is moved (copied out of a linear buffer that is not
checksummed by hardware, split otherwise), and the segment counts are
recomputed. `none` is an abort. -/
def fragment_halves (CONFIG_MTCP : Bool) (sk : tcp_sock) (skb buff : sk_buff)
    (len mss_now : Nat) : Option (sk_buff × sk_buff) :=
  let nsize : Nat := skb_headlen skb - len
  let nlen : Int := (skb.len : Int) - len - nsize
  let buff := { buff with truesize := u32 (buff.truesize + nlen) }
  let skb := { skb with truesize := u32 (skb.truesize - nlen) }
  let p := fragment_seqs CONFIG_MTCP skb.cb buff.cb len
  let p := fragment_flags p.1 p.2
  let buff := { buff with cb := { p.2 with sacked := p.1.sacked } }
  let skb := { skb with cb := p.1 }
  let moved : Option (sk_buff × sk_buff) :=
    if skb.frags.length = 0 ∧ skb.ip_summed ≠ CHECKSUM_PARTIAL then
      match skb_put buff nsize with
      | none => none
      | some b => some (skb_trim skb len, b)
    else skb_split { skb with ip_summed := CHECKSUM_PARTIAL } buff len
  match moved with
  | none => none
  | some (skb, buff) =>
    let buff := { buff with ip_summed := skb.ip_summed, tstamp := skb.tstamp,
                            cb := { buff.cb with when := skb.cb.when } }
    match tcp_set_skb_tso_segs sk skb mss_now, tcp_set_skb_tso_segs sk buff mss_now with
    | some skb, some buff => some (skb, buff)
    | _, _ => none

/-- The buffer after the head expansion `tcp_fragment` asks for when it is cloned
and has paged data: a private, unshared head. -/
def expanded_head (skb : sk_buff) : sk_buff :=
  if skb.cloned && skb_is_nonlinear skb then { skb with cloned := false } else skb

/-- `tcp_fragment`: shrink the buffer at position `i` of the write queue to `len`
bytes and link a new buffer with the rest right after it.

`expand_ok` is whether `pskb_expand_head` succeeds, `alloc` what the allocator
gives (address and true size of a new buffer, or nothing). The result is the
return code and the connection afterwards; `none` is an abort. -/
def tcp_fragment (CONFIG_MTCP expand_ok : Bool) (alloc : Option (Nat × Nat))
    (highest_sack_seq : Nat) (sk : tcp_sock) (i : Nat) (len mss_now : Nat) :
    Option (Int × tcp_sock) :=
  match sk.sk_write_queue[i]? with
  | none => none
  | some skb0 =>
    if len > skb0.len then none
    else
      let tp := tcp_clear_retrans_hints_partial sk
      let nsize : Nat := skb_headlen skb0 - len
      if skb0.cloned && skb_is_nonlinear skb0 && !expand_ok then some (-ENOMEM, tp)
      else
        let skb := expanded_head skb0
        match alloc with
        | none => some (-ENOMEM, { tp with sk_write_queue := tp.sk_write_queue.set i skb })
        | some a =>
          let buff := sk_stream_alloc_skb a nsize
          let tp := { tp with sk_wmem_queued := tp.sk_wmem_queued + buff.truesize }
          let old_factor := tcp_skb_pcount skb
          match fragment_halves CONFIG_MTCP sk skb buff len mss_now with
          | none => none
          | some (skb, buff) =>
            let tp := fragment_counters tp highest_sack_seq old_factor skb buff
            some (0, { tp with sk_write_queue := queue_split tp.sk_write_queue i skb buff })

/-- The two halves `tso_fragment` makes of an all-paged `skb` once the new buffer
`buff` is allocated. `none` is an abort. -/
def tso_halves (CONFIG_MTCP : Bool) (sk : tcp_sock) (skb buff : sk_buff)
    (len mss_now : Nat) : Option (sk_buff × sk_buff) :=
  let nlen : Int := (skb.len : Int) - len
  let buff := { buff with truesize := u32 (buff.truesize + nlen) }
  let skb := { skb with truesize := u32 (skb.truesize - nlen) }
  let p := fragment_seqs CONFIG_MTCP skb.cb buff.cb len
  let p := fragment_flags p.1 p.2
  let buff := { buff with cb := { p.2 with sacked := 0 }, ip_summed := CHECKSUM_PARTIAL }
  let skb := { skb with cb := p.1, ip_summed := CHECKSUM_PARTIAL }
  match skb_split skb buff len with
  | none => none
  | some (skb, buff) =>
    match tcp_set_skb_tso_segs sk skb mss_now, tcp_set_skb_tso_segs sk buff mss_now with
    | some skb, some buff => some (skb, buff)
    | _, _ => none

/-- `tso_fragment`: trim the buffer at position `i` to `len` bytes and put the
rest into a new buffer linked after it; like `tcp_fragment`, for a buffer that
was never sent and is all paged data. -/
def tso_fragment (CONFIG_MTCP expand_ok : Bool) (alloc : Option (Nat × Nat))
    (highest_sack_seq : Nat) (sk : tcp_sock) (i : Nat) (len mss_now : Nat) :
    Option (Int × tcp_sock) :=
  match sk.sk_write_queue[i]? with
  | none => none
  | some skb =>
    if len = 0 then none
    else if skb.len ≠ skb.data_len then
      tcp_fragment CONFIG_MTCP expand_ok alloc highest_sack_seq sk i len mss_now
    else
      match alloc with
      | none => some (-ENOMEM, sk)
      | some a =>
        let buff := sk_stream_alloc_skb a 0
        let tp := { sk with sk_wmem_queued := sk.sk_wmem_queued + buff.truesize }
        match tso_halves CONFIG_MTCP sk skb buff len mss_now with
        | none => none
        | some (skb, buff) =>
          some (0, { tp with sk_write_queue := queue_split tp.sk_write_queue i skb buff })

/-- The first buffer of a collapse after it has absorbed `next_skb`: `skb1` is
`skb` with the bytes of `next_skb` appended. -/
def collapse_skb (skb skb1 next_skb : sk_buff) : sk_buff :=
  { skb1 with
    ip_summed := if next_skb.ip_summed = CHECKSUM_PARTIAL then CHECKSUM_PARTIAL
                 else skb1.ip_summed,
    cb := { skb1.cb with
      end_seq := next_skb.cb.end_seq,
      end_data_seq := add32 skb1.cb.end_data_seq next_skb.cb.data_len,
      data_len := add32 skb1.cb.data_len next_skb.cb.data_len,
      flags := skb.cb.flags ||| next_skb.cb.flags,
      sacked := skb1.cb.sacked ||| (next_skb.cb.sacked &&& TCPCB_EVER_RETRANS) } }

/-- The counters of a collapse before `tcp_adjust_fackets_out`: the absorbed
buffer `next_skb` no longer counts as retransmitted, lost or (Reno) sacked. -/
def collapse_counters (tp : tcp_sock) (next_skb : sk_buff) : tcp_sock :=
  { tp with
    retrans_out :=
      if tst next_skb.cb.sacked TCPCB_SACKED_RETRANS then
        u32 ((tp.retrans_out : Int) - tcp_skb_pcount next_skb)
      else tp.retrans_out,
    lost_out :=
      if tst next_skb.cb.sacked TCPCB_LOST then
        u32 ((tp.lost_out : Int) - tcp_skb_pcount next_skb)
      else tp.lost_out,
    sacked_out :=
      if tcp_is_reno tp && decide (tp.sacked_out ≠ 0) then
        tcp_dec_pcount_approx_int tp.sacked_out (tcp_skb_pcount next_skb)
      else tp.sacked_out }

/-- The connection after a collapse that goes through: `skb` (position `i`) has
absorbed `next_skb` (position `i + 1`), which leaves the queue and is freed. -/
def collapse_commit (highest_sack_seq : Nat) (sk : tcp_sock) (i : Nat)
    (skb next_skb : sk_buff) : Option tcp_sock :=
  let tp := tcp_highest_sack_combine sk next_skb skb
  match skb_put skb next_skb.len with
  | none => none
  | some skb1 =>
    let skb2 := collapse_skb skb skb1 next_skb
    let tp := collapse_counters tp next_skb
    let tp := tcp_adjust_fackets_out tp highest_sack_seq next_skb (tcp_skb_pcount next_skb)
    let tp := { tp with packets_out := u32 ((tp.packets_out : Int) - tcp_skb_pcount next_skb) }
    let tp := ( tcp_clear_retrans_hints_partial tp)
    some (sk_wmem_free_skb
      { tp with
        retransmit_skb_hint :=
          if tp.retransmit_skb_hint = some next_skb.addr then some skb2.addr
          else tp.retransmit_skb_hint,
        sk_write_queue := (tp.sk_write_queue.set i skb2).eraseIdx (i + 1) }
      next_skb)

/-- `tcp_retrans_try_collapse`: attempt to collapse the buffer at position `i`
of the write queue with the one after it. `none` is an abort (no next buffer
to read, a null `mpcb` followed, or a `BUG_ON`). -/
def tcp_retrans_try_collapse (highest_sack_seq : Nat) (sk : tcp_sock) (i : Nat)
    (mss_now : Int) : Option tcp_sock :=
  match sk.sk_write_queue[i]?, sk.sk_write_queue[i + 1]? with
  | some skb, some next_skb =>
    if skb.cloned || next_skb.cloned then some sk
    else if tst next_skb.cb.sacked TCPCB_SACKED_ACKED then some sk
    else
      match tcp_wnd_end sk sk.mpc with
      | none => none
      | some wnd_end =>
        if after (if sk.mpc then next_skb.cb.end_data_seq else next_skb.cb.end_seq) wnd_end then
          some sk
        else if decide ((next_skb.len : Int) > skb_tailroom skb) ||
            decide (((skb.len : Int) + next_skb.len) > mss_now) then some sk
        else if tcp_skb_pcount skb ≠ 1 ∨ tcp_skb_pcount next_skb ≠ 1 then none
        else collapse_commit highest_sack_seq sk i skb next_skb
  | _, _ => none

/-! ## Queue invariant and concrete states -/

/-- The write queue is seq-contiguous: every buffer starts where the one before
it ends. -/
def seq_contiguous (q : List sk_buff) : Prop :=
  List.Chain' (fun a b => a.cb.end_seq = b.cb.seq) q

instance (q : List sk_buff) : Decidable (seq_contiguous q) := by
  unfold seq_contiguous; infer_instance

/-- An empty linear buffer of segment count 1. -/
def skb_zero : sk_buff :=
  { addr := 0, len := 0, data_len := 0, truesize := 0, bufsize := 0, cloned := false,
    ip_summed := 0, tstamp := 0, gso_segs := 1, gso_size := 0, gso_type := 0, frags := [],
    cb := cb_zero }

/-- A single-path connection with an empty write queue and all counters zero. -/
def tp_zero : tcp_sock :=
  { snd_una := 0, snd_nxt := 0, snd_wnd := 0, snd_sml := 0, snd_up := 0, write_seq := 0,
    snd_cwnd := 0, packets_out := 0, sacked_out := 0, lost_out := 0, retrans_out := 0,
    fackets_out := 0, frto_counter := 0, rx_opt_sack_ok := true, mpc := false,
    is_meta := false, mpcb := none, highest_sack := none, lost_skb_hint := none,
    scoreboard_skb_hint := none, retransmit_skb_hint := none, sk_send_head := none,
    sk_write_queue := [], sk_wmem_queued := 0, sock_queue_shrunk := false,
    sk_can_gso := false, sk_gso_type := 0 }

/-- A 100-byte segment of count 1 that also carries FIN. -/
def skb_fin_data : sk_buff :=
  { skb_zero with len := 100, bufsize := 100,
                  cb := { cb_zero with end_seq := 101, flags := TCPCB_FLAG_FIN ||| TCPCB_FLAG_ACK } }

/-- A 100-byte data segment without FIN. -/
def skb_data : sk_buff :=
  { skb_zero with len := 100, bufsize := 100,
                  cb := { cb_zero with end_seq := 100, flags := TCPCB_FLAG_ACK } }

/-- A sent 100-byte linear segment covering `[1000, 1100)` of the sequence space
and `[5000, 5100)` of the data-sequence space, with PSH, once retransmitted. -/
def skb_mid : sk_buff :=
  { skb_zero with
      addr := 2, len := 100, bufsize := 1500, truesize := 400,
      cb := { cb_zero with
        seq := 1000, end_seq := 1100, data_seq := 5000, end_data_seq := 5100,
        sub_seq := 1000, data_len := 100,
        flags := TCPCB_FLAG_ACK ||| TCPCB_FLAG_PSH,
        sacked := TCPCB_EVER_RETRANS } }

/-- An all-paged 3000-byte segment of three page fragments covering `[1000, 4000)`. -/
def skb_paged : sk_buff :=
  { skb_zero with
      addr := 2, len := 3000, data_len := 3000, truesize := 3400,
      frags := [{ page_offset := 0, size := 1000 }, { page_offset := 0, size := 1000 },
                { page_offset := 0, size := 1000 }],
      ip_summed := CHECKSUM_PARTIAL,
      cb := { cb_zero with
        seq := 1000, end_seq := 4000, data_seq := 5000, end_data_seq := 8000,
        sub_seq := 1000, data_len := 3000, flags := TCPCB_FLAG_ACK } }

/-- A 40-byte linear segment before `skb_mid` and one after it. -/
def skb_before : sk_buff :=
  { skb_zero with
      addr := 1, len := 40, bufsize := 1500, truesize := 300,
      cb := { cb_zero with
        seq := 960, end_seq := 1000, data_seq := 4960, end_data_seq := 5000,
        sub_seq := 960, data_len := 40, flags := TCPCB_FLAG_ACK } }

def skb_after : sk_buff :=
  { skb_zero with
      addr := 3, len := 40, bufsize := 1500, truesize := 300,
      cb := { cb_zero with
        seq := 1100, end_seq := 1140, data_seq := 5100, end_data_seq := 5140,
        sub_seq := 1100, data_len := 40, flags := TCPCB_FLAG_ACK } }

/-- A single-path connection whose write queue holds three sent segments. -/
def tp_three : tcp_sock :=
  { tp_zero with
      snd_una := 960, snd_nxt := 1140, snd_wnd := 65535, write_seq := 1140,
      snd_cwnd := 10, packets_out := 3, sk_wmem_queued := 1000,
      sk_write_queue := [skb_before, skb_mid, skb_after] }

/-- A single-path connection whose write queue holds one unsent paged segment. -/
def tp_paged : tcp_sock :=
  { tp_zero with
      snd_una := 1000, snd_nxt := 1000, snd_wnd := 65535, write_seq := 4000,
      snd_cwnd := 10, sk_wmem_queued := 3400, sk_send_head := some 2,
      sk_can_gso := true, sk_write_queue := [skb_paged] }

/-- The connection `tp_three` when its second segment has been selectively
acknowledged. -/
def tp_mid_sacked : tcp_sock :=
  { tp_three with
      sacked_out := 1,
      sk_write_queue :=
        [skb_before, { skb_mid with cb := { skb_mid.cb with sacked := TCPCB_SACKED_ACKED } },
         skb_after] }

/-- A 40-byte linear segment covering `[1000, 1040)`. -/
def skb_forty : sk_buff :=
  { skb_zero with
      addr := 2, len := 40, bufsize := 1500, truesize := 300,
      cb := { cb_zero with
        seq := 1000, end_seq := 1040, data_seq := 5000, end_data_seq := 5040,
        sub_seq := 1000, data_len := 40, flags := TCPCB_FLAG_ACK ||| TCPCB_FLAG_PSH } }

/-- A single-path connection whose write queue holds two sent 40-byte segments. -/
def tp_two : tcp_sock :=
  { tp_zero with
      snd_una := 960, snd_nxt := 1040, snd_wnd := 65535, write_seq := 1040,
      snd_cwnd := 10, packets_out := 2, sk_wmem_queued := 600,
      sk_write_queue := [skb_before, skb_forty] }

/-! ## Header options -/

/-- Modelled from the spec: `struct tcp_out_options` and the `OPTION_*` bits of its
`options` word are declared in `include/net/tcp.h`, which is not in src. The
fields are those the functions of this file read and write; each bit of
`options` is a Boolean, and `addr4` lists (id, IPv4 address) pairs. -/
structure tcp_out_options where
  OPTION_SACK_ADVERTISE : Bool := false
  OPTION_TS : Bool := false
  OPTION_MD5 : Bool := false
  OPTION_MPC : Bool := false
  OPTION_ADDR : Bool := false
  OPTION_JOIN : Bool := false
  OPTION_DSN : Bool := false
  OPTION_DATA_ACK : Bool := false
  OPTION_DFIN : Bool := false
  mss : Nat := 0
  ws : Nat := 0
  num_sack_blocks : Nat := 0
  tsval : Nat := 0
  tsecr : Nat := 0
  data_seq : Nat := 0
  data_len : Nat := 0
  sub_seq : Nat := 0
  data_ack : Nat := 0
  token : Nat := 0
  addr_id : Nat := 0
  num_addr4 : Nat := 0
  addr4 : List (Nat × Nat) := []
deriving DecidableEq, Repr

/-- Modelled from the spec: the option kinds and lengths of `include/net/tcp.h` (not in
src) that RFC 793, 1323, 2018 and 2385 fix. -/
def TCPOPT_NOP : Nat := 1
def TCPOPT_MSS : Nat := 2
def TCPOPT_WINDOW : Nat := 3
def TCPOPT_SACK_PERM : Nat := 4
def TCPOPT_SACK : Nat := 5
def TCPOPT_TIMESTAMP : Nat := 8
def TCPOPT_MD5SIG : Nat := 19
def TCPOLEN_MSS : Nat := 4
def TCPOLEN_WINDOW : Nat := 3
def TCPOLEN_SACK_PERM : Nat := 2
def TCPOLEN_TIMESTAMP : Nat := 10
def TCPOLEN_MD5SIG : Nat := 18
def TCPOLEN_SACK_BASE : Nat := 2
def TCPOLEN_SACK_PERBLOCK : Nat := 8
def TCPOLEN_SACK_BASE_ALIGNED : Nat := 4
def TCPOLEN_TSTAMP_ALIGNED : Nat := 12
def TCPOLEN_MD5SIG_ALIGNED : Nat := 20
def MAX_TCP_OPTION_SPACE : Nat := 40

/-- Modelled from the spec: the aligned sizes of the multipath options are defined in
`include/net/tcp.h`, not in src; they are the numbers of bytes
`tcp_options_write` writes for each of them: three words for the data-sequence
mapping, two for the data acknowledgment, one for the data FIN, and for an
address advertisement two bytes plus six for each address. -/
def TCPOLEN_DSN_ALIGNED : Nat := 12
def TCPOLEN_DATA_ACK_ALIGNED : Nat := 8
def TCPOLEN_DFIN_ALIGNED : Nat := 4
def TCPOLEN_ADDR_BASE : Nat := 2
def TCPOLEN_ADDR_PERBLOCK : Nat := 6
def TCPOLEN_ADDR (num_addr : Nat) : Nat := TCPOLEN_ADDR_BASE + TCPOLEN_ADDR_PERBLOCK * num_addr
def TCPOLEN_ADDR_ALIGNED (num_addr : Nat) : Nat := (TCPOLEN_ADDR num_addr + 3) / 4 * 4

/-- Modelled from the spec: the kind and length codes of the multipath options are
defined in `include/net/tcp.h`, not in src, so they are parameters. -/
structure mtcp_codes where
  TCPOPT_MPC : Nat
  TCPOLEN_MPC : Nat
  TCPOPT_ADDR : Nat
  TCPOPT_JOIN : Nat
  TCPOLEN_JOIN : Nat
  TCPOPT_DSN : Nat
  TCPOLEN_DSN : Nat
  TCPOPT_DATA_ACK : Nat
  TCPOLEN_DATA_ACK : Nat
  TCPOPT_DFIN : Nat
  TCPOLEN_DFIN : Nat
deriving DecidableEq, Repr

/-- The options `tcp_options_write` can write. -/
inductive opt_kind where
  | md5sig
  | mss
  | sack_perm_timestamp
  | timestamp
  | sack_perm
  | window
  | sack
  | mpc
  | addr
  | join
  | dsn
  | data_ack
  | dfin
deriving DecidableEq, Repr

/-- One option as written into the header: which option it is and its bytes. -/
structure opt_block where
  kind : opt_kind
  bytes : List Nat
deriving DecidableEq, Repr

/-- The four bytes that storing `htonl(w)` puts into the header. -/
def be32 (w : Nat) : List Nat :=
  [w / 16777216 % 256, w / 65536 % 256, w / 256 % 256, w % 256]

/-- The blocks written when `c` holds: one block, or nothing. -/
def opt_when (c : Bool) (kind : opt_kind) (bytes : List Nat) : List opt_block :=
  if c then [{ kind := kind, bytes := bytes }] else []

/-- The SACK blocks `tcp_options_write` reads: `num` entries starting at
`tp->duplicate_sack` (which `tp->selective_acks` follows in `struct tcp_sock`)
when a duplicate SACK is pending, at `tp->selective_acks` otherwise. -/
def sack_block_words (tp : tcp_sock) (num : Nat) : List Nat :=
  let sp := if tp.rx_opt_dsack then tp.duplicate_sack ++ tp.selective_acks
            else tp.selective_acks
  ((List.range num).map (fun i => be32 (sp.getD i (0, 0)).1 ++ be32 (sp.getD i (0, 0)).2)).flatten

/-- The bytes of an address advertisement: padding first, then kind and length,
then id, the constant 64 and the address for each of the `num` addresses. -/
def addr_option_bytes (c : mtcp_codes) (num : Nat) (addr4 : List (Nat × Nat)) : List Nat :=
  List.replicate (TCPOLEN_ADDR_ALIGNED num - TCPOLEN_ADDR num) TCPOPT_NOP ++
  [c.TCPOPT_ADDR % 256, TCPOLEN_ADDR num % 256] ++
  ((List.range num).map (fun i =>
    [(addr4.getD i (0, 0)).1 % 256, 64] ++ be32 (addr4.getD i (0, 0)).2)).flatten

/-- `tcp_options_write`: the options written into the header, in the order they
are written, each with its bytes (the sixteen bytes after the MD5 header word
are left for the signature), the offset of the signature, and the connection
afterwards. The multipath part is compiled with `CONFIG_MTCP`, address
advertisement and join with `CONFIG_MTCP_PM` as well. -/
def tcp_options_write (CONFIG_MTCP CONFIG_MTCP_PM : Bool) (c : mtcp_codes) (tp : tcp_sock)
    (opts : tcp_out_options) : List opt_block × Option Nat × tcp_sock :=
  let nop := TCPOPT_NOP
  let blocks : List opt_block :=
    opt_when opts.OPTION_MD5 .md5sig
      (be32 ((nop <<< 24) ||| (nop <<< 16) ||| (TCPOPT_MD5SIG <<< 8) ||| TCPOLEN_MD5SIG) ++
        List.replicate 16 0) ++
    opt_when (decide (opts.mss ≠ 0)) .mss
      (be32 ((TCPOPT_MSS <<< 24) ||| (TCPOLEN_MSS <<< 16) ||| opts.mss)) ++
    opt_when (opts.OPTION_TS && opts.OPTION_SACK_ADVERTISE) .sack_perm_timestamp
      (be32 ((TCPOPT_SACK_PERM <<< 24) ||| (TCPOLEN_SACK_PERM <<< 16) |||
          (TCPOPT_TIMESTAMP <<< 8) ||| TCPOLEN_TIMESTAMP) ++
        be32 opts.tsval ++ be32 opts.tsecr) ++
    opt_when (opts.OPTION_TS && !opts.OPTION_SACK_ADVERTISE) .timestamp
      (be32 ((nop <<< 24) ||| (nop <<< 16) ||| (TCPOPT_TIMESTAMP <<< 8) |||
          TCPOLEN_TIMESTAMP) ++
        be32 opts.tsval ++ be32 opts.tsecr) ++
    opt_when (opts.OPTION_SACK_ADVERTISE && !opts.OPTION_TS) .sack_perm
      (be32 ((nop <<< 24) ||| (nop <<< 16) ||| (TCPOPT_SACK_PERM <<< 8) |||
          TCPOLEN_SACK_PERM)) ++
    opt_when (decide (opts.ws ≠ 0)) .window
      (be32 ((nop <<< 24) ||| (TCPOPT_WINDOW <<< 16) ||| (TCPOLEN_WINDOW <<< 8) |||
          opts.ws)) ++
    opt_when (decide (opts.num_sack_blocks ≠ 0)) .sack
      (be32 ((nop <<< 24) ||| (nop <<< 16) ||| (TCPOPT_SACK <<< 8) |||
          (TCPOLEN_SACK_BASE + opts.num_sack_blocks * TCPOLEN_SACK_PERBLOCK)) ++
        sack_block_words tp opts.num_sack_blocks) ++
    opt_when (CONFIG_MTCP && opts.OPTION_MPC) .mpc
      (if CONFIG_MTCP_PM then
        be32 ((nop <<< 24) ||| (c.TCPOPT_MPC <<< 16) ||| (c.TCPOLEN_MPC <<< 8)) ++
          be32 opts.token
       else be32 ((c.TCPOPT_MPC <<< 24) ||| (c.TCPOLEN_MPC <<< 16))) ++
    opt_when (CONFIG_MTCP && CONFIG_MTCP_PM && opts.OPTION_ADDR &&
        decide (opts.num_addr4 ≠ 0)) .addr
      (addr_option_bytes c opts.num_addr4 opts.addr4) ++
    opt_when (CONFIG_MTCP && CONFIG_MTCP_PM && opts.OPTION_JOIN) .join
      (be32 ((nop <<< 24) ||| (c.TCPOPT_JOIN <<< 16) ||| (c.TCPOLEN_JOIN <<< 8) |||
          (opts.token >>> 24)) ++
        be32 ((opts.token <<< 8) ||| opts.addr_id)) ++
    opt_when (CONFIG_MTCP && opts.OPTION_DSN) .dsn
      (be32 ((c.TCPOPT_DSN <<< 24) ||| (c.TCPOLEN_DSN <<< 16) ||| opts.data_len) ++
        be32 opts.sub_seq ++ be32 opts.data_seq) ++
    opt_when (CONFIG_MTCP && opts.OPTION_DATA_ACK) .data_ack
      (be32 ((nop <<< 24) ||| (nop <<< 16) ||| (c.TCPOPT_DATA_ACK <<< 8) |||
          c.TCPOLEN_DATA_ACK) ++
        be32 opts.data_ack) ++
    opt_when (CONFIG_MTCP && opts.OPTION_DFIN) .dfin
      (be32 ((nop <<< 24) ||| (nop <<< 16) ||| (c.TCPOPT_DFIN <<< 8) ||| c.TCPOLEN_DFIN))
  let tp :=
    if opts.num_sack_blocks ≠ 0 ∧ tp.rx_opt_dsack = true then
      { tp with rx_opt_dsack := false, rx_opt_eff_sacks := tp.rx_opt_num_sacks }
    else tp
  (blocks, if opts.OPTION_MD5 then some 4 else none, tp)

/-- The order in which `tcp_options_write` writes the options. -/
def option_order : List opt_kind :=
  [.md5sig, .mss, .sack_perm_timestamp, .timestamp, .sack_perm, .window, .sack, .mpc,
   .addr, .join, .dsn, .data_ack, .dfin]

/-- Whether the option set asks for an option, in a kernel built with the given
options. -/
def option_requested (CONFIG_MTCP CONFIG_MTCP_PM : Bool) (opts : tcp_out_options) :
    opt_kind → Bool
  | .md5sig => opts.OPTION_MD5
  | .mss => decide (opts.mss ≠ 0)
  | .sack_perm_timestamp => opts.OPTION_TS && opts.OPTION_SACK_ADVERTISE
  | .timestamp => opts.OPTION_TS && !opts.OPTION_SACK_ADVERTISE
  | .sack_perm => opts.OPTION_SACK_ADVERTISE && !opts.OPTION_TS
  | .window => decide (opts.ws ≠ 0)
  | .sack => decide (opts.num_sack_blocks ≠ 0)
  | .mpc => CONFIG_MTCP && opts.OPTION_MPC
  | .addr => CONFIG_MTCP && CONFIG_MTCP_PM && opts.OPTION_ADDR && decide (opts.num_addr4 ≠ 0)
  | .join => CONFIG_MTCP && CONFIG_MTCP_PM && opts.OPTION_JOIN
  | .dsn => CONFIG_MTCP && opts.OPTION_DSN
  | .data_ack => CONFIG_MTCP && opts.OPTION_DATA_ACK
  | .dfin => CONFIG_MTCP && opts.OPTION_DFIN

/-- The order of the options as the specification lists it: as `option_order`, with
the join before the address advertisement. -/
def option_order_listed : List opt_kind :=
  [.md5sig, .mss, .sack_perm_timestamp, .timestamp, .sack_perm, .window, .sack, .mpc,
   .join, .addr, .dsn, .data_ack, .dfin]

/-- The first part of `tcp_established_options`: the MD5 signature when `md5_lookup`
finds a key, and the timestamp when timestamps are negotiated. Returns the
option set and the size so far. -/
def established_md5_ts (md5 : Bool) (tp : tcp_sock) (skb : Option sk_buff)
    (opts : tcp_out_options) : tcp_out_options × Nat :=
  let size : Nat := 0
  let opts := if md5 then { opts with OPTION_MD5 := true } else opts
  let size := if md5 then size + TCPOLEN_MD5SIG_ALIGNED else size
  let opts :=
    if tp.rx_opt_tstamp_ok then
      { opts with OPTION_TS := true,
                  tsval := (skb.map (fun s => s.cb.when)).getD 0,
                  tsecr := tp.rx_opt_ts_recent }
    else opts
  let size := if tp.rx_opt_tstamp_ok then size + TCPOLEN_TSTAMP_ALIGNED else size
  (opts, size)

/-- The multipath part of `tcp_established_options` (compiled with `CONFIG_MTCP`):
data-sequence mapping, data FIN and data acknowledgment, with `mpcb` the
control block in use. `none` is a null control block followed. -/
def established_mtcp (CONFIG_MTCP : Bool) (tp : tcp_sock) (skb : Option sk_buff)
    (mpcb : Option multipath_pcb) (p : tcp_out_options × Nat) : Option (tcp_out_options × Nat) :=
  let opts := p.1
  let size := p.2
  let dsn : Bool := CONFIG_MTCP && tp.mpc &&
    (match skb with
     | none => true
     | some s => decide (s.len ≠ 0) || tst s.cb.flags TCPCB_FLAG_FIN)
  let opts :=
    if dsn then
      match skb with
      | some s =>
        if s.cb.data_len ≠ 0 then
          { opts with data_seq := s.cb.data_seq, data_len := s.cb.data_len,
                      sub_seq := sub32 s.cb.sub_seq tp.snt_isn, OPTION_DSN := true }
        else { opts with OPTION_DSN := true }
      | none => { opts with OPTION_DSN := true }
    else opts
  let size := if dsn then size + TCPOLEN_DSN_ALIGNED else size
  let dfin : Bool := CONFIG_MTCP && tp.mpc &&
    (match mpcb with
     | none => false
     | some m =>
       m.fin_enqueued &&
         (match skb with
          | none => true
          | some s => decide (s.cb.end_data_seq = m.tp_write_seq)))
  let opts := if dfin then { opts with OPTION_DFIN := true } else opts
  let size := if dfin then size + TCPOLEN_DFIN_ALIGNED else size
  let dack : Bool := CONFIG_MTCP && tp.mpc
  if dack && !(tp.pending && tp.is_master) && mpcb.isNone then none
  else
    let rcv_nxt : Nat :=
      if tp.pending && tp.is_master then u32 ((tp.rcv_nxt : Int) - tp.rcv_isn - 1)
      else (mpcb.map (fun m => m.tp_rcv_nxt)).getD 0
    let opts :=
      if dack then { opts with data_ack := rcv_nxt, OPTION_DATA_ACK := true } else opts
    let size := if dack then size + TCPOLEN_DATA_ACK_ALIGNED else size
    some (opts, size)

/-- The address advertisement of `tcp_established_options` (compiled with
`CONFIG_MTCP` and `CONFIG_MTCP_PM`): as many unsent addresses as still fit; for
a real segment they are counted as sent. `none` is the `BUG_ON` on a missing
control block. -/
def established_addr (CONFIG_MTCP CONFIG_MTCP_PM : Bool) (tp : tcp_sock)
    (skb : Option sk_buff) (mpcb : Option multipath_pcb) (p : tcp_out_options × Nat) :
    Option ((tcp_out_options × Nat) × Option multipath_pcb) :=
  let opts := p.1
  let size := p.2
  let unsent : Nat :=
    if CONFIG_MTCP && CONFIG_MTCP_PM && tp.mpc then (mpcb.map (fun m => m.addr_unsent)).getD 0
    else 0
  let remaining : Nat := u32 ((MAX_TCP_OPTION_SPACE : Int) - size)
  let num_addr4 : Nat :=
    if remaining < TCPOLEN_ADDR_BASE then 0
    else min unsent ((remaining - TCPOLEN_ADDR_BASE) / TCPOLEN_ADDR_PERBLOCK)
  let opts := if unsent ≠ 0 then { opts with num_addr4 := num_addr4 } else opts
  let adv : Bool := decide (unsent ≠ 0) && decide (num_addr4 ≠ 0)
  let opts :=
    if adv then
      { opts with
        OPTION_ADDR := true,
        addr4 := (mpcb.map (fun m => m.addr4.drop (m.num_addr4 - m.addr_unsent))).getD [] }
    else opts
  let mpcb1 :=
    if adv && skb.isSome then
      mpcb.map (fun m => { m with addr_unsent := m.addr_unsent - num_addr4 })
    else mpcb
  let size := if adv then size + TCPOLEN_ADDR_ALIGNED num_addr4 else size
  if CONFIG_MTCP && CONFIG_MTCP_PM && mpcb.isNone && !tp.pending then none
  else some ((opts, size), mpcb1)

/-- The end of `tcp_established_options`: as many SACK blocks as still fit, and the
check of the total. `none` is the abort on more than `MAX_TCP_OPTION_SPACE`
bytes. -/
def established_sack (tp : tcp_sock) (p : tcp_out_options × Nat) :
    Option (tcp_out_options × Nat) :=
  let opts := p.1
  let size := p.2
  let eff := tp.rx_opt_eff_sacks
  let remaining : Nat := u32 ((MAX_TCP_OPTION_SPACE : Int) - size)
  let num_sack_blocks : Nat :=
    if remaining < TCPOLEN_SACK_BASE_ALIGNED then 0
    else min eff ((remaining - TCPOLEN_SACK_BASE_ALIGNED) / TCPOLEN_SACK_PERBLOCK)
  let opts := if eff ≠ 0 then { opts with num_sack_blocks := num_sack_blocks } else opts
  let size :=
    if eff ≠ 0 ∧ num_sack_blocks ≠ 0 then
      size + TCPOLEN_SACK_BASE_ALIGNED + num_sack_blocks * TCPOLEN_SACK_PERBLOCK
    else size
  if size > MAX_TCP_OPTION_SPACE then none else some (opts, size)

/-- `tcp_established_options`: the option set and the options' size for a segment
of an established connection, or, with no segment, for sizing the MSS.

`md5` is whether `md5_lookup` finds a key (never without `CONFIG_TCP_MD5SIG`),
`hash_find` what `mtcp_hash_find(tp->mtcp_loc_token)` gives, `opts` the option
set on entry. The result is the size, the option set and the multipath control
block the function worked on, as it leaves it; `none` is an abort (`BUG`,
`BUG_ON`, or a null control block followed). -/
def tcp_established_options (CONFIG_MTCP CONFIG_MTCP_PM : Bool) (md5 : Bool)
    (hash_find : Option multipath_pcb) (tp : tcp_sock) (skb : Option sk_buff)
    (opts : tcp_out_options) : Option (Nat × tcp_out_options × Option multipath_pcb) :=
  let p := established_md5_ts md5 tp skb opts
  let lookup : Bool := CONFIG_MTCP && tp.pending && !tp.is_master && tp.mpc
  if lookup && hash_find.isNone then none
  else
    let mpcb : Option multipath_pcb := if lookup then hash_find else tp.mpcb
    match established_mtcp CONFIG_MTCP tp skb mpcb p with
    | none => none
    | some p =>
      match established_addr CONFIG_MTCP CONFIG_MTCP_PM tp skb mpcb p with
      | none => none
      | some (p, mpcb) =>
        match established_sack tp p with
        | none => none
        | some (opts, size) => some (size, opts, mpcb)

/-! ## Environment -/

/-- What one call takes from outside this file: how the kernel is configured, the
`sysctl` settings, the clock, and what the functions that are not in src (the
allocator, the route, the congestion-control module, the IP layer) answer
during the call. -/
structure env where
  CONFIG_MTCP : Bool
  CONFIG_MTCP_PM : Bool
  codes : mtcp_codes
  sysctl_tcp_retrans_collapse : Bool
  sysctl_tcp_slow_start_after_idle : Bool
  sysctl_tcp_timestamps : Bool
  sysctl_tcp_window_scaling : Bool
  sysctl_tcp_sack : Bool
  sysctl_tcp_workaround_signed_windows : Bool
  sysctl_mptcp_mss : Nat
  /-- The clock: `tcp_time_stamp`, and the time `__net_timestamp` stores. -/
  tcp_time_stamp : Nat
  ktime : Nat
  /-- Whether `md5_lookup` finds a key. -/
  md5 : Bool
  /-- What `mtcp_hash_find(tp->mtcp_loc_token)` finds. -/
  hash_find : Option multipath_pcb
  /-- The route `__sk_dst_get` gives, if any: its MTU and its advertised-MSS metric. -/
  dst : Option (Nat × Nat)
  /-- The network header length `icsk_af_ops->net_header_len`, and `sk_gso_max_size`. -/
  net_header_len : Nat
  sk_gso_max_size : Nat
  /-- The congestion-control module: whether it asks for time stamps
  (`TCP_CONG_RTT_STAMP`) and what its `ssthresh` hook returns. -/
  ca_rtt_stamp : Bool
  ca_ssthresh : Nat
  /-- What `tcp_init_cwnd`, `__tcp_select_window` and `mtcp_get_loc_addrid` return. -/
  init_cwnd : Nat
  select_window : Nat
  loc_addrid : Nat
  /-- Whether `pskb_expand_head` succeeds in `tcp_trim_head` and in `tcp_fragment`,
  and the address and true size of the buffer the allocator gives, if any. -/
  trim_expand_ok : Bool
  expand_ok : Bool
  alloc : Option (Nat × Nat)
  /-- Whether `skb_clone` or `pskb_copy` succeeds, what `queue_xmit` returns and what
  `rebuild_header` returns. -/
  clone_ok : Bool
  queue_xmit : Int
  rebuild_header : Int
  /-- Whether `pskb_trim` succeeds, what `tcp_highest_sack_seq` returns, and the send
  memory `sk_wmem_alloc` that is in the hands of the layers below. -/
  pskb_trim_ok : Bool
  highest_sack_seq : Nat
  sk_wmem_alloc : Int
  /-- Whether the socket has no user socket attached or has `SOCK_NOSPACE` set. -/
  sock_nospace : Bool
deriving DecidableEq, Repr

/-- Error numbers of `include/asm-generic/errno.h` and the congestion code
`NET_XMIT_CN` of `include/linux/netdevice.h`. -/
def EAGAIN : Int := 11
def EINVAL : Int := 22
def ENOBUFS : Int := 105
def EHOSTUNREACH : Int := 113
def NET_XMIT_CN : Int := 2

/-- The congestion states of `include/net/tcp.h`. -/
def TCP_CA_Open : Nat := 0
def TCP_CA_Disorder : Nat := 1
def TCP_CA_CWR : Nat := 2
def TCP_CA_Recovery : Nat := 3
def TCP_CA_Loss : Nat := 4

/-- The ECN flags of `include/net/tcp.h` and `SKB_GSO_TCP_ECN` of
`include/linux/skbuff.h`. -/
def TCP_ECN_OK : Nat := 1
def TCP_ECN_QUEUE_CWR : Nat := 2
def TCP_ECN_DEMAND_CWR : Nat := 4
def SKB_GSO_TCP_ECN : Nat := 8

/-- The size of `struct tcphdr`. -/
def sizeof_tcphdr : Nat := 20

/-! ## Segment size -/

/-- `tcp_mtu_to_mss`: the MSS that goes with a path MTU, not counting SACK blocks. -/
def tcp_mtu_to_mss (e : env) (tp : tcp_sock) (pmtu : Int) : Int :=
  let mss_now : Int := s32 (pmtu - e.net_header_len - sizeof_tcphdr)
  let mss_now : Int := if mss_now > tp.rx_opt_mss_clamp then tp.rx_opt_mss_clamp else mss_now
  let mss_now : Int := s32 (mss_now - tp.icsk_ext_hdr_len)
  let mss_now : Int := if mss_now < 48 then 48 else mss_now
  s32 (mss_now - ((tp.tcp_header_len : Int) - sizeof_tcphdr))

/-- `tcp_mss_to_mtu`, the inverse. -/
def tcp_mss_to_mtu (e : env) (tp : tcp_sock) (mss : Int) : Int :=
  s32 (mss + tp.tcp_header_len + tp.icsk_ext_hdr_len + e.net_header_len)

/-- `tcp_bound_to_half_wnd`: bound a packet size by half of the largest window the
peer has offered; the comparison and the maximum are unsigned. -/
def tcp_bound_to_half_wnd (tp : tcp_sock) (pktsize : Int) : Int :=
  if tp.max_window ≠ 0 ∧ u32 pktsize > tp.max_window / 2 then
    s32 (max (tp.max_window / 2) (u32 (68 - (tp.tcp_header_len : Int))))
  else pktsize

/-- `tcp_sync_mss`: bring the cached MSS in line with the path MTU `pmtu`. -/
def tcp_sync_mss (e : env) (tp : tcp_sock) (pmtu : Nat) : Nat × tcp_sock :=
  let tp :=
    if tp.icsk_mtup_search_high > pmtu then { tp with icsk_mtup_search_high := pmtu } else tp
  let mss_now := tcp_mtu_to_mss e tp (s32 pmtu)
  let mss_now := tcp_bound_to_half_wnd tp mss_now
  let mss_now :=
    if tp.icsk_mtup_enabled then min mss_now (tcp_mtu_to_mss e tp tp.icsk_mtup_search_low)
    else mss_now
  (u32 mss_now, { tp with icsk_pmtu_cookie := pmtu, mss_cache := u32 mss_now })

/-- The first step of `tcp_current_mss`: the cached MSS, brought in line with the
route's MTU when that has changed. -/
def current_mss_cached (e : env) (tp : tcp_sock) : Nat × tcp_sock :=
  match e.dst with
  | some d => if d.1 ≠ tp.icsk_pmtu_cookie then tcp_sync_mss e tp d.1 else (tp.mss_cache, tp)
  | none => (tp.mss_cache, tp)

/-- `tcp_current_mss`: the MSS to use now, given the options an established
segment carries; it also stores the size goal for large sends. `none` is an
abort (in `tcp_established_options`, or a division by a zero MSS). -/
def tcp_current_mss (e : env) (tp : tcp_sock) (large_allowed : Bool) : Option (Nat × tcp_sock) :=
  if is_meta_tp tp then some (e.sysctl_mptcp_mss, tp)
  else
    let doing_tso : Bool := large_allowed && tp.sk_can_gso
    let r : Nat × tcp_sock := current_mss_cached e tp
    let tp := r.2
    match tcp_established_options e.CONFIG_MTCP e.CONFIG_MTCP_PM e.md5 e.hash_find tp none {} with
    | none => none
    | some (size, _, _) =>
      let header_len : Nat := size + sizeof_tcphdr
      let mss_now : Nat :=
        if header_len ≠ tp.tcp_header_len then
          u32 ((r.1 : Int) - s32 ((header_len : Int) - tp.tcp_header_len))
        else r.1
      if doing_tso then
        let goal : Nat :=
          u32 ((e.sk_gso_max_size : Int) - 1 - e.net_header_len - tp.icsk_ext_hdr_len -
            tp.tcp_header_len) % 65536
        let goal : Nat := u32 (tcp_bound_to_half_wnd tp goal) % 65536
        if mss_now = 0 then none
        else some (mss_now, { tp with xmit_size_goal := (goal - goal % mss_now) % 65536 })
      else some (mss_now, { tp with xmit_size_goal := mss_now % 65536 })

/-! ## Trimming acknowledged data -/

/-- Modelled from the spec: `__skb_pull` of `include/linux/skbuff.h`, which drops `len`
bytes from the front of the linear data; it aborts when less than the paged
data would be left. -/
def __skb_pull (skb : sk_buff) (len : Nat) : Option sk_buff :=
  if skb.len < len + skb.data_len then none
  else some { skb with len := skb.len - len, bufsize := skb.bufsize - len }

/-- The page fragments the loop of `__pskb_trim_head` leaves when `eat` bytes are
still to be dropped: a fragment of at most `eat` bytes is released, the first
longer one loses its first `eat` bytes, the later ones stay (an empty one is
released). -/
def trim_head_frags : Nat → List skb_frag_t → List skb_frag_t
  | _, [] => []
  | eat, f :: fs =>
    if f.size ≤ eat then trim_head_frags (eat - f.size) fs
    else
      (if eat ≠ 0 then { page_offset := f.page_offset + eat, size := f.size - eat } else f)
        :: trim_head_frags 0 fs

/-- `__pskb_trim_head`: drop the whole linear part and the first `len` bytes of the
paged data. -/
def __pskb_trim_head (skb : sk_buff) (len : Nat) : sk_buff :=
  { skb with frags := trim_head_frags len skb.frags,
             data_len := skb.data_len - len,
             len := skb.data_len - len }

/-- The control block after `tcp_trim_head` has dropped `len` bytes; the
data-sequence part is compiled only with `CONFIG_MTCP`. -/
def trim_head_seqs (CONFIG_MTCP : Bool) (cb : tcp_skb_cb) (len : Nat) : tcp_skb_cb :=
  let cb := { cb with seq := add32 cb.seq len }
  if CONFIG_MTCP then
    { cb with data_seq := add32 cb.data_seq len,
              sub_seq := add32 cb.sub_seq len,
              data_len := sub32 cb.data_len len }
  else cb

/-- `tcp_trim_head`: remove `len` acknowledged bytes from the front of the buffer
at position `i` of the write queue. The result is the return code and the
connection afterwards; `none` is an abort. -/
def tcp_trim_head (e : env) (sk : tcp_sock) (i : Nat) (len : Nat) : Option (Int × tcp_sock) :=
  match sk.sk_write_queue[i]? with
  | none => none
  | some skb0 =>
    if skb0.cloned && !e.trim_expand_ok then some (-ENOMEM, sk)
    else
      let skb := { skb0 with cloned := false }
      let pulled : Option sk_buff :=
        if len < skb_headlen skb then __skb_pull skb len
        else some (__pskb_trim_head skb (len - skb_headlen skb))
      match pulled with
      | none => none
      | some skb =>
        let skb := { skb with cb := trim_head_seqs e.CONFIG_MTCP skb.cb len,
                              ip_summed := CHECKSUM_PARTIAL,
                              truesize := u32 ((skb.truesize : Int) - len) }
        let tp := { sk with sk_wmem_queued := sk.sk_wmem_queued - len,
                            sock_queue_shrunk := true }
        if tcp_skb_pcount skb > 1 then
          match tcp_current_mss e tp true with
          | none => none
          | some (mss_now, tp) =>
            match tcp_set_skb_tso_segs tp skb mss_now with
            | none => none
            | some skb => some (0, { tp with sk_write_queue := tp.sk_write_queue.set i skb })
        else some (0, { tp with sk_write_queue := tp.sk_write_queue.set i skb })


/-! ## Concrete environments and states for trimming and options -/

/-- Arbitrary codes for the multipath options. -/
def codes_zero : mtcp_codes :=
  { TCPOPT_MPC := 30, TCPOLEN_MPC := 3, TCPOPT_ADDR := 31, TCPOPT_JOIN := 32,
    TCPOLEN_JOIN := 7, TCPOPT_DSN := 33, TCPOLEN_DSN := 12, TCPOPT_DATA_ACK := 34,
    TCPOLEN_DATA_ACK := 6, TCPOPT_DFIN := 35, TCPOLEN_DFIN := 2 }

/-- A multipath kernel without path management in which every allocation and
every send succeeds; no route is attached, the clock reads 1000. -/
def env_plain : env :=
  { CONFIG_MTCP := true, CONFIG_MTCP_PM := false, codes := codes_zero,
    sysctl_tcp_retrans_collapse := true, sysctl_tcp_slow_start_after_idle := true,
    sysctl_tcp_timestamps := true, sysctl_tcp_window_scaling := true,
    sysctl_tcp_sack := true, sysctl_tcp_workaround_signed_windows := false,
    sysctl_mptcp_mss := 1400, tcp_time_stamp := 1000, ktime := 1000, md5 := false,
    hash_find := none, dst := none, net_header_len := 20, sk_gso_max_size := 65536,
    ca_rtt_stamp := false, ca_ssthresh := 2, init_cwnd := 3, select_window := 65535,
    loc_addrid := 0, trim_expand_ok := true, expand_ok := true, alloc := some (9, 300),
    clone_ok := true, queue_xmit := 0, rebuild_header := 0, pskb_trim_ok := true,
    highest_sack_seq := 0, sk_wmem_alloc := 0, sock_nospace := false }

/-- The connection `tp_three` after ten acknowledged bytes have been trimmed off
its first segment. -/
def tp_three_trimmed : tcp_sock :=
  { tp_three with
      sk_wmem_queued := 990, sock_queue_shrunk := true,
      sk_write_queue :=
        [{ skb_before with
             len := 30, bufsize := 1490, truesize := 290, ip_summed := CHECKSUM_PARTIAL,
             cb := { skb_before.cb with seq := 970, data_seq := 4970, sub_seq := 970,
                                        data_len := 30 } },
         skb_mid, skb_after] }

/-- An option set that asks for a join and for the advertisement of one address. -/
def opts_addr_join : tcp_out_options :=
  { OPTION_ADDR := true, OPTION_JOIN := true, num_addr4 := 1, addr4 := [(1, 167772161)],
    token := 7, addr_id := 1 }

/-- A multipath control block on which the data FIN has been enqueued, at data
sequence 9000. -/
def mpcb_fin : multipath_pcb :=
  { tp_snd_una := 5000, tp_snd_wnd := 65535, tp_write_seq := 9000, tp_rcv_nxt := 700,
    fin_enqueued := true }

/-- An established multipath subflow without timestamps whose connection has the
data FIN enqueued. -/
def tp_subflow_fin : tcp_sock :=
  { tp_three with mpc := true, mpcb := some mpcb_fin }

/-- The same subflow with two SACK blocks to report. -/
def tp_subflow_fin_sack : tcp_sock :=
  { tp_subflow_fin with rx_opt_eff_sacks := 2, rx_opt_num_sacks := 2,
                        selective_acks := [(100, 200), (300, 400)] }

/-! ## Transmitting one segment -/

/-- Modelled from the spec: `tcp_receive_window` of `include/net/tcp.h`, the window
currently offered to the peer, never negative. -/
def tcp_receive_window (tp : tcp_sock) : Nat :=
  let win := s32 ((tp.rcv_wup : Int) + tp.rcv_wnd - tp.rcv_nxt)
  if win < 0 then 0 else u32 win

/-- `tcp_select_window`: choose the window to advertise, never shrinking the one
already offered, and record it (on the connection-level socket of a multipath
subflow). Returns the scaled window for the header; `none` is the `BUG_ON` on a
meta socket. The receive fast-path flags are not modelled. What
`__tcp_select_window` computes is read from `env.select_window`; its
`BUG_ON(!tp->mpcb && !tp->pending)` of a `CONFIG_MTCP` build is not modelled. -/
def tcp_select_window (e : env) (tp : tcp_sock) : Option (Nat × tcp_sock) :=
  let cur_win := tcp_receive_window tp
  let new_win := e.select_window
  if is_meta_tp tp then none
  else
    let a := 2 ^ tp.rx_opt_rcv_wscale
    let new_win := if new_win < cur_win then (cur_win + a - 1) % 4294967296 / a * a else new_win
    let tp :=
      match tp.mpcb with
      | some m =>
        if tp.mpc then
          { tp with mpcb := some { m with tp_rcv_wnd := new_win, tp_rcv_wup := m.tp_rcv_nxt },
                    rcv_wup := tp.rcv_nxt }
        else { tp with rcv_wnd := new_win, rcv_wup := tp.rcv_nxt }
      | none => { tp with rcv_wnd := new_win, rcv_wup := tp.rcv_nxt }
    let new_win :=
      if tp.rx_opt_rcv_wscale = 0 ∧ e.sysctl_tcp_workaround_signed_windows = true then
        min new_win 32767
      else min new_win ((65535 * 2 ^ tp.rx_opt_rcv_wscale) % 4294967296)
    some (new_win / 2 ^ tp.rx_opt_rcv_wscale, tp)

/-- `TCP_ECN_send`: on an ECN connection a new data segment takes a queued CWR with
it. Returns the connection and whether `SKB_GSO_TCP_ECN` was set in the
buffer's shared info; the header bits and the socket's TOS are not modelled. -/
def TCP_ECN_send (tp : tcp_sock) (skb : sk_buff) : tcp_sock × Bool :=
  if tst tp.ecn_flags TCP_ECN_OK && decide (skb.len ≠ 0) && !before skb.cb.seq tp.snd_nxt &&
      tst tp.ecn_flags TCP_ECN_QUEUE_CWR then
    ({ tp with ecn_flags := tp.ecn_flags &&& (255 - TCP_ECN_QUEUE_CWR) }, true)
  else (tp, false)

/-- Modelled from the spec: `tcp_current_ssthresh` of `include/net/tcp.h`: the slow
start threshold, or three quarters of the window if that is more and the
connection is neither in CWR nor in Recovery. -/
def tcp_current_ssthresh (tp : tcp_sock) : Nat :=
  if tp.icsk_ca_state = TCP_CA_CWR ∨ tp.icsk_ca_state = TCP_CA_Recovery then tp.snd_ssthresh
  else max tp.snd_ssthresh (tp.snd_cwnd / 2 + tp.snd_cwnd / 4)

/-- The loop of `tcp_cwnd_restart`: halve the window once for every RTO of idle
time, down to the restart window. A 32-bit window is exhausted after 32
halvings, which is the fuel `tcp_cwnd_restart` gives. -/
def cwnd_restart_loop (rto restart_cwnd : Nat) : Nat → Int → Nat → Nat
  | 0, _, cwnd => cwnd
  | fuel + 1, delta, cwnd =>
    let delta := s32 (delta - rto)
    if delta > 0 ∧ cwnd > restart_cwnd then cwnd_restart_loop rto restart_cwnd fuel delta (cwnd / 2)
    else cwnd

/-- `tcp_cwnd_restart`: after an idle period reset the congestion window to the
restart window (RFC 2861). The congestion-control module's event hook is taken
to touch only its private state. -/
def tcp_cwnd_restart (e : env) (tp : tcp_sock) : tcp_sock :=
  let delta := s32 ((e.tcp_time_stamp : Int) - tp.lsndtime)
  let restart_cwnd := min e.init_cwnd tp.snd_cwnd
  let cwnd := cwnd_restart_loop tp.icsk_rto restart_cwnd 33 delta tp.snd_cwnd
  { tp with snd_ssthresh := tcp_current_ssthresh tp,
            snd_cwnd := max cwnd restart_cwnd,
            snd_cwnd_stamp := e.tcp_time_stamp,
            snd_cwnd_used := 0 }

/-- `tcp_event_data_sent`: restart the window after idle, and stamp the time of the
send; the idle time is compared with the unsigned `icsk_rto`, hence as an
unsigned value. The delayed-ACK state is not modelled. -/
def tcp_event_data_sent (e : env) (tp : tcp_sock) : tcp_sock :=
  let tp :=
    if e.sysctl_tcp_slow_start_after_idle ∧ tp.packets_out = 0 ∧
        u32 ((e.tcp_time_stamp : Int) - tp.lsndtime) > tp.icsk_rto then
      tcp_cwnd_restart e tp
    else tp
  { tp with lsndtime := e.tcp_time_stamp }

/-- Modelled from the spec: `tcp_enter_cwr` of `net/ipv4/tcp_input.c`, which is not in
src, as upstream has it: forget the undo state and, below the CWR state, lower
the window to what is in flight plus one, queue a CWR for the peer and enter
CWR. -/
def tcp_enter_cwr (e : env) (tp : tcp_sock) (set_ssthresh : Bool) : tcp_sock :=
  let tp := { tp with prior_ssthresh := 0, bytes_acked := 0 }
  if tp.icsk_ca_state < TCP_CA_CWR then
    { tp with undo_marker := 0,
              snd_ssthresh := if set_ssthresh then e.ca_ssthresh else tp.snd_ssthresh,
              snd_cwnd := min tp.snd_cwnd ((tcp_packets_in_flight tp + 1) % 4294967296),
              snd_cwnd_cnt := 0,
              high_seq := tp.snd_nxt,
              snd_cwnd_stamp := e.tcp_time_stamp,
              ecn_flags := if tst tp.ecn_flags TCP_ECN_OK then tp.ecn_flags ||| TCP_ECN_QUEUE_CWR
                           else tp.ecn_flags,
              icsk_ca_state := TCP_CA_CWR }
  else tp

/-- `tcp_advertise_mss`: the MSS to put into a SYN, lowered to the route's metric. -/
def tcp_advertise_mss (e : env) (tp : tcp_sock) : Nat × tcp_sock :=
  match e.dst with
  | some d =>
    if d.2 < tp.advmss then
      (d.2 % 65536, { tp with advmss := d.2, mss_too_low := tp.mss_too_low || e.CONFIG_MTCP })
    else (tp.advmss % 65536, tp)
  | none => (tp.advmss % 65536, tp)

/-- Modelled from the spec: the aligned sizes of the options of a SYN, which
`include/net/tcp.h` defines: one word each for MSS, window scale and
SACK-permitted, and for the multipath options the bytes `tcp_options_write`
writes (multipath-capable: two words with `CONFIG_MTCP_PM`, else one; join: two
words). -/
def TCPOLEN_MSS_ALIGNED : Nat := 4
def TCPOLEN_WSCALE_ALIGNED : Nat := 4
def TCPOLEN_SACKPERM_ALIGNED : Nat := 4
def TCPOLEN_MPC_ALIGNED (CONFIG_MTCP_PM : Bool) : Nat := if CONFIG_MTCP_PM then 8 else 4
def TCPOLEN_JOIN_ALIGNED : Nat := 8

/-- The options of a SYN that every connection has (`tcp_syn_options` up to the
multipath part): MD5 signature, MSS (`mss` is what `tcp_advertise_mss` returned),
timestamp unless a signature is used, window scale and SACK-permitted. Returns
the option set and the size so far. -/
def syn_options_base (e : env) (tp : tcp_sock) (mss : Nat) (skb : sk_buff)
    (opts : tcp_out_options) : tcp_out_options × Nat :=
  let size : Nat := 0
  let opts := if e.md5 then { opts with OPTION_MD5 := true } else opts
  let size := if e.md5 then size + TCPOLEN_MD5SIG_ALIGNED else size
  let opts := { opts with mss := mss }
  let size := size + TCPOLEN_MSS_ALIGNED
  let ts : Bool := e.sysctl_tcp_timestamps && !e.md5
  let opts :=
    if ts then { opts with OPTION_TS := true, tsval := skb.cb.when, tsecr := tp.rx_opt_ts_recent }
    else opts
  let size := if ts then size + TCPOLEN_TSTAMP_ALIGNED else size
  let opts := if e.sysctl_tcp_window_scaling then { opts with ws := tp.rx_opt_rcv_wscale } else opts
  let size := if opts.ws ≠ 0 ∧ e.sysctl_tcp_window_scaling = true then size + TCPOLEN_WSCALE_ALIGNED
              else size
  let size := if e.sysctl_tcp_sack = true ∧ opts.OPTION_TS = false then size + TCPOLEN_SACKPERM_ALIGNED
              else size
  let opts := if e.sysctl_tcp_sack then { opts with OPTION_SACK_ADVERTISE := true } else opts
  (opts, size)

/-- `tcp_syn_options`: the option set and the options' size for a SYN. `none` is the
`BUG_ON` on a master subflow without a control block. -/
def tcp_syn_options (e : env) (tp : tcp_sock) (skb : sk_buff) (opts : tcp_out_options) :
    Option (Nat × tcp_out_options × tcp_sock) :=
  let r := tcp_advertise_mss e tp
  let tp := r.2
  let p := syn_options_base e tp r.1 skb opts
  if !e.CONFIG_MTCP then some (p.2, p.1, tp)
  else if tp.is_master then
    if tp.mpcb.isNone then none
    else
      some (p.2 + TCPOLEN_MPC_ALIGNED e.CONFIG_MTCP_PM,
        { p.1 with OPTION_MPC := true,
                   token := if e.CONFIG_MTCP_PM then tp.mtcp_loc_token else p.1.token }, tp)
  else if e.CONFIG_MTCP_PM then
    some (p.2 + TCPOLEN_JOIN_ALIGNED,
      { p.1 with OPTION_JOIN := true, token := tp.rx_opt_mtcp_rem_token,
                 addr_id := e.loc_addrid }, tp)
  else some (p.2, p.1, tp)

/-- Modelled from the spec: `net_xmit_eval` of `include/linux/netdevice.h`: congestion
reported by the queue is not an error. -/
def net_xmit_eval (err : Int) : Int := if err = NET_XMIT_CN then 0 else err

/-- The option set `tcp_transmit_skb` computes for `skb`, with `tcp_syn_options` for
a SYN and `tcp_established_options` otherwise, and the connection afterwards.
`none` is an abort. -/
def transmit_options (e : env) (tp : tcp_sock) (skb : sk_buff) :
    Option (tcp_out_options × tcp_sock) :=
  if tst skb.cb.flags TCPCB_FLAG_SYN then
    (tcp_syn_options e tp skb {}).map (fun r => (r.2.1, r.2.2))
  else
    (tcp_established_options e.CONFIG_MTCP e.CONFIG_MTCP_PM e.md5 e.hash_find tp (some skb) {}).map
      (fun r =>
        (r.2.1,
          if e.CONFIG_MTCP && tp.pending && !tp.is_master && tp.mpc then tp
          else { tp with mpcb := r.2.2 }))

/-- The window `tcp_transmit_skb` puts into the header: on a SYN the unscaled
receive window, read only; otherwise what `tcp_select_window` chooses and
records. Returns the connection afterwards. -/
def transmit_window (e : env) (tp : tcp_sock) (skb : sk_buff) : Option tcp_sock :=
  if tst skb.cb.flags TCPCB_FLAG_SYN then some tp
  else (tcp_select_window e tp).map (fun r => r.2)

/-- The original buffer after `tcp_transmit_skb` has cloned it: `skb_clone` marks it
as cloned. -/
def transmit_cloned (skb : sk_buff) (clone_it : Bool) : sk_buff :=
  if clone_it then { skb with cloned := true } else skb

/-- The end of `tcp_transmit_skb` before the hand-over to IP: write the options and
run the ECN, MD5 and data-sent steps. `shared` is whether the buffer sent
shares its fragment info with the original `skb` (`skb_clone` shares it;
`pskb_copy`, used on an already cloned buffer, does not). -/
def transmit_finish (e : env) (tp : tcp_sock) (opts : tcp_out_options) (skb : sk_buff)
    (shared : Bool) : tcp_sock × sk_buff :=
  let tp := (tcp_options_write e.CONFIG_MTCP e.CONFIG_MTCP_PM e.codes tp opts).2.2
  let ecn := if tst skb.cb.flags TCPCB_FLAG_SYN then (tp, false) else TCP_ECN_send tp skb
  let tp := ecn.1
  let skb1 :=
    if ecn.2 && shared then { skb with gso_type := skb.gso_type ||| SKB_GSO_TCP_ECN }
    else skb
  let tp := if e.md5 then { tp with sk_can_gso := false } else tp
  let tp := if skb.len ≠ 0 then tcp_event_data_sent e tp else tp
  (tp, skb1)

/-- The part of `tcp_transmit_skb` between the clone and the hand-over to IP, with
`skb` the original buffer: size the options, choose the window, write the
options, and run the ECN, MD5 and data-sent steps. `none` is an abort. -/
def transmit_build (e : env) (tp : tcp_sock) (skb : sk_buff) (clone_it : Bool) :
    Option (tcp_sock × sk_buff) :=
  let shared : Bool := !(clone_it && skb.cloned)
  let skb := transmit_cloned skb clone_it
  match transmit_options e tp skb with
  | none => none
  | some (opts, tp) =>
    match transmit_window e tp skb with
    | none => none
    | some tp => some (transmit_finish e tp opts skb shared)

/-- `tcp_transmit_skb`: build the header for `skb` and hand a clone of it (or, with
`clone_it` false, the buffer itself) to the IP layer.

The result is the return code, the connection afterwards and `skb` afterwards
(the original buffer, which stays where it is queued); `none` is an abort. The
header that goes on the wire, the delayed-ACK state, the timers and the
statistics are not modelled; the congestion-control module's event hooks are
taken to touch only its private state. -/
def tcp_transmit_skb (e : env) (tp : tcp_sock) (skb : sk_buff) (clone_it : Bool) :
    Option (Int × tcp_sock × sk_buff) :=
  if is_meta_tp tp then none
  else if tcp_skb_pcount skb = 0 then none
  else
    let skb := if e.ca_rtt_stamp then { skb with tstamp := e.ktime } else skb
    if clone_it && !e.clone_ok then some (-ENOBUFS, tp, skb)
    else
      match transmit_build e tp skb clone_it with
      | none => none
      | some (tp, skb) =>
        let err := e.queue_xmit
        if err ≤ 0 then some (err, tp, skb)
        else some (net_xmit_eval err, tcp_enter_cwr e tp true, skb)

/-- The sequence and queue state of a connection: the send sequence numbers, the
window, the packet counters, the write queue with its send head and hints, and
the memory charged to the queue. -/
structure send_state where
  snd_una : Nat
  snd_nxt : Nat
  snd_wnd : Nat
  snd_sml : Nat
  snd_up : Nat
  write_seq : Nat
  packets_out : Nat
  sacked_out : Nat
  lost_out : Nat
  retrans_out : Nat
  fackets_out : Nat
  frto_counter : Nat
  highest_sack : Option Nat
  lost_skb_hint : Option Nat
  scoreboard_skb_hint : Option Nat
  retransmit_skb_hint : Option Nat
  sk_send_head : Option Nat
  sk_write_queue : List sk_buff
  sk_wmem_queued : Int
  is_meta : Bool
  mpc : Bool
deriving DecidableEq, Repr

/-- The sequence and queue state of `tp`. -/
def tcp_sock.send_state (tp : tcp_sock) : send_state :=
  { snd_una := tp.snd_una, snd_nxt := tp.snd_nxt, snd_wnd := tp.snd_wnd, snd_sml := tp.snd_sml,
    snd_up := tp.snd_up, write_seq := tp.write_seq, packets_out := tp.packets_out,
    sacked_out := tp.sacked_out, lost_out := tp.lost_out, retrans_out := tp.retrans_out,
    fackets_out := tp.fackets_out, frto_counter := tp.frto_counter,
    highest_sack := tp.highest_sack, lost_skb_hint := tp.lost_skb_hint,
    scoreboard_skb_hint := tp.scoreboard_skb_hint,
    retransmit_skb_hint := tp.retransmit_skb_hint, sk_send_head := tp.sk_send_head,
    sk_write_queue := tp.sk_write_queue, sk_wmem_queued := tp.sk_wmem_queued,
    is_meta := tp.is_meta, mpc := tp.mpc }

/-- The segment `skb_mid` before it was ever sent. -/
def skb_fresh : sk_buff := { skb_mid with cb := { skb_mid.cb with sacked := 0 } }

/-- A connection in the CWR state with nothing in flight that has been idle since
time 0, with a retransmission timeout of 200 and a window of 20; one unsent
segment is queued. -/
def tp_idle : tcp_sock :=
  { tp_zero with
      snd_una := 1000, snd_nxt := 1000, snd_wnd := 65535, write_seq := 1100, snd_cwnd := 20,
      snd_ssthresh := 10, snd_cwnd_used := 5, icsk_rto := 200, lsndtime := 0,
      icsk_ca_state := TCP_CA_CWR, sk_send_head := some 2,
      sk_write_queue := [skb_fresh] }

/-- The environment `env_plain` when the queue below IP reports congestion. -/
def env_congested : env := { env_plain with queue_xmit := NET_XMIT_CN }

/-! ## New data and the path-MTU probe -/

/-- The position in the write queue of the buffer a pointer refers to. -/
def skb_index : List sk_buff → Nat → Option Nat
  | [], _ => none
  | s :: q, a => if s.addr = a then some 0 else (skb_index q a).map (· + 1)

/-- The pointer to the buffer at position `i` of the write queue, null past the
end. -/
def skb_at (q : List sk_buff) (i : Nat) : Option Nat := (q[i]?).map (fun s => s.addr)

/-- `tcp_init_tso_segs`: compute the segment count of a buffer that has none yet,
or whose segments are not of size `mss_now`. Returns the buffer and its count;
`none` is a division by a zero MSS. -/
def tcp_init_tso_segs (sk : tcp_sock) (skb : sk_buff) (mss_now : Nat) : Option (sk_buff × Nat) :=
  let tso_segs := tcp_skb_pcount skb
  if tso_segs = 0 ∨ (tso_segs > 1 ∧ skb.gso_size ≠ mss_now) then
    (tcp_set_skb_tso_segs sk skb mss_now).map (fun s => (s, tcp_skb_pcount s))
  else some (skb, tso_segs)

/-- `tcp_event_new_data_sent` for the buffer at position `i` of the write queue, which
must be the send head: the send head advances, `snd_nxt` moves to the end of
the buffer and the buffer counts as out. `none` is the `BUG_ON` on another
buffer. The retransmission timer and the debugging checks (`tocheck`,
`check_send_head`, `check_pkts_out`) are not modelled. -/
def tcp_event_new_data_sent (sk : tcp_sock) (i : Nat) : Option tcp_sock :=
  match sk.sk_write_queue[i]? with
  | none => none
  | some skb =>
    if sk.sk_send_head ≠ some skb.addr then none
    else
      some { sk with
        sk_send_head := skb_at sk.sk_write_queue (i + 1),
        snd_nxt := if is_meta_tp sk then skb.cb.end_data_seq else skb.cb.end_seq,
        frto_counter := if sk.frto_counter = 2 then 3 else sk.frto_counter,
        packets_out := add32 sk.packets_out (tcp_skb_pcount skb) }

/-- The first tests of `tcp_mtu_probe`: no probe is made when probing is off, a
probe is outstanding, the congestion state is not Open, the window is below 11
or SACK blocks are pending. -/
def mtu_probe_gate (tp : tcp_sock) : Bool :=
  !tp.icsk_mtup_enabled || decide (tp.icsk_mtup_probe_size ≠ 0) ||
    decide (tp.icsk_ca_state ≠ TCP_CA_Open) || decide (tp.snd_cwnd < 11) ||
    decide (tp.rx_opt_eff_sacks ≠ 0)

/-- What the copy loop of `tcp_mtu_probe` does with one queued buffer `skb` when the
probe `nskb` holds `len` of its `probe_size` bytes: `skb` is eaten whole
(result `none` for it) or loses its first bytes. Returns the probe, what is
left of `skb`, and the new `len`; the outer `none` is an abort. -/
def mtu_probe_eat (e : env) (sk : tcp_sock) (mss_now : Nat) (probe_size : Int) (len : Int)
    (nskb skb : sk_buff) : Option (sk_buff × Option sk_buff × Int) :=
  let copy : Int := min (s32 skb.len) (probe_size - len)
  if copy < 0 then none
  else
    match skb_put nskb copy.toNat with
    | none => none
    | some nskb =>
      if (skb.len : Int) ≤ copy then
        some ({ nskb with cb := { nskb.cb with flags := nskb.cb.flags ||| skb.cb.flags } },
          none, len + copy)
      else
        let nskb :=
          { nskb with cb := { nskb.cb with
              flags := nskb.cb.flags |||
                (skb.cb.flags &&& (4294967295 - (TCPCB_FLAG_FIN ||| TCPCB_FLAG_PSH))) } }
        let trimmed : Option sk_buff :=
          if skb.frags.length = 0 then __skb_pull skb copy.toNat
          else tcp_set_skb_tso_segs sk (__pskb_trim_head skb copy.toNat) mss_now
        match trimmed with
        | none => none
        | some skb =>
          let cb := { skb.cb with seq := add32 skb.cb.seq copy.toNat }
          let cb := if e.CONFIG_MTCP then { cb with data_seq := add32 cb.data_seq copy.toNat }
                    else cb
          some (nskb, some { skb with cb := cb }, len + copy)

/-- The copy loop of `tcp_mtu_probe` over the buffers `rest` that follow the probe in
the write queue. Returns the probe, what is left of `rest`, and the buffers
that were eaten and are freed. -/
def mtu_probe_copy (e : env) (sk : tcp_sock) (mss_now : Nat) (probe_size : Int) :
    Int → sk_buff → List sk_buff → Option (sk_buff × List sk_buff × List sk_buff)
  | _, nskb, [] => some (nskb, [], [])
  | len, nskb, skb :: rest =>
    match mtu_probe_eat e sk mss_now probe_size len nskb skb with
    | none => none
    | some (nskb, left, len) =>
      if len ≥ probe_size then
        some (nskb, left.toList ++ rest, if left.isNone then [skb] else [])
      else
        match mtu_probe_copy e sk mss_now probe_size len nskb rest with
        | none => none
        | some (nskb, rest, freed) =>
          some (nskb, left.toList ++ rest, if left.isNone then skb :: freed else freed)

/-- The connection after `tcp_mtu_probe` has built its probe: the new buffer `nskb0`
is charged to the socket and linked before the send head (position `i`), takes
the first `probe_size` bytes of the buffers from there on, and gets its segment
count. Returns the connection with the probe at position `i`. -/
def mtu_probe_build (e : env) (sk : tcp_sock) (mss_now : Nat) (probe_size : Int)
    (nskb0 : sk_buff) (i : Nat) (skb : sk_buff) : Option tcp_sock :=
  let sk := { sk with sk_wmem_queued := sk.sk_wmem_queued + nskb0.truesize }
  let nskb :=
    { nskb0 with
      cb := { nskb0.cb with seq := skb.cb.seq, end_seq := add32 skb.cb.seq (u32 probe_size),
                            flags := TCPCB_FLAG_ACK, sacked := 0 },
      ip_summed := skb.ip_summed }
  let sk := { sk with sk_send_head := some nskb.addr }
  match mtu_probe_copy e sk mss_now probe_size 0 nskb (sk.sk_write_queue.drop i) with
  | none => none
  | some (nskb, rest, freed) =>
    let sk := freed.foldl sk_wmem_free_skb sk
    match tcp_init_tso_segs sk nskb nskb.len with
    | none => none
    | some (nskb, _) =>
      some { sk with sk_write_queue := sk.sk_write_queue.take i ++ nskb :: rest }

/-- `tcp_mtu_probe`: create and send a path-MTU probe of twice the cached MSS if the
connection is ready for one. Returns 1 if a probe was sent, 0 if the probe has
to wait for window, -1 otherwise; `none` is an abort (a null pointer followed,
or an abort of a function called). -/
def tcp_mtu_probe (e : env) (sk : tcp_sock) : Option (Int × tcp_sock) :=
  match (if sk.mpc then sk.mpcb.map (fun m => m.tp_snd_wnd) else some sk.snd_wnd) with
  | none => none
  | some snd_wnd =>
    if mtu_probe_gate sk then some (-1, sk)
    else
      match tcp_current_mss e sk false with
      | none => none
      | some (mss_now, sk) =>
        let probe_size : Int := s32 (2 * sk.mss_cache)
        let size_needed : Int := s32 (probe_size + (sk.reordering + 1) * sk.mss_cache)
        if probe_size > tcp_mtu_to_mss e sk sk.icsk_mtup_search_high then some (-1, sk)
        else if sub32 sk.write_seq sk.snd_nxt < u32 size_needed then some (-1, sk)
        else if snd_wnd < u32 size_needed then some (-1, sk)
        else if (tcp_wnd_end sk false).any (after (add32 sk.snd_nxt (u32 size_needed))) then
          some (0, sk)
        else if (tcp_packets_in_flight sk + 2) % 4294967296 > sk.snd_cwnd then
          if tcp_packets_in_flight sk = 0 then some (-1, sk) else some (0, sk)
        else
          match e.alloc with
          | none => some (-1, sk)
          | some a =>
            match sk.sk_send_head.bind (skb_index sk.sk_write_queue) with
            | none => none
            | some i =>
              match sk.sk_write_queue[i]? with
              | none => none
              | some skb =>
                match mtu_probe_build e sk mss_now probe_size
                    (sk_stream_alloc_skb a (u32 probe_size)) i skb with
                | none => none
                | some sk =>
                  match sk.sk_write_queue[i]? with
                  | none => none
                  | some nskb =>
                    let nskb := { nskb with cb := { nskb.cb with when := e.tcp_time_stamp } }
                    match tcp_transmit_skb e sk nskb true with
                    | none => none
                    | some (err, sk, nskb) =>
                      let sk := { sk with sk_write_queue := sk.sk_write_queue.set i nskb }
                      if err ≠ 0 then some (-1, sk)
                      else
                        match tcp_event_new_data_sent
                            { sk with snd_cwnd := u32 ((sk.snd_cwnd : Int) - 1) } i with
                        | none => none
                        | some sk =>
                          some (1,
                            { sk with
                              icsk_mtup_probe_size := u32 (tcp_mss_to_mtu e sk nskb.len),
                              mtu_probe_probe_seq_start := nskb.cb.seq,
                              mtu_probe_probe_seq_end := nskb.cb.end_seq })

/-! ## Retransmission -/

/-- The flags a retransmission sets: `TCPCB_RETRANS` of `include/net/tcp.h`. -/
def TCPCB_RETRANS : Nat := TCPCB_SACKED_RETRANS ||| TCPCB_EVER_RETRANS

/-- Run `f` on the connection when the step before it returned 0; pass on its
return code, or its abort, otherwise. -/
def and_then (r : Option (Int × tcp_sock)) (f : tcp_sock → Option (Int × tcp_sock)) :
    Option (Int × tcp_sock) :=
  match r with
  | none => none
  | some (c, sk) => if c ≠ 0 then some (c, sk) else f sk

/-- The start of `tcp_retransmit_skb`: an inconclusive MTU probe is forgotten, and
nothing is sent while the layers below hold more send memory than is queued
(plus a quarter) or than the send buffer. `mtcp_reinject_data`, which is not in
src, is taken to leave this subflow alone. -/
def retransmit_enter (e : env) (sk : tcp_sock) : Option (Int × tcp_sock) :=
  let sk := { sk with icsk_mtup_probe_size := 0 }
  if e.sk_wmem_alloc > min (s32 (sk.sk_wmem_queued + sk.sk_wmem_queued / 4)) sk.sk_sndbuf then
    some (-EAGAIN, sk)
  else some (0, sk)

/-- The second step of `tcp_retransmit_skb`: what is acknowledged already is trimmed
off the front of the buffer. `none` is the `BUG()` on a buffer that is
acknowledged as a whole, or an abort in `tcp_trim_head`. -/
def retransmit_trim (e : env) (sk : tcp_sock) (i : Nat) : Option (Int × tcp_sock) :=
  match sk.sk_write_queue[i]? with
  | none => none
  | some skb =>
    if before skb.cb.seq sk.snd_una then
      if before skb.cb.end_seq sk.snd_una then none
      else
        match tcp_trim_head e sk i (sub32 sk.snd_una skb.cb.seq) with
        | none => none
        | some (r, sk) => if r ≠ 0 then some (-ENOMEM, sk) else some (0, sk)
    else some (0, sk)

/-- The MSS `tcp_retransmit_skb` uses: the common multipath MSS in a `CONFIG_MTCP`
build, `tcp_current_mss(sk, 0)` otherwise. -/
def retransmit_mss (e : env) (sk : tcp_sock) : Option (Nat × tcp_sock) :=
  if e.CONFIG_MTCP then some (e.sysctl_mptcp_mss, sk) else tcp_current_mss e sk false

/-- The window test of `tcp_retransmit_skb`: a buffer that starts at or after the
end of the send window is not retransmitted, unless it is the first
unacknowledged one. -/
def retransmit_window (sk : tcp_sock) (i : Nat) : Option (Int × tcp_sock) :=
  match sk.sk_write_queue[i]?, tcp_wnd_end sk sk.mpc with
  | some skb, some wnd_end =>
    if !before (if sk.mpc then skb.cb.data_seq else skb.cb.seq) wnd_end &&
        decide (skb.cb.seq ≠ sk.snd_una) then some (-EAGAIN, sk)
    else some (0, sk)
  | _, _ => none

/-- The fragmentation step of `tcp_retransmit_skb`: a buffer longer than the MSS is
cut to it. -/
def retransmit_fragment (e : env) (cur_mss : Nat) (sk : tcp_sock) (i : Nat) :
    Option (Int × tcp_sock) :=
  match sk.sk_write_queue[i]? with
  | none => none
  | some skb =>
    if skb.len > cur_mss then
      match tcp_fragment e.CONFIG_MTCP e.expand_ok e.alloc e.highest_sack_seq sk i cur_mss
          cur_mss with
      | none => none
      | some (r, sk) => if r ≠ 0 then some (-ENOMEM, sk) else some (0, sk)
    else some (0, sk)

/-- Whether `tcp_retransmit_skb` tries to collapse the buffer at position `i` with
the next one: neither is a SYN or the send head, the first is shorter than half
an MSS, both are linear and of count 1, and collapsing is enabled. -/
def retransmit_collapse_wanted (e : env) (cur_mss : Nat) (sk : tcp_sock) (i : Nat) : Bool :=
  match sk.sk_write_queue[i]?, sk.sk_write_queue[i + 1]? with
  | some skb, some next_skb =>
    !tst skb.cb.flags TCPCB_FLAG_SYN && decide (skb.len < cur_mss / 2) &&
      decide (some next_skb.addr ≠ sk.sk_send_head) &&
      decide (skb.frags.length = 0) && decide (next_skb.frags.length = 0) &&
      decide (tcp_skb_pcount skb = 1) && decide (tcp_skb_pcount next_skb = 1) &&
      e.sysctl_tcp_retrans_collapse
  | _, _ => false

/-- The collapse step of `tcp_retransmit_skb`. -/
def retransmit_collapse (e : env) (cur_mss : Nat) (sk : tcp_sock) (i : Nat) :
    Option (Int × tcp_sock) :=
  if retransmit_collapse_wanted e cur_mss sk i then
    (tcp_retrans_try_collapse e.highest_sack_seq sk i cur_mss).map (fun sk => (0, sk))
  else some (0, sk)

/-- `tcp_init_nondata_skb`: set up the control bits of a buffer without data. -/
def tcp_init_nondata_skb (skb : sk_buff) (seq : Nat) (flags : Nat) : sk_buff :=
  { skb with
    gso_segs := 1, gso_size := 0, gso_type := 0,
    cb := { skb.cb with
      flags := flags % 256, sacked := 0, seq := seq,
      end_seq := if tst flags (TCPCB_FLAG_SYN ||| TCPCB_FLAG_FIN) then add32 seq 1 else seq } }

/-- The FIN step of `tcp_retransmit_skb`: when only the FIN of a buffer with data is
still unacknowledged, the data is dropped from it (if `pskb_trim` succeeds). -/
def retransmit_strip_fin (e : env) (sk : tcp_sock) (i : Nat) : Option (Int × tcp_sock) :=
  match sk.sk_write_queue[i]? with
  | none => none
  | some skb =>
    if skb.len > 0 ∧ tst skb.cb.flags TCPCB_FLAG_FIN = true ∧
        sk.snd_una = sub32 skb.cb.end_seq 1 ∧ e.pskb_trim_ok = true then
      let skb := { skb with len := 0, data_len := 0, frags := [] }
      let skb := tcp_init_nondata_skb skb (sub32 skb.cb.end_seq 1) skb.cb.flags
      some (0, { sk with sk_write_queue :=
        sk.sk_write_queue.set i { skb with ip_summed := CHECKSUM_NONE } })
    else some (0, sk)

/-- The end of `tcp_retransmit_skb`: stamp the buffer, transmit a clone of it and, if
that went well, count the retransmission and mark the buffer. -/
def retransmit_send (e : env) (sk : tcp_sock) (i : Nat) : Option (Int × tcp_sock) :=
  match sk.sk_write_queue[i]? with
  | none => none
  | some skb =>
    let skb := { skb with cb := { skb.cb with when := e.tcp_time_stamp } }
    match tcp_transmit_skb e sk skb true with
    | none => none
    | some (err, sk, skb) =>
      if err = 0 then
        let skb := { skb with cb := { skb.cb with sacked := skb.cb.sacked ||| TCPCB_RETRANS,
                                                  ack_seq := sk.snd_nxt } }
        some (0,
          { sk with
            total_retrans := add32 sk.total_retrans 1,
            lost_retrans_low := if sk.retrans_out = 0 then sk.snd_nxt else sk.lost_retrans_low,
            retrans_out := add32 sk.retrans_out (tcp_skb_pcount skb),
            retrans_stamp := if sk.retrans_stamp = 0 then skb.cb.when else sk.retrans_stamp,
            undo_retrans := add32 sk.undo_retrans 1,
            sk_write_queue := sk.sk_write_queue.set i skb })
      else some (err, { sk with sk_write_queue := sk.sk_write_queue.set i skb })

/-- `tcp_retransmit_skb`: retransmit the buffer at position `i` of the write queue.
Returns the return code (0 when the buffer was sent) and the connection
afterwards; `none` is an abort. -/
def tcp_retransmit_skb (e : env) (sk : tcp_sock) (i : Nat) : Option (Int × tcp_sock) :=
  if sk.sk_write_queue[i]?.isNone then none
  else
  and_then (retransmit_enter e sk) fun sk =>
  and_then (retransmit_trim e sk i) fun sk =>
  if e.rebuild_header ≠ 0 then some (-EHOSTUNREACH, sk)
  else
    match retransmit_mss e sk with
    | none => none
    | some (cur_mss, sk) =>
      and_then (retransmit_window sk i) fun sk =>
      and_then (retransmit_fragment e cur_mss sk i) fun sk =>
      and_then (retransmit_collapse e cur_mss sk i) fun sk =>
      and_then (retransmit_strip_fin e sk i) fun sk =>
      retransmit_send e sk i

/-- The connection-level socket `&mpcb->tp` of a subflow as `tcp_snd_test` hands it
to the Nagle test, which reads its sequence numbers, `packets_out` and
`frto_counter`; the subflow itself when it has no control block. -/
def mpcb_tp (tp : tcp_sock) : tcp_sock :=
  match tp.mpcb with
  | some m =>
    { tp with snd_una := m.tp_snd_una, snd_up := m.tp_snd_up, snd_sml := m.tp_snd_sml,
              snd_nxt := m.tp_snd_nxt, packets_out := m.tp_packets_out,
              frto_counter := m.tp_frto_counter }
  | none => tp

/-- `tcp_snd_test`: how many segments of `skb` may be sent now, by the Nagle, the
congestion-window and the send-window test. `none` is an abort. -/
def tcp_snd_test (subtp : tcp_sock) (skb : sk_buff) (cur_mss nonagle : Nat) : Option Nat :=
  if tcp_skb_pcount skb > 1 then none
  else if !tcp_nagle_test (mpcb_tp subtp) skb cur_mss nonagle then some 0
  else
    match tcp_cwnd_test subtp skb with
    | none => none
    | some cwnd_quota =>
      if cwnd_quota ≠ 0 then
        match tcp_snd_wnd_test subtp skb cur_mss with
        | none => none
        | some ok => some (if ok then cwnd_quota else 0)
      else some 0

/-- `tcp_may_send_now`: whether the send head could be sent now. -/
def tcp_may_send_now (e : env) (sk : tcp_sock) : Option (Bool × tcp_sock) :=
  match (if sk.mpc then some (e.sysctl_mptcp_mss, sk) else tcp_current_mss e sk true) with
  | none => none
  | some (mss, sk) =>
    match sk.sk_send_head with
    | none => some (false, sk)
    | some a =>
      match skb_index sk.sk_write_queue a with
      | none => none
      | some i =>
        match sk.sk_write_queue[i]? with
        | none => none
        | some skb =>
          (tcp_snd_test sk skb mss
            (if i + 1 = sk.sk_write_queue.length then sk.nonagle else TCP_NAGLE_PUSH)).map
            (fun q => (decide (q ≠ 0), sk))

/-- `tcp_can_forward_retransmit`: forward retransmissions are made only in Recovery,
with SACK, and when no new segment could be sent. -/
def tcp_can_forward_retransmit (e : env) (sk : tcp_sock) : Option (Bool × tcp_sock) :=
  if sk.icsk_ca_state ≠ TCP_CA_Recovery then some (false, sk)
  else if tcp_is_reno sk then some (false, sk)
  else (tcp_may_send_now e sk).map (fun r => (!r.1, r.2))

/-- One call of `tcp_retransmit_skb` made by `tcp_xmit_retransmit_queue`: the
connection at the call, the position of the buffer passed, whether it is a
forward retransmission, and what the call returned (`none` for an abort). -/
structure rexmit_call where
  sk : tcp_sock
  i : Nat
  fwd : Bool
  ret : Option Int
deriving DecidableEq, Repr

/-- How a pass over the write queue ended: it returned, it was aborted, or the model
ran out of fuel. -/
inductive pass_end where
  | returned
  | aborted
  | out_of_fuel
deriving DecidableEq, Repr

/-- The outcome of a pass: the calls made in order, the connection at the end, and
how the pass ended. -/
structure pass_result where
  trace : List rexmit_call
  sk : tcp_sock
  ending : pass_end
deriving DecidableEq, Repr

/-- A call added in front of the trace of the rest of the pass. -/
def pass_result.after (c : rexmit_call) (r : pass_result) : pass_result :=
  { r with trace := c :: r.trace }

/-- What one round of the loop of `tcp_xmit_retransmit_queue` decides: to end the
pass, to go on with the buffer after position `j`, or to call
`tcp_retransmit_skb` on the buffer at position `j`; with the loop variables as
the round leaves them. -/
inductive round_step where
  | stop (sk : tcp_sock) (ending : pass_end)
  | next (sk : tcp_sock) (j : Nat) (hole : Option Nat) (last_lost : Nat) (fwd : Bool)
  | send (sk : tcp_sock) (j : Nat) (hole : Option Nat) (last_lost : Nat) (fwd : Bool)
deriving DecidableEq, Repr

/-- The end of a round that has chosen the buffer at position `j`: a forward
retransmission stops at the highest SACKed sequence number, and a buffer whose
flags `sacked` (read at the top of the round) show it SACKed or retransmitted
is passed over. -/
def round_send (e : env) (sacked : Nat) (sk : tcp_sock) (j : Nat) (hole : Option Nat)
    (last_lost : Nat) (fwd : Bool) : round_step :=
  if fwd && (match sk.sk_write_queue[j]? with
             | some s => !before s.cb.seq e.highest_sack_seq
             | none => true) then .stop sk .returned
  else if tst sacked (TCPCB_SACKED_ACKED ||| TCPCB_SACKED_RETRANS) then
    .next sk j hole last_lost fwd
  else .send sk j hole last_lost fwd

/-- One round of the loop of `tcp_xmit_retransmit_queue`, at the buffer at position
`j`. `hole` is the position of the first buffer that is neither lost nor
retransmitted; after the backtrack to it the flags tested are still those of
the buffer the round started at. -/
def retransmit_round (e : env) (sk : tcp_sock) (j : Nat) (hole : Option Nat)
    (last_lost : Nat) (fwd : Bool) : round_step :=
  match sk.sk_write_queue[j]? with
  | none => .stop sk .returned
  | some skb =>
    let sacked := skb.cb.sacked
    if some skb.addr = sk.sk_send_head then .stop sk .returned
    else
      let sk := if hole.isNone then { sk with retransmit_skb_hint := some skb.addr } else sk
      if tcp_packets_in_flight sk ≥ sk.snd_cwnd then .stop sk .returned
      else if fwd then round_send e sacked sk j hole last_lost true
      else if !before skb.cb.seq sk.retransmit_high then
        let sk := { sk with retransmit_high := last_lost }
        match tcp_can_forward_retransmit e sk with
        | none => .stop sk .aborted
        | some (false, sk) => .stop sk .returned
        | some (true, sk) => round_send e sacked sk (hole.getD j) none last_lost true
      else if !tst sacked TCPCB_LOST then
        .next sk j (if hole.isNone && !tst sacked TCPCB_SACKED_RETRANS then some j else hole)
          last_lost fwd
      else round_send e sacked sk j hole skb.cb.end_seq false

/-- The loop of `tcp_xmit_retransmit_queue` from the buffer at position `j`, with `n`
calls of `tcp_retransmit_skb` made so far; the environment of the next call is
`e n`. One unit of fuel is used for each round. -/
def retransmit_loop (e : Nat → env) :
    Nat → Nat → tcp_sock → Nat → Option Nat → Nat → Bool → pass_result
  | 0, _, sk, _, _, _, _ => { trace := [], sk := sk, ending := .out_of_fuel }
  | fuel + 1, n, sk, j, hole, last_lost, fwd =>
    match retransmit_round (e n) sk j hole last_lost fwd with
    | .stop sk ending => { trace := [], sk := sk, ending := ending }
    | .next sk j hole last_lost fwd => retransmit_loop e fuel n sk (j + 1) hole last_lost fwd
    | .send sk j hole last_lost fwd =>
      match tcp_retransmit_skb (e n) sk j with
      | none =>
        { trace := [{ sk := sk, i := j, fwd := fwd, ret := none }], sk := sk,
          ending := .aborted }
      | some (ret, sk1) =>
        if ret ≠ 0 then
          { trace := [{ sk := sk, i := j, fwd := fwd, ret := some ret }], sk := sk1,
            ending := .returned }
        else
          (retransmit_loop e fuel (n + 1) sk1 (j + 1) hole last_lost fwd).after
            { sk := sk, i := j, fwd := fwd, ret := some ret }

/-- `tcp_xmit_retransmit_queue`: retransmit what is marked lost in the write queue,
from the hinted buffer or the head of the queue on, as far as the congestion
window allows. `none` is an abort before the loop (a meta socket, an empty
queue, a dangling hint). -/
def tcp_xmit_retransmit_queue (e : Nat → env) (fuel : Nat) (sk : tcp_sock) :
    Option pass_result :=
  if is_meta_tp sk then none
  else
    let sk := if sk.lost_out = 0 then { sk with retransmit_high := sk.snd_una } else sk
    match sk.retransmit_skb_hint with
    | some a =>
      match skb_index sk.sk_write_queue a with
      | none => none
      | some j =>
        match sk.sk_write_queue[j]? with
        | none => none
        | some skb =>
          let last_lost :=
            if after skb.cb.end_seq sk.retransmit_high then sk.retransmit_high
            else skb.cb.end_seq
          some (retransmit_loop e fuel 0 sk j none last_lost false)
    | none =>
      if sk.sk_write_queue = [] then none
      else some (retransmit_loop e fuel 0 sk 0 none sk.snd_una false)

/-- The part of a connection that cutting, merging and trimming queued buffers never
touches: the sequence numbers and windows, the congestion state, the multipath
state, the send head and the settings. -/
structure ctl_state where
  snd_una : Nat
  snd_nxt : Nat
  snd_wnd : Nat
  snd_sml : Nat
  snd_up : Nat
  write_seq : Nat
  snd_cwnd : Nat
  snd_ssthresh : Nat
  frto_counter : Nat
  icsk_ca_state : Nat
  retransmit_high : Nat
  mpc : Bool
  mpcb : Option multipath_pcb
  is_meta : Bool
  sk_send_head : Option Nat
  rx_opt_sack_ok : Bool
  rx_opt_eff_sacks : Nat
  sk_can_gso : Bool
  sk_gso_type : Nat
  nonagle : Nat
  sk_sndbuf : Int
  sk_state : Nat
  icsk_mtup_enabled : Bool
deriving DecidableEq, Repr

/-- The part of `tp` that queue surgery leaves alone. -/
def tcp_sock.ctl_state (tp : tcp_sock) : ctl_state :=
  { snd_una := tp.snd_una, snd_nxt := tp.snd_nxt, snd_wnd := tp.snd_wnd, snd_sml := tp.snd_sml,
    snd_up := tp.snd_up, write_seq := tp.write_seq, snd_cwnd := tp.snd_cwnd,
    snd_ssthresh := tp.snd_ssthresh, frto_counter := tp.frto_counter,
    icsk_ca_state := tp.icsk_ca_state, retransmit_high := tp.retransmit_high, mpc := tp.mpc,
    mpcb := tp.mpcb, is_meta := tp.is_meta, sk_send_head := tp.sk_send_head,
    rx_opt_sack_ok := tp.rx_opt_sack_ok, rx_opt_eff_sacks := tp.rx_opt_eff_sacks,
    sk_can_gso := tp.sk_can_gso, sk_gso_type := tp.sk_gso_type, nonagle := tp.nonagle,
    sk_sndbuf := tp.sk_sndbuf, sk_state := tp.sk_state,
    icsk_mtup_enabled := tp.icsk_mtup_enabled }

/-- The connection `tp_three` in the Loss state with only its second segment marked
lost. -/
def tp_second_lost : tcp_sock :=
  { tp_three with
      lost_out := 1, retransmit_high := 1100, icsk_ca_state := TCP_CA_Loss, sk_sndbuf := 100000,
      sk_write_queue :=
        [skb_before, { skb_mid with cb := { skb_mid.cb with sacked := TCPCB_LOST } }, skb_after] }

/-- The environment `env_plain` with the collapsing of retransmitted segments
switched off. -/
def env_no_collapse : env := { env_plain with sysctl_tcp_retrans_collapse := false }

/-! ## Writing new data -/

/-- Modelled from the spec: `tcp_minshall_update` of `include/net/tcp.h`: a segment
shorter than the MSS is remembered as the last small one sent. -/
def tcp_minshall_update (tp : tcp_sock) (mss : Nat) (skb : sk_buff) : tcp_sock :=
  if skb.len < mss then { tp with snd_sml := skb.cb.end_seq } else tp

/-- Modelled from the spec: `tcp_cwnd_application_limited`, which is not in src, as
upstream has it: in the Open state, with a socket that is not out of space, a
window the application did not fill is lowered towards what was used. -/
def tcp_cwnd_application_limited (e : env) (tp : tcp_sock) : tcp_sock :=
  let tp :=
    if tp.icsk_ca_state = TCP_CA_Open ∧ e.sock_nospace = false then
      let win_used := max tp.snd_cwnd_used e.init_cwnd
      if win_used < tp.snd_cwnd then
        { tp with snd_ssthresh := tcp_current_ssthresh tp,
                  snd_cwnd := (tp.snd_cwnd + win_used) % 4294967296 / 2,
                  snd_cwnd_used := 0 }
      else { tp with snd_cwnd_used := 0 }
    else tp
  { tp with snd_cwnd_stamp := e.tcp_time_stamp }

/-- `tcp_cwnd_validate`: congestion window validation (RFC 2861) after a send; the
age of the window is compared with the unsigned `icsk_rto`, hence as an
unsigned value. -/
def tcp_cwnd_validate (e : env) (tp : tcp_sock) : tcp_sock :=
  if tp.packets_out ≥ tp.snd_cwnd then
    { tp with snd_cwnd_used := 0, snd_cwnd_stamp := e.tcp_time_stamp }
  else
    let tp :=
      if tp.packets_out > tp.snd_cwnd_used then { tp with snd_cwnd_used := tp.packets_out }
      else tp
    if e.sysctl_tcp_slow_start_after_idle = true ∧
        u32 ((e.tcp_time_stamp : Int) - tp.snd_cwnd_stamp) ≥ tp.icsk_rto then
      tcp_cwnd_application_limited e tp
    else tp

/-- What one round of the loop of `tcp_write_xmit` decides before it transmits: to
leave the loop, or to hand the buffer at position `i`, stamped, to
`tcp_transmit_skb`. -/
inductive xmit_step where
  | stop (sk : tcp_sock) (ending : pass_end)
  | send (sk : tcp_sock) (i : Nat) (skb : sk_buff)
deriving DecidableEq, Repr

/-- The end of one round of the loop of `tcp_write_xmit` before the transmission: a
buffer longer than `mss_now` is cut to it (a failed cut leaves the loop), and
the buffer at position `i` is stamped. -/
def write_xmit_cut (e : env) (mss_now : Nat) (sk : tcp_sock) (i : Nat) (skb : sk_buff) :
    xmit_step :=
  let cut : Option (Int × tcp_sock) :=
    if skb.len > mss_now then
      tso_fragment e.CONFIG_MTCP e.expand_ok e.alloc e.highest_sack_seq sk i mss_now mss_now
    else some (0, sk)
  match cut with
  | none => .stop sk .aborted
  | some (r, sk) =>
    if r ≠ 0 then .stop sk .returned
    else
      match sk.sk_write_queue[i]? with
      | none => .stop sk .aborted
      | some skb =>
        let skb := { skb with cb := { skb.cb with when := e.tcp_time_stamp } }
        .send { sk with sk_write_queue := sk.sk_write_queue.set i skb } i skb

/-- The tests of one round of the loop of `tcp_write_xmit` on the send head, at
position `i`, once its segment count is set: congestion window, send window
and Nagle, each of which can leave the loop. -/
def write_xmit_tests (e : env) (mss_now nonagle : Nat) (sk : tcp_sock) (i : Nat)
    (skb : sk_buff) : xmit_step :=
  match tcp_cwnd_test sk skb with
  | none => .stop sk .aborted
  | some cwnd_quota =>
    if cwnd_quota = 0 then .stop sk .returned
    else
      match tcp_snd_wnd_test sk skb mss_now with
      | none => .stop sk .aborted
      | some fits =>
        if fits = false then .stop sk .returned
        else if tcp_nagle_test sk skb mss_now
            (if i + 1 = sk.sk_write_queue.length then nonagle else TCP_NAGLE_PUSH) = false then
          .stop sk .returned
        else write_xmit_cut e mss_now sk i skb

/-- One round of the loop of `tcp_write_xmit` up to the transmission, on a socket
that is not the meta socket of a multipath connection, where the next segment
is the send head of the socket itself (`mtcp_next_segment`, which is not in
src, is taken to return it, with `reinject` 0). The loop ends when there is no
send head; a dangling send head, a segment count of 0, or a count other than 1
on a multipath subflow is an abort. -/
def write_xmit_round (e : env) (mss_now nonagle : Nat) (sk : tcp_sock) : xmit_step :=
  match sk.sk_send_head with
  | none => .stop sk .returned
  | some a =>
    match skb_index sk.sk_write_queue a with
    | none => .stop sk .aborted
    | some i =>
      match sk.sk_write_queue[i]? with
      | none => .stop sk .aborted
      | some skb =>
        match tcp_init_tso_segs sk skb mss_now with
        | none => .stop sk .aborted
        | some (skb, tso_segs) =>
          let sk := { sk with sk_write_queue := sk.sk_write_queue.set i skb }
          if tso_segs = 0 ∨ (sk.mpc = true ∧ tso_segs ≠ 1) then .stop sk .aborted
          else write_xmit_tests e mss_now nonagle sk i skb

/-- One call of `tcp_transmit_skb` made by the loop of `tcp_write_xmit`: the
connection at the call, the buffer passed and its position, and what the call
returned (`none` for an abort). -/
structure xmit_call where
  sk : tcp_sock
  i : Nat
  skb : sk_buff
  ret : Option Int
deriving DecidableEq, Repr

/-- The outcome of the loop of `tcp_write_xmit`: the calls of `tcp_transmit_skb` in
order, the connection at the end, the number of segments sent, and how the
loop ended. -/
structure xmit_result where
  trace : List xmit_call
  sk : tcp_sock
  sent_pkts : Nat
  ending : pass_end
deriving DecidableEq, Repr

/-- A call added in front of the trace of the rest of the loop. -/
def xmit_result.after (c : xmit_call) (r : xmit_result) : xmit_result :=
  { r with trace := c :: r.trace }

/-- The loop of `tcp_write_xmit` on a socket that is not the meta socket of a
multipath connection, with `n` segments handed to `tcp_transmit_skb` so far;
the environment of the next round is `e n`. One unit of fuel is used for each
round. -/
def tcp_write_xmit_loop (e : Nat → env) (mss_now nonagle : Nat) :
    Nat → Nat → tcp_sock → Nat → xmit_result
  | 0, _, sk, sent_pkts =>
    { trace := [], sk := sk, sent_pkts := sent_pkts, ending := .out_of_fuel }
  | fuel + 1, n, sk, sent_pkts =>
    match write_xmit_round (e n) mss_now nonagle sk with
    | .stop sk ending => { trace := [], sk := sk, sent_pkts := sent_pkts, ending := ending }
    | .send sk i skb =>
      match tcp_transmit_skb (e n) sk skb true with
      | none =>
        { trace := [{ sk := sk, i := i, skb := skb, ret := none }], sk := sk,
          sent_pkts := sent_pkts, ending := .aborted }
      | some (err, sk1, skb1) =>
        let sk1 := { sk1 with sk_write_queue := sk1.sk_write_queue.set i skb1 }
        if err ≠ 0 then
          { trace := [{ sk := sk, i := i, skb := skb, ret := some err }], sk := sk1,
            sent_pkts := sent_pkts, ending := .returned }
        else
          match tcp_event_new_data_sent sk1 i with
          | none =>
            { trace := [{ sk := sk, i := i, skb := skb, ret := some err }], sk := sk1,
              sent_pkts := sent_pkts, ending := .aborted }
          | some sk2 =>
            (tcp_write_xmit_loop e mss_now nonagle fuel (n + 1)
              (tcp_cwnd_validate (e n) (tcp_minshall_update sk2 mss_now skb1))
              (sent_pkts + 1)).after
              { sk := sk, i := i, skb := skb, ret := some err }

/-- The payload bytes a buffer holds in page fragments. -/
def frags_size (fs : List skb_frag_t) : Nat := (fs.map (fun f => f.size)).sum

/-- A buffer is well formed when `data_len` is the size of its page fragments and is
not more than `len`. -/
def skb_wf (s : sk_buff) : Prop := s.data_len = frags_size s.frags ∧ s.data_len ≤ s.len

instance skb_wf_decidable (s : sk_buff) : Decidable (skb_wf s) := by
  unfold skb_wf
  exact inferInstance

/-- What one round of the loop of `tcp_write_xmit` guarantees about the buffer it
hands over, given the buffer `skb` it started from at position `i`. -/
def handed_ok (mss : Nat) (sk sk' : tcp_sock) (i : Nat) (skb skb' : sk_buff) : Prop :=
  sk'.ctl_state = sk.ctl_state ∧ sk'.sk_write_queue[i]? = some skb' ∧
    skb'.addr = skb.addr ∧ skb'.cb.seq = skb.cb.seq ∧
    (sk.mpc = false → after skb'.cb.end_seq (add32 sk.snd_una sk.snd_wnd) = false) ∧
    (skb_wf skb → skb'.len ≤ mss ∧ skb_wf skb' ∧
      (skb.len ≤ mss → skb'.len = skb.len ∧
        sk'.sk_write_queue = sk.sk_write_queue.set i skb') ∧
      (mss < skb.len → skb'.len = mss ∧
        ∃ tail, sk'.sk_write_queue = queue_split sk.sk_write_queue i skb' tail ∧
          tail.len = skb.len - mss ∧ tail.cb.seq = skb'.cb.end_seq ∧
          tail.cb.end_seq = skb.cb.end_seq ∧ skb_wf tail))

/-- A lone unsent segment of 2500 bytes of paged data covering `[1000, 3500)`. -/
def skb_long : sk_buff :=
  { skb_zero with
      addr := 2, len := 2500, data_len := 2500, truesize := 3000,
      frags := [{ page_offset := 0, size := 2500 }],
      cb := { cb_zero with
        seq := 1000, end_seq := 3500, data_seq := 5000, end_data_seq := 7500,
        sub_seq := 1000, data_len := 2500, flags := TCPCB_FLAG_ACK } }

/-- A single-path connection with a window of 10 segments and nothing in flight
whose write queue holds the one segment `skb_long`. -/
def tp_long : tcp_sock :=
  { tp_zero with
      snd_una := 1000, snd_nxt := 1000, snd_wnd := 65535, write_seq := 3500, snd_up := 1000,
      snd_sml := 1000, snd_cwnd := 10, snd_ssthresh := 20, sk_wmem_queued := 3000,
      mss_cache := 1000, sk_send_head := some 2, sk_write_queue := [skb_long] }

/-- The environment `env_plain` in round `n` of a loop, where the allocator hands out
a buffer at a new address. -/
def env_round (n : Nat) : env := { env_plain with alloc := some (10 + n, 300) }

/-! ## The initial window -/

/-- Modelled from the spec: `MAX_TCP_WINDOW` of `include/net/tcp.h`. -/
def MAX_TCP_WINDOW : Nat := 32767

/-- The loop of `tcp_select_initial_window` that chooses the window scale: `space` is
halved and the scale raised while `space` is above 65535 and the scale below
14. One unit of fuel is used for each round; 14 rounds always suffice. -/
def wscale_loop : Nat → Nat → Nat → Nat × Nat
  | 0, space, rcv_wscale => (space, rcv_wscale)
  | fuel + 1, space, rcv_wscale =>
    if space > 65535 ∧ rcv_wscale < 14 then wscale_loop fuel (space / 2) (rcv_wscale + 1)
    else (space, rcv_wscale)

/-- The number of segments of the initial window `tcp_select_initial_window` allows
for an MSS (RFC 2414). -/
def initial_window_cwnd (mss : Nat) : Nat :=
  if mss > 1460 * 3 then 2 else if mss > 1460 then 3 else 4

/-- The clamp `tcp_select_initial_window` works with: the one passed in, or the
largest scaled window, `65535 << 14`, when none is set. -/
def initial_window_clamp (window_clamp : Nat) : Nat :=
  if window_clamp = 0 then 65535 * 2 ^ 14 else window_clamp

/-- The space `tcp_select_initial_window` offers before the checks on the window:
the space given (0 when negative), bounded by the clamp and cut down to a
multiple of `mss` when it is more than one. `none` is the division by a zero
`mss`. -/
def initial_window_space (__space : Int) (mss window_clamp : Nat) : Option Nat :=
  let space : Nat := if __space < 0 then 0 else u32 __space
  let space := min (initial_window_clamp window_clamp) space
  if space > mss then
    if mss = 0 then none else some ((space / mss) * mss)
  else some space

/-- The window scale `tcp_select_initial_window` chooses: 0 without window scaling,
otherwise what the loop makes of the largest window, the larger of
`sysctl_tcp_rmem[2]` and `sysctl_rmem_max` bounded by the clamp. -/
def initial_window_wscale (sysctl_tcp_rmem_2 : Int) (sysctl_rmem_max window_clamp : Nat)
    (wscale_ok : Bool) : Nat :=
  if wscale_ok then
    (wscale_loop 14 (min (max (u32 sysctl_tcp_rmem_2) (sysctl_rmem_max % 4294967296))
      (initial_window_clamp window_clamp)) 0).2
  else 0

/-- The bound of RFC 2414 that `tcp_select_initial_window` puts on its window when
`mss` is more than `1 << rcv_wscale`; the product is computed in 32 bits. -/
def initial_window_cap (mss rcv_wscale rcv_wnd : Nat) : Nat :=
  if mss > 2 ^ rcv_wscale then
    if rcv_wnd > (initial_window_cwnd mss * mss) % 4294967296 then
      (initial_window_cwnd mss * mss) % 4294967296
    else rcv_wnd
  else rcv_wnd

/-- `tcp_select_initial_window`: the window and window scale to offer at the start
of a connection. The three sysctl values are parameters; `sysctl_tcp_rmem_2` is
`sysctl_tcp_rmem[2]`. The result is `rcv_wnd`, `window_clamp` and `rcv_wscale`
as the function leaves them; `none` is the division by a zero `mss`. -/
def tcp_select_initial_window (sysctl_tcp_workaround_signed_windows : Bool)
    (sysctl_tcp_rmem_2 : Int) (sysctl_rmem_max : Nat) (__space : Int) (mss : Nat)
    (window_clamp : Nat) (wscale_ok : Bool) : Option (Nat × Nat × Nat) :=
  match initial_window_space __space mss window_clamp with
  | none => none
  | some space =>
    let rcv_wnd : Nat :=
      if sysctl_tcp_workaround_signed_windows then min space MAX_TCP_WINDOW else space
    let rcv_wscale : Nat :=
      initial_window_wscale sysctl_tcp_rmem_2 sysctl_rmem_max window_clamp wscale_ok
    some (initial_window_cap mss rcv_wscale rcv_wnd,
      min ((65535 * 2 ^ rcv_wscale) % 4294967296) (initial_window_clamp window_clamp),
      rcv_wscale)

/-! ## Window probes -/

/-- Modelled from the spec: `TCP_CLOSE` of `include/net/tcp_states.h`. -/
def TCP_CLOSE : Nat := 7

/-- Modelled from the spec: `between` of `include/net/tcp.h`,
`seq3 - seq2 >= seq1 - seq2` in unsigned arithmetic. -/
def between (seq1 seq2 seq3 : Nat) : Bool := decide (sub32 seq3 seq2 ≥ sub32 seq1 seq2)

/-- `tcp_xmit_probe_skb`: send a segment without data whose sequence number is out
of date (`snd_una - 1`, or `snd_una` for the urgent variant). The buffer comes
from the allocator of the environment and is not queued. -/
def tcp_xmit_probe_skb (e : env) (sk : tcp_sock) (urgent : Bool) : Option (Int × tcp_sock) :=
  match e.alloc with
  | none => some (-1, sk)
  | some a =>
    let skb := tcp_init_nondata_skb (sk_stream_alloc_skb a 0)
      (sub32 sk.snd_una (if urgent then 0 else 1)) TCPCB_FLAG_ACK
    let skb := { skb with cb := { skb.cb with when := e.tcp_time_stamp } }
    (tcp_transmit_skb e sk skb false).map (fun r => (r.1, r.2.1))

/-- What `tcp_write_wakeup` decides for a send head that starts inside the send
window: to cut it at `seg_size` with `tcp_fragment`, or to send it whole. -/
inductive wakeup_plan where
  | cut (sk : tcp_sock) (i : Nat) (seg_size mss : Nat)
  | keep (sk : tcp_sock) (i : Nat) (mss : Nat)
deriving DecidableEq, Repr

/-- The first part of the data branch of `tcp_write_wakeup`, for the send head `skb`
at position `i`: the MSS, the room `seg_size` left in the send window, the
update of `pushed_seq`, and the decision whether to cut. On a cut the PSH flag
is set on the buffer before `tcp_fragment` runs; a buffer kept whole gets its
segment count if it has none. `none` is an abort. -/
def write_wakeup_plan (e : env) (sk : tcp_sock) (i : Nat) (skb : sk_buff) :
    Option wakeup_plan :=
  match tcp_current_mss e sk false with
  | none => none
  | some (mss, sk) =>
    match tcp_wnd_end sk sk.mpc with
    | none => none
    | some wnd_end =>
      let seg_size := sub32 wnd_end (if sk.mpc then skb.cb.data_seq else skb.cb.seq)
      let sk :=
        if before sk.pushed_seq skb.cb.end_seq then { sk with pushed_seq := skb.cb.end_seq }
        else sk
      if seg_size < sub32 skb.cb.end_seq skb.cb.seq ∨ skb.len > mss then
        let skb := { skb with cb := { skb.cb with flags := skb.cb.flags ||| TCPCB_FLAG_PSH } }
        some (.cut { sk with sk_write_queue := sk.sk_write_queue.set i skb } i
          (min seg_size mss) mss)
      else if tcp_skb_pcount skb = 0 then
        match tcp_set_skb_tso_segs sk skb mss with
        | none => none
        | some skb => some (.keep { sk with sk_write_queue := sk.sk_write_queue.set i skb } i mss)
      else some (.keep sk i mss)

/-- The data branch of `tcp_write_wakeup` up to the transmission: either the early
return on a failed cut, or the connection and the buffer handed to
`tcp_transmit_skb`, with the MSS in use. -/
inductive wakeup_ready where
  | failed (sk : tcp_sock)
  | ready (sk : tcp_sock) (skb : sk_buff) (mss : Nat)
deriving DecidableEq, Repr

/-- The last step before the transmission in `tcp_write_wakeup`: the buffer at
position `i` gets the PSH flag and the time stamp. -/
def write_wakeup_stamp (e : env) (sk : tcp_sock) (i : Nat) (mss : Nat) : Option wakeup_ready :=
  match sk.sk_write_queue[i]? with
  | none => none
  | some skb =>
    let skb := { skb with cb := { skb.cb with flags := skb.cb.flags ||| TCPCB_FLAG_PSH,
                                              when := e.tcp_time_stamp } }
    some (.ready { sk with sk_write_queue := sk.sk_write_queue.set i skb } skb mss)

/-- The data branch of `tcp_write_wakeup` up to the transmission, for the send head
`skb` at position `i`: plan, cut with `tcp_fragment` if planned, stamp. -/
def write_wakeup_prepare (e : env) (sk : tcp_sock) (i : Nat) (skb : sk_buff) :
    Option wakeup_ready :=
  match write_wakeup_plan e sk i skb with
  | none => none
  | some (.keep sk i mss) => write_wakeup_stamp e sk i mss
  | some (.cut sk i seg_size mss) =>
    match tcp_fragment e.CONFIG_MTCP e.expand_ok e.alloc e.highest_sack_seq sk i seg_size mss with
    | none => none
    | some (r, sk) => if r ≠ 0 then some (.failed sk) else write_wakeup_stamp e sk i mss

/-- The send head `tcp_write_wakeup` works on, when there is one and it starts before
the end of the send window: its position and the buffer. `some none` is the
case of no such send head, `none` an abort (a dangling send head, or a null
`mpcb` followed). -/
def write_wakeup_head (sk : tcp_sock) : Option (Option (Nat × sk_buff)) :=
  match sk.sk_send_head with
  | none => some none
  | some a =>
    match skb_index sk.sk_write_queue a with
    | none => none
    | some i =>
      match sk.sk_write_queue[i]?, tcp_wnd_end sk sk.mpc with
      | some skb, some wnd_end =>
        if before (if sk.mpc then skb.cb.data_seq else skb.cb.seq) wnd_end then
          some (some (i, skb))
        else some none
      | _, _ => none

/-- `tcp_write_wakeup`: probe the window of the peer. A send head that starts inside
the send window is sent, cut down to what the window and the MSS allow;
otherwise a segment with an out-of-date sequence number is sent (two in urgent
mode). The result is the return code and the connection afterwards; `none` is
an abort. -/
def tcp_write_wakeup (e : env) (sk : tcp_sock) : Option (Int × tcp_sock) :=
  if sk.sk_state = TCP_CLOSE then some (-1, sk)
  else
    match write_wakeup_head sk with
    | none => none
    | some (some (i, skb)) =>
      match write_wakeup_prepare e sk i skb with
      | none => none
      | some (.failed sk) => some (-1, sk)
      | some (.ready sk skb _) =>
        match tcp_transmit_skb e sk skb true with
        | none => none
        | some (err, sk, skb) =>
          let sk := { sk with sk_write_queue := sk.sk_write_queue.set i skb }
          if err = 0 then (tcp_event_new_data_sent sk i).map (fun sk => (err, sk))
          else some (err, sk)
    | some none =>
      if between sk.snd_up (add32 sk.snd_una 1) (add32 sk.snd_una 0xFFFF) then
        match tcp_xmit_probe_skb e sk true with
        | none => none
        | some (_, sk) => tcp_xmit_probe_skb e sk false
      else tcp_xmit_probe_skb e sk false

/-- The connection `tp_long` when the peer's window leaves room for 600 bytes. -/
def tp_probe : tcp_sock := { tp_long with snd_wnd := 600 }

/-! ## Packet accounting -/

/-- The position of the send head in the write queue, the length of the queue when
there is no send head: the number of queued buffers that have been sent. `none`
is a send head that is not queued. -/
def send_head_index (sk : tcp_sock) : Option Nat :=
  match sk.sk_send_head with
  | none => some sk.sk_write_queue.length
  | some a => skb_index sk.sk_write_queue a

/-- The sum of the segment counts of a list of buffers. -/
def pcount_sum (q : List sk_buff) : Nat := (q.map tcp_skb_pcount).sum

/-- The sum of the segment counts of the sent buffers of the write queue, those in
front of the send head. -/
def sent_pcount (sk : tcp_sock) : Option Nat :=
  (send_head_index sk).map (fun k => pcount_sum (sk.sk_write_queue.take k))

/-- The accounting invariant of `packets_out`: as a 32-bit counter it equals the sum
of the segment counts of the sent buffers of the write queue (acknowledged
buffers have left the queue). -/
def packets_out_ok (sk : tcp_sock) : Prop :=
  ∃ n, sent_pcount sk = some n ∧ sk.packets_out = n % 4294967296

instance packets_out_ok_decidable (sk : tcp_sock) : Decidable (packets_out_ok sk) :=
  match h : sent_pcount sk with
  | none => isFalse (by
      rintro ⟨n, hn, -⟩
      rw [h] at hn
      cases hn)
  | some n =>
    if hp : sk.packets_out = n % 4294967296 then isTrue ⟨n, h, hp⟩
    else isFalse (by
      rintro ⟨m, hm, hpm⟩
      rw [h] at hm
      cases hm
      exact hp hpm)

/-- The segment `skb_paged` after it was sent as three segments of 1000 bytes. -/
def skb_tso : sk_buff := { skb_paged with gso_segs := 3, gso_size := 1000 }

/-- A single-path connection whose one queued buffer, `skb_tso`, was sent as three
segments and has its first 1500 bytes acknowledged. -/
def tp_tso : tcp_sock :=
  { tp_zero with
      snd_una := 2500, snd_nxt := 4000, snd_wnd := 65535, write_seq := 4000, snd_up := 2500,
      snd_cwnd := 10, snd_ssthresh := 20, packets_out := 3, sk_wmem_queued := 3400,
      sk_sndbuf := 100000, mss_cache := 1000, sk_can_gso := true,
      sk_write_queue := [skb_tso] }

/-- An unsent buffer of 2500 bytes covering `[1000, 3500)`: 500 bytes of linear data
followed by 2000 bytes in one page fragment. -/
def skb_mixed : sk_buff :=
  { skb_zero with
      addr := 2, len := 2500, data_len := 2000, bufsize := 500, truesize := 3000,
      frags := [{ page_offset := 0, size := 2000 }], ip_summed := CHECKSUM_PARTIAL,
      cb := { cb_zero with
        seq := 1000, end_seq := 3500, data_seq := 5000, end_data_seq := 7500,
        sub_seq := 1000, data_len := 2500, flags := TCPCB_FLAG_ACK } }

/-- An unsent linear buffer of 1500 bytes covering `[3500, 5000)`. -/
def skb_behind : sk_buff :=
  { skb_zero with
      addr := 3, len := 1500, bufsize := 1500, truesize := 1800,
      ip_summed := CHECKSUM_PARTIAL,
      cb := { cb_zero with
        seq := 3500, end_seq := 5000, data_seq := 7500, end_data_seq := 9000,
        sub_seq := 3500, data_len := 1500, flags := TCPCB_FLAG_ACK } }

/-- A single-path connection ready for a path-MTU probe of 2000 bytes (a cached MSS
of 1000, a window of 20 segments, nothing in flight) with `skb_mixed` and
`skb_behind` waiting to be sent. -/
def tp_mtu : tcp_sock :=
  { tp_zero with
      snd_una := 1000, snd_nxt := 1000, snd_wnd := 65535, write_seq := 5000, snd_up := 1000,
      snd_cwnd := 20, snd_ssthresh := 40, reordering := 1, sk_wmem_queued := 4800,
      mss_cache := 1000, tcp_header_len := 20, rx_opt_mss_clamp := 4000,
      icsk_mtup_enabled := true, icsk_mtup_search_high := 3000, icsk_mtup_search_low := 1040,
      sk_send_head := some 2, sk_write_queue := [skb_mixed, skb_behind] }

/-- A multipath connection as `tcp_push_one` sees it from the meta socket: the meta
socket `sk` itself, the subflow sockets, and the fields `noneligible` and
`cnt_subflows` of the `multipath_pcb`. A subflow is named by its position in
`subs`. The reinjection queue is taken to be empty. -/
structure mtcp_conn where
  meta : tcp_sock
  subs : List tcp_sock
  noneligible : Nat
  cnt_subflows : Nat
deriving DecidableEq, Repr

/-- Modelled from the spec: `mtcp_skb_entail`, which is not in src: the buffer is put
at the tail of the subflow's write queue with the subflow's next sequence
numbers, becomes the send head if there is none, and is charged to the
subflow; `write_seq` moves on by its length (what the undo in `tcp_push_one`
takes back). Returns the subflow and the buffer as queued. -/
def mtcp_skb_entail (subsk : tcp_sock) (subskb : sk_buff) : tcp_sock × sk_buff :=
  let skb := { subskb with cb := { subskb.cb with
    seq := subsk.write_seq, end_seq := add32 subsk.write_seq subskb.len,
    sub_seq := subsk.write_seq } }
  ({ subsk with
      sk_write_queue := subsk.sk_write_queue ++ [skb],
      sk_send_head := if subsk.sk_send_head.isNone then some skb.addr else subsk.sk_send_head,
      write_seq := add32 subsk.write_seq subskb.len,
      sk_wmem_queued := subsk.sk_wmem_queued + skb.truesize }, skb)

/-- What `tcp_push_one` does after a failed send on the subflow at position `j`,
whose socket is `subsk` and which holds the buffer `subskb` at position `k` of
its queue: the buffer is taken off the subflow's queue and freed
(`mtcp_wmem_free_skb`, which is not in src, is taken to act like
`sk_wmem_free_skb`), `subtp->write_seq` is lowered by its length, and after a
positive result with more than one subflow the flag of `subtp->path_index` is
set in `noneligible` and the function starts again (second component true).
`PI_TO_FLAG` is the macro of that name, which is not in src.

In `tcp_push_one` the statement `subtp=tp;` follows the `else` without braces
and so runs on every path: `subtp` is the meta socket here. -/
def push_one_undo (PI_TO_FLAG : Nat → Nat) (c : mtcp_conn) (j : Nat) (subsk : tcp_sock)
    (k : Nat) (subskb : sk_buff) (err : Int) : mtcp_conn × Bool :=
  let subsk := { subsk with sk_send_head := skb_at subsk.sk_write_queue (k + 1) }
  let subsk := { subsk with sk_write_queue := subsk.sk_write_queue.eraseIdx k }
  let subtp := c.meta
  let tp := { subtp with write_seq := sub32 subtp.write_seq subskb.len }
  let subsk := sk_wmem_free_skb subsk subskb
  let c := { c with meta := tp, subs := c.subs.set j subsk }
  if err > 0 ∧ c.cnt_subflows > 1 then
    ({ c with noneligible := c.noneligible ||| PI_TO_FLAG subtp.path_index }, true)
  else (c, false)

/-- How one pass of `tcp_push_one` from the label `again` ends: at the label `out`,
with a jump back to `again`, in an abort (`BUG`, or an abort of a function
called), or with a sent FIN, after which `tcp_send_fin` runs on the other
subflows, which is outside this model. -/
inductive push_step where
  | out (c : mtcp_conn)
  | again (c : mtcp_conn)
  | abort
  | fin_sent (c : mtcp_conn)
deriving DecidableEq, Repr

/-- The part of one pass of `tcp_push_one` from the transmission on: the buffer
`subskb`, queued at position `k` of the subflow at position `j`, is stamped and
handed to `tcp_transmit_skb`; on success the send head of the subflow and of
the meta socket (position `i` of its queue) advance, on failure the insertion
is undone. -/
def push_one_send (e : env) (PI_TO_FLAG : Nat → Nat) (c : mtcp_conn) (i j : Nat)
    (subsk : tcp_sock) (k : Nat) (subskb : sk_buff) : push_step :=
  let subskb := { subskb with cb := { subskb.cb with when := e.tcp_time_stamp } }
  let subsk := { subsk with sk_write_queue := subsk.sk_write_queue.set k subskb }
  match tcp_transmit_skb e subsk subskb true with
  | none => .abort
  | some (err, subsk, subskb) =>
    let subsk := { subsk with sk_write_queue := subsk.sk_write_queue.set k subskb }
    if err = 0 then
      if tst subskb.cb.flags TCPCB_FLAG_FIN then .fin_sent { c with subs := c.subs.set j subsk }
      else
        match tcp_event_new_data_sent subsk k with
        | none => .abort
        | some subsk =>
          if subsk.sk_send_head.isSome then .abort
          else
            match tcp_event_new_data_sent c.meta i with
            | none => .abort
            | some tp =>
              .out { c with meta := tp, subs := c.subs.set j (tcp_cwnd_validate e subsk) }
    else
      let r := push_one_undo PI_TO_FLAG c j subsk k subskb err
      if r.2 then .again r.1 else .out r.1

/-- One pass of `tcp_push_one` from the label `again`, on the meta socket of a
multipath connection with an empty reinjection queue. `get_available_subflow`,
the scheduler, is not in src and is a parameter: it names the subflow to use,
or none. `mtcp_next_segment` is taken to return the send head of the meta
socket. The clone of the buffer gets its address from the allocator of the
environment; `path_mask` is not modelled. -/
def push_one_pass (e : env) (PI_TO_FLAG : Nat → Nat)
    (get_available_subflow : mtcp_conn → sk_buff → Option Nat) (mss_now : Nat)
    (c : mtcp_conn) : push_step :=
  match c.meta.sk_send_head.bind (skb_index c.meta.sk_write_queue) with
  | none => .abort
  | some i =>
    match c.meta.sk_write_queue[i]? with
    | none => .abort
    | some skb =>
      match get_available_subflow c skb with
      | none => .out c
      | some j =>
        match c.subs[j]? with
        | none => .abort
        | some subsk =>
          if skb.len < mss_now then .abort
          else
            match tcp_init_tso_segs c.meta skb mss_now with
            | none => .abort
            | some (skb, tso_segs) =>
              let c := { c with meta :=
                { c.meta with sk_write_queue := c.meta.sk_write_queue.set i skb } }
              match tcp_snd_test subsk skb mss_now TCP_NAGLE_PUSH with
              | none => .abort
              | some cwnd_quota =>
                if cwnd_quota = 0 then .out c
                else if tso_segs = 0 ∨ (c.meta.mpc = true ∧ tso_segs ≠ 1) ∨
                    (c.meta.mpc = true ∧ skb.len > mss_now) then .abort
                else
                  let cut : Option (Int × tcp_sock) :=
                    if skb.len > mss_now then
                      tso_fragment e.CONFIG_MTCP e.expand_ok e.alloc e.highest_sack_seq c.meta i
                        mss_now mss_now
                    else some (0, c.meta)
                  match cut with
                  | none => .abort
                  | some (r, tp) =>
                    let c := { c with meta := tp }
                    if r ≠ 0 then .out c
                    else
                      match tp.sk_write_queue[i]?, e.alloc with
                      | none, _ => .abort
                      | some _, none => .out c
                      | some skb, some a =>
                        if !e.clone_ok then .out c
                        else if subsk.sk_send_head.isSome then .abort
                        else
                          let skb := { skb with cloned := true }
                          let c := { c with meta :=
                            { tp with sk_write_queue := tp.sk_write_queue.set i skb } }
                          let r := mtcp_skb_entail subsk { skb with addr := a.1 }
                          push_one_send e PI_TO_FLAG c i j r.1 (r.1.sk_write_queue.length - 1) r.2

/-- How `tcp_push_one` ends. -/
inductive push_end where
  | returned
  | aborted
  | fin_sent
  | out_of_fuel
deriving DecidableEq, Repr

/-- The outcome of `tcp_push_one`: the connection after each pass that jumped back to
`again`, the connection at the end, and how the function ended. -/
structure push_result where
  retries : List mtcp_conn
  conn : mtcp_conn
  ending : push_end
deriving DecidableEq, Repr

/-- `tcp_push_one` on the meta socket of a multipath connection: passes from the
label `again` until one reaches `out`, where `noneligible` is cleared. The
environment of pass `n` is `e n`; one unit of fuel is used for each pass. -/
def tcp_push_one (e : Nat → env) (PI_TO_FLAG : Nat → Nat)
    (get_available_subflow : mtcp_conn → sk_buff → Option Nat) (mss_now : Nat) :
    Nat → Nat → mtcp_conn → push_result
  | 0, _, c => { retries := [], conn := c, ending := .out_of_fuel }
  | fuel + 1, n, c =>
    match push_one_pass (e n) PI_TO_FLAG get_available_subflow mss_now c with
    | .abort => { retries := [], conn := c, ending := .aborted }
    | .fin_sent c => { retries := [], conn := c, ending := .fin_sent }
    | .out c => { retries := [], conn := { c with noneligible := 0 }, ending := .returned }
    | .again c =>
      let r := tcp_push_one e PI_TO_FLAG get_available_subflow mss_now fuel (n + 1) c
      { r with retries := c :: r.retries }

/-- Modelled from the spec: the scheduler `get_available_subflow`, which is not in
src, as the first subflow that is not marked in `noneligible` and whose
congestion window has room. -/
def first_eligible_subflow (PI_TO_FLAG : Nat → Nat) (c : mtcp_conn) (_skb : sk_buff) :
    Option Nat :=
  (List.range c.subs.length).find? (fun j =>
    match c.subs[j]? with
    | none => false
    | some s =>
      !tst c.noneligible (PI_TO_FLAG s.path_index) &&
        decide (tcp_packets_in_flight s < s.snd_cwnd))

/-- Modelled from the spec: the macro `PI_TO_FLAG`, which is not in src, as the bit
`1 << (pi - 1)` for a path index of at least 1 and no bit for the path index 0
of a socket that is on no path. -/
def PI_TO_FLAG (pi : Nat) : Nat := if pi = 0 then 0 else 2 ^ (pi - 1)

/-- The connection a pass of `tcp_push_one` jumps back to `again` with, if it does. -/
def push_step.retry : push_step → Option mtcp_conn
  | .again c => some c
  | _ => none

/-- An unsent buffer of 1400 bytes on the meta socket, covering the data sequence
numbers `[5000, 6400)`. -/
def skb_meta : sk_buff :=
  { skb_zero with
      addr := 2, len := 1400, bufsize := 1500, truesize := 1700,
      cb := { cb_zero with
        seq := 5000, end_seq := 6400, data_seq := 5000, end_data_seq := 6400,
        data_len := 1400, flags := TCPCB_FLAG_ACK } }

/-- A subflow with path index `pi` whose next sequence number is `seq`, with an empty
queue, a window of 10 segments and nothing in flight. -/
def tp_subflow (pi seq : Nat) : tcp_sock :=
  { tp_zero with
      snd_una := seq, snd_nxt := seq, snd_wnd := 65535, write_seq := seq, snd_up := seq,
      snd_cwnd := 10, snd_ssthresh := 20, mss_cache := 1400, mpc := true, path_index := pi,
      mpcb := some { tp_snd_una := 5000, tp_snd_wnd := 65535, tp_write_seq := 6400,
                     tp_snd_nxt := 5000, tp_snd_up := 5000 } }

/-- A multipath connection with two subflows, of path index 1 and 2, and one unsent
buffer, `skb_meta`, on the meta socket. -/
def conn_two : mtcp_conn :=
  { meta :=
      { tp_zero with
          snd_una := 5000, snd_nxt := 5000, snd_wnd := 65535, write_seq := 6400,
          snd_up := 5000, snd_cwnd := 10, mpc := true, is_meta := true, path_index := 0,
          sk_wmem_queued := 1700, sk_send_head := some 2, sk_write_queue := [skb_meta] },
    subs := [tp_subflow 1 1000, tp_subflow 2 3000],
    noneligible := 0, cnt_subflows := 2 }

/-- The environment `env_plain` when the queue below IP drops the packet
(`NET_XMIT_DROP`). -/
def env_drop : env := { env_plain with queue_xmit := 1 }

/-- The part of `tcp_retransmit_skb` before the transmission: the checks, and the
trimming, cutting, merging and FIN stripping of the buffer at position `i`. -/
def retransmit_prepare (e : env) (sk : tcp_sock) (i : Nat) : Option (Int × tcp_sock) :=
  if sk.sk_write_queue[i]?.isNone then none
  else
  and_then (retransmit_enter e sk) fun sk =>
  and_then (retransmit_trim e sk i) fun sk =>
  if e.rebuild_header ≠ 0 then some (-EHOSTUNREACH, sk)
  else
    match retransmit_mss e sk with
    | none => none
    | some (cur_mss, sk) =>
      and_then (retransmit_window sk i) fun sk =>
      and_then (retransmit_fragment e cur_mss sk i) fun sk =>
      and_then (retransmit_collapse e cur_mss sk i) fun sk =>
      retransmit_strip_fin e sk i

/-! ## Theorems: admission control -/

theorem after_iff (a b : Nat) :
    after a b = true ↔ 2147483648 ≤ ((b : Int) - a) % 4294967296 := by
  simp only [after, before, sub32, decide_eq_true_eq]
  omega

theorem after_false_iff (a b : Nat) :
    after a b = false ↔ ((b : Int) - a) % 4294967296 < 2147483648 := by
  rw [← Bool.not_eq_true, after_iff]
  omega

/-- C1, as the code has it: a segment with FIN and segment count 1 gets the quota 1
whether or not it carries payload, and the meta connection is not tested at all. -/
theorem tcp_cwnd_test_fin_with_payload :
    (¬ (tst skb_fin_data.cb.flags TCPCB_FLAG_FIN = true ∧ skb_fin_data.len = 0 ∧
        tcp_skb_pcount skb_fin_data = 1)) ∧
    tcp_cwnd_test { tp_zero with snd_cwnd := 10 } skb_fin_data = some 1 ∧
    max 0 (((10 : Nat) : Int) - tcp_packets_in_flight { tp_zero with snd_cwnd := 10 }) = 10 ∧
    tcp_cwnd_test { tp_zero with snd_cwnd := 10, is_meta := true } skb_data = none := by
  decide

/-- C1 (amended): on a connection that is not the multipath meta connection,
`tcp_cwnd_test` returns `max(0, snd_cwnd - packets_in_flight)` for every segment
other than one with FIN set and segment count 1, and returns the quota 1 for a
segment with FIN set and segment count 1 whatever the window, the in-flight
count and its payload are. -/
theorem tcp_cwnd_test_quota (tp : tcp_sock) (skb : sk_buff) (hmeta : is_meta_tp tp = false) :
    (¬ (tst skb.cb.flags TCPCB_FLAG_FIN = true ∧ tcp_skb_pcount skb = 1) →
      ∃ q : Nat, tcp_cwnd_test tp skb = some q ∧
        (q : Int) = max 0 ((tp.snd_cwnd : Int) - tcp_packets_in_flight tp)) ∧
    (tst skb.cb.flags TCPCB_FLAG_FIN = true ∧ tcp_skb_pcount skb = 1 →
      tcp_cwnd_test tp skb = some 1) := by
  constructor
  · intro h
    have h' : (tst skb.cb.flags TCPCB_FLAG_FIN && decide (tcp_skb_pcount skb = 1)) = false := by
      cases hf : tst skb.cb.flags TCPCB_FLAG_FIN
      · simp
      · simp only [Bool.true_and, decide_eq_false_iff_not]
        exact fun hp => h ⟨hf, hp⟩
    simp only [tcp_cwnd_test, hmeta, h', Bool.false_eq_true, if_false]
    by_cases hlt : tcp_packets_in_flight tp < tp.snd_cwnd
    · refine ⟨tp.snd_cwnd - tcp_packets_in_flight tp, by simp [hlt], ?_⟩
      omega
    · refine ⟨0, by simp [hlt], ?_⟩
      omega
  · rintro ⟨hf, hp⟩
    simp [tcp_cwnd_test, hmeta, hf, hp]

theorem tcp_cwnd_test_quota_witness :
    tcp_cwnd_test { tp_zero with snd_cwnd := 10, packets_out := 4 } skb_fin_data = some 1 ∧
    ∃ q : Nat, tcp_cwnd_test { tp_zero with snd_cwnd := 10, packets_out := 4 } skb_data = some q ∧
      (q : Int) = max 0 (((10 : Nat) : Int) -
        tcp_packets_in_flight { tp_zero with snd_cwnd := 10, packets_out := 4 }) :=
  ⟨(tcp_cwnd_test_quota { tp_zero with snd_cwnd := 10, packets_out := 4 } skb_fin_data rfl).2
      (by decide),
   (tcp_cwnd_test_quota { tp_zero with snd_cwnd := 10, packets_out := 4 } skb_data rfl).1
      (by decide)⟩

/-- C2, as the code has it: with 10 segments in flight the test fails at window 5
and still fails at the larger window 6. -/
theorem tcp_cwnd_test_larger_window_fails :
    tcp_cwnd_test { tp_zero with packets_out := 10, snd_cwnd := 5 } skb_data = some 0 ∧
    (5 : Nat) < 6 ∧
    tcp_cwnd_test { tp_zero with packets_out := 10, snd_cwnd := 6 } skb_data = some 0 := by
  decide

/-- C2 (amended): the quota of `tcp_cwnd_test` never decreases when the congestion
window grows with all else unchanged, so a segment that passes at `W` passes at
every `W' > W`; a segment that fails at `W` passes at a window `W' > W` exactly
when `W'` exceeds the number of packets in flight. -/
theorem tcp_cwnd_test_monotone (tp : tcp_sock) (skb : sk_buff) (W W' q : Nat)
    (hq : tcp_cwnd_test { tp with snd_cwnd := W } skb = some q) (hW : W < W') :
    ∃ q', tcp_cwnd_test { tp with snd_cwnd := W' } skb = some q' ∧ q ≤ q' ∧
      (q = 0 → (q' ≠ 0 ↔ tcp_packets_in_flight tp < W')) := by
  have hfl : ∀ w, tcp_packets_in_flight { tp with snd_cwnd := w } = tcp_packets_in_flight tp :=
    fun _ => rfl
  simp only [tcp_cwnd_test, is_meta_tp, hfl] at hq ⊢
  cases hm : tp.is_meta
  · cases hf : (tst skb.cb.flags TCPCB_FLAG_FIN && decide (tcp_skb_pcount skb = 1))
    · simp only [hm, hf, Bool.false_eq_true, if_false] at hq ⊢
      by_cases hlt' : tcp_packets_in_flight tp < W'
      · refine ⟨W' - tcp_packets_in_flight tp, by simp only [hlt', if_true], ?_, ?_⟩
        · by_cases hlt : tcp_packets_in_flight tp < W
          · simp only [hlt, if_true, Option.some.injEq] at hq; omega
          · simp only [hlt, if_false, Option.some.injEq] at hq; omega
        · intro _; simp only [hlt', iff_true]; omega
      · refine ⟨0, by simp only [hlt', if_false], ?_, ?_⟩
        · have hlt : ¬ tcp_packets_in_flight tp < W := by omega
          simp only [hlt, if_false, Option.some.injEq] at hq
          omega
        · intro _; simp [hlt']
    · simp only [hm, hf, Bool.false_eq_true, if_true, if_false, Option.some.injEq] at hq ⊢
      subst hq
      exact ⟨1, rfl, le_refl _, by simp⟩
  · simp [hm] at hq

theorem tcp_cwnd_test_monotone_witness :
    ∃ q', tcp_cwnd_test { ({ tp_zero with packets_out := 10 } : tcp_sock) with snd_cwnd := 11 }
        skb_data = some q' ∧ 0 ≤ q' ∧
      ((0 : Nat) = 0 → (q' ≠ 0 ↔
        tcp_packets_in_flight ({ tp_zero with packets_out := 10 } : tcp_sock) < 11)) :=
  tcp_cwnd_test_monotone { tp_zero with packets_out := 10 } skb_data 5 11 0 (by decide)
    (by decide)

/-- C3: `tcp_snd_wnd_test` passes exactly when the tested end is not after
`snd_una + snd_wnd` in 32-bit serial-number arithmetic (the signed 32-bit
difference window end minus tested end is not negative). On a single path the
tested end is `end_seq` for a segment no longer than `cur_mss` and
`seq + cur_mss` for a longer one, against the connection's own window; when
multipath is active it is `end_data_seq`, respectively `data_seq + cur_mss`,
against the window of the connection-level socket. -/
theorem tcp_snd_wnd_test_iff (tp : tcp_sock) (skb : sk_buff) (cur_mss : Nat) :
    (tp.mpc = false →
      ∃ r, tcp_snd_wnd_test tp skb cur_mss = some r ∧
        (r = true ↔
          ((((tp.snd_una + tp.snd_wnd) % 4294967296 : Nat) : Int) -
            ((if skb.len ≤ cur_mss then skb.cb.end_seq
              else (skb.cb.seq + cur_mss) % 4294967296 : Nat) : Int)) % 4294967296
            < 2147483648)) ∧
    (∀ m, tp.mpc = true → tp.mpcb = some m →
      ∃ r, tcp_snd_wnd_test tp skb cur_mss = some r ∧
        (r = true ↔
          ((((m.tp_snd_una + m.tp_snd_wnd) % 4294967296 : Nat) : Int) -
            ((if skb.len ≤ cur_mss then skb.cb.end_data_seq
              else (skb.cb.data_seq + cur_mss) % 4294967296 : Nat) : Int)) % 4294967296
            < 2147483648)) := by
  constructor
  · intro hmpc
    simp only [tcp_snd_wnd_test, tcp_wnd_end, hmpc, Bool.false_eq_true, if_false, add32]
    refine ⟨_, rfl, ?_⟩
    rw [Bool.not_eq_true', after_false_iff]
    by_cases hl : skb.len ≤ cur_mss
    · have hl' : ¬ skb.len > cur_mss := by omega
      simp only [hl, hl', if_true, if_false]
    · have hl' : skb.len > cur_mss := by omega
      simp only [hl, hl', if_true, if_false]
  · intro m hmpc hm
    simp only [tcp_snd_wnd_test, tcp_wnd_end, hmpc, hm, if_true, add32]
    refine ⟨_, rfl, ?_⟩
    rw [Bool.not_eq_true', after_false_iff]
    by_cases hl : skb.len ≤ cur_mss
    · have hl' : ¬ skb.len > cur_mss := by omega
      simp only [hl, hl', if_true, if_false]
    · have hl' : skb.len > cur_mss := by omega
      simp only [hl, hl', if_true, if_false]

theorem tcp_snd_wnd_test_iff_witness :
    (∃ r, tcp_snd_wnd_test { tp_zero with snd_una := 4294967000, snd_wnd := 1000 } skb_data 1460
        = some r ∧
      (r = true ↔
        ((((4294967000 + 1000) % 4294967296 : Nat) : Int) -
          ((if skb_data.len ≤ 1460 then skb_data.cb.end_seq
            else (skb_data.cb.seq + 1460) % 4294967296 : Nat) : Int)) % 4294967296
          < 2147483648)) ∧
    (∃ r, tcp_snd_wnd_test
        { tp_zero with mpc := true, mpcb := some { tp_snd_una := 50, tp_snd_wnd := 20 } }
        { skb_data with cb := { skb_data.cb with data_seq := 60, end_data_seq := 160 } } 30
        = some r ∧
      (r = true ↔
        ((((50 + 20) % 4294967296 : Nat) : Int) -
          ((if skb_data.len ≤ 30 then 160 else (60 + 30) % 4294967296 : Nat) : Int))
            % 4294967296 < 2147483648)) :=
  ⟨(tcp_snd_wnd_test_iff { tp_zero with snd_una := 4294967000, snd_wnd := 1000 } skb_data
      1460).1 rfl,
   (tcp_snd_wnd_test_iff
      { tp_zero with mpc := true, mpcb := some { tp_snd_una := 50, tp_snd_wnd := 20 } }
      { skb_data with cb := { skb_data.cb with data_seq := 60, end_data_seq := 160 } } 30).2
      _ rfl rfl⟩

/-- C4: `tcp_nagle_test` holds a segment back (returns 0) exactly when
`TCP_NAGLE_PUSH` is not set in `nonagle`, the connection is not in urgent mode,
`frto_counter` is not 2, the segment has no FIN, the segment is shorter than
`cur_mss`, and either `TCP_NAGLE_CORK` is set or `nonagle` is 0, packets are out
and a small segment is still unacknowledged (`snd_una < snd_sml <= snd_nxt` in
serial-number arithmetic); in particular every full-sized segment passes. -/
theorem tcp_nagle_test_holds_back_iff (tp : tcp_sock) (skb : sk_buff) (cur_mss nonagle : Nat) :
    (tcp_nagle_test tp skb cur_mss nonagle = false ↔
      (nonagle &&& TCP_NAGLE_PUSH = 0 ∧ tp.snd_una = tp.snd_up ∧ tp.frto_counter ≠ 2 ∧
        skb.cb.flags &&& TCPCB_FLAG_FIN = 0 ∧ skb.len < cur_mss ∧
        (nonagle &&& TCP_NAGLE_CORK ≠ 0 ∨
          (nonagle = 0 ∧ tp.packets_out ≠ 0 ∧
            2147483648 ≤ ((tp.snd_una : Int) - tp.snd_sml) % 4294967296 ∧
            ((tp.snd_nxt : Int) - tp.snd_sml) % 4294967296 < 2147483648)))) ∧
    (cur_mss ≤ skb.len → tcp_nagle_test tp skb cur_mss nonagle = true) := by
  have key : tcp_nagle_test tp skb cur_mss nonagle = false ↔
      (nonagle &&& TCP_NAGLE_PUSH = 0 ∧ tp.snd_una = tp.snd_up ∧ tp.frto_counter ≠ 2 ∧
        skb.cb.flags &&& TCPCB_FLAG_FIN = 0 ∧ skb.len < cur_mss ∧
        (nonagle &&& TCP_NAGLE_CORK ≠ 0 ∨
          (nonagle = 0 ∧ tp.packets_out ≠ 0 ∧
            2147483648 ≤ ((tp.snd_una : Int) - tp.snd_sml) % 4294967296 ∧
            ((tp.snd_nxt : Int) - tp.snd_sml) % 4294967296 < 2147483648))) := by
    rw [← after_iff, ← after_false_iff]
    simp only [tcp_nagle_test, tcp_nagle_check, tcp_urg_mode, tcp_minshall_check, tst]
    by_cases h1 : nonagle &&& TCP_NAGLE_PUSH = 0 <;>
    by_cases h2 : tp.snd_una = tp.snd_up <;>
    by_cases h3 : tp.frto_counter = 2 <;>
    by_cases h4 : skb.cb.flags &&& TCPCB_FLAG_FIN = 0 <;>
    by_cases h5 : skb.len < cur_mss <;>
    by_cases h6 : nonagle &&& TCP_NAGLE_CORK = 0 <;>
    by_cases h7 : nonagle = 0 <;>
    by_cases h8 : tp.packets_out = 0 <;>
    rcases Bool.eq_false_or_eq_true (after tp.snd_sml tp.snd_una) with h9 | h9 <;>
    rcases Bool.eq_false_or_eq_true (after tp.snd_sml tp.snd_nxt) with h10 | h10 <;>
    simp [h1, h2, h3, h4, h5, h6, h7, h8, h9, h10]
  refine ⟨key, fun hfull => ?_⟩
  cases ht : tcp_nagle_test tp skb cur_mss nonagle
  · have := (key.1 ht).2.2.2.2.1
    omega
  · rfl

/-! ## Theorems: fragmentation and coalescing -/

theorem skb_put_some (b b' : sk_buff) (n : Nat) (h : skb_put b n = some b') :
    b' = { b with len := b.len + n } ∧ b.data_len = 0 ∧ skb_headlen b + n ≤ b.bufsize := by
  unfold skb_put at h
  split at h
  · cases h
  · split at h
    · cases h
    · rename_i h1 h2
      simp only [skb_is_nonlinear, decide_eq_true_eq, ne_eq, not_not] at h1
      cases h
      exact ⟨rfl, h1, by omega⟩

theorem skb_trim_cb (s : sk_buff) (len : Nat) :
    (skb_trim s len).cb = s.cb ∧ (skb_trim s len).addr = s.addr := by
  unfold skb_trim
  split
  · split <;> exact ⟨rfl, rfl⟩
  · exact ⟨rfl, rfl⟩

theorem skb_split_cb (s b s' b' : sk_buff) (len : Nat) (h : skb_split s b len = some (s', b')) :
    s'.cb = s.cb ∧ b'.cb = b.cb ∧ s'.addr = s.addr ∧ b'.addr = b.addr := by
  unfold skb_split at h
  simp only at h
  split at h
  · split at h
    · cases h
    · rename_i b1 hb
      obtain ⟨rfl, -, -⟩ := skb_put_some _ _ _ hb
      simp only [Option.some.injEq, Prod.mk.injEq] at h
      obtain ⟨rfl, rfl⟩ := h
      exact ⟨rfl, rfl, rfl, rfl⟩
  · simp only [Option.some.injEq, Prod.mk.injEq] at h
    obtain ⟨rfl, rfl⟩ := h
    exact ⟨rfl, rfl, rfl, rfl⟩

theorem tcp_set_skb_tso_segs_some (sk : tcp_sock) (s s' : sk_buff) (mss : Nat)
    (h : tcp_set_skb_tso_segs sk s mss = some s') :
    s'.cb = s.cb ∧ s'.addr = s.addr ∧ s'.len = s.len ∧ s'.data_len = s.data_len ∧
    s'.bufsize = s.bufsize ∧ s'.cloned = s.cloned ∧ (s.len ≤ mss → s'.gso_segs = 1) := by
  unfold tcp_set_skb_tso_segs at h
  split at h
  · cases h
    exact ⟨rfl, rfl, rfl, rfl, rfl, rfl, fun _ => rfl⟩
  · rename_i hc
    split at h
    · cases h
    · cases h
      refine ⟨rfl, rfl, rfl, rfl, rfl, rfl, fun hl => ?_⟩
      simp [hl] at hc

theorem tso_pair_some (sk : tcp_sock) (a b h t : sk_buff) (mss : Nat)
    (hm : (match tcp_set_skb_tso_segs sk a mss, tcp_set_skb_tso_segs sk b mss with
      | some x, some y => some (x, y)
      | _, _ => none) = some (h, t)) :
    tcp_set_skb_tso_segs sk a mss = some h ∧ tcp_set_skb_tso_segs sk b mss = some t := by
  split at hm
  · rename_i x y hx hy
    simp only [Option.some.injEq, Prod.mk.injEq] at hm
    obtain ⟨rfl, rfl⟩ := hm
    exact ⟨hx, hy⟩
  · cases hm

/-- The control blocks and addresses of the halves `fragment_halves` returns. -/
theorem fragment_halves_cb (cfg : Bool) (sk : tcp_sock) (s b h t : sk_buff) (len mss : Nat)
    (hh : fragment_halves cfg sk s b len mss = some (h, t)) :
    h.addr = s.addr ∧ t.addr = b.addr ∧
    h.cb = (fragment_flags (fragment_seqs cfg s.cb b.cb len).1
              (fragment_seqs cfg s.cb b.cb len).2).1 ∧
    t.cb = { (fragment_flags (fragment_seqs cfg s.cb b.cb len).1
              (fragment_seqs cfg s.cb b.cb len).2).2 with
              sacked := (fragment_flags (fragment_seqs cfg s.cb b.cb len).1
              (fragment_seqs cfg s.cb b.cb len).2).1.sacked, when := s.cb.when } := by
  unfold fragment_halves at hh
  simp only at hh
  split at hh
  · cases hh
  · rename_i h0 t0 hmoved
    obtain ⟨h1, h2⟩ := tso_pair_some _ _ _ _ _ _ hh
    obtain ⟨hcb, haddr, -⟩ := tcp_set_skb_tso_segs_some _ _ _ _ h1
    obtain ⟨tcb, taddr, -⟩ := tcp_set_skb_tso_segs_some _ _ _ _ h2
    rw [hcb, haddr, tcb, taddr]
    split at hmoved
    · split at hmoved
      · cases hmoved
      · rename_i b1 hb
        obtain ⟨rfl, -, -⟩ := skb_put_some _ _ _ hb
        simp only [Option.some.injEq, Prod.mk.injEq] at hmoved
        obtain ⟨rfl, rfl⟩ := hmoved
        simp only [(skb_trim_cb _ _).1, (skb_trim_cb _ _).2]
        simp [fragment_flags, fragment_seqs]
        split <;> rfl
    · obtain ⟨c1, c2, c3, c4⟩ := skb_split_cb _ _ _ _ _ hmoved
      simp only [c1, c2, c3, c4]
      simp [fragment_flags, fragment_seqs]
      split <;> rfl

theorem expanded_head_cb (s : sk_buff) :
    (expanded_head s).cb = s.cb ∧ (expanded_head s).addr = s.addr ∧
    (expanded_head s).len = s.len ∧ (expanded_head s).data_len = s.data_len := by
  unfold expanded_head
  split <;> exact ⟨rfl, rfl, rfl, rfl⟩

theorem tso_pair_total (sk : tcp_sock) (a b : sk_buff) (mss : Nat) (hmss : 0 < mss) :
    ∃ h t, (match tcp_set_skb_tso_segs sk a mss, tcp_set_skb_tso_segs sk b mss with
      | some x, some y => some (x, y)
      | _, _ => none) = some (h, t) := by
  have key : ∀ c : sk_buff, ∃ c', tcp_set_skb_tso_segs sk c mss = some c' := by
    intro c
    unfold tcp_set_skb_tso_segs
    split
    · exact ⟨_, rfl⟩
    · have : ¬ mss = 0 := by omega
      simp only [this, if_false]
      exact ⟨_, rfl⟩
  obtain ⟨h, hh⟩ := key a
  obtain ⟨t, ht⟩ := key b
  exact ⟨h, t, by rw [hh, ht]⟩

theorem skb_put_total (b : sk_buff) (n : Nat) (hd : b.data_len = 0)
    (hn : skb_headlen b + n ≤ b.bufsize) : skb_put b n = some { b with len := b.len + n } := by
  unfold skb_put
  have h1 : skb_is_nonlinear b = false := by simp [skb_is_nonlinear, hd]
  have h2 : ¬ skb_headlen b + n > b.bufsize := by omega
  simp only [h1, h2, Bool.false_eq_true, if_false]

theorem skb_put_ne_none (b : sk_buff) (n : Nat) (hd : b.data_len = 0)
    (hn : skb_headlen b + n ≤ b.bufsize) : skb_put b n ≠ none := by
  rw [skb_put_total b n hd hn]; simp

theorem skb_split_ne_none (s b : sk_buff) (len : Nat) (hd : b.data_len = 0) (hl : b.len = 0)
    (hn : skb_headlen s - len ≤ b.bufsize) : skb_split s b len ≠ none := by
  unfold skb_split
  simp only
  split
  · rw [skb_put_total b _ hd (by simp only [skb_headlen, hl, hd] at hn ⊢; omega)]
    simp
  · simp

/-- `fragment_halves` goes through when the new buffer is empty and has room for
the linear bytes after the cut, and the MSS is positive. -/
theorem fragment_halves_total (cfg : Bool) (sk : tcp_sock) (s b : sk_buff) (len mss : Nat)
    (hd : b.data_len = 0) (hl : b.len = 0) (hn : skb_headlen s - len ≤ b.bufsize)
    (hmss : 0 < mss) : ∃ h t, fragment_halves cfg sk s b len mss = some (h, t) := by
  unfold fragment_halves
  simp only
  split
  · rename_i hmoved
    exfalso
    split at hmoved
    · split at hmoved
      · rename_i hput
        refine absurd hput (skb_put_ne_none _ _ ?_ ?_)
        · exact hd
        · simp only [skb_headlen, hl, hd] at hn ⊢; omega
      · cases hmoved
    · exact absurd hmoved (skb_split_ne_none _ _ _ hd hl hn)
  · exact tso_pair_total _ _ _ _ hmss

/-- The control blocks and addresses of the halves `tso_halves` returns. -/
theorem tso_halves_cb (cfg : Bool) (sk : tcp_sock) (s b h t : sk_buff) (len mss : Nat)
    (hh : tso_halves cfg sk s b len mss = some (h, t)) :
    h.addr = s.addr ∧ t.addr = b.addr ∧
    h.cb = (fragment_flags (fragment_seqs cfg s.cb b.cb len).1
              (fragment_seqs cfg s.cb b.cb len).2).1 ∧
    t.cb = { (fragment_flags (fragment_seqs cfg s.cb b.cb len).1
              (fragment_seqs cfg s.cb b.cb len).2).2 with sacked := 0 } := by
  unfold tso_halves at hh
  simp only at hh
  split at hh
  · cases hh
  · rename_i h0 t0 hsplit
    obtain ⟨h1, h2⟩ := tso_pair_some _ _ _ _ _ _ hh
    obtain ⟨hcb, haddr, -⟩ := tcp_set_skb_tso_segs_some _ _ _ _ h1
    obtain ⟨tcb, taddr, -⟩ := tcp_set_skb_tso_segs_some _ _ _ _ h2
    obtain ⟨c1, c2, c3, c4⟩ := skb_split_cb _ _ _ _ _ hsplit
    rw [hcb, haddr, tcb, taddr, c1, c2, c3, c4]
    exact ⟨rfl, rfl, rfl, rfl⟩

theorem tso_halves_total (cfg : Bool) (sk : tcp_sock) (s b : sk_buff) (len mss : Nat)
    (hd : b.data_len = 0) (hl : b.len = 0) (hs : s.len = s.data_len)
    (hmss : 0 < mss) : ∃ h t, tso_halves cfg sk s b len mss = some (h, t) := by
  unfold tso_halves
  simp only
  split
  · rename_i hsplit
    refine absurd hsplit (skb_split_ne_none _ _ _ hd hl ?_)
    simp only [skb_headlen, hs]
    omega
  · exact tso_pair_total _ _ _ _ hmss

theorem tcp_adjust_fackets_out_queue (tp : tcp_sock) (hs : Nat) (a : sk_buff) (d : Int) :
    (tcp_adjust_fackets_out tp hs a d).sk_write_queue = tp.sk_write_queue := by
  unfold tcp_adjust_fackets_out
  split
  · rfl
  · split <;> rfl

theorem fragment_counters_queue (tp : tcp_sock) (hs f : Nat) (a b : sk_buff) :
    (fragment_counters tp hs f a b).sk_write_queue = tp.sk_write_queue := by
  unfold fragment_counters
  split
  · rw [tcp_adjust_fackets_out_queue]
  · rfl

/-- What a successful `tcp_fragment` leaves: the two halves sit at positions `i`
and `i + 1`, and their control blocks are those of the split. -/
theorem tcp_fragment_post (cfg e : Bool) (alloc : Option (Nat × Nat)) (hs : Nat)
    (sk sk' : tcp_sock) (i len mss : Nat)
    (h : tcp_fragment cfg e alloc hs sk i len mss = some (0, sk')) :
    ∃ s a head tail, sk.sk_write_queue[i]? = some s ∧ alloc = some a ∧ len ≤ s.len ∧
      sk'.sk_write_queue = queue_split sk.sk_write_queue i head tail ∧
      head.addr = s.addr ∧ tail.addr = a.1 ∧
      head.cb = (fragment_flags (fragment_seqs cfg s.cb cb_zero len).1
                  (fragment_seqs cfg s.cb cb_zero len).2).1 ∧
      tail.cb = { (fragment_flags (fragment_seqs cfg s.cb cb_zero len).1
                  (fragment_seqs cfg s.cb cb_zero len).2).2 with
                  sacked := (fragment_flags (fragment_seqs cfg s.cb cb_zero len).1
                  (fragment_seqs cfg s.cb cb_zero len).2).1.sacked, when := s.cb.when } := by
  unfold tcp_fragment at h
  split at h
  · cases h
  · rename_i s hq
    split at h
    · cases h
    · rename_i hlen
      simp only at h
      split at h
      · simp [ENOMEM] at h
      · split at h
        · simp [ENOMEM] at h
        · rename_i a
          split at h
          · cases h
          · rename_i head tail hh
            simp only [Option.some.injEq, Prod.mk.injEq, true_and] at h
            subst h
            obtain ⟨e1, e2, e3, e4⟩ := fragment_halves_cb _ _ _ _ _ _ _ _ hh
            refine ⟨s, a, head, tail, hq, rfl, by omega, ?_, ?_, ?_, ?_, ?_⟩
            · simp only [fragment_counters_queue]
              rfl
            · rw [e1, (expanded_head_cb s).2.1]
            · rw [e2]; rfl
            · rw [e3, (expanded_head_cb s).1]; rfl
            · rw [e4, (expanded_head_cb s).1]; rfl

/-- `tcp_fragment` returns 0 when the buffer exists, the cut is inside it, head
expansion (if needed) and the allocation succeed, and the MSS is positive. -/
theorem tcp_fragment_total (cfg e : Bool) (a : Nat × Nat) (hs : Nat)
    (sk : tcp_sock) (i len mss : Nat) (s : sk_buff)
    (hq : sk.sk_write_queue[i]? = some s) (hlen : len ≤ s.len)
    (he : s.cloned = true → s.data_len ≠ 0 → e = true) (hmss : 0 < mss) :
    ∃ sk', tcp_fragment cfg e (some a) hs sk i len mss = some (0, sk') := by
  unfold tcp_fragment
  have h1 : ¬ len > s.len := by omega
  have h2 : (s.cloned && skb_is_nonlinear s && !e) = false := by
    cases hc : s.cloned
    · rfl
    · cases hn : skb_is_nonlinear s
      · rfl
      · simp only [skb_is_nonlinear, decide_eq_true_eq] at hn
        simp [he hc hn]
  simp only [hq, h1, h2, if_false, Bool.false_eq_true]
  obtain ⟨h, t, hh⟩ := fragment_halves_total cfg sk (expanded_head s)
    (sk_stream_alloc_skb a (skb_headlen s - len)) len mss rfl rfl
    (by
      have : skb_headlen (expanded_head s) = skb_headlen s := by
        simp only [skb_headlen, (expanded_head_cb s).2.2.1, (expanded_head_cb s).2.2.2]
      rw [this]
      simp only [sk_stream_alloc_skb]
      omega) hmss
  rw [hh]
  exact ⟨_, rfl⟩

/-- What a successful `tso_fragment` leaves: as for `tcp_fragment`, except that
the SACK state and time stamp of the tail are either copied (when it falls back
to `tcp_fragment`) or left cleared. -/
theorem tso_fragment_post (cfg e : Bool) (alloc : Option (Nat × Nat)) (hs : Nat)
    (sk sk' : tcp_sock) (i len mss : Nat)
    (h : tso_fragment cfg e alloc hs sk i len mss = some (0, sk')) :
    ∃ s a head tail, sk.sk_write_queue[i]? = some s ∧ alloc = some a ∧ 0 < len ∧
      sk'.sk_write_queue = queue_split sk.sk_write_queue i head tail ∧
      head.addr = s.addr ∧ tail.addr = a.1 ∧
      head.cb = (fragment_flags (fragment_seqs cfg s.cb cb_zero len).1
                  (fragment_seqs cfg s.cb cb_zero len).2).1 ∧
      ∃ sacked when, tail.cb = { (fragment_flags (fragment_seqs cfg s.cb cb_zero len).1
                  (fragment_seqs cfg s.cb cb_zero len).2).2 with
                  sacked := sacked, when := when } := by
  unfold tso_fragment at h
  split at h
  · cases h
  · rename_i s hq
    split at h
    · cases h
    · rename_i hpos
      split at h
      · obtain ⟨s', a, head, tail, hq', ha, -, hqs, h1, h2, h3, h4⟩ :=
          tcp_fragment_post _ _ _ _ _ _ _ _ _ h
        rw [hq] at hq'
        cases hq'
        exact ⟨s, a, head, tail, hq, ha, by omega, hqs, h1, h2, h3, _, _, h4⟩
      · split at h
        · simp [ENOMEM] at h
        · rename_i a
          simp only at h
          split at h
          · cases h
          · rename_i head tail hh
            simp only [Option.some.injEq, Prod.mk.injEq, true_and] at h
            subst h
            obtain ⟨e1, e2, e3, e4⟩ := tso_halves_cb _ _ _ _ _ _ _ _ hh
            refine ⟨s, a, head, tail, hq, rfl, by omega, rfl, e1, e2, e3, 0, 0, ?_⟩
            rw [e4]
            cases cfg <;> rfl

/-- `tso_fragment` returns 0 when the buffer exists, the cut is inside it and not
at its start, head expansion (if needed) and the allocation succeed, and the MSS
is positive. -/
theorem tso_fragment_total (cfg e : Bool) (a : Nat × Nat) (hs : Nat)
    (sk : tcp_sock) (i len mss : Nat) (s : sk_buff)
    (hq : sk.sk_write_queue[i]? = some s) (hpos : 0 < len) (hlen : len ≤ s.len)
    (he : s.cloned = true → s.data_len ≠ 0 → e = true) (hmss : 0 < mss) :
    ∃ sk', tso_fragment cfg e (some a) hs sk i len mss = some (0, sk') := by
  unfold tso_fragment
  have h1 : ¬ len = 0 := by omega
  simp only [hq, h1, if_false]
  split
  · exact tcp_fragment_total cfg e a hs sk i len mss s hq hlen he hmss
  · rename_i hpaged
    simp only [ne_eq, not_not] at hpaged
    obtain ⟨h, t, hh⟩ := tso_halves_total cfg sk s (sk_stream_alloc_skb a 0) len mss rfl rfl
      hpaged hmss
    rw [hh]
    exact ⟨_, rfl⟩

/-! ### The write queue as a list -/

theorem queue_at (q : List sk_buff) (i : Nat) (s : sk_buff) (h : q[i]? = some s) :
    q = q.take i ++ s :: q.drop (i + 1) := by
  induction q generalizing i with
  | nil => simp at h
  | cons x xs ih =>
    cases i with
    | zero =>
      simp only [List.getElem?_cons_zero, Option.some.injEq] at h
      subst h
      simp
    | succ n =>
      simp only [List.getElem?_cons_succ] at h
      simp only [List.take_succ_cons, List.drop_succ_cons, List.cons_append]
      rw [← ih n h]

theorem chain_split_middle (R : sk_buff → sk_buff → Prop) (l1 l2 : List sk_buff)
    (s a b : sk_buff) (hl : ∀ x, R x s → R x a) (hab : R a b) (hr : ∀ y, R s y → R b y)
    (h : List.Chain' R (l1 ++ s :: l2)) : List.Chain' R (l1 ++ a :: b :: l2) := by
  rw [List.chain'_split] at h
  rw [List.chain'_split (a := a)]
  obtain ⟨h1, h2⟩ := h
  constructor
  · cases l1 using List.reverseRecOn with
    | nil => simp
    | append_singleton l x _ =>
      rw [List.append_assoc, List.singleton_append, List.chain'_split (a := x)] at h1 ⊢
      refine ⟨h1.1, ?_⟩
      simp only [List.chain'_cons, List.chain'_singleton, and_true] at h1 ⊢
      exact hl x h1.2
  · rw [List.chain'_cons]
    refine ⟨hab, ?_⟩
    cases l2 with
    | nil => simp
    | cons y ys =>
      rw [List.chain'_cons] at h2 ⊢
      exact ⟨hr y h2.1, h2.2⟩

/-- Linking the two halves of a split in place of the original keeps a
seq-contiguous queue seq-contiguous. -/
theorem seq_contiguous_split (q : List sk_buff) (i : Nat) (s head tail : sk_buff)
    (hq : q[i]? = some s) (h1 : head.cb.seq = s.cb.seq) (h2 : head.cb.end_seq = tail.cb.seq)
    (h3 : tail.cb.end_seq = s.cb.end_seq) (hc : seq_contiguous q) :
    seq_contiguous (queue_split q i head tail) := by
  unfold seq_contiguous at hc ⊢
  unfold queue_split
  rw [queue_at q i s hq] at hc
  refine chain_split_middle _ _ _ s head tail ?_ h2 ?_ hc
  · intro x hx; rw [h1]; exact hx
  · intro y hy; rw [h3]; exact hy

/-- C5: per-path sequence continuity of a split. For the buffer `s` at position `i`
of the write queue, every successful `tcp_fragment` or `tso_fragment` at offset
`len` leaves the head in place with `s.seq`, gives `head.end_seq = tail.seq =
s.seq + len` (mod 2^32) and `tail.end_seq = s.end_seq`, and links the tail
immediately after the head, so a seq-contiguous queue stays seq-contiguous; and
the split does succeed when `len <= s.len` (and `len > 0` for `tso_fragment`),
the allocation and any head expansion succeed and the MSS is positive. -/
theorem split_seq_continuity (cfg e : Bool) (alloc : Option (Nat × Nat)) (hs : Nat)
    (sk : tcp_sock) (i len mss : Nat) (s : sk_buff) (hq : sk.sk_write_queue[i]? = some s) :
    (∀ sk', (tcp_fragment cfg e alloc hs sk i len mss = some (0, sk') ∨
             tso_fragment cfg e alloc hs sk i len mss = some (0, sk')) →
      ∃ head tail,
        sk'.sk_write_queue =
          sk.sk_write_queue.take i ++ head :: tail :: sk.sk_write_queue.drop (i + 1) ∧
        head.cb.seq = s.cb.seq ∧
        head.cb.end_seq = (s.cb.seq + len) % 4294967296 ∧
        tail.cb.seq = (s.cb.seq + len) % 4294967296 ∧
        tail.cb.end_seq = s.cb.end_seq ∧
        (seq_contiguous sk.sk_write_queue → seq_contiguous sk'.sk_write_queue)) ∧
    (len ≤ s.len → alloc.isSome = true → (s.cloned = true → s.data_len ≠ 0 → e = true) →
      0 < mss →
      (∃ sk', tcp_fragment cfg e alloc hs sk i len mss = some (0, sk')) ∧
      (0 < len → ∃ sk', tso_fragment cfg e alloc hs sk i len mss = some (0, sk'))) := by
  constructor
  · intro sk' h
    have key : ∃ s' a head tail, sk.sk_write_queue[i]? = some s' ∧ alloc = some a ∧
        sk'.sk_write_queue = queue_split sk.sk_write_queue i head tail ∧
        head.cb = (fragment_flags (fragment_seqs cfg s'.cb cb_zero len).1
                  (fragment_seqs cfg s'.cb cb_zero len).2).1 ∧
        ∃ sacked when, tail.cb = { (fragment_flags (fragment_seqs cfg s'.cb cb_zero len).1
                  (fragment_seqs cfg s'.cb cb_zero len).2).2 with
                  sacked := sacked, when := when } := by
      rcases h with h | h
      · obtain ⟨s', a, head, tail, h1, h2, -, h4, -, -, h7, h8⟩ :=
          tcp_fragment_post _ _ _ _ _ _ _ _ _ h
        exact ⟨s', a, head, tail, h1, h2, h4, h7, _, _, h8⟩
      · obtain ⟨s', a, head, tail, h1, h2, -, h4, -, -, h7, h8⟩ :=
          tso_fragment_post _ _ _ _ _ _ _ _ _ h
        exact ⟨s', a, head, tail, h1, h2, h4, h7, h8⟩
    obtain ⟨s', a, head, tail, h1, -, h3, h4, sacked, when', h5⟩ := key
    rw [hq] at h1
    cases h1
    have e1 : head.cb.seq = s.cb.seq := by rw [h4]; cases cfg <;> rfl
    have e2 : head.cb.end_seq = (s.cb.seq + len) % 4294967296 := by rw [h4]; cases cfg <;> rfl
    have e3 : tail.cb.seq = (s.cb.seq + len) % 4294967296 := by rw [h5]; cases cfg <;> rfl
    have e4 : tail.cb.end_seq = s.cb.end_seq := by rw [h5]; cases cfg <;> rfl
    refine ⟨head, tail, h3, e1, e2, e3, e4, fun hc => ?_⟩
    rw [h3]
    exact seq_contiguous_split _ _ s head tail hq e1 (by rw [e2, e3]) e4 hc
  · intro hlen ha he hmss
    obtain ⟨a, rfl⟩ := Option.isSome_iff_exists.1 ha
    exact ⟨tcp_fragment_total cfg e a hs sk i len mss s hq hlen he hmss,
      fun hpos => tso_fragment_total cfg e a hs sk i len mss s hq hpos hlen he hmss⟩

theorem split_seq_continuity_witness :
    (∃ sk', tcp_fragment true true (some (9, 256)) 0 tp_three 1 40 1000 = some (0, sk')) ∧
    (0 < 40 → ∃ sk', tso_fragment true true (some (9, 256)) 0 tp_three 1 40 1000 = some (0, sk')) :=
  (split_seq_continuity true true (some (9, 256)) 0 tp_three 1 40 1000 skb_mid rfl).2
    (by decide) rfl (by decide) (by decide)

/-- C6: data-sequence continuity of a split in the multipath build. Every
successful `tcp_fragment` or `tso_fragment` of `s` at offset `len` keeps
`data_seq` and `sub_seq` on the head, gives `head.end_data_seq = tail.data_seq =
s.data_seq + len`, `tail.end_data_seq = s.end_data_seq`, `tail.sub_seq =
s.sub_seq + len`, `head.data_len = len` and `tail.data_len = s.data_len - len`
(all in 32-bit arithmetic), so the two `data_len` values sum to the original:
modulo 2^32 always, and exactly when `len <= s.data_len`. -/
theorem split_data_seq_continuity (e : Bool) (alloc : Option (Nat × Nat)) (hs : Nat)
    (sk : tcp_sock) (i len mss : Nat) (s : sk_buff) (hq : sk.sk_write_queue[i]? = some s) :
    (∀ sk', (tcp_fragment true e alloc hs sk i len mss = some (0, sk') ∨
             tso_fragment true e alloc hs sk i len mss = some (0, sk')) →
      ∃ head tail,
        sk'.sk_write_queue =
          sk.sk_write_queue.take i ++ head :: tail :: sk.sk_write_queue.drop (i + 1) ∧
        head.cb.data_seq = s.cb.data_seq ∧
        head.cb.sub_seq = s.cb.sub_seq ∧
        head.cb.end_data_seq = (s.cb.data_seq + len) % 4294967296 ∧
        tail.cb.data_seq = (s.cb.data_seq + len) % 4294967296 ∧
        tail.cb.end_data_seq = s.cb.end_data_seq ∧
        tail.cb.sub_seq = (s.cb.sub_seq + len) % 4294967296 ∧
        head.cb.data_len = len ∧
        (tail.cb.data_len : Int) = ((s.cb.data_len : Int) - len) % 4294967296 ∧
        (head.cb.data_len + tail.cb.data_len) % 4294967296 = s.cb.data_len % 4294967296 ∧
        (len ≤ s.cb.data_len → s.cb.data_len < 4294967296 →
          tail.cb.data_len = s.cb.data_len - len ∧
          head.cb.data_len + tail.cb.data_len = s.cb.data_len)) ∧
    (len ≤ s.len → alloc.isSome = true → (s.cloned = true → s.data_len ≠ 0 → e = true) →
      0 < mss →
      (∃ sk', tcp_fragment true e alloc hs sk i len mss = some (0, sk')) ∧
      (0 < len → ∃ sk', tso_fragment true e alloc hs sk i len mss = some (0, sk'))) := by
  constructor
  · intro sk' h
    have key : ∃ s' a head tail, sk.sk_write_queue[i]? = some s' ∧ alloc = some a ∧
        sk'.sk_write_queue = queue_split sk.sk_write_queue i head tail ∧
        head.cb = (fragment_flags (fragment_seqs true s'.cb cb_zero len).1
                  (fragment_seqs true s'.cb cb_zero len).2).1 ∧
        ∃ sacked when, tail.cb = { (fragment_flags (fragment_seqs true s'.cb cb_zero len).1
                  (fragment_seqs true s'.cb cb_zero len).2).2 with
                  sacked := sacked, when := when } := by
      rcases h with h | h
      · obtain ⟨s', a, head, tail, h1, h2, -, h4, -, -, h7, h8⟩ :=
          tcp_fragment_post _ _ _ _ _ _ _ _ _ h
        exact ⟨s', a, head, tail, h1, h2, h4, h7, _, _, h8⟩
      · obtain ⟨s', a, head, tail, h1, h2, -, h4, -, -, h7, h8⟩ :=
          tso_fragment_post _ _ _ _ _ _ _ _ _ h
        exact ⟨s', a, head, tail, h1, h2, h4, h7, h8⟩
    obtain ⟨s', a, head, tail, h1, -, h3, h4, sacked, when', h5⟩ := key
    rw [hq] at h1
    cases h1
    have d1 : head.cb.data_len = len := by rw [h4]; rfl
    have d2 : tail.cb.data_len = sub32 s.cb.data_len len := by rw [h5]; rfl
    refine ⟨head, tail, h3, by rw [h4]; rfl, by rw [h4]; rfl, by rw [h4]; rfl, by rw [h5]; rfl,
      by rw [h5]; rfl, by rw [h5]; rfl, d1, ?_, ?_, ?_⟩
    · rw [d2]; simp only [sub32]; omega
    · rw [d1, d2]; simp only [sub32]; omega
    · intro hle hlt
      rw [d1, d2]; simp only [sub32]; omega
  · intro hlen ha he hmss
    obtain ⟨a, rfl⟩ := Option.isSome_iff_exists.1 ha
    exact ⟨tcp_fragment_total true e a hs sk i len mss s hq hlen he hmss,
      fun hpos => tso_fragment_total true e a hs sk i len mss s hq hpos hlen he hmss⟩

theorem split_data_seq_continuity_witness :
    (∃ sk', tcp_fragment true true (some (9, 256)) 0 tp_paged 0 1500 1000 = some (0, sk')) ∧
    (0 < 1500 →
      ∃ sk', tso_fragment true true (some (9, 256)) 0 tp_paged 0 1500 1000 = some (0, sk')) :=
  (split_data_seq_continuity true (some (9, 256)) 0 tp_paged 0 1500 1000 skb_paged rfl).2
    (by decide) rfl (by decide) (by decide)

theorem testBit_clear_fin_psh :
    ∀ n, n < 32 → Nat.testBit 4294967286 n = (decide (n ≠ 0) && decide (n ≠ 3)) := by
  decide

/-- C7: control and loss metadata after a split. After a successful
`tcp_fragment` of `s` the head's flags are the original flags with FIN and PSH
cleared and every other flag bit kept, the tail's flags are the original flags,
and the tail's SACK/retransmit state `sacked` equals the original's. -/
theorem tcp_fragment_flags_sacked (cfg e : Bool) (alloc : Option (Nat × Nat)) (hs : Nat)
    (sk : tcp_sock) (i len mss : Nat) (s : sk_buff) (hq : sk.sk_write_queue[i]? = some s) :
    (∀ sk', tcp_fragment cfg e alloc hs sk i len mss = some (0, sk') →
      ∃ head tail,
        sk'.sk_write_queue =
          sk.sk_write_queue.take i ++ head :: tail :: sk.sk_write_queue.drop (i + 1) ∧
        head.cb.flags &&& TCPCB_FLAG_FIN = 0 ∧ head.cb.flags &&& TCPCB_FLAG_PSH = 0 ∧
        (∀ n, n < 32 → n ≠ 0 → n ≠ 3 → head.cb.flags.testBit n = s.cb.flags.testBit n) ∧
        tail.cb.flags = s.cb.flags ∧
        tail.cb.sacked = s.cb.sacked) ∧
    (len ≤ s.len → alloc.isSome = true → (s.cloned = true → s.data_len ≠ 0 → e = true) →
      0 < mss → ∃ sk', tcp_fragment cfg e alloc hs sk i len mss = some (0, sk')) := by
  constructor
  · intro sk' h
    obtain ⟨s', a, head, tail, h1, -, -, h3, -, -, h4, h5⟩ :=
      tcp_fragment_post _ _ _ _ _ _ _ _ _ h
    rw [hq] at h1
    cases h1
    have f1 : head.cb.flags = s.cb.flags &&& 4294967286 := by rw [h4]; cases cfg <;> rfl
    have bit : ∀ n, head.cb.flags.testBit n = (s.cb.flags.testBit n && Nat.testBit 4294967286 n) := by
      intro n; rw [f1, Nat.testBit_land]
    refine ⟨head, tail, h3, ?_, ?_, ?_, by rw [h5]; cases cfg <;> rfl,
      by rw [h5]; cases cfg <;> rfl⟩
    · rw [f1, Nat.land_assoc]
      have : (4294967286 : Nat) &&& TCPCB_FLAG_FIN = 0 := by decide
      rw [this]; exact Nat.and_zero _
    · rw [f1, Nat.land_assoc]
      have : (4294967286 : Nat) &&& TCPCB_FLAG_PSH = 0 := by decide
      rw [this]; exact Nat.and_zero _
    · intro n hn h0 h3'
      rw [bit, testBit_clear_fin_psh n hn]
      simp [h0, h3']
  · intro hlen ha he hmss
    obtain ⟨a, rfl⟩ := Option.isSome_iff_exists.1 ha
    exact tcp_fragment_total cfg e a hs sk i len mss s hq hlen he hmss

theorem tcp_fragment_flags_sacked_witness :
    ∃ sk', tcp_fragment true true (some (9, 256)) 0 tp_three 1 40 1000 = some (0, sk') :=
  (tcp_fragment_flags_sacked true true (some (9, 256)) 0 tp_three 1 40 1000 skb_mid rfl).2
    (by decide) rfl (by decide) (by decide)

/-! ### Collapse -/

/-- When none of its guards fires, `tcp_retrans_try_collapse` commits the merge. -/
theorem tcp_retrans_try_collapse_commits (hs : Nat) (sk : tcp_sock) (i : Nat) (mss : Int)
    (a b : sk_buff) (w : Nat)
    (hq : sk.sk_write_queue[i]? = some a) (hn : sk.sk_write_queue[i + 1]? = some b)
    (ha : a.cloned = false) (hb : b.cloned = false)
    (hsack : tst b.cb.sacked TCPCB_SACKED_ACKED = false)
    (hw : tcp_wnd_end sk sk.mpc = some w)
    (hin : after (if sk.mpc then b.cb.end_data_seq else b.cb.end_seq) w = false)
    (hroom : (b.len : Int) ≤ skb_tailroom a) (hmss : (a.len : Int) + b.len ≤ mss)
    (hca : tcp_skb_pcount a = 1) (hcb : tcp_skb_pcount b = 1) :
    tcp_retrans_try_collapse hs sk i mss = collapse_commit hs sk i a b := by
  unfold tcp_retrans_try_collapse
  have h1 : ¬ (b.len : Int) > skb_tailroom a := by omega
  have h2 : ¬ (a.len : Int) + b.len > mss := by omega
  simp [hq, hn, ha, hb, hsack, hw, hin, h1, h2, hca, hcb]

/-- Any of its guards makes `tcp_retrans_try_collapse` return with nothing changed. -/
theorem tcp_retrans_try_collapse_guard (hs : Nat) (sk : tcp_sock) (i : Nat) (mss : Int)
    (a b : sk_buff)
    (hq : sk.sk_write_queue[i]? = some a) (hn : sk.sk_write_queue[i + 1]? = some b)
    (h : a.cloned = true ∨ b.cloned = true ∨ tst b.cb.sacked TCPCB_SACKED_ACKED = true ∨
      ∃ w, tcp_wnd_end sk sk.mpc = some w ∧
        (after (if sk.mpc then b.cb.end_data_seq else b.cb.end_seq) w = true ∨
          skb_tailroom a < (b.len : Int) ∨ mss < (a.len : Int) + b.len)) :
    tcp_retrans_try_collapse hs sk i mss = some sk := by
  unfold tcp_retrans_try_collapse
  simp only [hq, hn]
  by_cases hc : (a.cloned || b.cloned) = true
  · simp [hc]
  · simp only [hc, if_false]
    have hac : a.cloned = false := by cases h' : a.cloned <;> simp_all
    have hbc : b.cloned = false := by cases h' : b.cloned <;> simp_all
    by_cases hsk : tst b.cb.sacked TCPCB_SACKED_ACKED = true
    · simp [hsk]
    · simp only [hsk, if_false]
      rcases h with h | h | h | ⟨w, hw, h⟩
      · simp [hac] at h
      · simp [hbc] at h
      · exact absurd h hsk
      · simp only [hw]
        by_cases haf : after (if sk.mpc then b.cb.end_data_seq else b.cb.end_seq) w = true
        · simp [haf]
        · simp only [haf, if_false]
          have : (decide ((b.len : Int) > skb_tailroom a) ||
              decide ((a.len : Int) + b.len > mss)) = true := by
            rcases h with h | h | h
            · exact absurd h haf
            · simp [h]
            · simp [h]
          simp [this]

theorem tcp_adjust_fackets_out_frame (tp : tcp_sock) (hs : Nat) (a : sk_buff) (d : Int) :
    (tcp_adjust_fackets_out tp hs a d).packets_out = tp.packets_out ∧
    (tcp_adjust_fackets_out tp hs a d).snd_una = tp.snd_una ∧
    (tcp_adjust_fackets_out tp hs a d).snd_wnd = tp.snd_wnd ∧
    (tcp_adjust_fackets_out tp hs a d).mpc = tp.mpc ∧
    (tcp_adjust_fackets_out tp hs a d).mpcb = tp.mpcb := by
  unfold tcp_adjust_fackets_out
  split
  · exact ⟨rfl, rfl, rfl, rfl, rfl⟩
  · split <;> exact ⟨rfl, rfl, rfl, rfl, rfl⟩

theorem tcp_highest_sack_combine_frame (tp : tcp_sock) (o n : sk_buff) :
    (tcp_highest_sack_combine tp o n).sk_write_queue = tp.sk_write_queue ∧
    (tcp_highest_sack_combine tp o n).packets_out = tp.packets_out := by
  unfold tcp_highest_sack_combine
  split <;> exact ⟨rfl, rfl⟩

/-- The outcome of a committed collapse when the first buffer is linear and has
room for the bytes of the second. -/
theorem collapse_commit_some (hs : Nat) (sk : tcp_sock) (i : Nat) (a b : sk_buff)
    (hlin : a.data_len = 0) (hroom : a.len + b.len ≤ a.bufsize) :
    ∃ sk', collapse_commit hs sk i a b = some sk' ∧
      sk'.sk_write_queue =
        (sk.sk_write_queue.set i
          (collapse_skb a { a with len := a.len + b.len } b)).eraseIdx (i + 1) ∧
      sk'.packets_out = u32 ((sk.packets_out : Int) - tcp_skb_pcount b) := by
  unfold collapse_commit
  simp only
  rw [skb_put_total a b.len hlin (by simp only [skb_headlen, hlin]; omega)]
  refine ⟨_, rfl, ?_, ?_⟩
  · simp only [sk_wmem_free_skb, tcp_clear_retrans_hints_partial, tcp_adjust_fackets_out_queue,
      collapse_counters, (tcp_highest_sack_combine_frame _ _ _).1]
  · simp only [sk_wmem_free_skb, tcp_clear_retrans_hints_partial,
      (tcp_adjust_fackets_out_frame _ _ _ _).1, collapse_counters,
      (tcp_highest_sack_combine_frame _ _ _).2]

theorem queue_merge (q : List sk_buff) (i : Nat) (a b m : sk_buff)
    (hq : q[i]? = some a) (hn : q[i + 1]? = some b) :
    (q.set i m).eraseIdx (i + 1) = q.take i ++ m :: q.drop (i + 2) := by
  induction q generalizing i with
  | nil => simp at hq
  | cons x xs ih =>
    cases i with
    | zero =>
      cases xs with
      | nil => simp at hn
      | cons y ys => simp
    | succ n =>
      simp only [List.getElem?_cons_succ] at hq hn
      simp only [List.set_cons_succ, List.eraseIdx_cons_succ, List.take_succ_cons,
        List.drop_succ_cons, List.cons_append]
      rw [ih n hq hn]

/-- C10: successful collapse. For two adjacent segments `a`, `b` of the write
queue with segment count 1 each, neither cloned, `b` not selectively
acknowledged and ending inside the send window, `a.len + b.len <= mss`, `a`
linear with tail room for the bytes of `b`, and at least one packet counted as
out, `tcp_retrans_try_collapse` removes `b` from the queue and leaves in place
of `a` a segment of length `a.len + b.len` with `a.seq`, `b.end_seq` and
flags `a.flags | b.flags`; `packets_out` goes down by exactly 1. -/
theorem tcp_retrans_try_collapse_merges (hs : Nat) (sk : tcp_sock) (i : Nat) (mss : Int)
    (a b : sk_buff) (w : Nat)
    (hq : sk.sk_write_queue[i]? = some a) (hn : sk.sk_write_queue[i + 1]? = some b)
    (hca : tcp_skb_pcount a = 1) (hcb : tcp_skb_pcount b = 1)
    (ha : a.cloned = false) (hb : b.cloned = false)
    (hsack : tst b.cb.sacked TCPCB_SACKED_ACKED = false)
    (hw : tcp_wnd_end sk sk.mpc = some w)
    (hin : after (if sk.mpc then b.cb.end_data_seq else b.cb.end_seq) w = false)
    (hmss : (a.len : Int) + b.len ≤ mss)
    (hlin : skb_is_nonlinear a = false) (hroom : (b.len : Int) ≤ skb_tailroom a)
    (hsent : 1 ≤ sk.packets_out) (hu32 : sk.packets_out < 4294967296) :
    ∃ sk' m, tcp_retrans_try_collapse hs sk i mss = some sk' ∧
      sk'.sk_write_queue = sk.sk_write_queue.take i ++ m :: sk.sk_write_queue.drop (i + 2) ∧
      sk'.sk_write_queue.length + 1 = sk.sk_write_queue.length ∧
      m.len = a.len + b.len ∧
      m.cb.seq = a.cb.seq ∧
      m.cb.end_seq = b.cb.end_seq ∧
      m.cb.flags = a.cb.flags ||| b.cb.flags ∧
      sk'.packets_out + 1 = sk.packets_out := by
  have hd : a.data_len = 0 := by
    simpa [skb_is_nonlinear] using hlin
  have hfit : a.len + b.len ≤ a.bufsize := by
    simp only [skb_tailroom, hlin, Bool.false_eq_true, if_false, skb_headlen, hd] at hroom
    omega
  rw [tcp_retrans_try_collapse_commits hs sk i mss a b w hq hn ha hb hsack hw hin hroom hmss
    hca hcb]
  obtain ⟨sk', h1, h2, h3⟩ := collapse_commit_some hs sk i a b hd hfit
  refine ⟨sk', collapse_skb a { a with len := a.len + b.len } b, h1, ?_, ?_, rfl, rfl, rfl, rfl,
    ?_⟩
  · rw [h2, queue_merge _ _ a b _ hq hn]
  · rw [h2]
    have hi : i + 1 < sk.sk_write_queue.length := by
      rcases Nat.lt_or_ge (i + 1) sk.sk_write_queue.length with h | h
      · exact h
      · rw [List.getElem?_eq_none h] at hn; cases hn
    rw [List.length_eraseIdx, List.length_set]
    simp only [hi, if_true]
    omega
  · rw [h3, hcb]
    simp only [u32]
    omega

theorem tcp_retrans_try_collapse_merges_witness :
    ∃ sk' m, tcp_retrans_try_collapse 0 tp_two 0 1000 = some sk' ∧
      sk'.sk_write_queue = tp_two.sk_write_queue.take 0 ++ m :: tp_two.sk_write_queue.drop (0 + 2) ∧
      sk'.sk_write_queue.length + 1 = tp_two.sk_write_queue.length ∧
      m.len = skb_before.len + skb_forty.len ∧
      m.cb.seq = skb_before.cb.seq ∧
      m.cb.end_seq = skb_forty.cb.end_seq ∧
      m.cb.flags = skb_before.cb.flags ||| skb_forty.cb.flags ∧
      sk'.packets_out + 1 = tp_two.packets_out :=
  tcp_retrans_try_collapse_merges 0 tp_two 0 1000 skb_before skb_forty 66495 rfl rfl rfl rfl rfl rfl
    rfl rfl (by decide) (by decide) rfl (by decide) (by decide) (by decide)

/-- C9, as the code has it: a selectively acknowledged first segment does not stop
the merge. With the second of three sent segments marked `SACKED_ACKED`, the
third one not, and every guard of the code passing, `tcp_retrans_try_collapse`
on the second segment merges the third into it: the queue shrinks to two
segments and `packets_out` drops to 2. -/
theorem tcp_retrans_try_collapse_first_sacked :
    (tp_mid_sacked.sk_write_queue[1]?).map (fun a => tst a.cb.sacked TCPCB_SACKED_ACKED)
      = some true ∧
    tcp_retrans_try_collapse 0 tp_mid_sacked 1 1000 ≠ some tp_mid_sacked ∧
    (tcp_retrans_try_collapse 0 tp_mid_sacked 1 1000).map
      (fun sk' => (sk'.sk_write_queue.map (fun b => (b.addr, b.len, b.cb.seq, b.cb.end_seq)),
        sk'.packets_out)) = some ([(1, 40, 960, 1000), (2, 140, 1000, 1140)], 2) := by
  decide

/-- C9 (amended): merge legality. `tcp_retrans_try_collapse` returns with the
connection, its write queue and both segments unchanged whenever either of the
two adjacent segments is cloned, the second one has been selectively
acknowledged, the second one's end (`end_seq`, or `end_data_seq` in multipath
mode) lies after the send-window end, the second one's payload exceeds the tail
room of the first, or the combined payload would exceed `mss`. -/
theorem tcp_retrans_try_collapse_punts (hs : Nat) (sk : tcp_sock) (i : Nat) (mss : Int)
    (a b : sk_buff)
    (hq : sk.sk_write_queue[i]? = some a) (hn : sk.sk_write_queue[i + 1]? = some b)
    (h : a.cloned = true ∨ b.cloned = true ∨ tst b.cb.sacked TCPCB_SACKED_ACKED = true ∨
      ∃ w, tcp_wnd_end sk sk.mpc = some w ∧
        (after (if sk.mpc then b.cb.end_data_seq else b.cb.end_seq) w = true ∨
          skb_tailroom a < (b.len : Int) ∨ mss < (a.len : Int) + b.len)) :
    tcp_retrans_try_collapse hs sk i mss = some sk :=
  tcp_retrans_try_collapse_guard hs sk i mss a b hq hn h

theorem tcp_retrans_try_collapse_punts_witness :
    tcp_retrans_try_collapse 0 tp_two 0 79 = some tp_two :=
  tcp_retrans_try_collapse_punts 0 tp_two 0 79 skb_before skb_forty rfl rfl
    (Or.inr (Or.inr (Or.inr ⟨66495, rfl, Or.inr (Or.inr (by decide))⟩)))

/-! ### Split followed by collapse -/

theorem queue_split_get (q : List sk_buff) (i : Nat) (s h t : sk_buff) (hq : q[i]? = some s) :
    (queue_split q i h t)[i]? = some h ∧ (queue_split q i h t)[i + 1]? = some t ∧
    ((queue_split q i h t).set i h).length = q.length + 1 := by
  induction q generalizing i with
  | nil => simp at hq
  | cons x xs ih =>
    cases i with
    | zero => simp [queue_split]
    | succ n =>
      simp only [List.getElem?_cons_succ] at hq
      obtain ⟨h1, h2, h3⟩ := ih n hq
      simp only [queue_split, List.take_succ_cons, List.drop_succ_cons, List.cons_append,
        List.getElem?_cons_succ, List.length_set, List.length_cons] at h1 h2 h3 ⊢
      exact ⟨h1, h2, by omega⟩

theorem trim_head_seqs_cb (m : Bool) (cb : tcp_skb_cb) (n : Nat) :
    (trim_head_seqs m cb n).seq = add32 cb.seq n ∧
    (trim_head_seqs m cb n).end_seq = cb.end_seq ∧
    (trim_head_seqs m cb n).end_data_seq = cb.end_data_seq ∧
    (trim_head_seqs m cb n).flags = cb.flags ∧
    (trim_head_seqs m cb n).sacked = cb.sacked ∧
    (m = true → (trim_head_seqs m cb n).data_seq = add32 cb.data_seq n ∧
      (trim_head_seqs m cb n).sub_seq = add32 cb.sub_seq n ∧
      (trim_head_seqs m cb n).data_len = sub32 cb.data_len n) := by
  cases m <;> simp [trim_head_seqs]

/-- The payload left by the pull or trim at the start of `tcp_trim_head`. -/
theorem trim_head_pulled (s p : sk_buff) (n : Nat) (hwf : s.data_len ≤ s.len) (hn : n ≤ s.len)
    (h : (if n < skb_headlen s then __skb_pull s n
          else some (__pskb_trim_head s (n - skb_headlen s))) = some p) :
    p.len + n = s.len ∧ p.cb = s.cb ∧ p.truesize = s.truesize ∧ p.addr = s.addr := by
  unfold skb_headlen at h
  split at h
  · unfold __skb_pull at h
    split at h
    · cases h
    · cases h
      refine ⟨?_, rfl, rfl, rfl⟩
      show s.len - n + n = s.len
      omega
  · cases h
    refine ⟨?_, rfl, rfl, rfl⟩
    show s.data_len - (n - (s.len - s.data_len)) + n = s.len
    omega

theorem sub32_exact (a n : Nat) (h : n ≤ a) (h32 : a < 4294967296) : sub32 a n + n = a := by
  unfold sub32
  omega

theorem u32_sub_exact (a n : Nat) (h : n ≤ a) (h32 : a < 4294967296) :
    u32 ((a : Int) - n) + n = a := by
  unfold u32
  omega

theorem tcp_set_skb_tso_segs_truesize (sk : tcp_sock) (s s' : sk_buff) (mss : Nat)
    (h : tcp_set_skb_tso_segs sk s mss = some s') :
    s'.truesize = s.truesize ∧ s'.frags = s.frags ∧ s'.ip_summed = s.ip_summed ∧
    s'.tstamp = s.tstamp := by
  unfold tcp_set_skb_tso_segs at h
  split at h
  · cases h
    exact ⟨rfl, rfl, rfl, rfl⟩
  · split at h
    · cases h
    · cases h
      exact ⟨rfl, rfl, rfl, rfl⟩

/-- What `tcp_sync_mss` changes: the search ceiling, the remembered path MTU and
the cached MSS. -/
theorem tcp_sync_mss_frame (e : env) (tp : tcp_sock) (pmtu : Nat) :
    ∃ mc sh, (tcp_sync_mss e tp pmtu).2 =
      { tp with mss_cache := mc, icsk_mtup_search_high := sh, icsk_pmtu_cookie := pmtu } := by
  unfold tcp_sync_mss
  by_cases hc : tp.icsk_mtup_search_high > pmtu
  · rw [if_pos hc]
    exact ⟨_, _, rfl⟩
  · rw [if_neg hc]
    exact ⟨_, _, rfl⟩

/-- What `tcp_current_mss` changes: besides what `tcp_sync_mss` does, the size
goal. -/
theorem tcp_current_mss_frame (e : env) (tp tp' : tcp_sock) (l : Bool) (m : Nat)
    (h : tcp_current_mss e tp l = some (m, tp')) :
    ∃ g mc sh pc, tp' =
      { tp with xmit_size_goal := g, mss_cache := mc, icsk_mtup_search_high := sh,
                icsk_pmtu_cookie := pc } := by
  unfold tcp_current_mss at h
  split at h
  · cases h
    exact ⟨_, _, _, _, rfl⟩
  · have hr : ∃ mc sh pc, (current_mss_cached e tp).2 =
        { tp with mss_cache := mc, icsk_mtup_search_high := sh, icsk_pmtu_cookie := pc } := by
      unfold current_mss_cached
      cases e.dst with
      | none => exact ⟨_, _, _, rfl⟩
      | some d =>
        simp only
        split
        · obtain ⟨mc, sh, hh⟩ := tcp_sync_mss_frame e tp d.1
          exact ⟨mc, sh, d.1, hh⟩
        · exact ⟨_, _, _, rfl⟩
    obtain ⟨mc, sh, pc, hr⟩ := hr
    generalize current_mss_cached e tp = r at h hr
    obtain ⟨r1, r2⟩ := r
    simp only at hr
    subst hr
    simp only at h
    split at h
    · cases h
    · split_ifs at h <;>
        simp only [Option.some.injEq, Prod.mk.injEq] at h <;>
        exact ⟨_, mc, sh, pc, h.2.symm⟩

/-- C11: a successful `tcp_trim_head(sk, skb, n)` with `n` not above the payload
length advances `seq` by `n` modulo 2^32 and, in a multipath build, `data_seq`
and `sub_seq` as well, takes `n` off the control block's `data_len` (modulo
2^32, exactly when it is at least `n`) and exactly `n` off the payload length,
leaves `end_seq` and `end_data_seq` as they are, and takes `n` off the
segment's `truesize` (as a 32-bit value, exactly when it is at least `n`) and
off the socket's `sk_wmem_queued`; the other segments of the queue are not
touched. -/
theorem tcp_trim_head_contract (e : env) (sk sk' : tcp_sock) (i n : Nat) (s : sk_buff)
    (hs : sk.sk_write_queue[i]? = some s) (hwf : s.data_len ≤ s.len) (hn : n ≤ s.len)
    (h : tcp_trim_head e sk i n = some (0, sk')) :
    ∃ s', sk'.sk_write_queue[i]? = some s' ∧
      s'.cb.seq = add32 s.cb.seq n ∧
      (e.CONFIG_MTCP = true →
        s'.cb.data_seq = add32 s.cb.data_seq n ∧ s'.cb.sub_seq = add32 s.cb.sub_seq n ∧
        s'.cb.data_len = sub32 s.cb.data_len n ∧
        (n ≤ s.cb.data_len → s.cb.data_len < 4294967296 → s'.cb.data_len + n = s.cb.data_len)) ∧
      s'.len + n = s.len ∧
      s'.cb.end_seq = s.cb.end_seq ∧ s'.cb.end_data_seq = s.cb.end_data_seq ∧
      s'.truesize = u32 ((s.truesize : Int) - n) ∧
      (n ≤ s.truesize → s.truesize < 4294967296 → s'.truesize + n = s.truesize) ∧
      sk'.sk_wmem_queued = sk.sk_wmem_queued - n ∧
      sk'.sk_write_queue.length = sk.sk_write_queue.length ∧
      ∀ j, j ≠ i → sk'.sk_write_queue[j]? = sk.sk_write_queue[j]? := by
  have hi : i < sk.sk_write_queue.length := by
    rcases Nat.lt_or_ge i sk.sk_write_queue.length with hlt | hge
    · exact hlt
    · rw [List.getElem?_eq_none hge] at hs
      cases hs
  unfold tcp_trim_head at h
  rw [hs] at h
  simp only at h
  split at h
  · simp [ENOMEM] at h
  · split at h
    · cases h
    · rename_i p hp
      have hq := trim_head_pulled { s with cloned := false } p n hwf hn hp
      have hlen : p.len + n = s.len := hq.1
      have hcb : p.cb = s.cb := hq.2.1
      have hts : p.truesize = s.truesize := hq.2.2.1
      have hall := trim_head_seqs_cb e.CONFIG_MTCP p.cb n
      generalize hg : trim_head_seqs e.CONFIG_MTCP p.cb n = g at hall
      rw [hcb] at hall
      obtain ⟨c1, c2, c3, -, -, c6⟩ := hall
      have key : ∀ (t : tcp_sock) (s' : sk_buff),
          t.sk_write_queue = sk.sk_write_queue → t.sk_wmem_queued = sk.sk_wmem_queued - n →
          s'.cb = trim_head_seqs e.CONFIG_MTCP p.cb n → s'.len = p.len →
          s'.truesize = u32 ((p.truesize : Int) - n) →
          sk' = { t with sk_write_queue := t.sk_write_queue.set i s' } →
          ∃ s', sk'.sk_write_queue[i]? = some s' ∧
            s'.cb.seq = add32 s.cb.seq n ∧
            (e.CONFIG_MTCP = true →
              s'.cb.data_seq = add32 s.cb.data_seq n ∧ s'.cb.sub_seq = add32 s.cb.sub_seq n ∧
              s'.cb.data_len = sub32 s.cb.data_len n ∧
              (n ≤ s.cb.data_len → s.cb.data_len < 4294967296 →
                s'.cb.data_len + n = s.cb.data_len)) ∧
            s'.len + n = s.len ∧
            s'.cb.end_seq = s.cb.end_seq ∧ s'.cb.end_data_seq = s.cb.end_data_seq ∧
            s'.truesize = u32 ((s.truesize : Int) - n) ∧
            (n ≤ s.truesize → s.truesize < 4294967296 → s'.truesize + n = s.truesize) ∧
            sk'.sk_wmem_queued = sk.sk_wmem_queued - n ∧
            sk'.sk_write_queue.length = sk.sk_write_queue.length ∧
            ∀ j, j ≠ i → sk'.sk_write_queue[j]? = sk.sk_write_queue[j]? := by
        intro t s' hq hw hcb' hl' ht' hsk
        subst hsk
        rw [hg] at hcb'
        refine ⟨s', ?_, ?_, ?_, ?_, ?_, ?_, ?_, ?_, ?_, ?_, ?_⟩
        · simp [hq, hi]
        · rw [hcb']; exact c1
        · intro hm
          obtain ⟨d1, d2, d3⟩ := c6 hm
          rw [hcb']
          refine ⟨d1, d2, d3, fun h1 h2 => ?_⟩
          rw [d3]
          exact sub32_exact _ _ h1 h2
        · rw [hl']; exact hlen
        · rw [hcb']; exact c2
        · rw [hcb']; exact c3
        · rw [ht', hts]
        · intro h1 h2
          rw [ht', hts]
          exact u32_sub_exact _ _ h1 h2
        · exact hw
        · simp [hq]
        · intro j hj
          simp only [hq]
          rw [List.getElem?_set_ne (Ne.symm hj)]
      split at h
      · split at h
        · cases h
        · rename_i mss_now tp1 hm
          split at h
          · cases h
          · rename_i s2 hs2
            obtain ⟨e1, -, e3, -⟩ := tcp_set_skb_tso_segs_some _ _ _ _ hs2
            obtain ⟨f1, -, -, -⟩ := tcp_set_skb_tso_segs_truesize _ _ _ _ hs2
            obtain ⟨g, mc, sh, pc, hfr⟩ := tcp_current_mss_frame _ _ _ _ _ hm
            simp only [Option.some.injEq, Prod.mk.injEq, true_and] at h
            refine key tp1 s2 ?_ ?_ ?_ ?_ ?_ h.symm
            · rw [hfr]
            · rw [hfr]
            · rw [e1]
            · rw [e3]
            · rw [f1]
      · simp only [Option.some.injEq, Prod.mk.injEq, true_and] at h
        exact key { sk with sk_wmem_queued := sk.sk_wmem_queued - n, sock_queue_shrunk := true }
          { p with cb := trim_head_seqs e.CONFIG_MTCP p.cb n, ip_summed := CHECKSUM_PARTIAL,
                   truesize := u32 ((p.truesize : Int) - n) }
          rfl rfl rfl rfl rfl h.symm

theorem tcp_trim_head_contract_witness :
    tcp_trim_head env_plain tp_three 0 10 = some (0, tp_three_trimmed) ∧
    ∃ s', tp_three_trimmed.sk_write_queue[0]? = some s' ∧ s'.cb.seq = 970 ∧
      s'.cb.data_seq = 4970 ∧ s'.cb.sub_seq = 970 ∧ s'.cb.data_len = 30 ∧ s'.len = 30 ∧
      s'.cb.end_seq = 1000 ∧ s'.cb.end_data_seq = 5000 ∧ s'.truesize = 290 ∧
      tp_three_trimmed.sk_wmem_queued = 990 := by
  obtain ⟨s', h0, h1, h2, h3, h4, h5, -, h7, h8, -⟩ :=
    tcp_trim_head_contract env_plain tp_three tp_three_trimmed 0 10 skb_before rfl
      (by decide) (by decide) (by decide)
  obtain ⟨h21, h22, -, h24⟩ := h2 rfl
  have e1 : tp_three_trimmed.sk_write_queue[0]? = some
      { skb_before with len := 30, bufsize := 1490, truesize := 290,
                        ip_summed := CHECKSUM_PARTIAL,
                        cb := { skb_before.cb with seq := 970, data_seq := 4970, sub_seq := 970,
                                                   data_len := 30 } } := rfl
  rw [e1] at h0
  cases h0
  exact ⟨by decide, _, e1, by decide, by decide, by decide, by decide, by decide, by decide,
    by decide, by decide, by decide⟩

/-! ## Theorems: header options -/

theorem opt_when_kinds (c : Bool) (k : opt_kind) (b : List Nat) :
    (opt_when c k b).map opt_block.kind = if c then [k] else [] := by
  cases c <;> rfl

theorem filter_cons_append {α : Type} (p : α → Bool) (a : α) (l : List α) :
    (a :: l).filter p = (if p a then [a] else []) ++ l.filter p := by
  cases h : p a <;> simp [List.filter, h]

/-- C12, as the code has it: `tcp_options_write` writes exactly the options the
option set asks for, each once, in the order signature placeholder, MSS,
SACK-permitted with timestamp, timestamp alone, SACK-permitted alone, window
scale, SACK blocks, multipath-capable, address advertisement, multipath-join,
data-sequence mapping, data-ack, data-fin: the address advertisement comes
before the join. -/
theorem tcp_options_write_order (m pm : Bool) (c : mtcp_codes) (tp : tcp_sock)
    (opts : tcp_out_options) :
    (tcp_options_write m pm c tp opts).1.map opt_block.kind =
      option_order.filter (option_requested m pm opts) := by
  simp only [tcp_options_write, option_order, List.map_append, opt_when_kinds,
    filter_cons_append, option_requested, List.filter_nil, List.append_nil, List.append_assoc]

/-- C12 as stated fails: asked for an address advertisement and a join,
`tcp_options_write` writes the address advertisement first, although the listed
order has the join first. -/
theorem tcp_options_write_addr_before_join :
    (tcp_options_write true true codes_zero tp_zero opts_addr_join).1.map opt_block.kind =
      [opt_kind.addr, opt_kind.join] ∧
    ¬ List.Sublist
        ((tcp_options_write true true codes_zero tp_zero opts_addr_join).1.map opt_block.kind)
        option_order_listed := by
  decide

theorem established_md5_ts_size (tp : tcp_sock) (skb : Option sk_buff) (opts : tcp_out_options) :
    ((established_md5_ts false tp skb opts).2 = 0 ∨ (established_md5_ts false tp skb opts).2 = 12) ∧
    (tp.rx_opt_tstamp_ok = true → (established_md5_ts false tp skb opts).1.OPTION_TS = true) := by
  unfold established_md5_ts
  cases tp.rx_opt_tstamp_ok <;> simp [TCPOLEN_TSTAMP_ALIGNED]

theorem established_mtcp_size (m : Bool) (tp : tcp_sock) (skb : Option sk_buff)
    (mpcb : Option multipath_pcb) (p q : tcp_out_options × Nat)
    (h : established_mtcp m tp skb mpcb p = some q) :
    p.2 ≤ q.2 ∧ q.2 ≤ p.2 + 24 ∧ q.2 % 4 = p.2 % 4 ∧ q.1.OPTION_TS = p.1.OPTION_TS := by
  unfold established_mtcp at h
  simp only at h
  split at h
  · cases h
  · simp only [Option.some.injEq] at h
    subst h
    simp only [TCPOLEN_DSN_ALIGNED, TCPOLEN_DFIN_ALIGNED, TCPOLEN_DATA_ACK_ALIGNED]
    refine ⟨?_, ?_, ?_, ?_⟩
    · split_ifs <;> omega
    · split_ifs <;> omega
    · split_ifs <;> omega
    · split_ifs <;> (try split) <;> (try split_ifs) <;> rfl

theorem established_addr_size (m pm : Bool) (tp : tcp_sock) (skb : Option sk_buff)
    (mpcb : Option multipath_pcb) (p : tcp_out_options × Nat)
    (q : (tcp_out_options × Nat) × Option multipath_pcb)
    (h : established_addr m pm tp skb mpcb p = some q) (h40 : p.2 ≤ 40) (h4 : p.2 % 4 = 0) :
    p.2 ≤ q.1.2 ∧ q.1.2 ≤ 40 ∧ q.1.2 % 4 = 0 ∧ q.1.1.OPTION_TS = p.1.OPTION_TS ∧
    q.2.isSome = mpcb.isSome := by
  unfold established_addr at h
  simp only at h
  split at h
  · cases h
  · simp only [Option.some.injEq] at h
    subst h
    simp only [TCPOLEN_ADDR_ALIGNED, TCPOLEN_ADDR, TCPOLEN_ADDR_BASE, TCPOLEN_ADDR_PERBLOCK,
      MAX_TCP_OPTION_SPACE, u32]
    simp only [Bool.and_eq_true, decide_eq_true_eq]
    refine ⟨?_, ?_, ?_, ?_, ?_⟩
    · split_ifs <;> omega
    · split_ifs <;> omega
    · split_ifs <;> omega
    · split_ifs <;> rfl
    · split_ifs <;> simp [Option.isSome_map']

theorem established_sack_size (tp : tcp_sock) (p : tcp_out_options × Nat) (h40 : p.2 ≤ 40)
    (h4 : p.2 % 4 = 0) :
    ∃ q, established_sack tp p = some q ∧ q.2 ≤ 40 ∧ q.2 % 4 = 0 ∧
      q.1.OPTION_TS = p.1.OPTION_TS := by
  unfold established_sack
  simp only [TCPOLEN_SACK_BASE_ALIGNED, TCPOLEN_SACK_PERBLOCK, MAX_TCP_OPTION_SPACE, u32]
  split_ifs <;> first
    | exact ⟨_, rfl, by simp only; omega, by simp only; omega, rfl⟩
    | (exfalso; omega)

/-- Without an MD5 key `tcp_established_options` stays within the option space: given
the multipath control block it reads, it returns, and what it returns is a
multiple of 4, at most 40, with the timestamp option set whenever timestamps are
negotiated. -/
theorem tcp_established_options_fits (m pm : Bool) (hash_find : Option multipath_pcb)
    (tp : tcp_sock) (skb : Option sk_buff) (opts : tcp_out_options)
    (hmp : tp.mpcb.isSome = true) (hp : tp.pending = false) :
    ∃ size o mp, tcp_established_options m pm false hash_find tp skb opts = some (size, o, mp) ∧
      size ≤ 40 ∧ size % 4 = 0 ∧ (tp.rx_opt_tstamp_ok = true → o.OPTION_TS = true) := by
  obtain ⟨c1, c2⟩ := established_md5_ts_size tp skb opts
  unfold tcp_established_options
  simp only [hp, Bool.and_false, Bool.false_and, Bool.false_eq_true, if_false]
  cases h1 : established_mtcp m tp skb tp.mpcb (established_md5_ts false tp skb opts) with
  | none =>
    exfalso
    obtain ⟨mp0, hmp0⟩ := Option.isSome_iff_exists.1 hmp
    unfold established_mtcp at h1
    simp [hmp0] at h1
  | some p1 =>
    obtain ⟨a1, a2, a3, a4⟩ := established_mtcp_size _ _ _ _ _ _ h1
    simp only []
    cases h2 : established_addr m pm tp skb tp.mpcb p1 with
    | none =>
      exfalso
      obtain ⟨mp0, hmp0⟩ := Option.isSome_iff_exists.1 hmp
      unfold established_addr at h2
      simp [hmp0] at h2
    | some q =>
      obtain ⟨b1, b2, b3, b4, -⟩ := established_addr_size _ _ _ _ _ _ _ h2 (by omega) (by omega)
      obtain ⟨r, hr, r1, r2, r3⟩ := established_sack_size tp q.1 b2 b3
      obtain ⟨q1, q2⟩ := q
      obtain ⟨r1a, r1b⟩ := r
      simp only at hr
      simp only [hr]
      exact ⟨_, _, _, rfl, r1, r2, fun ht => by rw [r3, b4, a4]; exact c2 ht⟩

/-- C13, the failing case: with an MD5 key on a multipath subflow whose connection
has the data FIN enqueued, the options add up to 44 bytes (20 for the signature,
12 for the data-sequence mapping, 4 for the data FIN, 8 for the data
acknowledgment) and `tcp_established_options` reaches its overflow abort, both
when sizing the MSS (no segment) and for the last data segment; without the key
the same calls return 24. -/
theorem tcp_established_options_overflow :
    tcp_established_options true false true none tp_subflow_fin none {} = none ∧
    tcp_established_options true false true none tp_subflow_fin
      (some { skb_after with cb := { skb_after.cb with end_data_seq := 9000 } }) {} = none ∧
    (tcp_established_options true false false none tp_subflow_fin none {}).map (fun r => r.1) =
      some 24 := by
  decide

/-- C14, the failing case: on a multipath subflow without timestamps, with the data
FIN enqueued and two SACK blocks to report, the estimate made with no segment
is 36 bytes (data-sequence mapping, data FIN, data acknowledgment and one SACK
block), but a data segment that is not the last one gets 40 bytes (no data FIN,
so both SACK blocks fit). -/
theorem tcp_established_options_estimate_short :
    (tcp_established_options true false false none tp_subflow_fin_sack none {}).map
      (fun r => r.1) = some 36 ∧
    (tcp_established_options true false false none tp_subflow_fin_sack (some skb_mid) {}).map
      (fun r => r.1) = some 40 := by
  decide

/-! ## Theorems: transmitting one segment -/

theorem tcp_select_window_frame (e : env) (tp tp' : tcp_sock) (w : Nat)
    (h : tcp_select_window e tp = some (w, tp')) :
    tp'.send_state = tp.send_state := by
  unfold tcp_select_window at h
  simp only at h
  split at h
  · cases h
  · simp only [Option.some.injEq, Prod.mk.injEq] at h
    rw [← h.2]
    split
    · split <;> rfl
    · rfl

theorem tcp_syn_options_frame (e : env) (tp tp' : tcp_sock) (skb : sk_buff)
    (opts o : tcp_out_options) (size : Nat)
    (h : tcp_syn_options e tp skb opts = some (size, o, tp')) :
    tp'.send_state = tp.send_state := by
  have ha : (tcp_advertise_mss e tp).2.send_state = tp.send_state := by
    unfold tcp_advertise_mss
    split
    · split <;> rfl
    · rfl
  unfold tcp_syn_options at h
  simp only at h
  generalize syn_options_base e (tcp_advertise_mss e tp).2 (tcp_advertise_mss e tp).1 skb opts = p
    at h
  split_ifs at h <;> simp only [Option.some.injEq, Prod.mk.injEq] at h <;>
    (rw [← h.2.2]; exact ha)

theorem tcp_options_write_frame (m pm : Bool) (c : mtcp_codes) (tp : tcp_sock)
    (opts : tcp_out_options) :
    (tcp_options_write m pm c tp opts).2.2.send_state = tp.send_state := by
  unfold tcp_options_write
  simp only
  split <;> rfl

theorem TCP_ECN_send_frame (tp : tcp_sock) (skb : sk_buff) :
    (TCP_ECN_send tp skb).1.send_state = tp.send_state := by
  unfold TCP_ECN_send
  split <;> rfl

theorem tcp_event_data_sent_frame (e : env) (tp : tcp_sock) :
    (tcp_event_data_sent e tp).send_state = tp.send_state := by
  unfold tcp_event_data_sent
  simp only
  split <;> rfl

theorem tcp_enter_cwr_frame (e : env) (tp : tcp_sock) (b : Bool) :
    (tcp_enter_cwr e tp b).send_state = tp.send_state := by
  unfold tcp_enter_cwr
  simp only
  split <;> rfl

theorem transmit_options_frame (e : env) (tp tp' : tcp_sock) (skb : sk_buff)
    (o : tcp_out_options) (h : transmit_options e tp skb = some (o, tp')) :
    tp'.send_state = tp.send_state := by
  unfold transmit_options at h
  split at h
  · cases hs : tcp_syn_options e tp skb {} with
    | none => rw [hs] at h; cases h
    | some r =>
      rw [hs] at h
      simp only [Option.map_some', Option.some.injEq, Prod.mk.injEq] at h
      rw [← h.2]
      exact tcp_syn_options_frame e tp r.2.2 skb _ r.2.1 r.1 hs
  · cases hs : tcp_established_options e.CONFIG_MTCP e.CONFIG_MTCP_PM e.md5 e.hash_find tp
        (some skb) {} with
    | none => rw [hs] at h; cases h
    | some r =>
      rw [hs] at h
      simp only [Option.map_some', Option.some.injEq, Prod.mk.injEq] at h
      rw [← h.2]
      split <;> rfl

theorem transmit_window_frame (e : env) (tp tp' : tcp_sock) (skb : sk_buff)
    (h : transmit_window e tp skb = some tp') :
    tp'.send_state = tp.send_state := by
  unfold transmit_window at h
  split at h
  · cases h
    rfl
  · cases hw : tcp_select_window e tp with
    | none => rw [hw] at h; cases h
    | some r =>
      rw [hw] at h
      simp only [Option.map_some', Option.some.injEq] at h
      rw [← h]
      exact tcp_select_window_frame e tp r.2 r.1 hw

theorem transmit_cloned_eq (skb : sk_buff) (c : Bool) :
    transmit_cloned skb c = { skb with cloned := (transmit_cloned skb c).cloned } := by
  unfold transmit_cloned
  split <;> rfl

theorem ite_send_state (c : Prop) [Decidable c] (a b : tcp_sock) (s : send_state)
    (ha : a.send_state = s) (hb : b.send_state = s) : (if c then a else b).send_state = s := by
  split <;> assumption

theorem transmit_finish_frame (e : env) (tp : tcp_sock) (opts : tcp_out_options) (skb : sk_buff)
    (sh : Bool) :
    (transmit_finish e tp opts skb sh).1.send_state = tp.send_state ∧
    (transmit_finish e tp opts skb sh).2 =
      { skb with gso_type := (transmit_finish e tp opts skb sh).2.gso_type } := by
  unfold transmit_finish
  constructor
  · have h3 := tcp_options_write_frame e.CONFIG_MTCP e.CONFIG_MTCP_PM e.codes tp opts
    have h4 : (if tst skb.cb.flags TCPCB_FLAG_SYN = true then
          ((tcp_options_write e.CONFIG_MTCP e.CONFIG_MTCP_PM e.codes tp opts).2.2, false)
        else TCP_ECN_send (tcp_options_write e.CONFIG_MTCP e.CONFIG_MTCP_PM e.codes tp opts).2.2
          skb).1.send_state = tp.send_state := by
      split
      · exact h3
      · rw [TCP_ECN_send_frame]
        exact h3
    refine ite_send_state _ _ _ _ ?_ ?_
    · rw [tcp_event_data_sent_frame]
      exact ite_send_state _ _ _ _ h4 h4
    · exact ite_send_state _ _ _ _ h4 h4
  · simp only
    generalize (if tst skb.cb.flags TCPCB_FLAG_SYN = true then
          ((tcp_options_write e.CONFIG_MTCP e.CONFIG_MTCP_PM e.codes tp opts).2.2, false)
        else TCP_ECN_send (tcp_options_write e.CONFIG_MTCP e.CONFIG_MTCP_PM e.codes tp opts).2.2
          skb).2 = b
    cases b <;> cases sh <;> rfl

/-- What `transmit_build` leaves alone: the sequence and queue state of the
connection, and everything of the buffer but its `cloned` mark and its
segmentation type. -/
theorem transmit_build_frame (e : env) (tp tp' : tcp_sock) (skb skb' : sk_buff) (c : Bool)
    (h : transmit_build e tp skb c = some (tp', skb')) :
    tp'.send_state = tp.send_state ∧
    skb' = { skb with cloned := skb'.cloned, gso_type := skb'.gso_type } := by
  unfold transmit_build at h
  simp only at h
  have hc := transmit_cloned_eq skb c
  generalize transmit_cloned skb c = skb1 at h hc
  split at h
  · cases h
  · rename_i opts tp1 hopt
    have h1 := transmit_options_frame _ _ _ _ _ hopt
    split at h
    · cases h
    · rename_i tp2 hwin
      have h2 := transmit_window_frame _ _ _ _ hwin
      obtain ⟨f1, f2⟩ := transmit_finish_frame e tp2 opts skb1 (!(c && skb.cloned))
      simp only [Option.some.injEq] at h
      rw [h] at f1 f2
      simp only at f1 f2
      constructor
      · rw [f1, h2, h1]
      · rw [f2, hc]

theorem transmit_build_queue_xmit (e : env) (x : Int) (tp : tcp_sock) (skb : sk_buff)
    (c : Bool) :
    transmit_build { e with queue_xmit := x } tp skb c = transmit_build e tp skb c := rfl

/-- What `tcp_transmit_skb` leaves alone whatever it returns: the sequence and queue
state of the connection, and the control block, payload and segment count of
the buffer; and what a positive result of the IP layer adds to a successful
send. -/
theorem tcp_transmit_skb_keeps (e : env) (tp tp' : tcp_sock) (skb skb' : sk_buff)
    (c : Bool) (err : Int) (h : tcp_transmit_skb e tp skb c = some (err, tp', skb')) :
    tp'.send_state = tp.send_state ∧
      skb'.cb = skb.cb ∧ skb'.len = skb.len ∧ skb'.addr = skb.addr ∧
      (0 < e.queue_xmit → (c = true → e.clone_ok = true) →
        ∃ tp0, tcp_transmit_skb { e with queue_xmit := 0 } tp skb c = some (0, tp0, skb') ∧
          tp' = tcp_enter_cwr e tp0 true ∧ err = net_xmit_eval e.queue_xmit) := by
  unfold tcp_transmit_skb at h ⊢
  split at h
  · cases h
  · rename_i hmeta
    rw [if_neg hmeta]
    split at h
    · cases h
    · rename_i hpc
      rw [if_neg hpc]
      simp only at h ⊢
      have hst : ∀ b : Bool, (if b = true then { skb with tstamp := e.ktime } else skb) =
          { skb with tstamp := (if b = true then { skb with tstamp := e.ktime } else skb).tstamp } := by
        intro b
        cases b <;> rfl
      have hst := hst e.ca_rtt_stamp
      generalize (if e.ca_rtt_stamp = true then { skb with tstamp := e.ktime } else skb) = skb1
        at h hst ⊢
      split at h
      · rename_i hcl
        simp only [Option.some.injEq, Prod.mk.injEq] at h
        obtain ⟨-, h2, h3⟩ := h
        subst h2
        subst h3
        refine ⟨rfl, by rw [hst], by rw [hst], by rw [hst], fun _ hc => ?_⟩
        exfalso
        simp only [Bool.and_eq_true, Bool.not_eq_true'] at hcl
        rw [hc hcl.1] at hcl
        exact Bool.noConfusion hcl.2
      · rename_i hcl
        rw [if_neg hcl, transmit_build_queue_xmit]
        split at h
        · cases h
        · rename_i tp1 skb2 hb
          obtain ⟨f1, f2⟩ := transmit_build_frame _ _ _ _ _ _ hb
          have g1 : skb2.cb = skb.cb := by rw [f2, hst]
          have g2 : skb2.len = skb.len := by rw [f2, hst]
          have g3 : skb2.addr = skb.addr := by rw [f2, hst]
          split at h
          · rename_i hle
            simp only [Option.some.injEq, Prod.mk.injEq] at h
            obtain ⟨-, h2, h3⟩ := h
            subst h2
            subst h3
            exact ⟨f1, g1, g2, g3, fun hpos _ => absurd hpos (not_lt.2 hle)⟩
          · simp only [Option.some.injEq, Prod.mk.injEq] at h
            obtain ⟨h1, h2, h3⟩ := h
            subst h2
            subst h3
            refine ⟨?_, g1, g2, g3, fun _ _ => ⟨tp1, ?_, rfl, h1.symm⟩⟩
            · rw [tcp_enter_cwr_frame]
              exact f1
            · simp only [le_refl, if_true]

/-- C19, as the code has it: whatever `tcp_transmit_skb` returns, it leaves
`snd_una`, `snd_nxt`, `write_seq`, `packets_out`, `retrans_out` and the write
queue as they were, and the buffer keeps its control block (sequence range and
flags) and its payload; and when the send gets as far as the IP layer and that
reports a positive result, the connection is left as a successful send would
leave it, followed by `tcp_enter_cwr(sk, 1)` (so the congestion state has the
changes every send of data makes, such as the window restart after idle, and
those of `tcp_enter_cwr`). -/
theorem tcp_transmit_skb_failed_send (e : env) (tp tp' : tcp_sock) (skb skb' : sk_buff)
    (c : Bool) (err : Int) (h : tcp_transmit_skb e tp skb c = some (err, tp', skb')) :
    (tp'.snd_una = tp.snd_una ∧ tp'.snd_nxt = tp.snd_nxt ∧ tp'.write_seq = tp.write_seq ∧
      tp'.packets_out = tp.packets_out ∧ tp'.retrans_out = tp.retrans_out ∧
      tp'.sk_write_queue = tp.sk_write_queue ∧ tp'.sk_send_head = tp.sk_send_head ∧
      skb'.cb = skb.cb ∧ skb'.len = skb.len ∧ skb'.addr = skb.addr) ∧
    (0 < e.queue_xmit → (c = true → e.clone_ok = true) →
      ∃ tp0, tcp_transmit_skb { e with queue_xmit := 0 } tp skb c = some (0, tp0, skb') ∧
        tp' = tcp_enter_cwr e tp0 true ∧ err = net_xmit_eval e.queue_xmit) := by
  have key := tcp_transmit_skb_keeps e tp tp' skb skb' c err h
  obtain ⟨k1, k2, k3, k4, k5⟩ := key
  have p := congrArg send_state.snd_una k1
  have p2 := congrArg send_state.snd_nxt k1
  have p3 := congrArg send_state.write_seq k1
  have p4 := congrArg send_state.packets_out k1
  have p5 := congrArg send_state.retrans_out k1
  have p6 := congrArg send_state.sk_write_queue k1
  have p7 := congrArg send_state.sk_send_head k1
  exact ⟨⟨p, p2, p3, p4, p5, p6, p7, k2, k3, k4⟩, k5⟩

theorem tcp_transmit_skb_failed_send_witness :
    ∃ tp' skb', tcp_transmit_skb env_congested tp_idle skb_fresh true = some (0, tp', skb') ∧
      tp'.snd_nxt = tp_idle.snd_nxt ∧ tp'.sk_write_queue = tp_idle.sk_write_queue ∧
      skb'.cb = skb_fresh.cb ∧
      ∃ tp0, tcp_transmit_skb { env_congested with queue_xmit := 0 } tp_idle skb_fresh true =
          some (0, tp0, skb') ∧ tp' = tcp_enter_cwr env_congested tp0 true := by
  have hr : ∃ r, tcp_transmit_skb env_congested tp_idle skb_fresh true = some r :=
    Option.isSome_iff_exists.1 (by decide)
  obtain ⟨⟨err, tp', skb'⟩, hr⟩ := hr
  have he : err = 0 := by
    have h2 : (tcp_transmit_skb env_congested tp_idle skb_fresh true).map (fun r => r.1) = some 0 := by
      decide
    rw [hr] at h2
    simpa using h2
  subst he
  obtain ⟨⟨-, h2, -, -, -, h6, -, h8, -, -⟩, hpos⟩ :=
    tcp_transmit_skb_failed_send env_congested tp_idle tp' skb_fresh skb' true 0 hr
  obtain ⟨tp0, h0, h1, -⟩ := hpos (by decide) (fun _ => rfl)
  exact ⟨tp', skb', hr, h2, h6, h8, tp0, h0, h1⟩

/-- C19 as stated fails in its last part: on a connection that has been idle for
longer than the retransmission timeout, a send for which the IP layer reports
congestion leaves the congestion window at the restart window (3 instead of
20) and `snd_cwnd_used` at 0 (instead of 5), which is the work of
`tcp_cwnd_restart`, not of `tcp_enter_cwr`: applied to the state before the
send, `tcp_enter_cwr` leaves both as they are. -/
theorem tcp_transmit_skb_restarts_window :
    (tcp_transmit_skb env_congested tp_idle skb_fresh true).map
        (fun r => (r.1, r.2.1.snd_cwnd, r.2.1.snd_cwnd_used)) = some (0, 3, 0) ∧
    ((tcp_enter_cwr env_congested tp_idle true).snd_cwnd,
      (tcp_enter_cwr env_congested tp_idle true).snd_cwnd_used) = (20, 5) := by
  decide

/-! ## Theorems: the path-MTU probe -/

/-- C20: `tcp_mtu_probe` returns -1 and leaves the connection as it is (so no probe
is built: write queue, `snd_cwnd` and the stored probe size are unchanged)
whenever probing is disabled, a probe is outstanding, the congestion state is
not Open, `snd_cwnd` is below 11 or SACK blocks are pending; on a multipath
subflow (`mpc` set) the function first reads the send window through `mpcb`,
which must not be null. -/
theorem tcp_mtu_probe_gated (e : env) (sk : tcp_sock)
    (hm : sk.mpc = true → sk.mpcb.isSome = true)
    (hg : sk.icsk_mtup_enabled = false ∨ sk.icsk_mtup_probe_size ≠ 0 ∨
      sk.icsk_ca_state ≠ TCP_CA_Open ∨ sk.snd_cwnd < 11 ∨ sk.rx_opt_eff_sacks ≠ 0) :
    tcp_mtu_probe e sk = some (-1, sk) := by
  have hgate : mtu_probe_gate sk = true := by
    unfold mtu_probe_gate
    simp only [Bool.or_eq_true, Bool.not_eq_true', decide_eq_true_eq]
    tauto
  unfold tcp_mtu_probe
  cases hmpc : sk.mpc with
  | false =>
    simp only [Bool.false_eq_true, if_false, hgate, if_true]
  | true =>
    obtain ⟨m, hmm⟩ := Option.isSome_iff_exists.1 (hm hmpc)
    simp only [hmm, Option.map_some', if_true, hgate]

theorem tcp_mtu_probe_gated_witness :
    tcp_mtu_probe env_plain tp_three = some (-1, tp_three) :=
  tcp_mtu_probe_gated env_plain tp_three (fun h => absurd h (by decide)) (Or.inl rfl)

/-! ## Theorems: retransmission -/

theorem tcp_can_forward_retransmit_frame (e : env) (sk sk' : tcp_sock) (b : Bool)
    (h : tcp_can_forward_retransmit e sk = some (b, sk')) :
    sk'.send_state = sk.send_state ∧ sk'.snd_cwnd = sk.snd_cwnd ∧
    sk'.icsk_ca_state = sk.icsk_ca_state ∧
    (b = true → sk.icsk_ca_state = TCP_CA_Recovery) := by
  unfold tcp_can_forward_retransmit at h
  split at h
  · cases h
    exact ⟨rfl, rfl, rfl, fun hb => by cases hb⟩
  · rename_i hca
    simp only [not_not] at hca
    split at h
    · cases h
      exact ⟨rfl, rfl, rfl, fun hb => by cases hb⟩
    · cases hm : tcp_may_send_now e sk with
      | none => rw [hm] at h; cases h
      | some r =>
        rw [hm] at h
        simp only [Option.map_some', Option.some.injEq, Prod.mk.injEq] at h
        obtain ⟨-, h2⟩ := h
        subst h2
        have hfr : r.2.send_state = sk.send_state ∧ r.2.snd_cwnd = sk.snd_cwnd ∧
            r.2.icsk_ca_state = sk.icsk_ca_state := by
          unfold tcp_may_send_now at hm
          split at hm
          · cases hm
          · rename_i mss sk1 hmss
            have h1 : sk1.send_state = sk.send_state ∧ sk1.snd_cwnd = sk.snd_cwnd ∧
                sk1.icsk_ca_state = sk.icsk_ca_state := by
              split at hmss
              · cases hmss
                exact ⟨rfl, rfl, rfl⟩
              · obtain ⟨g, mc, sh, pc, hfr⟩ := tcp_current_mss_frame _ _ _ _ _ hmss
                rw [hfr]
                exact ⟨rfl, rfl, rfl⟩
            split at hm
            · cases hm
              exact h1
            · split at hm
              · cases hm
              · split at hm
                · cases hm
                · cases ht : tcp_snd_test sk1 _ mss _ with
                  | none => rw [ht] at hm; cases hm
                  | some q =>
                    rw [ht] at hm
                    simp only [Option.map_some', Option.some.injEq] at hm
                    rw [← hm]
                    exact h1
        exact ⟨hfr.1, hfr.2.1, hfr.2.2, fun _ => hca⟩
theorem tcp_adjust_fackets_out_ctl (tp : tcp_sock) (hs : Nat) (a : sk_buff) (d : Int) :
    (tcp_adjust_fackets_out tp hs a d).ctl_state = tp.ctl_state := by
  unfold tcp_adjust_fackets_out
  split
  · rfl
  · split <;> rfl

theorem fragment_counters_ctl (tp : tcp_sock) (hs f : Nat) (a b : sk_buff) :
    (fragment_counters tp hs f a b).ctl_state = tp.ctl_state := by
  unfold fragment_counters
  split
  · simp only
    rw [tcp_adjust_fackets_out_ctl]
    rfl
  · rfl

theorem tcp_fragment_ctl (cfg e : Bool) (alloc : Option (Nat × Nat)) (hs : Nat)
    (sk sk' : tcp_sock) (i len mss : Nat) (r : Int)
    (h : tcp_fragment cfg e alloc hs sk i len mss = some (r, sk')) :
    sk'.ctl_state = sk.ctl_state := by
  unfold tcp_fragment at h
  split at h
  · cases h
  · split at h
    · cases h
    · simp only at h
      split at h
      · cases h
        rfl
      · split at h
        · cases h
          rfl
        · split at h
          · cases h
          · simp only [Option.some.injEq, Prod.mk.injEq] at h
            rw [← h.2]
            exact fragment_counters_ctl _ _ _ _ _

theorem tso_fragment_ctl (cfg e : Bool) (alloc : Option (Nat × Nat)) (hs : Nat)
    (sk sk' : tcp_sock) (i len mss : Nat) (r : Int)
    (h : tso_fragment cfg e alloc hs sk i len mss = some (r, sk')) :
    sk'.ctl_state = sk.ctl_state := by
  unfold tso_fragment at h
  split at h
  · cases h
  · split at h
    · cases h
    · split at h
      · exact tcp_fragment_ctl _ _ _ _ _ _ _ _ _ _ h
      · split at h
        · cases h
          rfl
        · simp only at h
          split at h
          · cases h
          · cases h
            rfl

theorem tcp_highest_sack_combine_ctl (tp : tcp_sock) (o n : sk_buff) :
    (tcp_highest_sack_combine tp o n).ctl_state = tp.ctl_state := by
  unfold tcp_highest_sack_combine
  split <;> rfl

theorem collapse_commit_ctl (hs : Nat) (sk sk' : tcp_sock) (i : Nat) (a b : sk_buff)
    (h : collapse_commit hs sk i a b = some sk') : sk'.ctl_state = sk.ctl_state := by
  unfold collapse_commit at h
  simp only at h
  split at h
  · cases h
  · simp only [Option.some.injEq] at h
    rw [← h]
    show (tcp_adjust_fackets_out _ _ _ _).ctl_state = sk.ctl_state
    rw [tcp_adjust_fackets_out_ctl]
    show (tcp_highest_sack_combine sk b a).ctl_state = sk.ctl_state
    exact tcp_highest_sack_combine_ctl _ _ _

theorem tcp_retrans_try_collapse_ctl (hs : Nat) (sk sk' : tcp_sock) (i : Nat) (mss : Int)
    (h : tcp_retrans_try_collapse hs sk i mss = some sk') : sk'.ctl_state = sk.ctl_state := by
  unfold tcp_retrans_try_collapse at h
  split at h
  · split_ifs at h <;> (try split at h) <;> (try split_ifs at h) <;>
      first
        | exact collapse_commit_ctl _ _ _ _ _ _ h
        | (cases h; rfl)
        | cases h
  · cases h

theorem tcp_trim_head_ctl (e : env) (sk sk' : tcp_sock) (i len : Nat) (r : Int)
    (h : tcp_trim_head e sk i len = some (r, sk')) : sk'.ctl_state = sk.ctl_state := by
  unfold tcp_trim_head at h
  split at h
  · cases h
  · split at h
    · cases h
      rfl
    · simp only at h
      split at h
      · cases h
      · split at h
        · split at h
          · cases h
          · rename_i mss tp1 hm
            obtain ⟨g, mc, sh, pc, hfr⟩ := tcp_current_mss_frame _ _ _ _ _ hm
            split at h
            · cases h
            · simp only [Option.some.injEq, Prod.mk.injEq] at h
              rw [← h.2, hfr]
              rfl
        · simp only [Option.some.injEq, Prod.mk.injEq] at h
          rw [← h.2]
          rfl

theorem ite_ca_state (c : Prop) [Decidable c] (a b : tcp_sock) (s : Nat)
    (ha : a.icsk_ca_state = s) (hb : b.icsk_ca_state = s) :
    (if c then a else b).icsk_ca_state = s := by
  split <;> assumption

theorem transmit_options_ca (e : env) (tp tp' : tcp_sock) (skb : sk_buff)
    (o : tcp_out_options) (h : transmit_options e tp skb = some (o, tp')) :
    tp'.icsk_ca_state = tp.icsk_ca_state := by
  unfold transmit_options at h
  split at h
  · cases hs : tcp_syn_options e tp skb {} with
    | none => rw [hs] at h; cases h
    | some r =>
      rw [hs] at h
      simp only [Option.map_some', Option.some.injEq, Prod.mk.injEq] at h
      rw [← h.2]
      have ha : (tcp_advertise_mss e tp).2.icsk_ca_state = tp.icsk_ca_state := by
        unfold tcp_advertise_mss
        split
        · split <;> rfl
        · rfl
      unfold tcp_syn_options at hs
      simp only at hs
      generalize syn_options_base e (tcp_advertise_mss e tp).2 (tcp_advertise_mss e tp).1 skb {} = p
        at hs
      split_ifs at hs <;> simp only [Option.some.injEq] at hs <;>
        (rw [← hs]; exact ha)
  · cases hs : tcp_established_options e.CONFIG_MTCP e.CONFIG_MTCP_PM e.md5 e.hash_find tp
        (some skb) {} with
    | none => rw [hs] at h; cases h
    | some r =>
      rw [hs] at h
      simp only [Option.map_some', Option.some.injEq, Prod.mk.injEq] at h
      rw [← h.2]
      split <;> rfl

theorem transmit_window_ca (e : env) (tp tp' : tcp_sock) (skb : sk_buff)
    (h : transmit_window e tp skb = some tp') :
    tp'.icsk_ca_state = tp.icsk_ca_state := by
  unfold transmit_window at h
  split at h
  · cases h
    rfl
  · cases hw : tcp_select_window e tp with
    | none => rw [hw] at h; cases h
    | some r =>
      rw [hw] at h
      simp only [Option.map_some', Option.some.injEq] at h
      rw [← h]
      unfold tcp_select_window at hw
      simp only at hw
      split at hw
      · cases hw
      · simp only [Option.some.injEq] at hw
        rw [← hw]
        simp only
        split
        · split <;> rfl
        · rfl

theorem transmit_finish_ca (e : env) (tp : tcp_sock) (opts : tcp_out_options) (skb : sk_buff)
    (sh : Bool) :
    (transmit_finish e tp opts skb sh).1.icsk_ca_state = tp.icsk_ca_state := by
  unfold transmit_finish
  have h3 : (tcp_options_write e.CONFIG_MTCP e.CONFIG_MTCP_PM e.codes tp opts).2.2.icsk_ca_state =
      tp.icsk_ca_state := by
    unfold tcp_options_write
    simp only
    split <;> rfl
  have h4 : (if tst skb.cb.flags TCPCB_FLAG_SYN = true then
        ((tcp_options_write e.CONFIG_MTCP e.CONFIG_MTCP_PM e.codes tp opts).2.2, false)
      else TCP_ECN_send (tcp_options_write e.CONFIG_MTCP e.CONFIG_MTCP_PM e.codes tp opts).2.2
        skb).1.icsk_ca_state = tp.icsk_ca_state := by
    split
    · exact h3
    · unfold TCP_ECN_send
      split
      · exact h3
      · exact h3
  have h5 : ∀ t : tcp_sock, (tcp_event_data_sent e t).icsk_ca_state = t.icsk_ca_state := by
    intro t
    unfold tcp_event_data_sent
    simp only
    split <;> rfl
  refine ite_ca_state _ _ _ _ ?_ ?_
  · rw [h5]
    exact ite_ca_state _ _ _ _ h4 h4
  · exact ite_ca_state _ _ _ _ h4 h4

/-- The function `tcp_transmit_skb` never enters Recovery: it leaves the congestion
state alone or, on congestion below, enters CWR. -/
theorem tcp_transmit_skb_ca (e : env) (tp tp' : tcp_sock) (skb skb' : sk_buff) (c : Bool)
    (err : Int) (h : tcp_transmit_skb e tp skb c = some (err, tp', skb')) :
    tp'.icsk_ca_state = tp.icsk_ca_state ∨ tp'.icsk_ca_state = TCP_CA_CWR := by
  unfold tcp_transmit_skb at h
  split at h
  · cases h
  · split at h
    · cases h
    · simp only at h
      split at h
      · simp only [Option.some.injEq, Prod.mk.injEq] at h
        rw [← h.2.1]
        exact Or.inl rfl
      · split at h
        · cases h
        · rename_i tp1 skb1 hb
          have hca : tp1.icsk_ca_state = tp.icsk_ca_state := by
            unfold transmit_build at hb
            simp only at hb
            split at hb
            · cases hb
            · rename_i opts tp2 hopt
              split at hb
              · cases hb
              · rename_i tp3 hwin
                simp only [Option.some.injEq] at hb
                have := transmit_finish_ca e tp3 opts (transmit_cloned
                  (if e.ca_rtt_stamp = true then { skb with tstamp := e.ktime } else skb) c)
                  (!(c && (if e.ca_rtt_stamp = true then { skb with tstamp := e.ktime }
                    else skb).cloned))
                rw [hb] at this
                rw [this, transmit_window_ca _ _ _ _ hwin, transmit_options_ca _ _ _ _ _ hopt]
          split at h
          · simp only [Option.some.injEq, Prod.mk.injEq] at h
            rw [← h.2.1]
            exact Or.inl hca
          · simp only [Option.some.injEq, Prod.mk.injEq] at h
            rw [← h.2.1]
            unfold tcp_enter_cwr
            simp only
            split
            · exact Or.inr rfl
            · exact Or.inl hca

theorem and_then_some (r : Option (Int × tcp_sock)) (f : tcp_sock → Option (Int × tcp_sock))
    (c : Int) (sk' : tcp_sock) (h : and_then r f = some (c, sk')) :
    (c ≠ 0 ∧ r = some (c, sk')) ∨ (∃ sk1, r = some (0, sk1) ∧ f sk1 = some (c, sk')) := by
  unfold and_then at h
  split at h
  · cases h
  · rename_i c0 sk0
    split at h
    · rename_i hc
      simp only [Option.some.injEq, Prod.mk.injEq] at h
      obtain ⟨h1, h2⟩ := h
      subst h1
      subst h2
      exact Or.inl ⟨hc, rfl⟩
    · rename_i hc
      simp only [ne_eq, not_not] at hc
      subst hc
      exact Or.inr ⟨sk0, rfl, h⟩

theorem retransmit_enter_ctl (e : env) (sk sk' : tcp_sock) (c : Int)
    (h : retransmit_enter e sk = some (c, sk')) :
    sk'.ctl_state = sk.ctl_state ∧ sk'.send_state = sk.send_state := by
  unfold retransmit_enter at h
  simp only at h
  split at h <;> (simp only [Option.some.injEq, Prod.mk.injEq] at h; rw [← h.2]; exact ⟨rfl, rfl⟩)

theorem retransmit_trim_ctl (e : env) (sk sk' : tcp_sock) (i : Nat) (c : Int)
    (h : retransmit_trim e sk i = some (c, sk')) : sk'.ctl_state = sk.ctl_state := by
  unfold retransmit_trim at h
  split at h
  · cases h
  · split at h
    · split at h
      · cases h
      · split at h
        · cases h
        · rename_i r sk1 ht
          have := tcp_trim_head_ctl _ _ _ _ _ _ ht
          split at h <;> (simp only [Option.some.injEq, Prod.mk.injEq] at h; rw [← h.2]; exact this)
    · simp only [Option.some.injEq, Prod.mk.injEq] at h
      rw [← h.2]

theorem retransmit_mss_ctl (e : env) (sk sk' : tcp_sock) (m : Nat)
    (h : retransmit_mss e sk = some (m, sk')) : sk'.ctl_state = sk.ctl_state := by
  unfold retransmit_mss at h
  split at h
  · cases h
    rfl
  · obtain ⟨g, mc, sh, pc, hfr⟩ := tcp_current_mss_frame _ _ _ _ _ h
    rw [hfr]
    rfl

theorem retransmit_window_ctl (sk sk' : tcp_sock) (i : Nat) (c : Int)
    (h : retransmit_window sk i = some (c, sk')) : sk' = sk := by
  unfold retransmit_window at h
  split at h
  · split_ifs at h <;> (simp only [Option.some.injEq, Prod.mk.injEq] at h; exact h.2.symm)
  · cases h

theorem retransmit_fragment_ctl (e : env) (m : Nat) (sk sk' : tcp_sock) (i : Nat) (c : Int)
    (h : retransmit_fragment e m sk i = some (c, sk')) : sk'.ctl_state = sk.ctl_state := by
  unfold retransmit_fragment at h
  split at h
  · cases h
  · split at h
    · split at h
      · cases h
      · rename_i r sk1 ht
        have := tcp_fragment_ctl _ _ _ _ _ _ _ _ _ _ ht
        split at h <;> (simp only [Option.some.injEq, Prod.mk.injEq] at h; rw [← h.2]; exact this)
    · simp only [Option.some.injEq, Prod.mk.injEq] at h
      rw [← h.2]

theorem retransmit_collapse_ctl (e : env) (m : Nat) (sk sk' : tcp_sock) (i : Nat) (c : Int)
    (h : retransmit_collapse e m sk i = some (c, sk')) : sk'.ctl_state = sk.ctl_state := by
  unfold retransmit_collapse at h
  split at h
  · cases ht : tcp_retrans_try_collapse e.highest_sack_seq sk i m with
    | none => rw [ht] at h; cases h
    | some s =>
      rw [ht] at h
      simp only [Option.map_some', Option.some.injEq, Prod.mk.injEq] at h
      rw [← h.2]
      exact tcp_retrans_try_collapse_ctl _ _ _ _ _ ht
  · simp only [Option.some.injEq, Prod.mk.injEq] at h
    rw [← h.2]

theorem retransmit_strip_fin_ctl (e : env) (sk sk' : tcp_sock) (i : Nat) (c : Int)
    (h : retransmit_strip_fin e sk i = some (c, sk')) : sk'.ctl_state = sk.ctl_state := by
  unfold retransmit_strip_fin at h
  split at h
  · cases h
  · split_ifs at h <;>
      (simp only [Option.some.injEq, Prod.mk.injEq] at h; obtain ⟨-, h2⟩ := h; subst h2; rfl)

theorem retransmit_send_ca (e : env) (sk sk' : tcp_sock) (i : Nat) (c : Int)
    (h : retransmit_send e sk i = some (c, sk')) :
    sk'.icsk_ca_state = sk.icsk_ca_state ∨ sk'.icsk_ca_state = TCP_CA_CWR := by
  unfold retransmit_send at h
  split at h
  · cases h
  · simp only at h
    split at h
    · cases h
    · rename_i err sk1 skb1 ht
      have := tcp_transmit_skb_ca _ _ _ _ _ _ _ ht
      split at h <;> (simp only [Option.some.injEq, Prod.mk.injEq] at h; rw [← h.2]; exact this)

/-- The function `tcp_retransmit_skb` never enters Recovery. -/
theorem tcp_retransmit_skb_ca (e : env) (sk sk' : tcp_sock) (i : Nat) (c : Int)
    (h : tcp_retransmit_skb e sk i = some (c, sk')) :
    sk'.icsk_ca_state = sk.icsk_ca_state ∨ sk'.icsk_ca_state = TCP_CA_CWR := by
  have ca : ∀ a b : tcp_sock, a.ctl_state = b.ctl_state → a.icsk_ca_state = b.icsk_ca_state :=
    fun a b hab => congrArg ctl_state.icsk_ca_state hab
  unfold tcp_retransmit_skb at h
  split at h
  · cases h
  · rcases and_then_some _ _ _ _ h with ⟨-, h1⟩ | ⟨s1, h1, h⟩
    · exact Or.inl (ca _ _ (retransmit_enter_ctl _ _ _ _ h1).1)
    · have e1 := ca _ _ (retransmit_enter_ctl _ _ _ _ h1).1
      rcases and_then_some _ _ _ _ h with ⟨-, h2⟩ | ⟨s2, h2, h⟩
      · exact Or.inl ((ca _ _ (retransmit_trim_ctl _ _ _ _ _ h2)).trans e1)
      · have e2 := (ca _ _ (retransmit_trim_ctl _ _ _ _ _ h2)).trans e1
        split at h
        · simp only [Option.some.injEq, Prod.mk.injEq] at h
          rw [← h.2]
          exact Or.inl e2
        · split at h
          · cases h
          · rename_i m s3 hm
            have e3 := (ca _ _ (retransmit_mss_ctl _ _ _ _ hm)).trans e2
            rcases and_then_some _ _ _ _ h with ⟨-, h4⟩ | ⟨s4, h4, h⟩
            · rw [retransmit_window_ctl _ _ _ _ h4]
              exact Or.inl e3
            · have e4 : s4.icsk_ca_state = sk.icsk_ca_state := by
                rw [retransmit_window_ctl _ _ _ _ h4]
                exact e3
              rcases and_then_some _ _ _ _ h with ⟨-, h5⟩ | ⟨s5, h5, h⟩
              · exact Or.inl ((ca _ _ (retransmit_fragment_ctl _ _ _ _ _ _ h5)).trans e4)
              · have e5 := (ca _ _ (retransmit_fragment_ctl _ _ _ _ _ _ h5)).trans e4
                rcases and_then_some _ _ _ _ h with ⟨-, h6⟩ | ⟨s6, h6, h⟩
                · exact Or.inl ((ca _ _ (retransmit_collapse_ctl _ _ _ _ _ _ h6)).trans e5)
                · have e6 := (ca _ _ (retransmit_collapse_ctl _ _ _ _ _ _ h6)).trans e5
                  rcases and_then_some _ _ _ _ h with ⟨-, h7⟩ | ⟨s7, h7, h⟩
                  · exact Or.inl ((ca _ _ (retransmit_strip_fin_ctl _ _ _ _ _ h7)).trans e6)
                  · have e7 := (ca _ _ (retransmit_strip_fin_ctl _ _ _ _ _ h7)).trans e6
                    rcases retransmit_send_ca _ _ _ _ _ h with h8 | h8
                    · exact Or.inl (h8.trans e7)
                    · exact Or.inr h8

/-- A call of `tcp_retransmit_skb` in a pass is in order: the congestion window has
room, and unless it is a forward retransmission the buffer passed is marked
lost, neither SACKed nor retransmitted, and is not the send head. -/
def call_in_order (sk : tcp_sock) (j : Nat) (fwd : Bool) : Prop :=
  tcp_packets_in_flight sk < sk.snd_cwnd ∧
  (fwd = false → ∃ s, sk.sk_write_queue[j]? = some s ∧
    tst s.cb.sacked TCPCB_LOST = true ∧
    tst s.cb.sacked (TCPCB_SACKED_ACKED ||| TCPCB_SACKED_RETRANS) = false ∧
    some s.addr ≠ sk.sk_send_head)

theorem round_send_cases (e : env) (sacked : Nat) (sk : tcp_sock) (j : Nat) (hole : Option Nat)
    (ll : Nat) (fwd : Bool) :
    round_send e sacked sk j hole ll fwd = .stop sk .returned ∨
    (round_send e sacked sk j hole ll fwd = .next sk j hole ll fwd) ∨
    (round_send e sacked sk j hole ll fwd = .send sk j hole ll fwd ∧
      tst sacked (TCPCB_SACKED_ACKED ||| TCPCB_SACKED_RETRANS) = false) := by
  unfold round_send
  split
  · exact Or.inl rfl
  · split
    · exact Or.inr (Or.inl rfl)
    · rename_i h
      exact Or.inr (Or.inr ⟨rfl, by simpa using h⟩)

/-- What a round leaves behind when it goes on: the congestion state is as before,
and forward retransmission starts only in Recovery; a round that sends does so
in order. -/
def round_ok (sk : tcp_sock) (fwd : Bool) : round_step → Prop
  | .stop _ _ => True
  | .next sk' _ _ _ fwd' =>
    sk'.icsk_ca_state = sk.icsk_ca_state ∧
    (fwd' = true → fwd = true ∨ sk.icsk_ca_state = TCP_CA_Recovery)
  | .send sk' j' _ _ fwd' =>
    sk'.icsk_ca_state = sk.icsk_ca_state ∧
    (fwd' = true → fwd = true ∨ sk.icsk_ca_state = TCP_CA_Recovery) ∧
    call_in_order sk' j' fwd'

theorem retransmit_round_spec (e : env) (sk : tcp_sock) (j : Nat) (hole : Option Nat)
    (ll : Nat) (fwd : Bool) : round_ok sk fwd (retransmit_round e sk j hole ll fwd) := by
  unfold retransmit_round
  split
  · trivial
  · rename_i skb hq
    simp only
    split
    · trivial
    · rename_i hhead
      have hsk : ∀ t : tcp_sock, t = (if hole.isNone = true then
          { sk with retransmit_skb_hint := some skb.addr } else sk) →
          t.icsk_ca_state = sk.icsk_ca_state ∧ t.sk_write_queue = sk.sk_write_queue ∧
          t.sk_send_head = sk.sk_send_head := by
        intro t ht
        subst ht
        split <;> exact ⟨rfl, rfl, rfl⟩
      generalize (if hole.isNone = true then
          { sk with retransmit_skb_hint := some skb.addr } else sk) = sk0 at hsk ⊢
      obtain ⟨hca0, hq0, hh0⟩ := hsk sk0 rfl
      split
      · trivial
      · rename_i hfl
        have hfl' : tcp_packets_in_flight sk0 < sk0.snd_cwnd := by omega
        split
        · rename_i hfwd
          rcases round_send_cases e skb.cb.sacked sk0 j hole ll true with h | h | ⟨h, -⟩
          · rw [h]; trivial
          · rw [h]; exact ⟨hca0, fun _ => Or.inl hfwd⟩
          · rw [h]
            exact ⟨hca0, fun _ => Or.inl hfwd, hfl', fun hf => by cases hf⟩
        · rename_i hfwd
          split
          · cases hcf : tcp_can_forward_retransmit e { sk0 with retransmit_high := ll } with
            | none => trivial
            | some r =>
              obtain ⟨b, sk1⟩ := r
              obtain ⟨f1, f2, f3, f4⟩ := tcp_can_forward_retransmit_frame _ _ _ _ hcf
              cases b with
              | false => trivial
              | true =>
                simp only
                have hrec : sk.icsk_ca_state = TCP_CA_Recovery := by
                  rw [← hca0]
                  exact f4 rfl
                have hfl1 : tcp_packets_in_flight sk1 < sk1.snd_cwnd := by
                  have p1 := congrArg send_state.packets_out f1
                  have p2 := congrArg send_state.sacked_out f1
                  have p3 := congrArg send_state.lost_out f1
                  have p4 := congrArg send_state.retrans_out f1
                  simp only [tcp_sock.send_state] at p1 p2 p3 p4
                  unfold tcp_packets_in_flight at hfl' ⊢
                  rw [p1, p2, p3, p4, f2]
                  exact hfl'
                rcases round_send_cases e skb.cb.sacked sk1 (hole.getD j) none ll true with
                  h | h | ⟨h, -⟩
                · rw [h]; trivial
                · rw [h]; exact ⟨f3.trans hca0, fun _ => Or.inr hrec⟩
                · rw [h]
                  exact ⟨f3.trans hca0, fun _ => Or.inr hrec, hfl1, fun hf => by cases hf⟩
          · split
            · exact ⟨hca0, fun hf => absurd hf hfwd⟩
            · rename_i hnl hlost
              rcases round_send_cases e skb.cb.sacked sk0 j hole skb.cb.end_seq false with
                h | h | ⟨h, hsa⟩
              · rw [h]; trivial
              · rw [h]; exact ⟨hca0, fun hf => by cases hf⟩
              · rw [h]
                refine ⟨hca0, fun hf => (by cases hf), hfl', fun _ => ⟨skb, ?_, ?_, hsa, ?_⟩⟩
                · rw [hq0]; exact hq
                · simpa using hlost
                · rw [hh0]; exact hhead

theorem dropLast_cons_ok {α : Type} (p : α → Prop) (c : α) (l : List α) (hc : p c)
    (hl : ∀ x ∈ l.dropLast, p x) : ∀ x ∈ (c :: l).dropLast, p x := by
  cases l with
  | nil => intro x hx; simp at hx
  | cons d l' =>
    intro x hx
    rw [List.dropLast_cons₂] at hx
    rcases List.mem_cons.1 hx with h | h
    · rw [h]; exact hc
    · exact hl x h

/-- Every call of `tcp_retransmit_skb` made by the loop is in order. -/
theorem retransmit_loop_in_order (e : Nat → env) (fuel : Nat) :
    ∀ (n : Nat) (sk : tcp_sock) (j : Nat) (hole : Option Nat) (ll : Nat) (fwd : Bool),
      ∀ c ∈ (retransmit_loop e fuel n sk j hole ll fwd).trace, call_in_order c.sk c.i c.fwd := by
  induction fuel with
  | zero =>
    intro n sk j hole ll fwd c hc
    simp [retransmit_loop] at hc
  | succ fuel ih =>
    intro n sk j hole ll fwd c hc
    have hspec := retransmit_round_spec (e n) sk j hole ll fwd
    rw [retransmit_loop] at hc
    cases hr : retransmit_round (e n) sk j hole ll fwd with
    | stop sk' en =>
      rw [hr] at hc
      simp at hc
    | next sk' j' hole' ll' fwd' =>
      rw [hr] at hc
      exact ih _ _ _ _ _ _ c hc
    | send sk' j' hole' ll' fwd' =>
      rw [hr] at hc hspec
      obtain ⟨-, -, hok⟩ := hspec
      simp only at hc
      split at hc
      · simp only [List.mem_singleton] at hc
        rw [hc]
        exact hok
      · split at hc
        · simp only [List.mem_singleton] at hc
          rw [hc]
          exact hok
        · simp only [pass_result.after, List.mem_cons] at hc
          rcases hc with hc | hc
          · rw [hc]
            exact hok
          · exact ih _ _ _ _ _ _ c hc

/-- Every call of the loop but the last one returned 0. -/
theorem retransmit_loop_stops (e : Nat → env) (fuel : Nat) :
    ∀ (n : Nat) (sk : tcp_sock) (j : Nat) (hole : Option Nat) (ll : Nat) (fwd : Bool),
      ∀ c ∈ (retransmit_loop e fuel n sk j hole ll fwd).trace.dropLast, c.ret = some 0 := by
  induction fuel with
  | zero =>
    intro n sk j hole ll fwd c hc
    simp [retransmit_loop] at hc
  | succ fuel ih =>
    intro n sk j hole ll fwd c hc
    rw [retransmit_loop] at hc
    cases hr : retransmit_round (e n) sk j hole ll fwd with
    | stop sk' en =>
      rw [hr] at hc
      simp at hc
    | next sk' j' hole' ll' fwd' =>
      rw [hr] at hc
      exact ih _ _ _ _ _ _ c hc
    | send sk' j' hole' ll' fwd' =>
      rw [hr] at hc
      simp only at hc
      split at hc
      · simp at hc
      · split at hc
        · simp at hc
        · rename_i ret sk1 hcall hret
          simp only [ne_eq, not_not] at hret
          simp only [pass_result.after] at hc
          exact dropLast_cons_ok (fun x => x.ret = some 0) _ _ (by simp [hret])
            (ih _ _ _ _ _ _) c hc

/-- Outside Recovery the loop makes no forward retransmission. -/
theorem retransmit_loop_no_forward (e : Nat → env) (fuel : Nat) :
    ∀ (n : Nat) (sk : tcp_sock) (j : Nat) (hole : Option Nat) (ll : Nat),
      sk.icsk_ca_state ≠ TCP_CA_Recovery →
      ∀ c ∈ (retransmit_loop e fuel n sk j hole ll false).trace, c.fwd = false := by
  induction fuel with
  | zero =>
    intro n sk j hole ll hca c hc
    simp [retransmit_loop] at hc
  | succ fuel ih =>
    intro n sk j hole ll hca c hc
    have hspec := retransmit_round_spec (e n) sk j hole ll false
    rw [retransmit_loop] at hc
    cases hr : retransmit_round (e n) sk j hole ll false with
    | stop sk' en =>
      rw [hr] at hc
      simp at hc
    | next sk' j' hole' ll' fwd' =>
      rw [hr] at hc hspec
      obtain ⟨h1, h2⟩ := hspec
      have hf : fwd' = false := by
        cases fwd' with
        | false => rfl
        | true =>
          rcases h2 rfl with h | h
          · cases h
          · exact absurd h hca
      subst hf
      exact ih _ _ _ _ _ (by rw [h1]; exact hca) c hc
    | send sk' j' hole' ll' fwd' =>
      rw [hr] at hc hspec
      obtain ⟨h1, h2, -⟩ := hspec
      have hf : fwd' = false := by
        cases fwd' with
        | false => rfl
        | true =>
          rcases h2 rfl with h | h
          · cases h
          · exact absurd h hca
      subst hf
      simp only at hc
      split at hc
      · simp only [List.mem_singleton] at hc
        rw [hc]
      · split at hc
        · simp only [List.mem_singleton] at hc
          rw [hc]
        · rename_i ret sk1 hcall hret
          simp only [pass_result.after, List.mem_cons] at hc
          rcases hc with hc | hc
          · rw [hc]
          · refine ih _ _ _ _ _ ?_ c hc
            rcases tcp_retransmit_skb_ca _ _ _ _ _ hcall with h | h
            · rw [h, h1]; exact hca
            · rw [h]; decide
theorem tst_or_false (x a b : Nat) (h : tst x (a ||| b) = false) :
    tst x a = false ∧ tst x b = false := by
  unfold tst at h ⊢
  simp only [ne_eq, decide_not, Bool.not_eq_false', decide_eq_true_eq, Bool.not_eq_eq_eq_not,
    Bool.not_false] at h ⊢
  have h1 : x &&& a = 0 := by
    apply Nat.eq_of_testBit_eq
    intro i
    have := congrArg (fun n => n.testBit i) h
    simp only [Nat.testBit_and, Nat.testBit_or, Nat.zero_testBit] at this ⊢
    cases hx : x.testBit i <;> cases ha : a.testBit i <;> simp_all
  have h2 : x &&& b = 0 := by
    apply Nat.eq_of_testBit_eq
    intro i
    have := congrArg (fun n => n.testBit i) h
    simp only [Nat.testBit_and, Nat.testBit_or, Nat.zero_testBit] at this ⊢
    cases hx : x.testBit i <;> cases hb : b.testBit i <;> simp_all
  exact ⟨h1, h2⟩

theorem tcp_xmit_retransmit_queue_loop (e : Nat → env) (fuel : Nat) (sk : tcp_sock)
    (r : pass_result) (h : tcp_xmit_retransmit_queue e fuel sk = some r) :
    ∃ sk0 j ll, sk0.icsk_ca_state = sk.icsk_ca_state ∧
      r = retransmit_loop e fuel 0 sk0 j none ll false := by
  unfold tcp_xmit_retransmit_queue at h
  split at h
  · cases h
  · simp only at h
    have hsk : (if sk.lost_out = 0 then { sk with retransmit_high := sk.snd_una }
        else sk).icsk_ca_state = sk.icsk_ca_state := by
      split <;> rfl
    generalize (if sk.lost_out = 0 then { sk with retransmit_high := sk.snd_una } else sk) = sk0
      at h hsk
    split at h
    · split at h
      · cases h
      · split at h
        · cases h
        · simp only [Option.some.injEq] at h
          exact ⟨sk0, _, _, hsk, h.symm⟩
    · split at h
      · cases h
      · simp only [Option.some.injEq] at h
        exact ⟨sk0, _, _, hsk, h.symm⟩

/-- C16, as the code has it: in a pass of `tcp_xmit_retransmit_queue` that starts
outside Recovery, every buffer passed to `tcp_retransmit_skb` is, at that
moment, marked lost, neither SACKed nor retransmitted, and not the send head:
a segment that is not marked lost is never passed. (What `tcp_retransmit_skb`
then does to the segment after the one passed is another matter: it may merge
it into the one passed.) -/
theorem tcp_xmit_retransmit_queue_selects_lost (e : Nat → env) (fuel : Nat) (sk : tcp_sock)
    (r : pass_result) (h : tcp_xmit_retransmit_queue e fuel sk = some r)
    (hca : sk.icsk_ca_state ≠ TCP_CA_Recovery) :
    ∀ c ∈ r.trace, ∃ s, c.sk.sk_write_queue[c.i]? = some s ∧
      tst s.cb.sacked TCPCB_LOST = true ∧
      tst s.cb.sacked TCPCB_SACKED_ACKED = false ∧
      tst s.cb.sacked TCPCB_SACKED_RETRANS = false ∧
      some s.addr ≠ c.sk.sk_send_head := by
  obtain ⟨sk0, j, ll, h0, hr⟩ := tcp_xmit_retransmit_queue_loop e fuel sk r h
  subst hr
  intro c hc
  have hf := retransmit_loop_no_forward e fuel 0 sk0 j none ll (by rw [h0]; exact hca) c hc
  obtain ⟨-, hlost⟩ := retransmit_loop_in_order e fuel 0 sk0 j none ll false c hc
  obtain ⟨s, h1, h2, h3, h4⟩ := hlost hf
  exact ⟨s, h1, h2, (tst_or_false _ _ _ h3).1, (tst_or_false _ _ _ h3).2, h4⟩

/-- C17: in every pass of `tcp_xmit_retransmit_queue`, each call of
`tcp_retransmit_skb` is made in a state with `tcp_packets_in_flight` below
`snd_cwnd`, and every call but the last one returned 0: once a call fails, or
a round finds the window full, no further segment is tried. -/
theorem tcp_xmit_retransmit_queue_within_cwnd (e : Nat → env) (fuel : Nat) (sk : tcp_sock)
    (r : pass_result) (h : tcp_xmit_retransmit_queue e fuel sk = some r) :
    (∀ c ∈ r.trace, tcp_packets_in_flight c.sk < c.sk.snd_cwnd) ∧
    (∀ c ∈ r.trace.dropLast, c.ret = some 0) := by
  obtain ⟨sk0, j, ll, -, hr⟩ := tcp_xmit_retransmit_queue_loop e fuel sk r h
  subst hr
  exact ⟨fun c hc => (retransmit_loop_in_order e fuel 0 sk0 j none ll false c hc).1,
    retransmit_loop_stops e fuel 0 sk0 j none ll false⟩

theorem tcp_xmit_retransmit_queue_selects_lost_witness :
    ∃ r, tcp_xmit_retransmit_queue (fun _ => env_no_collapse) 10 tp_second_lost = some r ∧
      r.trace.map (fun c => (c.i, c.ret)) = [(1, some 0)] ∧
      r.sk.sk_write_queue.map (fun s => (s.addr, s.len, s.cb.seq, s.cb.end_seq)) =
        [(1, 40, 960, 1000), (2, 100, 1000, 1100), (3, 40, 1100, 1140)] ∧
      ∀ c ∈ r.trace, ∃ s, c.sk.sk_write_queue[c.i]? = some s ∧
        tst s.cb.sacked TCPCB_LOST = true ∧ tst s.cb.sacked TCPCB_SACKED_RETRANS = false := by
  obtain ⟨r, hr⟩ : ∃ r, tcp_xmit_retransmit_queue (fun _ => env_no_collapse) 10 tp_second_lost =
      some r := Option.isSome_iff_exists.1 (by decide)
  have h1 : (tcp_xmit_retransmit_queue (fun _ => env_no_collapse) 10 tp_second_lost).map
      (fun r => (r.trace.map (fun c => (c.i, c.ret)),
        r.sk.sk_write_queue.map (fun s => (s.addr, s.len, s.cb.seq, s.cb.end_seq)))) =
      some ([(1, some 0)], [(1, 40, 960, 1000), (2, 100, 1000, 1100), (3, 40, 1100, 1140)]) := by
    decide
  rw [hr] at h1
  simp only [Option.map_some', Option.some.injEq, Prod.mk.injEq] at h1
  refine ⟨r, hr, h1.1, h1.2, fun c hc => ?_⟩
  obtain ⟨s, a1, a2, -, a4, -⟩ :=
    tcp_xmit_retransmit_queue_selects_lost (fun _ => env_no_collapse) 10 tp_second_lost r hr
      (by decide) c hc
  exact ⟨s, a1, a2, a4⟩

/-- C16 as stated fails: with three outstanding segments of which only the second is
marked lost, the pass calls `tcp_retransmit_skb` once, on the second, and that
call merges the third segment into it: afterwards the queue holds two segments,
the second covering the sequence range of both, and `packets_out` is 2. -/
theorem tcp_xmit_retransmit_queue_merges_next :
    (tcp_xmit_retransmit_queue (fun _ => env_plain) 10 tp_second_lost).map
      (fun r => (r.trace.map (fun c => (c.i, c.ret)),
        r.sk.sk_write_queue.map (fun s => (s.addr, s.len, s.cb.seq, s.cb.end_seq)))) =
      some ([(1, some 0)], [(1, 40, 960, 1000), (2, 140, 1000, 1140)]) ∧
    (tcp_xmit_retransmit_queue (fun _ => env_plain) 10 tp_second_lost).map
      (fun r => (r.sk.packets_out, r.ending)) = some (2, pass_end.returned) := by
  decide

theorem tcp_xmit_retransmit_queue_within_cwnd_witness :
    ∃ r, tcp_xmit_retransmit_queue (fun _ => env_plain) 10 tp_second_lost = some r ∧
      r.ending = pass_end.returned ∧ r.trace.length = 1 ∧
      (∀ c ∈ r.trace, tcp_packets_in_flight c.sk < c.sk.snd_cwnd) ∧
      (∀ c ∈ r.trace.dropLast, c.ret = some 0) := by
  obtain ⟨r, hr⟩ : ∃ r, tcp_xmit_retransmit_queue (fun _ => env_plain) 10 tp_second_lost =
      some r := Option.isSome_iff_exists.1 (by decide)
  have h1 : (tcp_xmit_retransmit_queue (fun _ => env_plain) 10 tp_second_lost).map
      (fun r => (r.ending, r.trace.length)) = some (pass_end.returned, 1) := by
    decide
  rw [hr] at h1
  simp only [Option.map_some', Option.some.injEq, Prod.mk.injEq] at h1
  obtain ⟨w1, w2⟩ :=
    tcp_xmit_retransmit_queue_within_cwnd (fun _ => env_plain) 10 tp_second_lost r hr
  exact ⟨r, hr, h1.1, h1.2, w1, w2⟩


/-- The buffer `tcp_transmit_skb` hands back is the one passed, up to its time stamp,
its `cloned` mark and its segmentation type. -/
theorem tcp_transmit_skb_buffer (e : env) (tp tp' : tcp_sock) (skb skb' : sk_buff)
    (c : Bool) (err : Int) (h : tcp_transmit_skb e tp skb c = some (err, tp', skb')) :
    skb' = { skb with tstamp := skb'.tstamp, cloned := skb'.cloned,
                      gso_type := skb'.gso_type } := by
  unfold tcp_transmit_skb at h
  split at h
  · cases h
  · split at h
    · cases h
    · simp only at h
      have hst : ∀ b : Bool, (if b = true then { skb with tstamp := e.ktime } else skb) =
          { skb with tstamp := (if b = true then { skb with tstamp := e.ktime } else skb).tstamp } := by
        intro b
        cases b <;> rfl
      have hst := hst e.ca_rtt_stamp
      generalize (if e.ca_rtt_stamp = true then { skb with tstamp := e.ktime } else skb) = skb1
        at h hst
      split at h
      · simp only [Option.some.injEq, Prod.mk.injEq] at h
        rw [← h.2.2, hst]
      · split at h
        · cases h
        · rename_i tp1 skb2 hb
          obtain ⟨-, f2⟩ := transmit_build_frame _ _ _ _ _ _ hb
          split at h <;>
            (simp only [Option.some.injEq, Prod.mk.injEq] at h
             rw [← h.2.2, f2, hst])

theorem retransmit_collapse_unwanted (e : env) (m : Nat) (sk : tcp_sock) (i : Nat)
    (h : e.sysctl_tcp_retrans_collapse = false) : retransmit_collapse_wanted e m sk i = false := by
  unfold retransmit_collapse_wanted
  split
  · rw [h]
    simp
  · rfl

/-- A successful `tcp_retransmit_skb` on a segment that needs no trimming, cutting,
merging or FIN stripping: the segment is marked retransmitted and its count is
added to `retrans_out`, whatever its flags were; `packets_out`, `snd_una` and
the rest of the segment stay. -/
theorem tcp_retransmit_skb_plain (e : env) (sk sk' : tcp_sock) (i : Nat) (s : sk_buff)
    (hq : sk.sk_write_queue[i]? = some s) (hm : e.CONFIG_MTCP = true)
    (hc : e.sysctl_tcp_retrans_collapse = false)
    (hseq : before s.cb.seq sk.snd_una = false) (hlen : s.len ≤ e.sysctl_mptcp_mss)
    (hfin : tst s.cb.flags TCPCB_FLAG_FIN = false)
    (h : tcp_retransmit_skb e sk i = some (0, sk')) :
    sk'.retrans_out = add32 sk.retrans_out (tcp_skb_pcount s) ∧
    sk'.packets_out = sk.packets_out ∧ sk'.snd_una = sk.snd_una ∧
    ∃ s', sk'.sk_write_queue[i]? = some s' ∧
      s'.cb.sacked = s.cb.sacked ||| TCPCB_RETRANS ∧ s'.cb.seq = s.cb.seq ∧
      s'.cb.flags = s.cb.flags ∧ s'.len = s.len ∧ tcp_skb_pcount s' = tcp_skb_pcount s := by
  have hi : i < sk.sk_write_queue.length := by
    rcases Nat.lt_or_ge i sk.sk_write_queue.length with hlt | hge
    · exact hlt
    · rw [List.getElem?_eq_none hge] at hq
      cases hq
  unfold tcp_retransmit_skb at h
  rw [hq] at h
  simp only [Option.isNone_some, Bool.false_eq_true, if_false] at h
  rcases and_then_some _ _ _ _ h with ⟨h0, -⟩ | ⟨s1, h1, h⟩
  · exact absurd rfl h0
  have hs1 : s1 = { sk with icsk_mtup_probe_size := 0 } := by
    unfold retransmit_enter at h1
    simp only at h1
    split at h1 <;> simp only [Option.some.injEq, Prod.mk.injEq] at h1
    · exact h1.2.symm
    · exact h1.2.symm
  subst hs1
  rcases and_then_some _ _ _ _ h with ⟨h0, -⟩ | ⟨s2, h2, h⟩
  · exact absurd rfl h0
  have hs2 : s2 = { sk with icsk_mtup_probe_size := 0 } := by
    unfold retransmit_trim at h2
    simp only [hq, hseq, Bool.false_eq_true, if_false, Option.some.injEq, Prod.mk.injEq] at h2
    exact h2.2.symm
  subst hs2
  split at h
  · simp only [Option.some.injEq, Prod.mk.injEq] at h
    exact absurd h.1 (by decide)
  simp only [retransmit_mss, hm, if_true] at h
  rcases and_then_some _ _ _ _ h with ⟨h0, -⟩ | ⟨s4, h4, h⟩
  · exact absurd rfl h0
  have hs4 := retransmit_window_ctl _ _ _ _ h4
  subst hs4
  rcases and_then_some _ _ _ _ h with ⟨h0, -⟩ | ⟨s5, h5, h⟩
  · exact absurd rfl h0
  have hs5 : s5 = { sk with icsk_mtup_probe_size := 0 } := by
    unfold retransmit_fragment at h5
    simp only [hq, not_lt.2 hlen, gt_iff_lt, if_false, Option.some.injEq, Prod.mk.injEq] at h5
    exact h5.2.symm
  subst hs5
  rcases and_then_some _ _ _ _ h with ⟨h0, -⟩ | ⟨s6, h6, h⟩
  · exact absurd rfl h0
  have hs6 : s6 = { sk with icsk_mtup_probe_size := 0 } := by
    unfold retransmit_collapse at h6
    rw [retransmit_collapse_unwanted _ _ _ _ hc] at h6
    simp only [Bool.false_eq_true, if_false, Option.some.injEq, Prod.mk.injEq] at h6
    exact h6.2.symm
  subst hs6
  rcases and_then_some _ _ _ _ h with ⟨h0, -⟩ | ⟨s7, h7, h⟩
  · exact absurd rfl h0
  have hs7 : s7 = { sk with icsk_mtup_probe_size := 0 } := by
    unfold retransmit_strip_fin at h7
    simp only [hq, hfin, Bool.false_eq_true, false_and, and_false, if_false, Option.some.injEq,
      Prod.mk.injEq] at h7
    exact h7.2.symm
  subst hs7
  unfold retransmit_send at h
  simp only [hq] at h
  split at h
  · cases h
  · rename_i err sk1 skb1 ht
    obtain ⟨f1, -, -, -, -⟩ := tcp_transmit_skb_keeps _ _ _ _ _ _ _ ht
    have f2 := tcp_transmit_skb_buffer _ _ _ _ _ _ _ ht
    have p1 := congrArg send_state.retrans_out f1
    have p2 := congrArg send_state.packets_out f1
    have p3 := congrArg send_state.snd_una f1
    have p4 := congrArg send_state.sk_write_queue f1
    simp only [tcp_sock.send_state] at p1 p2 p3 p4
    split at h
    · simp only [Option.some.injEq, Prod.mk.injEq, true_and] at h
      subst h
      refine ⟨?_, p2, p3,
        { skb1 with cb := { skb1.cb with sacked := skb1.cb.sacked ||| TCPCB_RETRANS,
                                         ack_seq := sk1.snd_nxt } }, ?_, ?_, ?_, ?_, ?_, ?_⟩
      · show add32 sk1.retrans_out skb1.gso_segs = add32 sk.retrans_out s.gso_segs
        rw [p1, f2]
      · simp only [p4, List.getElem?_set_self hi]
      · show skb1.cb.sacked ||| TCPCB_RETRANS = s.cb.sacked ||| TCPCB_RETRANS
        rw [f2]
      · show skb1.cb.seq = s.cb.seq
        rw [f2]
      · show skb1.cb.flags = s.cb.flags
        rw [f2]
      · show skb1.len = s.len
        rw [f2]
      · show skb1.gso_segs = s.gso_segs
        rw [f2]
    · rename_i herr
      simp only [Option.some.injEq, Prod.mk.injEq] at h
      exact absurd h.1 herr

theorem tst_or_retrans (x : Nat) : tst (x ||| TCPCB_RETRANS) TCPCB_SACKED_RETRANS = true := by
  unfold tst
  simp only [ne_eq, decide_not, Bool.not_eq_true', decide_eq_false_iff_not]
  intro h
  have h1 := congrArg (fun n => n.testBit 1) h
  simp only [Nat.testBit_and, Nat.testBit_or, Nat.zero_testBit] at h1
  have h2 : TCPCB_RETRANS.testBit 1 = true := by decide
  have h3 : TCPCB_SACKED_RETRANS.testBit 1 = true := by decide
  rw [h2, h3] at h1
  simp at h1

/-! ## Theorems: writing new data -/

theorem skb_split_frags_size (len : Nat) (fs : List skb_frag_t) (pos : Nat) :
    frags_size (skb_split_frags len pos fs).1 = min (len - pos) (frags_size fs) ∧
    frags_size (skb_split_frags len pos fs).1 + frags_size (skb_split_frags len pos fs).2 =
      frags_size fs := by
  induction fs generalizing pos with
  | nil => simp [skb_split_frags, frags_size]
  | cons f fs ih =>
    obtain ⟨h1, h2⟩ := ih (pos + f.size)
    simp only [skb_split_frags]
    simp only [frags_size, List.map_cons, List.sum_cons] at h1 h2 ⊢
    split
    · split
      · simp only [List.map_cons, List.sum_cons]
        constructor <;> omega
      · simp only [List.map_cons, List.sum_cons]
        constructor <;> omega
    · simp only [List.map_cons, List.sum_cons]
      constructor <;> omega

theorem skb_split_len (s b s' b' : sk_buff) (len : Nat) (hw : skb_wf s) (hl : len ≤ s.len)
    (hb : b.len = 0) (h : skb_split s b len = some (s', b')) :
    s'.len = len ∧ b'.len = s.len - len ∧ skb_wf s' ∧ skb_wf b' := by
  obtain ⟨w1, w2⟩ := hw
  unfold skb_split at h
  simp only at h
  split at h
  · rename_i hpos
    split at h
    · cases h
    · rename_i b1 hb1
      obtain ⟨rfl, hd, -⟩ := skb_put_some _ _ _ hb1
      simp only [Option.some.injEq, Prod.mk.injEq] at h
      obtain ⟨rfl, rfl⟩ := h
      simp only [skb_headlen] at hpos
      refine ⟨rfl, ?_, ⟨?_, ?_⟩, ⟨w1, ?_⟩⟩
      · simp only [skb_headlen, hb]
        omega
      · simp [frags_size]
      · simp
      · simp only
        omega
  · rename_i hpos
    simp only [Option.some.injEq, Prod.mk.injEq] at h
    obtain ⟨rfl, rfl⟩ := h
    simp only [skb_headlen, not_lt] at hpos
    obtain ⟨f1, f2⟩ := skb_split_frags_size len s.frags (skb_headlen s)
    simp only [skb_headlen] at f1 f2
    refine ⟨rfl, rfl, ⟨?_, ?_⟩, ⟨?_, ?_⟩⟩ <;> simp only [skb_headlen] <;> omega

theorem tcp_set_skb_tso_segs_wf (sk : tcp_sock) (s s' : sk_buff) (mss : Nat)
    (h : tcp_set_skb_tso_segs sk s mss = some s') :
    s'.len = s.len ∧ (skb_wf s → skb_wf s') ∧ (s.len ≤ mss → s'.gso_segs = 1) ∧
      s'.cb = s.cb ∧ s'.addr = s.addr := by
  unfold tcp_set_skb_tso_segs at h
  split at h
  · cases h
    exact ⟨rfl, fun w => w, fun _ => rfl, rfl, rfl⟩
  · rename_i hc
    split at h
    · cases h
    · cases h
      refine ⟨rfl, fun w => w, fun hl => ?_, rfl, rfl⟩
      simp [hl] at hc

theorem skb_trim_wf (s : sk_buff) (len : Nat) (hd : s.data_len = 0) (hf : s.frags = [])
    (hl : len ≤ s.len) : (skb_trim s len).len = len ∧ skb_wf (skb_trim s len) := by
  unfold skb_trim
  split
  · rw [if_neg (by simp [hd])]
    exact ⟨rfl, by simp only [hd, hf]; rfl, by simp only [hd]; omega⟩
  · exact ⟨by omega, by rw [hd, hf]; rfl, by omega⟩

theorem fragment_halves_len (cfg : Bool) (sk : tcp_sock) (s b h t : sk_buff) (len mss : Nat)
    (hw : skb_wf s) (hl : len ≤ s.len) (hb : b.len = 0) (hbd : b.data_len = 0)
    (hbf : b.frags = [])
    (hh : fragment_halves cfg sk s b len mss = some (h, t)) :
    h.len = len ∧ t.len = s.len - len ∧ skb_wf h ∧ skb_wf t := by
  unfold fragment_halves at hh
  simp only at hh
  split at hh
  · cases hh
  · rename_i h0 t0 hmoved
    obtain ⟨h1, h2⟩ := tso_pair_some _ _ _ _ _ _ hh
    obtain ⟨hlen, hwf, -⟩ := tcp_set_skb_tso_segs_wf _ _ _ _ h1
    obtain ⟨tlen, twf, -⟩ := tcp_set_skb_tso_segs_wf _ _ _ _ h2
    rw [hlen, tlen]
    split at hmoved
    · rename_i hlin
      split at hmoved
      · cases hmoved
      · rename_i b1 hb1
        obtain ⟨rfl, -, -⟩ := skb_put_some _ _ _ hb1
        simp only [Option.some.injEq, Prod.mk.injEq] at hmoved
        obtain ⟨rfl, rfl⟩ := hmoved
        obtain ⟨w1, w2⟩ := hw
        have hfr : s.frags = [] := List.eq_nil_of_length_eq_zero hlin.1
        have hd0 : s.data_len = 0 := by rw [w1, hfr]; rfl
        refine ⟨(skb_trim_wf _ len (by exact hd0) (by exact hfr) (by exact hl)).1, ?_,
          hwf (skb_trim_wf _ len (by exact hd0) (by exact hfr) (by exact hl)).2, twf ?_⟩
        · simp only [skb_headlen, hb, hd0]
          omega
        · exact ⟨by simp only [hbd, hbf]; rfl, by simp only [hbd]; omega⟩
    · obtain ⟨c1, c2, c3, c4⟩ := skb_split_len _ _ _ _ len (by exact hw) (by exact hl) (by exact hb) hmoved
      exact ⟨c1, c2, hwf c3, twf c4⟩

theorem expanded_head_wf (s : sk_buff) (hw : skb_wf s) :
    skb_wf (expanded_head s) ∧ (expanded_head s).len = s.len := by
  unfold expanded_head
  split <;> exact ⟨hw, rfl⟩

theorem tso_halves_len (cfg : Bool) (sk : tcp_sock) (s b h t : sk_buff) (len mss : Nat)
    (hw : skb_wf s) (hl : len ≤ s.len) (hb : b.len = 0)
    (hh : tso_halves cfg sk s b len mss = some (h, t)) :
    h.len = len ∧ t.len = s.len - len ∧ skb_wf h ∧ skb_wf t := by
  unfold tso_halves at hh
  simp only at hh
  split at hh
  · cases hh
  · rename_i h0 t0 hsplit
    obtain ⟨h1, h2⟩ := tso_pair_some _ _ _ _ _ _ hh
    obtain ⟨hlen, hwf, -⟩ := tcp_set_skb_tso_segs_wf _ _ _ _ h1
    obtain ⟨tlen, twf, -⟩ := tcp_set_skb_tso_segs_wf _ _ _ _ h2
    obtain ⟨c1, c2, c3, c4⟩ :=
      skb_split_len _ _ _ _ len (by exact hw) (by exact hl) (by exact hb) hsplit
    rw [hlen, tlen]
    exact ⟨c1, c2, hwf c3, twf c4⟩

theorem queue_split_inj (q : List sk_buff) (i : Nat) (a b c d : sk_buff)
    (h : queue_split q i a b = queue_split q i c d) : a = c ∧ b = d := by
  unfold queue_split at h
  have h1 := List.append_cancel_left h
  simp only [List.cons.injEq] at h1
  exact ⟨h1.1, h1.2.1⟩

theorem tcp_fragment_len (cfg e : Bool) (alloc : Option (Nat × Nat)) (hs : Nat)
    (sk sk' : tcp_sock) (i len mss : Nat) (s : sk_buff)
    (hq : sk.sk_write_queue[i]? = some s) (hw : skb_wf s)
    (h : tcp_fragment cfg e alloc hs sk i len mss = some (0, sk')) :
    ∃ head tail, sk'.sk_write_queue = queue_split sk.sk_write_queue i head tail ∧
      head.len = len ∧ tail.len = s.len - len ∧ skb_wf head ∧ skb_wf tail := by
  unfold tcp_fragment at h
  rw [hq] at h
  simp only at h
  split at h
  · cases h
  · rename_i hlen
    split at h
    · simp [ENOMEM] at h
    · split at h
      · simp [ENOMEM] at h
      · rename_i a
        split at h
        · cases h
        · rename_i head tail hh
          simp only [Option.some.injEq, Prod.mk.injEq, true_and] at h
          subst h
          obtain ⟨w, wl⟩ := expanded_head_wf s hw
          obtain ⟨c1, c2, c3, c4⟩ := fragment_halves_len _ _ _ _ _ _ _ _ w
            (by rw [wl]; omega) rfl rfl rfl hh
          rw [wl] at c2
          refine ⟨head, tail, ?_, c1, c2, c3, c4⟩
          simp only [fragment_counters_queue]
          rfl

theorem tso_fragment_len (cfg e : Bool) (alloc : Option (Nat × Nat)) (hs : Nat)
    (sk sk' : tcp_sock) (i len mss : Nat) (s : sk_buff)
    (hq : sk.sk_write_queue[i]? = some s) (hw : skb_wf s) (hl : len ≤ s.len)
    (h : tso_fragment cfg e alloc hs sk i len mss = some (0, sk')) :
    ∃ head tail, sk'.sk_write_queue = queue_split sk.sk_write_queue i head tail ∧
      head.len = len ∧ tail.len = s.len - len ∧ skb_wf head ∧ skb_wf tail := by
  unfold tso_fragment at h
  rw [hq] at h
  simp only at h
  split at h
  · cases h
  · split at h
    · exact tcp_fragment_len _ _ _ _ _ _ _ _ _ s hq hw h
    · split at h
      · simp [ENOMEM] at h
      · rename_i a
        split at h
        · cases h
        · rename_i head tail hh
          simp only [Option.some.injEq, Prod.mk.injEq, true_and] at h
          subst h
          obtain ⟨c1, c2, c3, c4⟩ := tso_halves_len _ _ _ _ _ _ _ _ hw hl rfl hh
          exact ⟨head, tail, rfl, c1, c2, c3, c4⟩

theorem queue_split_set (q : List sk_buff) (i : Nat) (a b c : sk_buff) (hi : i < q.length) :
    (queue_split q i a b).set i c = queue_split q i c b := by
  induction q generalizing i with
  | nil => simp at hi
  | cons x xs ih =>
    cases i with
    | zero => simp [queue_split]
    | succ n =>
      have := ih n (by simpa using hi)
      simp only [queue_split, List.take_succ_cons, List.drop_succ_cons, List.cons_append,
        List.set_cons_succ] at this ⊢
      rw [this]

theorem fragment_head_seqs (cfg : Bool) (s b : tcp_skb_cb) (len : Nat) :
    (fragment_flags (fragment_seqs cfg s b len).1 (fragment_seqs cfg s b len).2).1.seq = s.seq ∧
    (fragment_flags (fragment_seqs cfg s b len).1 (fragment_seqs cfg s b len).2).1.end_seq =
      add32 s.seq len ∧
    (fragment_flags (fragment_seqs cfg s b len).1 (fragment_seqs cfg s b len).2).2.seq =
      add32 s.seq len ∧
    (fragment_flags (fragment_seqs cfg s b len).1 (fragment_seqs cfg s b len).2).2.end_seq =
      s.end_seq := by
  cases cfg <;> exact ⟨rfl, rfl, rfl, rfl⟩

theorem write_xmit_cut_send (e : env) (mss : Nat) (sk sk' : tcp_sock) (i i' : Nat)
    (skb skb' : sk_buff) (hq : sk.sk_write_queue[i]? = some skb)
    (hwnd : sk.mpc = false → after (if skb.len > mss then add32 skb.cb.seq mss
      else skb.cb.end_seq) (add32 sk.snd_una sk.snd_wnd) = false)
    (h : write_xmit_cut e mss sk i skb = .send sk' i' skb') :
    i' = i ∧ handed_ok mss sk sk' i skb skb' := by
  unfold write_xmit_cut at h
  have hi : i < sk.sk_write_queue.length := by
    rcases Nat.lt_or_ge i sk.sk_write_queue.length with hlt | hge
    · exact hlt
    · rw [List.getElem?_eq_none hge] at hq
      cases hq
  by_cases hlen : skb.len > mss
  · rw [if_pos hlen] at h
    simp only at h
    split at h
    · cases h
    · rename_i r sk1 hcut
      split at h
      · cases h
      · rename_i hr
        have hr0 : r = 0 := by
          by_contra hne
          exact hr hne
        subst hr0
        obtain ⟨s, a, head, tail, hq', -, -, hqs, hadr, -, hcb, sacked, when, tcb⟩ :=
          tso_fragment_post _ _ _ _ _ _ _ _ _ hcut
        rw [hq] at hq'
        cases hq'
        have hctl := tso_fragment_ctl _ _ _ _ _ _ _ _ _ _ hcut
        obtain ⟨g1, g2, -⟩ := queue_split_get sk.sk_write_queue i skb head tail hq
        rw [hqs, g1] at h
        simp only [xmit_step.send.injEq] at h
        obtain ⟨rfl, rfl, rfl⟩ := h
        obtain ⟨f1, f2, f3, f4⟩ := fragment_head_seqs e.CONFIG_MTCP skb.cb cb_zero mss
        refine ⟨rfl, ?_, ?_, hadr, ?_, ?_, ?_⟩
        · exact hctl
        · simp only [queue_split_set _ _ _ _ _ hi]
          exact (queue_split_get sk.sk_write_queue i skb _ tail hq).1
        · simp only [hcb, f1]
        · intro hmpc
          simp only [hcb, f2]
          have := hwnd hmpc
          rw [if_pos hlen] at this
          exact this
        · intro hw
          obtain ⟨head', tail', hqs', l1, l2, w1, w2⟩ :=
            tso_fragment_len _ _ _ _ _ _ _ _ _ skb hq hw (Nat.le_of_lt hlen) hcut
          rw [hqs] at hqs'
          obtain ⟨rfl, rfl⟩ := queue_split_inj _ _ _ _ _ _ hqs'
          refine ⟨Nat.le_of_eq l1, w1, fun hle => absurd hlen (by omega), fun _ => ⟨l1, ?_⟩⟩
          refine ⟨tail, ?_, l2, ?_, ?_, w2⟩
          · exact queue_split_set _ _ _ _ _ hi
          · simp only [hcb, f2, tcb, f3]
          · simp only [tcb, f4]
  · rw [if_neg hlen] at h
    simp only [ne_eq, not_true_eq_false, if_false, hq] at h
    simp only [xmit_step.send.injEq] at h
    obtain ⟨rfl, rfl, rfl⟩ := h
    refine ⟨rfl, rfl, ?_, rfl, rfl, ?_, ?_⟩
    · simp only [List.getElem?_set, hi, if_true]
    · intro hmpc
      have := hwnd hmpc
      rw [if_neg hlen] at this
      exact this
    · intro hw
      exact ⟨by simp only; omega, hw, fun _ => ⟨rfl, rfl⟩, fun hlt => absurd hlt (by omega)⟩

theorem write_xmit_tests_send (e : env) (mss nonagle : Nat) (sk sk' : tcp_sock) (i i' : Nat)
    (skb skb' : sk_buff) (hq : sk.sk_write_queue[i]? = some skb)
    (h : write_xmit_tests e mss nonagle sk i skb = .send sk' i' skb') :
    i' = i ∧ handed_ok mss sk sk' i skb skb' := by
  unfold write_xmit_tests at h
  split at h
  · cases h
  · split at h
    · cases h
    · split at h
      · cases h
      · rename_i fits hwnd
        generalize (if i + 1 = sk.sk_write_queue.length then nonagle else TCP_NAGLE_PUSH) = na at h
        split at h
        · cases h
        · rename_i hfits
          split at h
          · cases h
          · refine write_xmit_cut_send e mss sk sk' i i' skb skb' hq ?_ h
            intro hmpc
            simp only [tcp_snd_wnd_test, tcp_wnd_end, hmpc, Bool.false_eq_true, if_false,
              Option.some.injEq] at hwnd
            cases fits
            · exact absurd rfl hfits
            · simpa using hwnd

theorem skb_index_some (q : List sk_buff) (a i : Nat) (h : skb_index q a = some i) :
    (∃ s, q[i]? = some s ∧ s.addr = a) ∧ ∀ j s, j < i → q[j]? = some s → s.addr ≠ a := by
  induction q generalizing i with
  | nil => simp [skb_index] at h
  | cons x xs ih =>
    simp only [skb_index] at h
    split at h
    · rename_i hx
      simp only [Option.some.injEq] at h
      subst h
      exact ⟨⟨x, by simp, hx⟩, fun j s hj => absurd hj (by omega)⟩
    · rename_i hx
      cases hk : skb_index xs a with
      | none => simp [hk] at h
      | some k =>
        simp only [hk, Option.map_some', Option.some.injEq] at h
        subst h
        obtain ⟨⟨s, hs, ha⟩, hmin⟩ := ih k hk
        refine ⟨⟨s, by simpa using hs, ha⟩, ?_⟩
        intro j t hj ht
        cases j with
        | zero =>
          simp only [List.getElem?_cons_zero, Option.some.injEq] at ht
          subst ht
          exact hx
        | succ m =>
          simp only [List.getElem?_cons_succ] at ht
          exact hmin m t (by omega) ht

theorem tcp_init_tso_segs_some (sk : tcp_sock) (s s' : sk_buff) (mss n : Nat)
    (h : tcp_init_tso_segs sk s mss = some (s', n)) :
    s'.len = s.len ∧ (skb_wf s → skb_wf s') ∧ s'.cb = s.cb ∧ s'.addr = s.addr := by
  unfold tcp_init_tso_segs at h
  simp only at h
  split at h
  · cases h1 : tcp_set_skb_tso_segs sk s mss with
    | none => simp [h1] at h
    | some t =>
      simp only [h1, Option.map_some', Option.some.injEq, Prod.mk.injEq] at h
      obtain ⟨rfl, -⟩ := h
      obtain ⟨a, b, -, c, d⟩ := tcp_set_skb_tso_segs_wf _ _ _ _ h1
      exact ⟨a, b, c, d⟩
  · simp only [Option.some.injEq, Prod.mk.injEq] at h
    obtain ⟨rfl, -⟩ := h
    exact ⟨rfl, fun w => w, rfl, rfl⟩

theorem queue_split_of_set (q : List sk_buff) (i : Nat) (x a b : sk_buff) :
    queue_split (q.set i x) i a b = queue_split q i a b := by
  induction q generalizing i with
  | nil => rfl
  | cons y ys ih =>
    cases i with
    | zero => simp [queue_split]
    | succ n =>
      have := ih n
      simp only [queue_split, List.set_cons_succ, List.take_succ_cons, List.drop_succ_cons,
        List.cons_append] at this ⊢
      rw [this]

theorem write_xmit_round_send (e : env) (mss nonagle : Nat) (sk sk' : tcp_sock) (i : Nat)
    (skb' : sk_buff) (h : write_xmit_round e mss nonagle sk = .send sk' i skb') :
    ∃ skb0, sk.sk_send_head = some skb0.addr ∧
      skb_index sk.sk_write_queue skb0.addr = some i ∧
      sk.sk_write_queue[i]? = some skb0 ∧ handed_ok mss sk sk' i skb0 skb' := by
  unfold write_xmit_round at h
  split at h
  · cases h
  · rename_i a hsh
    split at h
    · cases h
    · rename_i j hidx
      split at h
      · cases h
      · rename_i skb0 hq
        split at h
        · cases h
        · rename_i skb1 tso_segs hinit
          simp only at h
          split at h
          · cases h
          · obtain ⟨⟨s, hs, ha⟩, -⟩ := skb_index_some _ _ _ hidx
            rw [hq] at hs
            cases hs
            obtain ⟨l1, w1, c1, a1⟩ := tcp_init_tso_segs_some _ _ _ _ _ hinit
            have hj : j < sk.sk_write_queue.length := by
              rcases Nat.lt_or_ge j sk.sk_write_queue.length with hlt | hge
              · exact hlt
              · rw [List.getElem?_eq_none hge] at hq
                cases hq
            obtain ⟨rfl, k1, k2, k3, k4, k5, k6⟩ := write_xmit_tests_send e mss nonagle _ sk' j i
              skb1 skb' (by simp only [List.getElem?_set, hj, if_true]) h
            subst ha
            refine ⟨skb0, hsh, hidx, hq, k1, k2, by rw [k3, a1], by rw [k4, c1], k5, ?_⟩
            intro hw
            obtain ⟨m1, m2, m3, m4⟩ := k6 (w1 hw)
            refine ⟨m1, m2, ?_, ?_⟩
            · intro hle
              obtain ⟨n1, n2⟩ := m3 (by rw [l1]; exact hle)
              refine ⟨by rw [n1, l1], ?_⟩
              rw [n2]
              simp only [List.set_set]
            · intro hlt
              obtain ⟨n1, tail, n2, n3, n4, n5, n6⟩ := m4 (by rw [l1]; exact hlt)
              refine ⟨n1, tail, ?_, by rw [n3, l1], n4, by rw [n5, c1], n6⟩
              rw [n2]
              exact queue_split_of_set _ _ _ _ _

/-- Induction over the loop of `tcp_write_xmit`: a property `R` of the connection and
the buffer at every call of `tcp_transmit_skb`, established by each round from
an invariant `Inv` that a successful send restores. -/
theorem tcp_write_xmit_loop_calls (e : Nat → env) (mss nonagle : Nat)
    (Inv : tcp_sock → Prop) (R : tcp_sock → Nat → sk_buff → Prop)
    (hround : ∀ n sk sk' i skb, Inv sk →
      write_xmit_round (e n) mss nonagle sk = .send sk' i skb → R sk' i skb)
    (hstep : ∀ n sk i skb sk1 skb1 sk2, R sk i skb →
      tcp_transmit_skb (e n) sk skb true = some (0, sk1, skb1) →
      tcp_event_new_data_sent { sk1 with sk_write_queue := sk1.sk_write_queue.set i skb1 } i
        = some sk2 →
      Inv (tcp_cwnd_validate (e n) (tcp_minshall_update sk2 mss skb1)))
    (fuel : Nat) : ∀ (n : Nat) (sk : tcp_sock) (sent : Nat), Inv sk →
      ∀ c ∈ (tcp_write_xmit_loop e mss nonagle fuel n sk sent).trace, R c.sk c.i c.skb := by
  induction fuel with
  | zero =>
    intro n sk sent _ c hc
    simp [tcp_write_xmit_loop] at hc
  | succ fuel ih =>
    intro n sk sent hinv c hc
    unfold tcp_write_xmit_loop at hc
    split at hc
    · simp at hc
    · rename_i sk' i skb hr
      have hR := hround n sk sk' i skb hinv hr
      split at hc
      · simp only [List.mem_singleton] at hc
        subst hc
        exact hR
      · rename_i err sk1 skb1 ht
        simp only at hc
        split at hc
        · simp only [List.mem_singleton] at hc
          subst hc
          exact hR
        · rename_i herr
          have herr0 : err = 0 := by
            by_contra hne
            exact herr hne
          subst herr0
          split at hc
          · simp only [List.mem_singleton] at hc
            subst hc
            exact hR
          · rename_i sk2 hev
            simp only [xmit_result.after, List.mem_cons] at hc
            rcases hc with rfl | hc
            · exact hR
            · exact ih _ _ _ (hstep n sk' i skb sk1 skb1 sk2 hR ht hev) c hc

theorem tcp_event_new_data_sent_frame (sk sk' : tcp_sock) (i : Nat)
    (h : tcp_event_new_data_sent sk i = some sk') :
    sk'.sk_write_queue = sk.sk_write_queue ∧ sk'.mpc = sk.mpc ∧ sk'.snd_una = sk.snd_una ∧
      sk'.snd_wnd = sk.snd_wnd ∧
      ∃ skb, sk.sk_write_queue[i]? = some skb ∧ sk.sk_send_head = some skb.addr ∧
        sk'.sk_send_head = skb_at sk.sk_write_queue (i + 1) ∧
        sk'.packets_out = add32 sk.packets_out (tcp_skb_pcount skb) := by
  unfold tcp_event_new_data_sent at h
  split at h
  · cases h
  · rename_i skb hq
    split at h
    · cases h
    · rename_i hsh
      cases h
      exact ⟨rfl, rfl, rfl, rfl, skb, hq, by simpa using hsh, rfl, rfl⟩

theorem tcp_minshall_update_frame (tp : tcp_sock) (mss : Nat) (skb : sk_buff) :
    (tcp_minshall_update tp mss skb).sk_write_queue = tp.sk_write_queue ∧
      (tcp_minshall_update tp mss skb).mpc = tp.mpc ∧
      (tcp_minshall_update tp mss skb).packets_out = tp.packets_out ∧
      (tcp_minshall_update tp mss skb).sk_send_head = tp.sk_send_head := by
  unfold tcp_minshall_update
  split <;> exact ⟨rfl, rfl, rfl, rfl⟩

theorem tcp_cwnd_application_limited_frame (e : env) (tp : tcp_sock) :
    (tcp_cwnd_application_limited e tp).sk_write_queue = tp.sk_write_queue ∧
      (tcp_cwnd_application_limited e tp).mpc = tp.mpc ∧
      (tcp_cwnd_application_limited e tp).packets_out = tp.packets_out ∧
      (tcp_cwnd_application_limited e tp).sk_send_head = tp.sk_send_head := by
  unfold tcp_cwnd_application_limited
  simp only
  split
  · split <;> exact ⟨rfl, rfl, rfl, rfl⟩
  · exact ⟨rfl, rfl, rfl, rfl⟩

theorem tcp_cwnd_validate_frame (e : env) (tp : tcp_sock) :
    (tcp_cwnd_validate e tp).sk_write_queue = tp.sk_write_queue ∧
      (tcp_cwnd_validate e tp).mpc = tp.mpc ∧
      (tcp_cwnd_validate e tp).packets_out = tp.packets_out ∧
      (tcp_cwnd_validate e tp).sk_send_head = tp.sk_send_head := by
  unfold tcp_cwnd_validate
  by_cases h0 : tp.packets_out ≥ tp.snd_cwnd
  · rw [if_pos h0]
    exact ⟨rfl, rfl, rfl, rfl⟩
  · rw [if_neg h0]
    simp only
    have key : ∀ tp1 : tcp_sock, tp1.sk_write_queue = tp.sk_write_queue → tp1.mpc = tp.mpc →
        tp1.packets_out = tp.packets_out → tp1.sk_send_head = tp.sk_send_head →
        ∀ c : Prop, [Decidable c] →
        (if c then tcp_cwnd_application_limited e tp1 else tp1).sk_write_queue =
            tp.sk_write_queue ∧
          (if c then tcp_cwnd_application_limited e tp1 else tp1).mpc = tp.mpc ∧
          (if c then tcp_cwnd_application_limited e tp1 else tp1).packets_out =
            tp.packets_out ∧
          (if c then tcp_cwnd_application_limited e tp1 else tp1).sk_send_head =
            tp.sk_send_head := by
      intro tp1 q1 q2 q3 q4 c _
      obtain ⟨a, b, c1, d⟩ := tcp_cwnd_application_limited_frame e tp1
      by_cases hc : c
      · rw [if_pos hc, a, b, c1, d]
        exact ⟨q1, q2, q3, q4⟩
      · rw [if_neg hc]
        exact ⟨q1, q2, q3, q4⟩
    by_cases h1 : tp.packets_out > tp.snd_cwnd_used
    · rw [if_pos h1]
      apply key <;> rfl
    · rw [if_neg h1]
      apply key <;> rfl

/-- The connection after a round of the loop of `tcp_write_xmit` that sent its
segment: the queue is the one at the call with the buffer written back, and
the multipath mode is unchanged. -/
theorem write_xmit_sent_frame (e : env) (mss : Nat) (sk sk1 sk2 : tcp_sock) (i : Nat)
    (skb skb1 : sk_buff) (err : Int)
    (ht : tcp_transmit_skb e sk skb true = some (err, sk1, skb1))
    (hev : tcp_event_new_data_sent { sk1 with sk_write_queue := sk1.sk_write_queue.set i skb1 } i
      = some sk2) :
    (tcp_cwnd_validate e (tcp_minshall_update sk2 mss skb1)).sk_write_queue =
        sk.sk_write_queue.set i skb1 ∧
      (tcp_cwnd_validate e (tcp_minshall_update sk2 mss skb1)).mpc = sk.mpc ∧
      (tcp_cwnd_validate e (tcp_minshall_update sk2 mss skb1)).packets_out =
        add32 sk.packets_out (tcp_skb_pcount skb1) ∧
      (tcp_cwnd_validate e (tcp_minshall_update sk2 mss skb1)).sk_send_head =
        skb_at (sk.sk_write_queue.set i skb1) (i + 1) ∧
      skb1 = { skb with tstamp := skb1.tstamp, cloned := skb1.cloned,
                        gso_type := skb1.gso_type } := by
  obtain ⟨hs, -⟩ := tcp_transmit_skb_keeps _ _ _ _ _ _ _ ht
  have hb := tcp_transmit_skb_buffer _ _ _ _ _ _ _ ht
  obtain ⟨a1, a2, -, -, s, hq, -, a3, a4⟩ := tcp_event_new_data_sent_frame _ _ _ hev
  obtain ⟨b1, b2, b3, b4⟩ := tcp_minshall_update_frame sk2 mss skb1
  obtain ⟨c1, c2, c3, c4⟩ := tcp_cwnd_validate_frame e (tcp_minshall_update sk2 mss skb1)
  have hq1 : sk1.sk_write_queue = sk.sk_write_queue := congrArg send_state.sk_write_queue hs
  have hm1 : sk1.mpc = sk.mpc := congrArg send_state.mpc hs
  have hp1 : sk1.packets_out = sk.packets_out := congrArg send_state.packets_out hs
  simp only at a1 a2 a3 a4 hq
  rw [c1, c2, c3, c4, b1, b2, b3, b4, a1, a2, a3, a4, hq1, hm1, hp1]
  refine ⟨rfl, rfl, ?_, rfl, hb⟩
  rw [hq1] at hq
  rcases Nat.lt_or_ge i sk.sk_write_queue.length with hlt | hge
  · simp only [List.getElem?_set, hlt, if_true, Option.some.injEq] at hq
    rw [hq]
  · rw [List.getElem?_eq_none (by simpa using hge)] at hq
    cases hq

/-- C15: on a single-path connection, at every call of `tcp_transmit_skb` that the
loop of `tcp_write_xmit` makes, the connection is still single-path, the buffer
passed is the one queued at the recorded position, and its `end_seq` is not
after `snd_una + snd_wnd` in 32-bit serial arithmetic. A buffer longer than
`mss_now` is cut in the same round before the call, so the bound holds for the
piece that is passed. -/
theorem tcp_write_xmit_loop_within_window (e : Nat → env) (mss_now nonagle fuel n : Nat)
    (sk : tcp_sock) (sent_pkts : Nat) (hmpc : sk.mpc = false) :
    ∀ c ∈ (tcp_write_xmit_loop e mss_now nonagle fuel n sk sent_pkts).trace,
      c.sk.mpc = false ∧ c.sk.sk_write_queue[c.i]? = some c.skb ∧
        after c.skb.cb.end_seq (add32 c.sk.snd_una c.sk.snd_wnd) = false := by
  refine tcp_write_xmit_loop_calls e mss_now nonagle (fun s => s.mpc = false)
    (fun s i b => s.mpc = false ∧ s.sk_write_queue[i]? = some b ∧
      after b.cb.end_seq (add32 s.snd_una s.snd_wnd) = false) ?_ ?_ fuel n sk sent_pkts hmpc
  · intro n sk sk' i skb hinv hr
    obtain ⟨skb0, -, -, -, hctl, hq, -, -, hw, -⟩ := write_xmit_round_send _ _ _ _ _ _ _ hr
    have h1 : sk'.mpc = sk.mpc := congrArg ctl_state.mpc hctl
    have h2 : sk'.snd_una = sk.snd_una := congrArg ctl_state.snd_una hctl
    have h3 : sk'.snd_wnd = sk.snd_wnd := congrArg ctl_state.snd_wnd hctl
    exact ⟨by rw [h1, hinv], hq, by rw [h2, h3]; exact hw hinv⟩
  · intro n sk i skb sk1 skb1 sk2 hR ht hev
    obtain ⟨-, hm, -⟩ := write_xmit_sent_frame (e n) mss_now sk sk1 sk2 i skb skb1 0 ht hev
    show (tcp_cwnd_validate (e n) (tcp_minshall_update sk2 mss_now skb1)).mpc = false
    rw [hm]
    exact hR.1

theorem tcp_write_xmit_loop_within_window_witness :
    tp_long.mpc = false ∧
      ((tcp_write_xmit_loop env_round 1000 0 10 0 tp_long 0).trace.map
        (fun c => (c.skb.cb.seq, c.skb.cb.end_seq))) = [(1000, 2000), (2000, 3000), (3000, 3500)] ∧
      ∀ c ∈ (tcp_write_xmit_loop env_round 1000 0 10 0 tp_long 0).trace,
        c.sk.mpc = false ∧ c.sk.sk_write_queue[c.i]? = some c.skb ∧
          after c.skb.cb.end_seq (add32 c.sk.snd_una c.sk.snd_wnd) = false :=
  ⟨rfl, by decide!, tcp_write_xmit_loop_within_window env_round 1000 0 10 0 tp_long 0 rfl⟩

theorem queue_split_mem (q : List sk_buff) (i : Nat) (a b x : sk_buff)
    (h : x ∈ queue_split q i a b) : x ∈ q ∨ x = a ∨ x = b := by
  unfold queue_split at h
  simp only [List.mem_append, List.mem_cons] at h
  rcases h with h | h | h | h
  · exact Or.inl (List.mem_of_mem_take h)
  · exact Or.inr (Or.inl h)
  · exact Or.inr (Or.inr h)
  · exact Or.inl (List.mem_of_mem_drop h)

/-- C24: on a connection whose queued buffers are well formed, every buffer the loop
of `tcp_write_xmit` hands to `tcp_transmit_skb` is the one queued at the recorded
position and holds at most `mss_now` bytes. A round that hands over a buffer
started from the send head: a head of at most `mss_now` bytes is passed with
its length unchanged, and a longer one is cut so that the piece passed holds
exactly `mss_now` bytes and the remainder is queued right after it, starting at
the end of the piece. With a window of 10 segments, nothing in flight and an
MSS of 1000, a lone segment of 2500 bytes is sent as pieces of 1000, 1000 and
500 bytes, all accepted, and `packets_out` ends at 3. -/
theorem tcp_write_xmit_loop_fragments (e : Nat → env) (mss_now nonagle fuel n : Nat)
    (sk : tcp_sock) (sent_pkts : Nat) (hwf : ∀ s ∈ sk.sk_write_queue, skb_wf s) :
    (∀ c ∈ (tcp_write_xmit_loop e mss_now nonagle fuel n sk sent_pkts).trace,
      c.sk.sk_write_queue[c.i]? = some c.skb ∧ c.skb.len ≤ mss_now) ∧
    (∀ sk' i skb', write_xmit_round (e n) mss_now nonagle sk = .send sk' i skb' →
      ∃ skb0, sk.sk_send_head = some skb0.addr ∧ sk.sk_write_queue[i]? = some skb0 ∧
        (skb0.len ≤ mss_now → skb'.len = skb0.len) ∧
        (mss_now < skb0.len → skb'.len = mss_now ∧
          ∃ tail, sk'.sk_write_queue = queue_split sk.sk_write_queue i skb' tail ∧
            sk'.sk_write_queue[i + 1]? = some tail ∧
            tail.len = skb0.len - mss_now ∧ tail.cb.seq = skb'.cb.end_seq ∧
            tail.cb.end_seq = skb0.cb.end_seq)) ∧
    ((tcp_write_xmit_loop env_round 1000 0 10 0 tp_long 0).trace.map
        (fun c => (c.skb.len, c.ret)) = [(1000, some 0), (1000, some 0), (500, some 0)] ∧
      (tcp_write_xmit_loop env_round 1000 0 10 0 tp_long 0).sk.packets_out = 3 ∧
      (tcp_write_xmit_loop env_round 1000 0 10 0 tp_long 0).sent_pkts = 3 ∧
      (tcp_write_xmit_loop env_round 1000 0 10 0 tp_long 0).ending = pass_end.returned) := by
  refine ⟨?_, ?_, by decide!, by decide!, by decide!, by decide!⟩
  · intro c hc
    have key := tcp_write_xmit_loop_calls e mss_now nonagle
      (fun s => ∀ x ∈ s.sk_write_queue, skb_wf x)
      (fun s i b => (∀ x ∈ s.sk_write_queue, skb_wf x) ∧ s.sk_write_queue[i]? = some b ∧
        b.len ≤ mss_now) ?_ ?_ fuel n sk sent_pkts hwf c hc
    · exact key.2
    · intro n sk sk' i skb hinv hr
      obtain ⟨skb0, -, -, hq0, -, hq, -, -, -, hw⟩ := write_xmit_round_send _ _ _ _ _ _ _ hr
      have hw0 : skb_wf skb0 := hinv skb0 (List.getElem?_mem hq0)
      obtain ⟨m1, m2, m3, m4⟩ := hw hw0
      refine ⟨?_, hq, m1⟩
      intro x hx
      rcases Nat.lt_or_ge mss_now skb0.len with hlt | hge
      · obtain ⟨-, tail, hqs, -, -, -, wt⟩ := m4 hlt
        rw [hqs] at hx
        rcases queue_split_mem _ _ _ _ _ hx with h | h | h
        · exact hinv x h
        · rw [h]; exact m2
        · rw [h]; exact wt
      · obtain ⟨-, hqs⟩ := m3 hge
        rw [hqs] at hx
        rcases List.mem_or_eq_of_mem_set hx with h | h
        · exact hinv x h
        · rw [h]; exact m2
    · intro n sk i skb sk1 skb1 sk2 hR ht hev
      obtain ⟨hq, -, -, -, hb⟩ := write_xmit_sent_frame (e n) mss_now sk sk1 sk2 i skb skb1 0 ht hev
      show ∀ x ∈ (tcp_cwnd_validate (e n) (tcp_minshall_update sk2 mss_now skb1)).sk_write_queue,
        skb_wf x
      rw [hq]
      intro x hx
      rcases List.mem_or_eq_of_mem_set hx with h | h
      · exact hR.1 x h
      · have hws : skb_wf skb := hR.1 skb (List.getElem?_mem hR.2.1)
        rw [h, hb]
        exact hws
  · intro sk' i skb' hr
    obtain ⟨skb0, hsh, -, hq0, -, hq, -, -, -, hw⟩ := write_xmit_round_send _ _ _ _ _ _ _ hr
    have hw0 : skb_wf skb0 := hwf skb0 (List.getElem?_mem hq0)
    obtain ⟨m1, m2, m3, m4⟩ := hw hw0
    refine ⟨skb0, hsh, hq0, fun hle => (m3 hle).1, fun hlt => ?_⟩
    obtain ⟨l1, tail, hqs, l2, l3, l4, -⟩ := m4 hlt
    refine ⟨l1, tail, hqs, ?_, l2, l3, l4⟩
    rw [hqs]
    exact (queue_split_get sk.sk_write_queue i skb0 skb' tail hq0).2.1

theorem tcp_write_xmit_loop_fragments_witness :
    (∀ s ∈ tp_long.sk_write_queue, skb_wf s) ∧
      ∀ c ∈ (tcp_write_xmit_loop env_round 1000 0 10 0 tp_long 0).trace,
        c.sk.sk_write_queue[c.i]? = some c.skb ∧ c.skb.len ≤ 1000 :=
  ⟨by decide, (tcp_write_xmit_loop_fragments env_round 1000 0 10 0 tp_long 0 (by decide)).1⟩

/-! ## Theorems: the initial window and the half-window bound -/

theorem wscale_loop_spec (fuel : Nat) : ∀ (space ws : Nat), ws + fuel = 14 →
    (wscale_loop fuel space ws).2 ≤ 14 ∧ ws ≤ (wscale_loop fuel space ws).2 ∧
    (wscale_loop fuel space ws).1 = space / 2 ^ ((wscale_loop fuel space ws).2 - ws) ∧
    ((wscale_loop fuel space ws).1 ≤ 65535 ∨ (wscale_loop fuel space ws).2 = 14) ∧
    ∀ s, s < (wscale_loop fuel space ws).2 - ws → 65535 < space / 2 ^ s := by
  induction fuel with
  | zero =>
    intro space ws h
    simp only [wscale_loop]
    refine ⟨by omega, Nat.le_refl _, by simp, Or.inr (by omega), fun s hs => absurd hs (by omega)⟩
  | succ fuel ih =>
    intro space ws h
    simp only [wscale_loop]
    split
    · rename_i hc
      obtain ⟨h1, h2, h3, h4, h5⟩ := ih (space / 2) (ws + 1) (by omega)
      refine ⟨h1, by omega, ?_, h4, ?_⟩
      · rw [h3, Nat.div_div_eq_div_mul, ← Nat.pow_succ']
        congr 2
        omega
      · intro s hs
        cases s with
        | zero => simpa using hc.1
        | succ t =>
          have := h5 t (by omega)
          rw [Nat.div_div_eq_div_mul, ← Nat.pow_succ'] at this
          exact this
    · rename_i hc
      refine ⟨by omega, Nat.le_refl _, by simp, ?_, fun s hs => absurd hs (by omega)⟩
      omega

/-- C23: `tcp_select_initial_window` returns for every `mss` of at least 1. Whenever
it returns, the window scale is at most 14 and is 0 when `wscale_ok` is false;
when `wscale_ok` is true it is the least shift `s` in 0..14 that brings
`min(max(sysctl_tcp_rmem[2], sysctl_rmem_max), clamp)` (as 32-bit unsigned
values, `clamp` being the input clamp or `65535 << 14` when that is 0) down to
at most 65535, and 14 when no such shift exists; and the clamp left behind is
at most `65535 << rcv_wscale` and at most that `clamp`. -/
theorem tcp_select_initial_window_wscale (workaround : Bool) (sysctl_tcp_rmem_2 : Int)
    (sysctl_rmem_max : Nat) (__space : Int) (mss window_clamp : Nat) (wscale_ok : Bool) :
    (1 ≤ mss → (tcp_select_initial_window workaround sysctl_tcp_rmem_2 sysctl_rmem_max
      __space mss window_clamp wscale_ok).isSome = true) ∧
    ∀ rcv_wnd clamp rcv_wscale,
      tcp_select_initial_window workaround sysctl_tcp_rmem_2 sysctl_rmem_max
        __space mss window_clamp wscale_ok = some (rcv_wnd, clamp, rcv_wscale) →
      rcv_wscale ≤ 14 ∧ (wscale_ok = false → rcv_wscale = 0) ∧
      (wscale_ok = true →
        ((∃ s, s ≤ 14 ∧ min (max (u32 sysctl_tcp_rmem_2) (sysctl_rmem_max % 4294967296))
            (initial_window_clamp window_clamp) / 2 ^ s ≤ 65535) →
          min (max (u32 sysctl_tcp_rmem_2) (sysctl_rmem_max % 4294967296))
            (initial_window_clamp window_clamp) / 2 ^ rcv_wscale ≤ 65535 ∧
          ∀ s, s < rcv_wscale →
            65535 < min (max (u32 sysctl_tcp_rmem_2) (sysctl_rmem_max % 4294967296))
              (initial_window_clamp window_clamp) / 2 ^ s) ∧
        ((¬ ∃ s, s ≤ 14 ∧ min (max (u32 sysctl_tcp_rmem_2) (sysctl_rmem_max % 4294967296))
            (initial_window_clamp window_clamp) / 2 ^ s ≤ 65535) → rcv_wscale = 14)) ∧
      clamp ≤ 65535 * 2 ^ rcv_wscale ∧ clamp ≤ initial_window_clamp window_clamp := by
  constructor
  · intro hm
    have hsp : ∃ sp, initial_window_space __space mss window_clamp = some sp := by
      unfold initial_window_space
      simp only
      have hne : ¬ mss = 0 := by omega
      rw [if_neg hne]
      generalize min (initial_window_clamp window_clamp)
        (if __space < 0 then 0 else u32 __space) = sp0
      split
      · exact ⟨_, rfl⟩
      · exact ⟨_, rfl⟩
    obtain ⟨sp, hsp⟩ := hsp
    unfold tcp_select_initial_window
    rw [hsp]
    rfl
  · intro rcv_wnd clamp rcv_wscale h
    unfold tcp_select_initial_window at h
    split at h
    · cases h
    · simp only [Option.some.injEq, Prod.mk.injEq] at h
      obtain ⟨-, hc, hw⟩ := h
      unfold initial_window_wscale at hw
      generalize hS : min (max (u32 sysctl_tcp_rmem_2) (sysctl_rmem_max % 4294967296))
        (initial_window_clamp window_clamp) = S at hw ⊢
      obtain ⟨l1, -, l3, l4, l5⟩ := wscale_loop_spec 14 S 0 (by omega)
      simp only [Nat.sub_zero] at l3 l4 l5
      have hws : rcv_wscale ≤ 14 := by
        rw [← hw]
        split
        · exact l1
        · omega
      refine ⟨hws, ?_, ?_, ?_, ?_⟩
      · intro hf
        rw [← hw, hf]
        rfl
      · intro ht
        rw [ht] at hw
        simp only [if_true] at hw
        rw [hw] at l3 l4 l5
        rw [l3] at l4
        constructor
        · rintro ⟨s, hs, hle⟩
          have hfit : S / 2 ^ rcv_wscale ≤ 65535 := by
            rcases l4 with h4 | h4
            · exact h4
            · rcases Nat.lt_or_ge s rcv_wscale with hlt | hge
              · exact absurd hle (by have := l5 s hlt; omega)
              · have : s = rcv_wscale := by omega
                rw [← this]
                exact hle
          exact ⟨hfit, l5⟩
        · intro hno
          rcases l4 with h4 | h4
          · exact absurd ⟨rcv_wscale, hws, h4⟩ hno
          · exact h4
      · rw [← hc]
        have hpow : 2 ^ rcv_wscale ≤ 2 ^ 14 := Nat.pow_le_pow_right (by omega) hws
        have : (65535 * 2 ^ rcv_wscale) % 4294967296 = 65535 * 2 ^ rcv_wscale :=
          Nat.mod_eq_of_lt (by
            have : 65535 * 2 ^ rcv_wscale ≤ 65535 * 2 ^ 14 := Nat.mul_le_mul_left _ hpow
            omega)
        have hw2 : initial_window_wscale sysctl_tcp_rmem_2 sysctl_rmem_max window_clamp
            wscale_ok = rcv_wscale := by
          unfold initial_window_wscale
          rw [hS]
          exact hw
        rw [hw2, this]
        exact Nat.min_le_left _ _
      · rw [← hc]
        exact Nat.min_le_right _ _

theorem initial_window_cap_le (mss ws w : Nat) :
    initial_window_cap mss ws w ≤ w ∧
    (2 ^ ws < mss → initial_window_cap mss ws w ≤ initial_window_cwnd mss * mss) ∧
    (initial_window_cwnd mss * mss < 4294967296 → mss ∣ w → 0 < w →
      0 < mss → mss ∣ initial_window_cap mss ws w ∧ 0 < initial_window_cap mss ws w) := by
  unfold initial_window_cap
  have hmod : (initial_window_cwnd mss * mss) % 4294967296 ≤ initial_window_cwnd mss * mss :=
    Nat.mod_le _ _
  have hc : 2 ≤ initial_window_cwnd mss := by
    unfold initial_window_cwnd
    split
    · omega
    · split <;> omega
  refine ⟨?_, ?_, ?_⟩
  · split
    · split <;> omega
    · omega
  · intro h
    rw [if_pos h]
    split <;> omega
  · intro hlt hd hw hm
    rw [Nat.mod_eq_of_lt hlt]
    split
    · split
      · exact ⟨Dvd.intro_left _ rfl, Nat.mul_pos (by omega) hm⟩
      · exact ⟨hd, hw⟩
    · exact ⟨hd, hw⟩

/-- C28, amended: with the signed-window workaround off, `tcp_select_initial_window`
returns for every `mss` of at least 1 and every `__space` an `int` can hold.
The window it leaves is at most `min(clamp, max(__space, 0))`, where `clamp`
is the clamp passed in, or `65535 << 14` when that is 0; if that minimum is
more than `mss`, the window is a positive multiple of `mss`; and if `mss` is
more than `1 << rcv_wscale`, the window is at most `init_cwnd * mss`, where
`init_cwnd` is 4 up to an MSS of 1460, 3 up to 4380 and 2 above. -/
theorem tcp_select_initial_window_quantised (sysctl_tcp_rmem_2 : Int)
    (sysctl_rmem_max : Nat) (__space : Int) (mss window_clamp : Nat) (wscale_ok : Bool)
    (hmss : 1 ≤ mss) (hint : __space < 2147483648) :
    ∃ rcv_wnd clamp rcv_wscale,
      tcp_select_initial_window false sysctl_tcp_rmem_2 sysctl_rmem_max
        __space mss window_clamp wscale_ok = some (rcv_wnd, clamp, rcv_wscale) ∧
      rcv_wnd ≤ min (initial_window_clamp window_clamp) (max __space 0).toNat ∧
      (mss < min (initial_window_clamp window_clamp) (max __space 0).toNat →
        0 < rcv_wnd ∧ mss ∣ rcv_wnd) ∧
      (2 ^ rcv_wscale < mss → rcv_wnd ≤ initial_window_cwnd mss * mss) ∧
      (mss ≤ 1460 → initial_window_cwnd mss = 4) ∧
      (1460 < mss → mss ≤ 4380 → initial_window_cwnd mss = 3) ∧
      (4380 < mss → initial_window_cwnd mss = 2) := by
  have hsp0 : (if __space < 0 then 0 else u32 __space) = (max __space 0).toNat := by
    unfold u32
    split
    · rw [max_eq_right (by omega)]
      rfl
    · rw [max_eq_left (by omega)]
      congr 1
      omega
  have hlt : (max __space 0).toNat < 2147483648 := by omega
  generalize hS : min (initial_window_clamp window_clamp) (max __space 0).toNat = S
  have hS31 : S < 2147483648 := by
    rw [← hS]
    exact lt_of_le_of_lt (Nat.min_le_right _ _) hlt
  have hsp : initial_window_space __space mss window_clamp =
      some (if S > mss then (S / mss) * mss else S) := by
    unfold initial_window_space
    simp only
    rw [hsp0, hS, if_neg (by omega : ¬ mss = 0)]
    split <;> rfl
  unfold tcp_select_initial_window
  rw [hsp]
  simp only [Bool.false_eq_true, if_false]
  generalize initial_window_wscale sysctl_tcp_rmem_2 sysctl_rmem_max window_clamp wscale_ok = ws
  obtain ⟨c1, c2, c3⟩ := initial_window_cap_le mss ws (if S > mss then (S / mss) * mss else S)
  have hq : (if S > mss then (S / mss) * mss else S) ≤ S := by
    split
    · exact Nat.div_mul_le_self S mss
    · exact Nat.le_refl _
  refine ⟨_, _, _, rfl, le_trans c1 hq, ?_, c2, ?_, ?_, ?_⟩
  · intro hgt
    have hgt2 : S > mss := hgt
    have hcw : initial_window_cwnd mss * mss < 4294967296 := by
      unfold initial_window_cwnd
      split
      · omega
      · split <;> omega
    have hdiv : 1 ≤ S / mss := (Nat.one_le_div_iff (by omega)).2 (by omega)
    have h1 : mss ∣ (if S > mss then (S / mss) * mss else S) := by
      rw [if_pos hgt2]
      exact Dvd.intro_left _ rfl
    have h2 : 0 < (if S > mss then (S / mss) * mss else S) := by
      rw [if_pos hgt2]
      exact Nat.mul_pos (by omega) (by omega)
    obtain ⟨d1, d2⟩ := c3 hcw h1 h2 (by omega)
    exact ⟨d2, d1⟩
  · intro h
    unfold initial_window_cwnd
    rw [if_neg (by omega), if_neg (by omega)]
  · intro h1 h2
    unfold initial_window_cwnd
    rw [if_neg (by omega), if_pos (by omega)]
  · intro h
    unfold initial_window_cwnd
    rw [if_pos (by omega)]

theorem tcp_select_initial_window_quantised_witness :
    ∃ rcv_wnd clamp rcv_wscale,
      tcp_select_initial_window false 4194304 131071 5000 1000 0 true =
        some (rcv_wnd, clamp, rcv_wscale) ∧
      rcv_wnd ≤ min (initial_window_clamp 0) (max (5000 : Int) 0).toNat ∧
      (1000 < min (initial_window_clamp 0) (max (5000 : Int) 0).toNat →
        0 < rcv_wnd ∧ 1000 ∣ rcv_wnd) ∧
      (2 ^ rcv_wscale < 1000 → rcv_wnd ≤ initial_window_cwnd 1000 * 1000) ∧
      (1000 ≤ 1460 → initial_window_cwnd 1000 = 4) ∧
      (1460 < 1000 → 1000 ≤ 4380 → initial_window_cwnd 1000 = 3) ∧
      (4380 < 1000 → initial_window_cwnd 1000 = 2) :=
  tcp_select_initial_window_quantised 4194304 131071 5000 1000 0 true (by decide) (by decide)

/-- C28, the claim as stated fails for both values of `window_clamp` a caller can see.
With no clamp set (0, as on a new socket), 5000 bytes of space and an MSS of
1000 the window is 4000, above `min(0, 5000)`. With a clamp of 100000, 200000
bytes of space, an MSS of 40000 and no window scaling the window is 80000,
above the clamp of 65535 the function leaves behind. -/
theorem tcp_select_initial_window_above_clamp :
    tcp_select_initial_window false 4194304 131071 5000 1000 0 false =
        some (4000, 65535, 0) ∧
      min 0 (max (5000 : Int) 0).toNat < 4000 ∧
      tcp_select_initial_window false 4194304 131071 200000 40000 100000 false =
        some (80000, 65535, 0) ∧
      min 65535 (max (200000 : Int) 0).toNat < 80000 := by
  decide

/-- C29, amended: for a packet size an `int` can hold that is not negative,
`tcp_bound_to_half_wnd` returns the size itself when no window has been seen or
the size is at most half of the largest window. Otherwise it returns the larger
of that half and `68 - tcp_header_len`: the result is at most the larger of the
packet size and `68 - tcp_header_len`, so it is at most the packet size for
every size of at least `68 - tcp_header_len`. -/
theorem tcp_bound_to_half_wnd_bound (tp : tcp_sock) (pktsize : Int) (h0 : 0 ≤ pktsize)
    (h1 : pktsize < 2147483648) (hw : tp.max_window < 4294967296)
    (hh : tp.tcp_header_len < 65536) :
    tcp_bound_to_half_wnd tp pktsize ≤ max pktsize (68 - (tp.tcp_header_len : Int)) ∧
    (68 - (tp.tcp_header_len : Int) ≤ pktsize → tcp_bound_to_half_wnd tp pktsize ≤ pktsize) ∧
    (tp.max_window = 0 ∨ pktsize ≤ ((tp.max_window / 2 : Nat) : Int) →
      tcp_bound_to_half_wnd tp pktsize = pktsize) ∧
    (tp.max_window ≠ 0 → ((tp.max_window / 2 : Nat) : Int) < pktsize →
      tp.tcp_header_len ≤ 68 →
      tcp_bound_to_half_wnd tp pktsize =
        max ((tp.max_window / 2 : Nat) : Int) (68 - (tp.tcp_header_len : Int))) := by
  have hu : u32 pktsize = pktsize.toNat := by
    unfold u32
    congr 1
    omega
  unfold tcp_bound_to_half_wnd
  rw [hu]
  refine ⟨?_, ?_, ?_, ?_⟩
  · split
    · rename_i hc
      unfold s32 u32
      split <;> omega
    · omega
  · intro hfl
    split
    · rename_i hc
      unfold s32 u32
      split <;> omega
    · omega
  · intro hc
    rw [if_neg]
    rintro ⟨hm, hgt⟩
    rcases hc with hc | hc
    · exact hm hc
    · omega
  · intro hm hgt hhl
    rw [if_pos ⟨hm, by omega⟩]
    unfold s32 u32
    split <;> omega

theorem tcp_bound_to_half_wnd_bound_witness :
    tcp_bound_to_half_wnd { tp_zero with max_window := 1000, tcp_header_len := 32 } 1448
        ≤ max 1448 (68 - ((32 : Nat) : Int)) ∧
      (68 - ((32 : Nat) : Int) ≤ 1448 →
        tcp_bound_to_half_wnd { tp_zero with max_window := 1000, tcp_header_len := 32 } 1448
          ≤ 1448) ∧
      ((1000 : Nat) = 0 ∨ (1448 : Int) ≤ ((1000 / 2 : Nat) : Int) →
        tcp_bound_to_half_wnd { tp_zero with max_window := 1000, tcp_header_len := 32 } 1448
          = 1448) ∧
      ((1000 : Nat) ≠ 0 → ((1000 / 2 : Nat) : Int) < 1448 → 32 ≤ 68 →
        tcp_bound_to_half_wnd { tp_zero with max_window := 1000, tcp_header_len := 32 } 1448
          = max ((1000 / 2 : Nat) : Int) (68 - ((32 : Nat) : Int))) :=
  tcp_bound_to_half_wnd_bound { tp_zero with max_window := 1000, tcp_header_len := 32 } 1448
    (by decide) (by decide) (by decide) (by decide)

/-- C29, the claim as stated fails: with a largest window of 40 bytes and a header of
20 bytes, a packet size of 30 is raised to 48, the floor `68 - tcp_header_len`. -/
theorem tcp_bound_to_half_wnd_raises :
    tcp_bound_to_half_wnd { tp_zero with max_window := 40, tcp_header_len := 20 } 30 = 48 := by
  decide

/-! ## Theorems: window probes -/

/-- What the plan of `tcp_write_wakeup` is, on a single-path connection, for the
send head `skb` at position `i`: the room in the window and the MSS decide. -/
theorem write_wakeup_plan_cases (e : env) (sk : tcp_sock) (i : Nat) (skb : sk_buff)
    (p : wakeup_plan) (hmpc : sk.mpc = false) (hq : sk.sk_write_queue[i]? = some skb)
    (h : write_wakeup_plan e sk i skb = some p) :
    ∃ sk1 mss s, sk1.ctl_state = sk.ctl_state ∧ sk1.sk_write_queue = sk.sk_write_queue.set i s ∧
      s.len = skb.len ∧ s.cb.seq = skb.cb.seq ∧ s.cb.end_seq = skb.cb.end_seq ∧
      (skb_wf skb → skb_wf s) ∧
      ((p = .cut sk1 i (min (sub32 (add32 sk.snd_una sk.snd_wnd) skb.cb.seq) mss) mss ∧
          (sub32 (add32 sk.snd_una sk.snd_wnd) skb.cb.seq < sub32 skb.cb.end_seq skb.cb.seq ∨
            skb.len > mss)) ∨
        (p = .keep sk1 i mss ∧
          sub32 skb.cb.end_seq skb.cb.seq ≤ sub32 (add32 sk.snd_una sk.snd_wnd) skb.cb.seq ∧
          skb.len ≤ mss)) := by
  unfold write_wakeup_plan at h
  split at h
  · cases h
  · rename_i mss sk0 hm
    obtain ⟨g, mc, sh, pc, hfr⟩ := tcp_current_mss_frame _ _ _ _ _ hm
    have hctl0 : sk0.ctl_state = sk.ctl_state := by rw [hfr]; rfl
    have hq0 : sk0.sk_write_queue = sk.sk_write_queue := by rw [hfr]
    have hmpc0 : sk0.mpc = false := by rw [hfr]; exact hmpc
    have hua : sk0.snd_una = sk.snd_una := by rw [hfr]
    have hwn : sk0.snd_wnd = sk.snd_wnd := by rw [hfr]
    clear hfr hm
    have hwe : tcp_wnd_end sk0 sk0.mpc = some (add32 sk.snd_una sk.snd_wnd) := by
      simp only [tcp_wnd_end, hmpc0, Bool.false_eq_true, if_false, hua, hwn]
    have hsel : (if sk0.mpc = true then skb.cb.data_seq else skb.cb.seq) = skb.cb.seq := by
      rw [hmpc0]
      rfl
    rw [hwe] at h
    simp only [] at h
    rw [hsel] at h
    have hset : sk.sk_write_queue.set i skb = sk.sk_write_queue := by
      apply List.ext_getElem?
      intro j
      rw [List.getElem?_set]
      split
      · rename_i hij
        subst hij
        split
        · exact hq.symm
        · rename_i hlt
          rw [List.getElem?_eq_none (by omega)]
      · rfl
    generalize hpush : (if before sk0.pushed_seq skb.cb.end_seq = true then (_ : tcp_sock)
      else _) = skp at h
    have hp1 : skp.ctl_state = sk.ctl_state ∧ skp.sk_write_queue = sk.sk_write_queue := by
      rw [← hpush, ← hctl0, ← hq0]
      split <;> exact ⟨rfl, rfl⟩
    obtain ⟨hp1, hp2⟩ := hp1
    split at h
    · rename_i hc
      simp only [Option.some.injEq] at h
      subst h
      refine ⟨_, mss,
        { skb with cb := { skb.cb with flags := skb.cb.flags ||| TCPCB_FLAG_PSH } },
        ?_, ?_, ?_, ?_, ?_, ?_, Or.inl ⟨rfl, hc⟩⟩
      · exact hp1
      · simp only [hp2]
      · rfl
      · rfl
      · rfl
      · exact fun w => w
    · rename_i hc
      have hc1 : sub32 skb.cb.end_seq skb.cb.seq ≤
          sub32 (add32 sk.snd_una sk.snd_wnd) skb.cb.seq := by omega
      have hc2 : skb.len ≤ mss := by omega
      split at h
      · split at h
        · cases h
        · rename_i s hs
          simp only [Option.some.injEq] at h
          subst h
          obtain ⟨a, b, -, c, -⟩ := tcp_set_skb_tso_segs_wf _ _ _ _ hs
          refine ⟨_, mss, s, ?_, ?_, a, by rw [c], by rw [c], b, Or.inr ⟨rfl, hc1, hc2⟩⟩
          · exact hp1
          · simp only [hp2]
      · simp only [Option.some.injEq] at h
        subst h
        refine ⟨skp, mss, skb, hp1, ?_, rfl, rfl, rfl, fun w => w, Or.inr ⟨rfl, hc1, hc2⟩⟩
        rw [hp2, hset]

theorem write_wakeup_stamp_ready (e : env) (sk sk2 : tcp_sock) (i mss mss2 : Nat)
    (s skb2 : sk_buff) (hq : sk.sk_write_queue[i]? = some s)
    (h : write_wakeup_stamp e sk i mss = some (.ready sk2 skb2 mss2)) :
    mss2 = mss ∧ sk2.ctl_state = sk.ctl_state ∧ skb2.len = s.len ∧
      skb2.cb.end_seq = s.cb.end_seq ∧ sk2.sk_write_queue[i]? = some skb2 := by
  unfold write_wakeup_stamp at h
  rw [hq] at h
  simp only [Option.some.injEq, wakeup_ready.ready.injEq] at h
  obtain ⟨rfl, rfl, rfl⟩ := h
  have hi : i < sk.sk_write_queue.length := by
    rcases Nat.lt_or_ge i sk.sk_write_queue.length with hlt | hge
    · exact hlt
    · rw [List.getElem?_eq_none hge] at hq
      cases hq
  refine ⟨rfl, rfl, rfl, rfl, ?_⟩
  simp only [List.getElem?_set, hi, if_true]

theorem serial_within (seq e w d : Nat) (ha : after seq w = false)
    (hd : sub32 e seq = d) (hle : d ≤ sub32 w seq) : after e w = false := by
  unfold after before sub32 at *
  simp only [decide_eq_true_eq, decide_eq_false_iff_not, not_le] at *
  omega

theorem serial_within_add (seq w d : Nat) (hb : before seq w = true) (ha : after seq w = false)
    (hle : d ≤ sub32 w seq) : after (add32 seq d) w = false := by
  unfold after before sub32 add32 at *
  simp only [decide_eq_true_eq, decide_eq_false_iff_not, not_le] at *
  omega

/-- C30: on a single-path connection whose send head, a well-formed buffer, covers
as many sequence numbers as it has bytes (one more when it carries FIN) and
starts before the end of the send window, `snd_una + snd_wnd`, without also
being after it: whenever `tcp_write_wakeup` plans a cut, the length it passes to
`tcp_fragment`, `min(window end - seq, mss)`, is at most the length of the
buffer, so the abort of `tcp_fragment` on a longer length is not reached; and
the buffer `tcp_write_wakeup` then hands to `tcp_transmit_skb` holds at most
`mss` bytes and does not end after the end of the send window. -/
theorem tcp_write_wakeup_split_within (e : env) (sk : tcp_sock) (i : Nat) (skb : sk_buff)
    (hmpc : sk.mpc = false) (hhead : write_wakeup_head sk = some (some (i, skb)))
    (hwf : skb_wf skb)
    (hlen : sub32 skb.cb.end_seq skb.cb.seq = skb.len ∨
      (tst skb.cb.flags TCPCB_FLAG_FIN = true ∧ sub32 skb.cb.end_seq skb.cb.seq = skb.len + 1))
    (hnot : after skb.cb.seq (add32 sk.snd_una sk.snd_wnd) = false) :
    (∀ sk1 i1 seg_size mss, write_wakeup_plan e sk i skb = some (.cut sk1 i1 seg_size mss) →
      i1 = i ∧ seg_size = min (sub32 (add32 sk.snd_una sk.snd_wnd) skb.cb.seq) mss ∧
      ∃ s, sk1.sk_write_queue[i]? = some s ∧ s.len = skb.len ∧ seg_size ≤ s.len) ∧
    (∀ sk2 skb2 mss, write_wakeup_prepare e sk i skb = some (.ready sk2 skb2 mss) →
      sk2.sk_write_queue[i]? = some skb2 ∧ skb2.len ≤ mss ∧
      after skb2.cb.end_seq (add32 sk2.snd_una sk2.snd_wnd) = false) := by
  have hfacts : sk.sk_write_queue[i]? = some skb ∧
      before skb.cb.seq (add32 sk.snd_una sk.snd_wnd) = true := by
    unfold write_wakeup_head at hhead
    split at hhead
    · cases hhead
    · split at hhead
      · cases hhead
      · rename_i j hj
        simp only [tcp_wnd_end, hmpc, Bool.false_eq_true, if_false] at hhead
        split at hhead
        · rename_i s w hs hw
          split at hhead
          · rename_i hb
            simp only [Option.some.injEq, Prod.mk.injEq] at hhead hw
            obtain ⟨rfl, rfl⟩ := hhead
            subst hw
            exact ⟨hs, hb⟩
          · cases hhead
        · cases hhead
  obtain ⟨hq, hb⟩ := hfacts
  have hi : i < sk.sk_write_queue.length := by
    rcases Nat.lt_or_ge i sk.sk_write_queue.length with hlt | hge
    · exact hlt
    · rw [List.getElem?_eq_none hge] at hq
      cases hq
  have hcut : ∀ mss, (sub32 (add32 sk.snd_una sk.snd_wnd) skb.cb.seq <
        sub32 skb.cb.end_seq skb.cb.seq ∨ skb.len > mss) →
      min (sub32 (add32 sk.snd_una sk.snd_wnd) skb.cb.seq) mss ≤ skb.len := by
    intro mss hc
    rcases hlen with h1 | ⟨-, h1⟩ <;> rcases hc with h2 | h2 <;> omega
  constructor
  · intro sk1 i1 seg_size mss hp
    obtain ⟨sk1', mss', s, -, hqs, hl, -, -, -, hc⟩ :=
      write_wakeup_plan_cases e sk i skb _ hmpc hq hp
    rcases hc with ⟨hc, hcond⟩ | ⟨hc, -⟩
    · simp only [wakeup_plan.cut.injEq] at hc
      obtain ⟨rfl, rfl, rfl, rfl⟩ := hc
      refine ⟨rfl, rfl, s, ?_, hl, ?_⟩
      · rw [hqs]
        simp only [List.getElem?_set, hi, if_true]
      · rw [hl]
        exact hcut _ hcond
    · cases hc
  · intro sk2 skb2 mss hp
    unfold write_wakeup_prepare at hp
    split at hp
    · cases hp
    · rename_i sk1 i1 mss1 hplan
      obtain ⟨sk1', mss', s, hctl, hqs, hl, -, hes, -, hc⟩ :=
        write_wakeup_plan_cases e sk i skb _ hmpc hq hplan
      rcases hc with ⟨hc, -⟩ | ⟨hc, hd, hlm⟩
      · cases hc
      · simp only [wakeup_plan.keep.injEq] at hc
        obtain ⟨rfl, rfl, rfl⟩ := hc
        have hq1 : sk1.sk_write_queue[i1]? = some s := by
          rw [hqs]
          simp only [List.getElem?_set, hi, if_true]
        obtain ⟨rfl, c2, c3, c4, c5⟩ := write_wakeup_stamp_ready e sk1 sk2 i1 _ _ s skb2 hq1 hp
        have h1 : sk2.snd_una = sk.snd_una := congrArg ctl_state.snd_una (c2.trans hctl)
        have h2 : sk2.snd_wnd = sk.snd_wnd := congrArg ctl_state.snd_wnd (c2.trans hctl)
        refine ⟨c5, by rw [c3, hl]; exact hlm, ?_⟩
        rw [c4, hes, h1, h2]
        exact serial_within _ _ _ _ hnot rfl hd
    · rename_i sk1 i1 seg_size mss1 hplan
      obtain ⟨sk1', mss', s, hctl, hqs, hl, hsq, -, hws, hc⟩ :=
        write_wakeup_plan_cases e sk i skb _ hmpc hq hplan
      rcases hc with ⟨hc, hcond⟩ | ⟨hc, -⟩
      · simp only [wakeup_plan.cut.injEq] at hc
        obtain ⟨rfl, rfl, rfl, rfl⟩ := hc
        have hq1 : sk1.sk_write_queue[i1]? = some s := by
          rw [hqs]
          simp only [List.getElem?_set, hi, if_true]
        split at hp
        · cases hp
        · rename_i r skf hfrag
          split at hp
          · cases hp
          · rename_i hr
            have hr0 : r = 0 := by
              by_contra hne
              exact hr hne
            subst hr0
            obtain ⟨s', a, head, tail, hq', -, -, hsplit, -, -, hcb, -⟩ :=
              tcp_fragment_post _ _ _ _ _ _ _ _ _ hfrag
            rw [hq1] at hq'
            cases hq'
            obtain ⟨head', tail', hsplit', l1, -, -, -⟩ :=
              tcp_fragment_len _ _ _ _ _ _ _ _ _ s hq1 (hws hwf) hfrag
            rw [hsplit] at hsplit'
            obtain ⟨rfl, rfl⟩ := queue_split_inj _ _ _ _ _ _ hsplit'
            have hctlf := tcp_fragment_ctl _ _ _ _ _ _ _ _ _ _ hfrag
            have hqf : skf.sk_write_queue[i1]? = some head := by
              rw [hsplit]
              exact (queue_split_get sk1.sk_write_queue i1 s head tail hq1).1
            obtain ⟨rfl, c2, c3, c4, c5⟩ :=
              write_wakeup_stamp_ready e skf sk2 i1 _ _ head skb2 hqf hp
            have h1 : sk2.snd_una = sk.snd_una :=
              congrArg ctl_state.snd_una (c2.trans (hctlf.trans hctl))
            have h2 : sk2.snd_wnd = sk.snd_wnd :=
              congrArg ctl_state.snd_wnd (c2.trans (hctlf.trans hctl))
            obtain ⟨-, f2, -, -⟩ := fragment_head_seqs e.CONFIG_MTCP s.cb cb_zero
              (min (sub32 (add32 sk.snd_una sk.snd_wnd) skb.cb.seq) mss)
            refine ⟨c5, by rw [c3, l1]; exact Nat.min_le_right _ _, ?_⟩
            rw [c4, hcb, f2, hsq, h1, h2]
            exact serial_within_add _ _ _ hb hnot (Nat.min_le_left _ _)
      · cases hc

theorem tcp_write_wakeup_split_within_witness :
    tp_probe.mpc = false ∧ write_wakeup_head tp_probe = some (some (0, skb_long)) ∧
      (tcp_write_wakeup env_plain tp_probe).map
        (fun r => (r.1, r.2.sk_write_queue.map (fun s => (s.len, s.cb.seq, s.cb.end_seq)))) =
        some (0, [(600, 1000, 1600), (1900, 1600, 3500)]) ∧
      ((∀ sk1 i1 seg_size mss,
          write_wakeup_plan env_plain tp_probe 0 skb_long = some (.cut sk1 i1 seg_size mss) →
          i1 = 0 ∧ seg_size = min (sub32 (add32 tp_probe.snd_una tp_probe.snd_wnd)
            skb_long.cb.seq) mss ∧
          ∃ s, sk1.sk_write_queue[0]? = some s ∧ s.len = skb_long.len ∧ seg_size ≤ s.len) ∧
        (∀ sk2 skb2 mss,
          write_wakeup_prepare env_plain tp_probe 0 skb_long = some (.ready sk2 skb2 mss) →
          sk2.sk_write_queue[0]? = some skb2 ∧ skb2.len ≤ mss ∧
          after skb2.cb.end_seq (add32 sk2.snd_una sk2.snd_wnd) = false)) :=
  ⟨rfl, by decide!, by decide!,
    tcp_write_wakeup_split_within env_plain tp_probe 0 skb_long rfl (by decide!) (by decide)
      (Or.inl (by decide)) (by decide)⟩

/-! ## Theorems: packet accounting -/

theorem pcount_sum_split (q : List sk_buff) (i : Nat) (s h t : sk_buff)
    (hq : q[i]? = some s) :
    pcount_sum (queue_split q i h t) + tcp_skb_pcount s =
      pcount_sum q + tcp_skb_pcount h + tcp_skb_pcount t := by
  induction q generalizing i with
  | nil => simp at hq
  | cons x xs ih =>
    cases i with
    | zero =>
      simp only [List.getElem?_cons_zero, Option.some.injEq] at hq
      subst hq
      simp only [queue_split, pcount_sum, List.take_zero, List.nil_append, List.drop_succ_cons,
        List.drop_zero, List.map_cons, List.sum_cons]
      omega
    | succ n =>
      simp only [List.getElem?_cons_succ] at hq
      have := ih n hq
      simp only [queue_split, pcount_sum, List.take_succ_cons, List.drop_succ_cons,
        List.cons_append, List.map_cons, List.sum_cons] at this ⊢
      omega

/-- The sent part of the queue after a split at position `i`, when the send head is
at position `k`: a split in front of the send head moves it one place on and
replaces one count by two; a split at or after it leaves the sent part alone. -/
theorem skb_index_split (q : List sk_buff) (i k a : Nat) (s h t : sk_buff)
    (hq : q[i]? = some s) (hk : skb_index q a = some k) (hh : h.addr = s.addr)
    (ht : t.addr ≠ a) :
    ∃ k', skb_index (queue_split q i h t) a = some k' ∧
      (i < k → pcount_sum ((queue_split q i h t).take k') + tcp_skb_pcount s =
        pcount_sum (q.take k) + tcp_skb_pcount h + tcp_skb_pcount t) ∧
      (k ≤ i → pcount_sum ((queue_split q i h t).take k') = pcount_sum (q.take k)) := by
  induction q generalizing i k with
  | nil => simp at hq
  | cons x xs ih =>
    simp only [skb_index] at hk
    cases i with
    | zero =>
      simp only [List.getElem?_cons_zero, Option.some.injEq] at hq
      subst hq
      split at hk
      · rename_i hx
        simp only [Option.some.injEq] at hk
        subst hk
        refine ⟨0, ?_, fun hlt => absurd hlt (by omega), fun _ => rfl⟩
        simp only [queue_split, List.take_zero, List.nil_append, skb_index, hh, hx, if_true]
      · rename_i hx
        cases hk0 : skb_index xs a with
        | none => simp [hk0] at hk
        | some k0 =>
          simp only [hk0, Option.map_some', Option.some.injEq] at hk
          subst hk
          refine ⟨k0 + 2, ?_, fun _ => ?_, fun hle => absurd hle (by omega)⟩
          · simp only [queue_split, List.take_zero, List.nil_append, List.drop_succ_cons,
              List.drop_zero, skb_index, hh, hx, ht, if_false, hk0, Option.map_some']
          · simp only [queue_split, pcount_sum, List.take_zero, List.nil_append,
              List.drop_succ_cons, List.drop_zero, List.take_succ_cons, List.map_cons,
              List.sum_cons]
            omega
    | succ n =>
      simp only [List.getElem?_cons_succ] at hq
      split at hk
      · rename_i hx
        simp only [Option.some.injEq] at hk
        subst hk
        refine ⟨0, ?_, fun hlt => absurd hlt (by omega), fun _ => rfl⟩
        simp only [queue_split, List.take_succ_cons, List.cons_append, skb_index, hx, if_true]
      · rename_i hx
        cases hk0 : skb_index xs a with
        | none => simp [hk0] at hk
        | some k0 =>
          simp only [hk0, Option.map_some', Option.some.injEq] at hk
          subst hk
          obtain ⟨k', h1, h2, h3⟩ := ih n k0 hq hk0
          refine ⟨k' + 1, ?_, fun hlt => ?_, fun hle => ?_⟩
          · have : queue_split (x :: xs) (n + 1) h t = x :: queue_split xs n h t := by
              simp only [queue_split, List.take_succ_cons, List.drop_succ_cons, List.cons_append]
            rw [this]
            simp only [skb_index, hx, if_false, h1, Option.map_some']
          · have := h2 (by omega)
            simp only [queue_split, pcount_sum, List.take_succ_cons, List.drop_succ_cons,
              List.cons_append, List.map_cons, List.sum_cons] at this ⊢
            omega
          · have := h3 (by omega)
            simp only [queue_split, pcount_sum, List.take_succ_cons, List.drop_succ_cons,
              List.cons_append, List.map_cons, List.sum_cons] at this ⊢
            omega

theorem fragment_counters_packets_out (tp : tcp_sock) (hs f : Nat) (a b : sk_buff) :
    (fragment_counters tp hs f a b).packets_out =
      if before tp.snd_nxt b.cb.end_seq = true then tp.packets_out
      else u32 ((tp.packets_out : Int) - ((f : Int) - tcp_skb_pcount a - tcp_skb_pcount b)) := by
  unfold fragment_counters
  cases hb : before tp.snd_nxt b.cb.end_seq
  · simp only [Bool.not_false, if_true, Bool.false_eq_true, if_false]
    rw [(tcp_adjust_fackets_out_frame _ _ _ _).1]
  · simp only [Bool.not_true, Bool.false_eq_true, if_false, if_true]

/-- The packet count after a successful `tcp_fragment`: it changes, by the change of
the segment counts, exactly when the buffer that was cut does not end after
`snd_nxt`. -/
theorem tcp_fragment_packets_out (cfg e : Bool) (alloc : Option (Nat × Nat)) (hs : Nat)
    (sk sk' : tcp_sock) (i len mss : Nat)
    (h : tcp_fragment cfg e alloc hs sk i len mss = some (0, sk')) :
    ∃ s a head tail, sk.sk_write_queue[i]? = some s ∧ alloc = some a ∧
      sk'.sk_write_queue = queue_split sk.sk_write_queue i head tail ∧
      head.addr = s.addr ∧ tail.addr = a.1 ∧
      sk'.packets_out =
        if before sk.snd_nxt s.cb.end_seq = true then sk.packets_out
        else u32 ((sk.packets_out : Int) -
          ((tcp_skb_pcount s : Int) - tcp_skb_pcount head - tcp_skb_pcount tail)) := by
  unfold tcp_fragment at h
  split at h
  · cases h
  · rename_i s hq
    split at h
    · cases h
    · rename_i hlen
      simp only at h
      split at h
      · simp [ENOMEM] at h
      · split at h
        · simp [ENOMEM] at h
        · rename_i a
          split at h
          · cases h
          · rename_i head tail hh
            simp only [Option.some.injEq, Prod.mk.injEq, true_and] at h
            subst h
            obtain ⟨e1, e2, -, e4⟩ := fragment_halves_cb _ _ _ _ _ _ _ _ hh
            have hte : tail.cb.end_seq = s.cb.end_seq := by
              rw [e4, (expanded_head_cb s).1]
              exact (fragment_head_seqs cfg s.cb _ len).2.2.2
            have hpc : tcp_skb_pcount (expanded_head s) = tcp_skb_pcount s := by
              unfold expanded_head
              split <;> rfl
            refine ⟨s, a, head, tail, hq, rfl, ?_, ?_, ?_, ?_⟩
            · simp only [fragment_counters_queue]
              rfl
            · rw [e1, (expanded_head_cb s).2.1]
            · rw [e2]; rfl
            · simp only [fragment_counters_packets_out, hte, hpc]
              rfl

theorem u32_sub_mod (n d : Nat) (x : Int) (h : (d : Int) = n - x) :
    u32 (((n % 4294967296 : Nat) : Int) - x) = d % 4294967296 := by
  unfold u32
  omega

theorem send_head_index_some (sk : tcp_sock) (n : Nat) (h : sent_pcount sk = some n) :
    ∃ k, send_head_index sk = some k ∧ n = pcount_sum (sk.sk_write_queue.take k) := by
  unfold sent_pcount at h
  cases hk : send_head_index sk with
  | none => simp [hk] at h
  | some k =>
    simp only [hk, Option.map_some', Option.some.injEq] at h
    exact ⟨k, rfl, h.symm⟩

/-- A successful `tcp_fragment` keeps the accounting of `packets_out`, when the new
buffer is not taken for the send head and the buffer that is cut counts as sent
(lies in front of the send head) exactly when it does not end after
`snd_nxt`. -/
theorem tcp_fragment_packets_out_ok (cfg e : Bool) (alloc : Option (Nat × Nat)) (hs : Nat)
    (sk sk' : tcp_sock) (i len mss : Nat) (hok : packets_out_ok sk)
    (hfresh : ∀ a, alloc = some a → sk.sk_send_head ≠ some a.1)
    (hsent : ∀ s k, sk.sk_write_queue[i]? = some s → send_head_index sk = some k →
      (i < k ↔ before sk.snd_nxt s.cb.end_seq = false))
    (h : tcp_fragment cfg e alloc hs sk i len mss = some (0, sk')) :
    packets_out_ok sk' := by
  obtain ⟨n, hn, hp⟩ := hok
  obtain ⟨k, hk, hnk⟩ := send_head_index_some sk n hn
  obtain ⟨s, a, head, tail, hq, ha, hqs, hh, ht, hpo⟩ := tcp_fragment_packets_out _ _ _ _ _ _ _ _ _ h
  have hctl := tcp_fragment_ctl _ _ _ _ _ _ _ _ _ _ h
  have hsh : sk'.sk_send_head = sk.sk_send_head := congrArg ctl_state.sk_send_head hctl
  have hlink := hsent s k hq hk
  have hi : i < sk.sk_write_queue.length := by
    rcases Nat.lt_or_ge i sk.sk_write_queue.length with hlt | hge
    · exact hlt
    · rw [List.getElem?_eq_none hge] at hq
      cases hq
  unfold packets_out_ok sent_pcount send_head_index
  unfold send_head_index at hk
  rw [hsh]
  cases hhead : sk.sk_send_head with
  | none =>
    rw [hhead] at hk
    simp only [Option.some.injEq] at hk
    subst hk
    have hb : before sk.snd_nxt s.cb.end_seq = false := hlink.1 hi
    rw [hb] at hpo
    simp only [Bool.false_eq_true, if_false] at hpo
    simp only [Option.map_some', Option.some.injEq, exists_eq_left']
    rw [List.take_length] at hnk ⊢
    have hsum := pcount_sum_split sk.sk_write_queue i s head tail hq
    rw [hpo, hp, hqs]
    exact u32_sub_mod n _ _ (by omega)
  | some x =>
    rw [hhead] at hk
    simp only at hk ⊢
    have htx : tail.addr ≠ x := by
      intro hx
      refine hfresh a ha ?_
      rw [hhead, ← hx, ht]
    obtain ⟨k', h1, h2, h3⟩ := skb_index_split sk.sk_write_queue i k x s head tail hq hk hh htx
    rw [hqs, h1]
    simp only [Option.map_some', Option.some.injEq, exists_eq_left']
    rcases Nat.lt_or_ge i k with hlt | hge
    · have hb : before sk.snd_nxt s.cb.end_seq = false := hlink.1 hlt
      rw [hb] at hpo
      simp only [Bool.false_eq_true, if_false] at hpo
      have hsum := h2 hlt
      rw [hpo, hp]
      exact u32_sub_mod n _ _ (by omega)
    · have hb : before sk.snd_nxt s.cb.end_seq = true := by
        cases hb : before sk.snd_nxt s.cb.end_seq
        · exact absurd (hlink.2 hb) (by omega)
        · rfl
      rw [hb] at hpo
      simp only [if_true] at hpo
      rw [hpo, hp, h3 hge, hnk]

theorem collapse_commit_shape (hs : Nat) (sk sk' : tcp_sock) (i : Nat) (a b : sk_buff)
    (h : collapse_commit hs sk i a b = some sk') :
    ∃ m, m.addr = a.addr ∧ tcp_skb_pcount m = tcp_skb_pcount a ∧
      sk'.sk_write_queue = (sk.sk_write_queue.set i m).eraseIdx (i + 1) ∧
      sk'.packets_out = u32 ((sk.packets_out : Int) - tcp_skb_pcount b) := by
  unfold collapse_commit at h
  simp only at h
  split at h
  · cases h
  · rename_i a1 ha1
    obtain ⟨rfl, -, -⟩ := skb_put_some _ _ _ ha1
    simp only [Option.some.injEq] at h
    subst h
    refine ⟨collapse_skb a { a with len := a.len + b.len } b, rfl, rfl, ?_, ?_⟩
    · simp only [sk_wmem_free_skb, tcp_clear_retrans_hints_partial, tcp_adjust_fackets_out_queue,
        collapse_counters, (tcp_highest_sack_combine_frame _ _ _).1]
    · simp only [sk_wmem_free_skb, tcp_clear_retrans_hints_partial,
        (tcp_adjust_fackets_out_frame _ _ _ _).1, collapse_counters,
        (tcp_highest_sack_combine_frame _ _ _).2]

/-- What `tcp_retrans_try_collapse` does when it returns: nothing, or the merge of
two buffers of count 1 into one of count 1 at the place of the first, with
`packets_out` lowered by the count of the second. -/
theorem tcp_retrans_try_collapse_shape (hs : Nat) (sk sk' : tcp_sock) (i : Nat) (mss : Int)
    (h : tcp_retrans_try_collapse hs sk i mss = some sk') :
    sk' = sk ∨ ∃ a b m, sk.sk_write_queue[i]? = some a ∧ sk.sk_write_queue[i + 1]? = some b ∧
      tcp_skb_pcount a = 1 ∧ tcp_skb_pcount b = 1 ∧ m.addr = a.addr ∧
      tcp_skb_pcount m = tcp_skb_pcount a ∧
      sk'.sk_write_queue = (sk.sk_write_queue.set i m).eraseIdx (i + 1) ∧
      sk'.packets_out = u32 ((sk.packets_out : Int) - tcp_skb_pcount b) := by
  cases hq : sk.sk_write_queue[i]? with
  | none => simp [tcp_retrans_try_collapse, hq] at h
  | some a =>
    cases hn : sk.sk_write_queue[i + 1]? with
    | none => simp [tcp_retrans_try_collapse, hq, hn] at h
    | some b =>
      by_cases g1 : a.cloned = true ∨ b.cloned = true ∨ tst b.cb.sacked TCPCB_SACKED_ACKED = true
      · rw [tcp_retrans_try_collapse_guard hs sk i mss a b hq hn (by
          rcases g1 with g | g | g
          · exact Or.inl g
          · exact Or.inr (Or.inl g)
          · exact Or.inr (Or.inr (Or.inl g)))] at h
        cases h
        exact Or.inl rfl
      · have ha : a.cloned = false := by cases hc : a.cloned <;> simp_all
        have hb : b.cloned = false := by cases hc : b.cloned <;> simp_all
        have hsack : tst b.cb.sacked TCPCB_SACKED_ACKED = false := by
          cases hc : tst b.cb.sacked TCPCB_SACKED_ACKED <;> simp_all
        cases hw : tcp_wnd_end sk sk.mpc with
        | none => simp [tcp_retrans_try_collapse, hq, hn, ha, hb, hsack, hw] at h
        | some w =>
          by_cases g2 : after (if sk.mpc then b.cb.end_data_seq else b.cb.end_seq) w = true ∨
              skb_tailroom a < (b.len : Int) ∨ mss < (a.len : Int) + b.len
          · rw [tcp_retrans_try_collapse_guard hs sk i mss a b hq hn
              (Or.inr (Or.inr (Or.inr ⟨w, hw, g2⟩)))] at h
            cases h
            exact Or.inl rfl
          · have hin : after (if sk.mpc then b.cb.end_data_seq else b.cb.end_seq) w = false := by
              cases hc : after (if sk.mpc then b.cb.end_data_seq else b.cb.end_seq) w
              · rfl
              · exact absurd (Or.inl hc) g2
            have hroom : (b.len : Int) ≤ skb_tailroom a := by
              by_contra hne
              exact g2 (Or.inr (Or.inl (by omega)))
            have hmss : (a.len : Int) + b.len ≤ mss := by
              by_contra hne
              exact g2 (Or.inr (Or.inr (by omega)))
            by_cases hpc : tcp_skb_pcount a = 1 ∧ tcp_skb_pcount b = 1
            · rw [tcp_retrans_try_collapse_commits hs sk i mss a b w hq hn ha hb hsack hw hin
                hroom hmss hpc.1 hpc.2] at h
              obtain ⟨m, m1, m2, m3, m4⟩ := collapse_commit_shape _ _ _ _ _ _ h
              exact Or.inr ⟨a, b, m, rfl, rfl, hpc.1, hpc.2, m1, m2, m3, m4⟩
            · have h1 : ¬ (b.len : Int) > skb_tailroom a := by omega
              have h2 : ¬ (a.len : Int) + b.len > mss := by omega
              have hor : tcp_skb_pcount a ≠ 1 ∨ tcp_skb_pcount b ≠ 1 := by
                by_contra hno
                exact hpc ⟨by by_contra hx; exact hno (Or.inl hx),
                  by by_contra hx; exact hno (Or.inr hx)⟩
              simp [tcp_retrans_try_collapse, hq, hn, ha, hb, hsack, hw, hin, h1, h2, hor] at h

theorem pcount_sum_merge (q : List sk_buff) (i : Nat) (a b m : sk_buff)
    (hq : q[i]? = some a) (hn : q[i + 1]? = some b) :
    pcount_sum ((q.set i m).eraseIdx (i + 1)) + tcp_skb_pcount a + tcp_skb_pcount b =
      pcount_sum q + tcp_skb_pcount m := by
  induction q generalizing i with
  | nil => simp at hq
  | cons x xs ih =>
    cases i with
    | zero =>
      cases xs with
      | nil => simp at hn
      | cons y ys =>
        simp only [List.getElem?_cons_zero, Option.some.injEq, Nat.zero_add,
          List.getElem?_cons_succ] at hq hn
        subst hq hn
        simp only [pcount_sum, List.set_cons_zero, Nat.zero_add, List.eraseIdx_cons_succ,
          List.eraseIdx_cons_zero, List.map_cons, List.sum_cons]
        omega
    | succ n =>
      simp only [List.getElem?_cons_succ] at hq hn
      have := ih n hq hn
      simp only [pcount_sum, List.set_cons_succ, List.eraseIdx_cons_succ, List.map_cons,
        List.sum_cons] at this ⊢
      omega

/-- The sent part of the queue after a merge of the buffers at positions `i` and
`i + 1`, both in front of the send head at position `k`. -/
theorem skb_index_merge (q : List sk_buff) (i k x : Nat) (a b m : sk_buff)
    (hq : q[i]? = some a) (hn : q[i + 1]? = some b) (hk : skb_index q x = some k)
    (hik : i + 1 < k) (hm : m.addr = a.addr) :
    skb_index ((q.set i m).eraseIdx (i + 1)) x = some (k - 1) ∧
      pcount_sum (((q.set i m).eraseIdx (i + 1)).take (k - 1)) + tcp_skb_pcount a +
          tcp_skb_pcount b =
        pcount_sum (q.take k) + tcp_skb_pcount m := by
  induction q generalizing i k with
  | nil => simp at hq
  | cons y ys ih =>
    simp only [skb_index] at hk
    split at hk
    · simp only [Option.some.injEq] at hk
      omega
    · rename_i hy
      cases hk0 : skb_index ys x with
      | none => simp [hk0] at hk
      | some k0 =>
        simp only [hk0, Option.map_some', Option.some.injEq] at hk
        subst hk
        cases i with
        | zero =>
          simp only [List.getElem?_cons_zero, Option.some.injEq] at hq
          subst hq
          cases ys with
          | nil => simp at hn
          | cons z zs =>
            simp only [Nat.zero_add, List.getElem?_cons_succ, List.getElem?_cons_zero,
              Option.some.injEq] at hn
            subst hn
            simp only [skb_index] at hk0
            split at hk0
            · simp only [Option.some.injEq] at hk0
              omega
            · rename_i hz
              cases hk1 : skb_index zs x with
              | none => simp [hk1] at hk0
              | some k1 =>
                simp only [hk1, Option.map_some', Option.some.injEq] at hk0
                subst hk0
                refine ⟨?_, ?_⟩
                · simp only [List.set_cons_zero, Nat.zero_add, List.eraseIdx_cons_succ,
                    List.eraseIdx_cons_zero, skb_index, hm, hy, if_false, hk1, Option.map_some']
                  rfl
                · simp only [pcount_sum, List.set_cons_zero, Nat.zero_add,
                    List.eraseIdx_cons_succ, List.eraseIdx_cons_zero, Nat.add_sub_cancel,
                    List.take_succ_cons, List.map_cons, List.sum_cons]
                  omega
        | succ n =>
          simp only [List.getElem?_cons_succ] at hq hn
          obtain ⟨j, rfl⟩ : ∃ j, k0 = j + 1 := ⟨k0 - 1, by omega⟩
          obtain ⟨h1, h2⟩ := ih n (j + 1) hq hn hk0 (by omega)
          simp only [Nat.add_sub_cancel] at h1 h2 ⊢
          refine ⟨?_, ?_⟩
          · simp only [List.set_cons_succ, List.eraseIdx_cons_succ, skb_index, hy, if_false, h1,
              Option.map_some']
          · simp only [pcount_sum, List.set_cons_succ, List.eraseIdx_cons_succ,
              List.take_succ_cons, List.map_cons, List.sum_cons] at h2 ⊢
            omega

/-- `tcp_retrans_try_collapse` on two adjacent sent buffers keeps the accounting of
`packets_out`, whether it merges them or leaves them. -/
theorem tcp_retrans_try_collapse_packets_out_ok (hs : Nat) (sk sk' : tcp_sock) (i k : Nat)
    (mss : Int) (hok : packets_out_ok sk) (hk : send_head_index sk = some k)
    (hik : i + 1 < k) (h : tcp_retrans_try_collapse hs sk i mss = some sk') :
    packets_out_ok sk' := by
  have hctl := tcp_retrans_try_collapse_ctl _ _ _ _ _ h
  have hsh : sk'.sk_send_head = sk.sk_send_head := congrArg ctl_state.sk_send_head hctl
  rcases tcp_retrans_try_collapse_shape _ _ _ _ _ h with rfl | ⟨a, b, m, hq, hn, -, -, ma, mp, mq, mo⟩
  · exact hok
  · obtain ⟨n, hn', hp⟩ := hok
    obtain ⟨k2, hk2, hnk⟩ := send_head_index_some sk n hn'
    rw [hk] at hk2
    cases hk2
    unfold packets_out_ok sent_pcount send_head_index
    unfold send_head_index at hk
    rw [hsh]
    have hlen : i + 1 < sk.sk_write_queue.length := by
      rcases Nat.lt_or_ge (i + 1) sk.sk_write_queue.length with hlt | hge
      · exact hlt
      · rw [List.getElem?_eq_none hge] at hn
        cases hn
    cases hhead : sk.sk_send_head with
    | none =>
      rw [hhead] at hk
      simp only [Option.some.injEq] at hk
      subst hk
      simp only [Option.map_some', Option.some.injEq, exists_eq_left']
      rw [List.take_length] at hnk ⊢
      have hsum := pcount_sum_merge sk.sk_write_queue i a b m hq hn
      rw [mo, hp, mq]
      exact u32_sub_mod n _ _ (by omega)
    | some x =>
      rw [hhead] at hk
      simp only at hk ⊢
      obtain ⟨h1, h2⟩ := skb_index_merge sk.sk_write_queue i k x a b m hq hn hk hik ma
      rw [mq, h1]
      simp only [Option.map_some', Option.some.injEq, exists_eq_left']
      rw [mo, hp]
      exact u32_sub_mod n _ _ (by omega)

/-- C22: the accounting of `packets_out` (as a 32-bit counter it equals the sum of
the segment counts of the queued buffers in front of the send head) survives
a split and a merge. If it holds before, it holds after every `tcp_fragment`
that returns 0, for a buffer that counts as sent exactly when it does not end
after `snd_nxt`, whether sent or not, the new buffer not being taken for the
send head; and after every `tcp_retrans_try_collapse` that returns, for two
adjacent buffers in front of the send head. -/
theorem packets_out_split_merge (sk : tcp_sock) (hok : packets_out_ok sk) :
    (∀ (cfg e : Bool) (alloc : Option (Nat × Nat)) (hs i len mss : Nat) (sk' : tcp_sock),
      (∀ a, alloc = some a → sk.sk_send_head ≠ some a.1) →
      (∀ s k, sk.sk_write_queue[i]? = some s → send_head_index sk = some k →
        (i < k ↔ before sk.snd_nxt s.cb.end_seq = false)) →
      tcp_fragment cfg e alloc hs sk i len mss = some (0, sk') → packets_out_ok sk') ∧
    (∀ (hs i k : Nat) (mss : Int) (sk' : tcp_sock),
      send_head_index sk = some k → i + 1 < k →
      tcp_retrans_try_collapse hs sk i mss = some sk' → packets_out_ok sk') :=
  ⟨fun cfg e alloc hs i len mss sk' hfresh hsent h =>
      tcp_fragment_packets_out_ok cfg e alloc hs sk sk' i len mss hok hfresh hsent h,
    fun hs i k mss sk' hk hik h =>
      tcp_retrans_try_collapse_packets_out_ok hs sk sk' i k mss hok hk hik h⟩

theorem packets_out_split_merge_witness :
    packets_out_ok tp_three ∧
      (∃ sk', tcp_fragment true true (some (9, 300)) 0 tp_three 1 60 1000 = some (0, sk') ∧
        sk'.packets_out = 4 ∧ packets_out_ok sk') ∧
      (∃ sk', tcp_retrans_try_collapse 0 tp_three 0 1000 = some sk' ∧
        sk'.packets_out = 2 ∧ packets_out_ok sk') := by
  have hok : packets_out_ok tp_three := by decide
  obtain ⟨w1, w2⟩ := packets_out_split_merge tp_three hok
  refine ⟨hok, ?_, ?_⟩
  · obtain ⟨r, hr⟩ : ∃ r, tcp_fragment true true (some (9, 300)) 0 tp_three 1 60 1000 = some r :=
      Option.isSome_iff_exists.1 (by decide!)
    have hv : (tcp_fragment true true (some (9, 300)) 0 tp_three 1 60 1000).map
        (fun r => (r.1, r.2.packets_out)) = some (0, 4) := by decide!
    rw [hr] at hv
    simp only [Option.map_some', Option.some.injEq, Prod.mk.injEq] at hv
    obtain ⟨r1, r2⟩ := r
    simp only at hv
    obtain ⟨rfl, hv2⟩ := hv
    refine ⟨r2, hr, hv2, w1 true true (some (9, 300)) 0 1 60 1000 r2 ?_ ?_ hr⟩
    · intro a _
      exact fun hne => Option.noConfusion hne
    · intro s k hs hk
      have h1 : tp_three.sk_write_queue[1]? = some skb_mid := by decide
      have h2 : send_head_index tp_three = some 3 := by decide
      rw [h1] at hs
      rw [h2] at hk
      cases hs
      cases hk
      decide
  · obtain ⟨r, hr⟩ : ∃ r, tcp_retrans_try_collapse 0 tp_three 0 1000 = some r :=
      Option.isSome_iff_exists.1 (by decide!)
    have hv : (tcp_retrans_try_collapse 0 tp_three 0 1000).map
        (fun r => r.packets_out) = some 2 := by decide!
    rw [hr] at hv
    simp only [Option.map_some', Option.some.injEq] at hv
    exact ⟨r, hr, hv, w2 0 0 3 1000 r (by decide) (by decide) hr⟩

/-! ## Theorems: trimming and packet accounting -/

/-- C27: trimming breaks the accounting of `packets_out`. On the connection `tp_tso`
the accounting holds: one sent buffer of count 3 and `packets_out` 3, with the
first 1500 of its 3000 bytes acknowledged. `tcp_trim_head` for those 1500 bytes
returns 0 and recomputes the count of the buffer to 2 while `packets_out` stays
3; `tcp_retransmit_skb`, which trims through it, returns 0 with two buffers of
count 1 queued and `packets_out` still 3. -/
theorem tcp_trim_head_miscounts :
    packets_out_ok tp_tso ∧
      (tcp_trim_head env_plain tp_tso 0 1500).map
        (fun r => (r.1, r.2.packets_out, sent_pcount r.2, decide (packets_out_ok r.2))) =
        some (0, 3, some 2, false) ∧
      (tcp_retransmit_skb env_plain tp_tso 0).map
        (fun r => (r.1, r.2.packets_out, sent_pcount r.2, decide (packets_out_ok r.2))) =
        some (0, 3, some 2, false) := by
  refine ⟨by decide, by decide!, by decide!⟩

/-! ## Theorems: what the path-MTU probe consumes -/

/-- C25: the path-MTU probe can drop queued data. The queue of `tp_mtu` is
seq-contiguous and each of its two unsent buffers covers as many sequence
numbers as it has bytes, 4000 in all. `tcp_mtu_probe` builds and sends a probe
of 2000 bytes covering `[1000, 3000)`, with `write_seq` unchanged; but the
first buffer, 500 linear bytes followed by 2000 paged ones, of which 2000 bytes
went into the probe, is left with no bytes at all for `[3000, 3500)`, because
`__pskb_trim_head` drops the whole linear part on top of the 2000 bytes: 2500
bytes are removed for a probe of 2000, and 3500 bytes stay queued. -/
theorem tcp_mtu_probe_drops_data :
    seq_contiguous tp_mtu.sk_write_queue ∧
      (∀ s ∈ tp_mtu.sk_write_queue, sub32 s.cb.end_seq s.cb.seq = s.len) ∧
      (tp_mtu.sk_write_queue.map (fun s => s.len)).sum = 4000 ∧
      (tcp_mtu_probe env_plain tp_mtu).map (fun r => (r.1, r.2.write_seq)) = some (1, 5000) ∧
      (tcp_mtu_probe env_plain tp_mtu).map
        (fun r => r.2.sk_write_queue.map (fun s => (s.addr, s.len))) =
        some [(9, 2000), (2, 0), (3, 1500)] ∧
      (tcp_mtu_probe env_plain tp_mtu).map
        (fun r => r.2.sk_write_queue.map (fun s => (s.cb.seq, s.cb.end_seq))) =
        some [(1000, 3000), (3000, 3500), (3500, 5000)] ∧
      (tcp_mtu_probe env_plain tp_mtu).map
        (fun r => (r.2.sk_write_queue.map (fun s => s.len)).sum) = some 3500 := by
  refine ⟨?_, by decide, by decide, by decide!, by decide!, by decide!, by decide!⟩
  simp [seq_contiguous, tp_mtu, skb_mixed, skb_behind]

/-- C21: a failed send on a foreign subflow is undone on the wrong socket. On
`conn_two` (meta socket with path index 0 and `write_seq` 6400, subflows with
path index 1 and 2 and `write_seq` 1000 and 3000, one buffer of 1400 bytes to
send) the scheduler chooses the first subflow and the layer below drops the
packet, so `tcp_transmit_skb` returns 1. The pass jumps back to `again` with
the buffer off the subflow's queue, as it should be; but the subflow's
`write_seq` stays at 2400, the `write_seq` of the meta socket has gone down to
5000, and the flag added to `noneligible` is that of the meta socket's path
index 0, not of the subflow's path index 1, whatever `PI_TO_FLAG` is. With a
scheduler that skips the subflows marked in `noneligible`, the same subflow is
chosen again on every pass while the drops last: four units of fuel give four
retries on it and no return. When only the first send is dropped the function
returns with `noneligible` 0, the segment sent on that same subflow, the meta
`write_seq` 1400 too low and a hole of 1400 in the subflow's sequence numbers. -/
theorem tcp_push_one_undoes_on_meta (f : Nat → Nat) :
    (conn_two.meta.path_index, conn_two.meta.write_seq, conn_two.cnt_subflows) = (0, 6400, 2) ∧
    conn_two.subs.map (fun s => (s.path_index, s.write_seq)) = [(1, 1000), (2, 3000)] ∧
    (push_one_pass env_drop f (fun _ _ => some 0) 1400 conn_two).retry.map
      (fun c => (c.meta.write_seq, c.noneligible)) = some (5000, 0 ||| f 0) ∧
    (push_one_pass env_drop f (fun _ _ => some 0) 1400 conn_two).retry.map
      (fun c => c.subs.map (fun s => (s.write_seq, s.sk_write_queue.length))) =
      some [(2400, 0), (3000, 0)] ∧
    (tcp_push_one (fun _ => env_drop) PI_TO_FLAG (first_eligible_subflow PI_TO_FLAG) 1400 4 0
        conn_two).ending = push_end.out_of_fuel ∧
    (tcp_push_one (fun _ => env_drop) PI_TO_FLAG (first_eligible_subflow PI_TO_FLAG) 1400 4 0
        conn_two).retries.map
      (fun c => (c.meta.write_seq, c.noneligible, c.subs.map (fun s => s.write_seq))) =
      [(5000, 0, [2400, 3000]), (3600, 0, [3800, 3000]), (2200, 0, [5200, 3000]),
        (800, 0, [6600, 3000])] ∧
    (tcp_push_one (fun n => if n = 0 then env_drop else env_plain) PI_TO_FLAG
        (first_eligible_subflow PI_TO_FLAG) 1400 4 0 conn_two).ending = push_end.returned ∧
    (fun c : mtcp_conn => (c.noneligible, c.meta.write_seq,
        c.subs.map (fun s => (s.write_seq, s.sk_write_queue.length))))
      (tcp_push_one (fun n => if n = 0 then env_drop else env_plain) PI_TO_FLAG
        (first_eligible_subflow PI_TO_FLAG) 1400 4 0 conn_two).conn =
      (0, 5000, [(3800, 1), (3000, 0)]) := by
  refine ⟨rfl, rfl, rfl, rfl, by decide!, by decide!, by decide!, by decide!⟩

/-! ## Theorems: retransmission accounting -/

theorem and_then_assoc (r : Option (Int × tcp_sock)) (f g : tcp_sock → Option (Int × tcp_sock)) :
    and_then (and_then r f) g = and_then r (fun x => and_then (f x) g) := by
  unfold and_then
  cases r with
  | none => rfl
  | some p =>
    obtain ⟨c, sk⟩ := p
    by_cases hc : c ≠ 0
    · simp only [if_pos hc]
    · simp only [if_neg hc]

/-- The function `tcp_retransmit_skb` is its preparation followed by the transmission. -/
theorem tcp_retransmit_skb_stages (e : env) (sk : tcp_sock) (i : Nat) :
    tcp_retransmit_skb e sk i =
      and_then (retransmit_prepare e sk i) (fun p => retransmit_send e p i) := by
  unfold tcp_retransmit_skb retransmit_prepare
  split
  · rfl
  · rw [and_then_assoc]
    congr 1
    funext s1
    rw [and_then_assoc]
    congr 1
    funext s2
    split
    · simp [and_then, EHOSTUNREACH]
    · cases hm : retransmit_mss e s2 with
      | none => rfl
      | some q =>
        obtain ⟨m, s3⟩ := q
        simp only [and_then_assoc]

theorem retransmit_send_counts (e : env) (p sk' : tcp_sock) (i : Nat)
    (h : retransmit_send e p i = some (0, sk')) :
    ∃ s t, p.sk_write_queue[i]? = some s ∧ sk'.sk_write_queue[i]? = some t ∧
      t.cb.sacked = s.cb.sacked ||| TCPCB_RETRANS ∧ tcp_skb_pcount t = tcp_skb_pcount s ∧
      sk'.retrans_out = add32 p.retrans_out (tcp_skb_pcount s) ∧
      sk'.packets_out = p.packets_out ∧
      sk'.sk_write_queue.length = p.sk_write_queue.length := by
  unfold retransmit_send at h
  cases hq : p.sk_write_queue[i]? with
  | none => rw [hq] at h; cases h
  | some s =>
    have hi : i < p.sk_write_queue.length := by
      rcases Nat.lt_or_ge i p.sk_write_queue.length with hlt | hge
      · exact hlt
      · rw [List.getElem?_eq_none hge] at hq
        cases hq
    rw [hq] at h
    simp only at h
    split at h
    · cases h
    · rename_i err sk1 skb1 ht
      obtain ⟨f1, -, -, -, -⟩ := tcp_transmit_skb_keeps _ _ _ _ _ _ _ ht
      have f2 := tcp_transmit_skb_buffer _ _ _ _ _ _ _ ht
      have p1 := congrArg send_state.retrans_out f1
      have p2 := congrArg send_state.packets_out f1
      have p4 := congrArg send_state.sk_write_queue f1
      simp only [tcp_sock.send_state] at p1 p2 p4
      split at h
      · simp only [Option.some.injEq, Prod.mk.injEq, true_and] at h
        subst h
        refine ⟨s,
          { skb1 with cb := { skb1.cb with sacked := skb1.cb.sacked ||| TCPCB_RETRANS,
                                           ack_seq := sk1.snd_nxt } },
          rfl, ?_, ?_, ?_, ?_, p2, ?_⟩
        · simp only [p4, List.getElem?_set_self hi]
        · show skb1.cb.sacked ||| TCPCB_RETRANS = s.cb.sacked ||| TCPCB_RETRANS
          rw [f2]
        · show skb1.gso_segs = s.gso_segs
          rw [f2]
        · show add32 sk1.retrans_out skb1.gso_segs = add32 p.retrans_out s.gso_segs
          rw [p1, f2]
        · simp only [p4, List.length_set]
      · rename_i herr
        simp only [Option.some.injEq, Prod.mk.injEq] at h
        exact absurd h.1 herr

/-- What `tcp_trim_head` leaves alone: the counters, the length of the queue and
every buffer but the one it trims. -/
theorem tcp_trim_head_counts (e : env) (sk sk' : tcp_sock) (i len : Nat) (r : Int)
    (h : tcp_trim_head e sk i len = some (r, sk')) :
    sk'.packets_out = sk.packets_out ∧ sk'.retrans_out = sk.retrans_out ∧
    (sk'.sk_write_queue = sk.sk_write_queue ∨
      ∃ x, sk'.sk_write_queue = sk.sk_write_queue.set i x) := by
  unfold tcp_trim_head at h
  split at h
  · cases h
  · split at h
    · cases h
      exact ⟨rfl, rfl, Or.inl rfl⟩
    · simp only at h
      split at h
      · cases h
      · split at h
        · split at h
          · cases h
          · rename_i mss tp1 hm
            obtain ⟨g, mc, sh, pc, hfr⟩ := tcp_current_mss_frame _ _ _ _ _ hm
            split at h
            · cases h
            · simp only [Option.some.injEq, Prod.mk.injEq] at h
              rw [← h.2, hfr]
              exact ⟨rfl, rfl, Or.inr ⟨_, rfl⟩⟩
        · simp only [Option.some.injEq, Prod.mk.injEq] at h
          rw [← h.2]
          exact ⟨rfl, rfl, Or.inr ⟨_, rfl⟩⟩

theorem retransmit_trim_counts (e : env) (sk sk' : tcp_sock) (i : Nat) (c : Int)
    (h : retransmit_trim e sk i = some (c, sk')) :
    sk'.packets_out = sk.packets_out ∧ sk'.retrans_out = sk.retrans_out ∧
    (sk'.sk_write_queue = sk.sk_write_queue ∨
      ∃ x, sk'.sk_write_queue = sk.sk_write_queue.set i x) := by
  unfold retransmit_trim at h
  split at h
  · cases h
  · split at h
    · split at h
      · cases h
      · split at h
        · cases h
        · rename_i r sk1 ht
          have := tcp_trim_head_counts _ _ _ _ _ _ ht
          split at h <;> (simp only [Option.some.injEq, Prod.mk.injEq] at h; rw [← h.2]; exact this)
    · simp only [Option.some.injEq, Prod.mk.injEq] at h
      rw [← h.2]
      exact ⟨rfl, rfl, Or.inl rfl⟩

theorem retransmit_mss_counts (e : env) (sk sk' : tcp_sock) (m : Nat)
    (h : retransmit_mss e sk = some (m, sk')) :
    sk'.packets_out = sk.packets_out ∧ sk'.retrans_out = sk.retrans_out ∧
    sk'.sk_write_queue = sk.sk_write_queue := by
  unfold retransmit_mss at h
  split at h
  · cases h
    exact ⟨rfl, rfl, rfl⟩
  · obtain ⟨g, mc, sh, pc, hfr⟩ := tcp_current_mss_frame _ _ _ _ _ h
    rw [hfr]
    exact ⟨rfl, rfl, rfl⟩

theorem retransmit_strip_fin_counts (e : env) (sk sk' : tcp_sock) (i : Nat) (c : Int)
    (h : retransmit_strip_fin e sk i = some (c, sk')) :
    sk'.packets_out = sk.packets_out ∧ sk'.retrans_out = sk.retrans_out ∧
    (sk'.sk_write_queue = sk.sk_write_queue ∨
      ∃ x, sk'.sk_write_queue = sk.sk_write_queue.set i x) := by
  unfold retransmit_strip_fin at h
  split at h
  · cases h
  · split_ifs at h
    · simp only [Option.some.injEq, Prod.mk.injEq] at h
      obtain ⟨-, h2⟩ := h
      subst h2
      exact ⟨rfl, rfl, Or.inr ⟨_, rfl⟩⟩
    · simp only [Option.some.injEq, Prod.mk.injEq] at h
      obtain ⟨-, h2⟩ := h
      subst h2
      exact ⟨rfl, rfl, Or.inl rfl⟩

theorem expanded_head_len (s : sk_buff) : (expanded_head s).len = s.len := by
  unfold expanded_head
  split <;> rfl

/-- The head `fragment_halves` leaves is never shorter than the cut. -/
theorem fragment_halves_head_len (cfg : Bool) (sk : tcp_sock) (s b h t : sk_buff)
    (len mss : Nat) (hl : len ≤ s.len)
    (hh : fragment_halves cfg sk s b len mss = some (h, t)) : len ≤ h.len := by
  unfold fragment_halves at hh
  simp only at hh
  split at hh
  · cases hh
  · rename_i h0 t0 hmoved
    obtain ⟨h1, -⟩ := tso_pair_some _ _ _ _ _ _ hh
    obtain ⟨hlen, -, -⟩ := tcp_set_skb_tso_segs_wf _ _ _ _ h1
    rw [hlen]
    split at hmoved
    · split at hmoved
      · cases hmoved
      · simp only [Option.some.injEq, Prod.mk.injEq] at hmoved
        rw [← hmoved.1]
        unfold skb_trim
        simp only
        split
        · split
          · exact hl
          · exact Nat.le_refl _
        · exact hl
    · unfold skb_split at hmoved
      simp only at hmoved
      split at hmoved
      · split at hmoved
        · cases hmoved
        · simp only [Option.some.injEq, Prod.mk.injEq] at hmoved
          rw [← hmoved.1]
      · simp only [Option.some.injEq, Prod.mk.injEq] at hmoved
        rw [← hmoved.1]

/-- A successful `tcp_fragment` puts two buffers in the place of one, and the first
of them is not shorter than the cut. -/
theorem tcp_fragment_head_len (cfg e : Bool) (alloc : Option (Nat × Nat)) (hs : Nat)
    (sk sk' : tcp_sock) (i len mss : Nat)
    (h : tcp_fragment cfg e alloc hs sk i len mss = some (0, sk')) :
    ∃ head tail, sk'.sk_write_queue = queue_split sk.sk_write_queue i head tail ∧
      len ≤ head.len := by
  unfold tcp_fragment at h
  split at h
  · cases h
  · rename_i s hq
    split at h
    · cases h
    · rename_i hlen
      simp only at h
      split at h
      · simp [ENOMEM] at h
      · split at h
        · simp [ENOMEM] at h
        · rename_i a
          split at h
          · cases h
          · rename_i head tail hh
            simp only [Option.some.injEq, Prod.mk.injEq, true_and] at h
            subst h
            refine ⟨head, tail, ?_, ?_⟩
            · simp only [fragment_counters_queue]
              rfl
            · exact fragment_halves_head_len _ _ _ _ _ _ _ _
                (by rw [expanded_head_len]; omega) hh

theorem retransmit_fragment_shape (e : env) (m : Nat) (sk sk' : tcp_sock) (i : Nat)
    (h : retransmit_fragment e m sk i = some (0, sk')) :
    sk' = sk ∨ ∃ head tail, sk'.sk_write_queue = queue_split sk.sk_write_queue i head tail ∧
      m ≤ head.len := by
  unfold retransmit_fragment at h
  split at h
  · cases h
  · split at h
    · split at h
      · cases h
      · rename_i r sk1 ht
        split at h
        · simp [ENOMEM] at h
        · rename_i hr
          simp only [ne_eq, not_not] at hr
          subst hr
          simp only [Option.some.injEq, Prod.mk.injEq, true_and] at h
          subst h
          exact Or.inr (tcp_fragment_head_len _ _ _ _ _ _ _ _ _ ht)
    · simp only [Option.some.injEq, Prod.mk.injEq, true_and] at h
      exact Or.inl h.symm

theorem retransmit_collapse_shape (e : env) (m : Nat) (sk sk' : tcp_sock) (i : Nat) (c : Int)
    (h : retransmit_collapse e m sk i = some (c, sk')) :
    sk' = sk ∨ (retransmit_collapse_wanted e m sk i = true ∧
      ∃ b x, sk.sk_write_queue[i + 1]? = some b ∧
        sk'.sk_write_queue = (sk.sk_write_queue.set i x).eraseIdx (i + 1) ∧
        sk'.packets_out = u32 ((sk.packets_out : Int) - tcp_skb_pcount b)) := by
  unfold retransmit_collapse at h
  split at h
  · rename_i hw
    cases ht : tcp_retrans_try_collapse e.highest_sack_seq sk i m with
    | none => rw [ht] at h; cases h
    | some s =>
      rw [ht] at h
      simp only [Option.map_some', Option.some.injEq, Prod.mk.injEq] at h
      rw [← h.2]
      rcases tcp_retrans_try_collapse_shape _ _ _ _ _ ht with r | ⟨a, b, x, -, hb, -, -, -, -, hq, hp⟩
      · exact Or.inl r
      · exact Or.inr ⟨hw, b, x, hb, hq, hp⟩
  · simp only [Option.some.injEq, Prod.mk.injEq] at h
    exact Or.inl h.2.symm

theorem queue_same_or_set (q q' : List sk_buff) (i : Nat)
    (h : q' = q ∨ ∃ x, q' = q.set i x) :
    q'.length = q.length ∧ q'[i + 1]? = q[i + 1]? := by
  rcases h with rfl | ⟨x, rfl⟩
  · exact ⟨rfl, rfl⟩
  · exact ⟨List.length_set _ _ _, by simp [List.getElem?_set]⟩

/-- What the preparation of a retransmission does to the counters. When it leaves
the number of buffers in the write queue as it is (it neither cuts the buffer nor
merges it with the next one), `packets_out` and `retrans_out` stay; when the
queue is one buffer shorter (a merge), `packets_out` is lowered by the count of
the buffer that followed. -/
theorem retransmit_prepare_counts (e : env) (sk p : tcp_sock) (i : Nat)
    (h : retransmit_prepare e sk i = some (0, p)) :
    (p.sk_write_queue.length = sk.sk_write_queue.length →
      p.packets_out = sk.packets_out ∧ p.retrans_out = sk.retrans_out) ∧
    (p.sk_write_queue.length + 1 = sk.sk_write_queue.length →
      ∃ n, sk.sk_write_queue[i + 1]? = some n ∧
        p.packets_out = u32 ((sk.packets_out : Int) - tcp_skb_pcount n)) := by
  unfold retransmit_prepare at h
  cases hq : sk.sk_write_queue[i]? with
  | none => simp [hq] at h
  | some s0 =>
  rw [hq] at h
  simp only [Option.isNone_some, Bool.false_eq_true, if_false] at h
  rcases and_then_some _ _ _ _ h with ⟨h0, -⟩ | ⟨s1, h1, g1⟩
  · exact absurd rfl h0
  clear h
  obtain ⟨-, e1⟩ := retransmit_enter_ctl _ _ _ _ h1
  have a1 := congrArg send_state.packets_out e1
  have a2 := congrArg send_state.retrans_out e1
  have a3 := congrArg send_state.sk_write_queue e1
  simp only [tcp_sock.send_state] at a1 a2 a3
  rcases and_then_some _ _ _ _ g1 with ⟨h0, -⟩ | ⟨s2, h2, g2⟩
  · exact absurd rfl h0
  clear g1
  obtain ⟨b1, b2, b3⟩ := retransmit_trim_counts _ _ _ _ _ h2
  obtain ⟨b4, b5⟩ := queue_same_or_set _ _ i b3
  split at g2
  · simp only [Option.some.injEq, Prod.mk.injEq] at g2
    exact absurd g2.1 (by decide)
  cases hm : retransmit_mss e s2 with
  | none => rw [hm] at g2; cases g2
  | some r =>
  obtain ⟨m, s3⟩ := r
  rw [hm] at g2
  simp only at g2
  obtain ⟨c1, c2, c3⟩ := retransmit_mss_counts _ _ _ _ hm
  rcases and_then_some _ _ _ _ g2 with ⟨h0, -⟩ | ⟨s4, h4, g4⟩
  · exact absurd rfl h0
  clear g2
  have hs4 := retransmit_window_ctl _ _ _ _ h4
  subst hs4
  have hlen : s4.sk_write_queue.length = sk.sk_write_queue.length := by rw [c3, b4, a3]
  have hnx : s4.sk_write_queue[i + 1]? = sk.sk_write_queue[i + 1]? := by rw [c3, b5, a3]
  have hpo : s4.packets_out = sk.packets_out := by rw [c1, b1, a1]
  have hro : s4.retrans_out = sk.retrans_out := by rw [c2, b2, a2]
  have hi : i < s4.sk_write_queue.length := by
    rw [hlen]
    rcases Nat.lt_or_ge i sk.sk_write_queue.length with hlt | hge
    · exact hlt
    · rw [List.getElem?_eq_none hge] at hq
      cases hq
  rcases and_then_some _ _ _ _ g4 with ⟨h0, -⟩ | ⟨s5, h5, g5⟩
  · exact absurd rfl h0
  rcases and_then_some _ _ _ _ g5 with ⟨h0, -⟩ | ⟨s6, h6, g6⟩
  · exact absurd rfl h0
  obtain ⟨d1, d2, d3⟩ := retransmit_strip_fin_counts _ _ _ _ _ g6
  obtain ⟨d4, -⟩ := queue_same_or_set _ _ i d3
  rcases retransmit_fragment_shape _ _ _ _ _ h5 with f | ⟨head, tail, fq, fl⟩
  · subst f
    rcases retransmit_collapse_shape _ _ _ _ _ _ h6 with g | ⟨-, b, x, gb, gq, gp⟩
    · subst g
      refine ⟨fun _ => ⟨by rw [d1, hpo], by rw [d2, hro]⟩, fun hl => ?_⟩
      omega
    · have hi1 : i + 1 < s5.sk_write_queue.length := by
        rcases Nat.lt_or_ge (i + 1) s5.sk_write_queue.length with hlt | hge
        · exact hlt
        · rw [List.getElem?_eq_none hge] at gb
          cases gb
      have hl6 : s6.sk_write_queue.length = s5.sk_write_queue.length - 1 := by
        rw [gq, List.length_eraseIdx_of_lt (by rw [List.length_set]; exact hi1), List.length_set]
      refine ⟨fun hl => ?_, fun _ => ⟨b, by rw [← hnx]; exact gb, by rw [d1, gp, hpo]⟩⟩
      omega
  · obtain ⟨s4i, hs4i⟩ : ∃ y, s4.sk_write_queue[i]? = some y :=
      ⟨_, List.getElem?_eq_getElem hi⟩
    obtain ⟨q1, -, q3⟩ := queue_split_get _ i s4i head tail hs4i
    rw [List.length_set, ← fq] at q3
    rw [← fq] at q1
    rcases retransmit_collapse_shape _ _ _ _ _ _ h6 with g | ⟨gw, -⟩
    · subst g
      exact ⟨fun hl => by omega, fun hl => by omega⟩
    · exfalso
      unfold retransmit_collapse_wanted at gw
      rw [q1] at gw
      split at gw
      · rename_i a b ha hb
        simp only [Option.some.injEq] at ha
        rw [← ha] at gw
        simp only [Bool.and_eq_true, decide_eq_true_eq] at gw
        have : head.len < m / 2 := gw.1.1.1.1.1.1.2
        omega
      · cases gw

/-- A successful `tcp_retransmit_skb` call is a preparation followed by a
transmission that marks the buffer it sent, adds that buffer's count to
`retrans_out` and leaves `packets_out` and the number of queued buffers alone. -/
theorem tcp_retransmit_skb_sent (e : env) (sk sk' : tcp_sock) (i : Nat)
    (h : tcp_retransmit_skb e sk i = some (0, sk')) :
    ∃ p s t, retransmit_prepare e sk i = some (0, p) ∧ retransmit_send e p i = some (0, sk') ∧
      p.sk_write_queue[i]? = some s ∧ sk'.sk_write_queue[i]? = some t ∧
      tst t.cb.sacked TCPCB_SACKED_RETRANS = true ∧ tcp_skb_pcount t = tcp_skb_pcount s ∧
      sk'.retrans_out = add32 p.retrans_out (tcp_skb_pcount s) ∧
      sk'.packets_out = p.packets_out ∧
      sk'.sk_write_queue.length = p.sk_write_queue.length := by
  rw [tcp_retransmit_skb_stages] at h
  rcases and_then_some _ _ _ _ h with ⟨h0, -⟩ | ⟨p, hp, hs⟩
  · exact absurd rfl h0
  obtain ⟨s, t, a1, a2, a3, a4, a5, a6, a7⟩ := retransmit_send_counts _ _ _ _ hs
  refine ⟨p, s, t, hp, hs, a1, a2, ?_, a4, a5, a6, a7⟩
  rw [a3]
  exact tst_or_retrans _

/-- C18, as the code has it: `tcp_retransmit_skb` counts a segment every time it
sends it, whether or not the segment is already marked as retransmitted.

Of two successful calls in succession on position `i` of the write queue, each
is a preparation (`retransmit_prepare`: the checks and the trimming, cutting,
merging and FIN stripping of the buffer) followed by the transmission
(`retransmit_send`). Each transmission leaves the buffer it sent marked
`TCPCB_SACKED_RETRANS`, adds the segment count that buffer has to `retrans_out`
as the preparation left it, and changes neither `packets_out` nor the number of
queued buffers; the second call does so on the buffer the first has marked. A
preparation that keeps the number of queued buffers (it neither cuts nor
merges) changes neither `packets_out` nor `retrans_out`; one that leaves the
queue a buffer shorter (a merge) lowers `packets_out` by the count of the
buffer that followed. So when neither call changes the number of queued
buffers, `packets_out` is in the end what it was and `retrans_out` has grown by
the count of the buffer at the first transmission plus its count at the second,
which is twice the first count when the second preparation leaves the write
queue as it found it. -/
theorem tcp_retransmit_skb_counts_each_call (e1 e2 : env) (sk sk1 sk2 : tcp_sock) (i : Nat)
    (h1 : tcp_retransmit_skb e1 sk i = some (0, sk1))
    (h2 : tcp_retransmit_skb e2 sk1 i = some (0, sk2)) :
    ∃ p1 s1 t1 p2 s2 t2,
      retransmit_prepare e1 sk i = some (0, p1) ∧ retransmit_send e1 p1 i = some (0, sk1) ∧
      retransmit_prepare e2 sk1 i = some (0, p2) ∧ retransmit_send e2 p2 i = some (0, sk2) ∧
      p1.sk_write_queue[i]? = some s1 ∧ sk1.sk_write_queue[i]? = some t1 ∧
      p2.sk_write_queue[i]? = some s2 ∧ sk2.sk_write_queue[i]? = some t2 ∧
      tst t1.cb.sacked TCPCB_SACKED_RETRANS = true ∧
      tst t2.cb.sacked TCPCB_SACKED_RETRANS = true ∧
      tcp_skb_pcount t1 = tcp_skb_pcount s1 ∧ tcp_skb_pcount t2 = tcp_skb_pcount s2 ∧
      sk1.retrans_out = add32 p1.retrans_out (tcp_skb_pcount s1) ∧
      sk2.retrans_out = add32 p2.retrans_out (tcp_skb_pcount s2) ∧
      sk1.packets_out = p1.packets_out ∧ sk2.packets_out = p2.packets_out ∧
      sk1.sk_write_queue.length = p1.sk_write_queue.length ∧
      sk2.sk_write_queue.length = p2.sk_write_queue.length ∧
      (p1.sk_write_queue.length = sk.sk_write_queue.length →
        p1.packets_out = sk.packets_out ∧ p1.retrans_out = sk.retrans_out) ∧
      (p2.sk_write_queue.length = sk1.sk_write_queue.length →
        p2.packets_out = sk1.packets_out ∧ p2.retrans_out = sk1.retrans_out) ∧
      (p1.sk_write_queue.length + 1 = sk.sk_write_queue.length →
        ∃ n, sk.sk_write_queue[i + 1]? = some n ∧
          p1.packets_out = u32 ((sk.packets_out : Int) - tcp_skb_pcount n)) ∧
      (p2.sk_write_queue.length + 1 = sk1.sk_write_queue.length →
        ∃ n, sk1.sk_write_queue[i + 1]? = some n ∧
          p2.packets_out = u32 ((sk1.packets_out : Int) - tcp_skb_pcount n)) ∧
      (sk1.sk_write_queue.length = sk.sk_write_queue.length →
        sk2.sk_write_queue.length = sk1.sk_write_queue.length →
        sk2.packets_out = sk.packets_out ∧
        sk2.retrans_out =
          add32 (add32 sk.retrans_out (tcp_skb_pcount s1)) (tcp_skb_pcount s2)) ∧
      (sk1.sk_write_queue.length = sk.sk_write_queue.length →
        p2.sk_write_queue = sk1.sk_write_queue →
        sk2.packets_out = sk.packets_out ∧
        sk2.retrans_out =
          add32 (add32 sk.retrans_out (tcp_skb_pcount s1)) (tcp_skb_pcount s1)) := by
  obtain ⟨p1, s1, t1, a1, a2, a3, a4, a5, a6, a7, a8, a9⟩ := tcp_retransmit_skb_sent _ _ _ _ h1
  obtain ⟨p2, s2, t2, b1, b2, b3, b4, b5, b6, b7, b8, b9⟩ := tcp_retransmit_skb_sent _ _ _ _ h2
  obtain ⟨c1, c2⟩ := retransmit_prepare_counts _ _ _ _ a1
  obtain ⟨d1, d2⟩ := retransmit_prepare_counts _ _ _ _ b1
  refine ⟨p1, s1, t1, p2, s2, t2, a1, a2, b1, b2, a3, a4, b3, b4, a5, b5, a6, b6, a7, b7, a8, b8,
    a9, b9, c1, d1, c2, d2, ?_, ?_⟩
  · intro l1 l2
    obtain ⟨x1, x2⟩ := c1 (by rw [← a9]; exact l1)
    obtain ⟨y1, y2⟩ := d1 (by rw [← b9]; exact l2)
    exact ⟨by rw [b8, y1, a8, x1], by rw [b7, y2, a7, x2]⟩
  · intro l1 l2
    obtain ⟨x1, x2⟩ := c1 (by rw [← a9]; exact l1)
    obtain ⟨y1, y2⟩ := d1 (by rw [l2])
    have hs : s2 = t1 := by
      rw [l2, a4] at b3
      exact (Option.some.inj b3).symm
    exact ⟨by rw [b8, y1, a8, x1], by rw [b7, y2, a7, x2, hs, a6]⟩

theorem tcp_retransmit_skb_counts_each_call_witness :
    ∃ sk1 sk2, tcp_retransmit_skb env_no_collapse tp_second_lost 1 = some (0, sk1) ∧
      tcp_retransmit_skb env_no_collapse sk1 1 = some (0, sk2) ∧
      sk2.packets_out = 3 ∧
      ∃ s1 s2 t1 t2, sk1.sk_write_queue[1]? = some t1 ∧ sk2.sk_write_queue[1]? = some t2 ∧
        tst t1.cb.sacked TCPCB_SACKED_RETRANS = true ∧
        tst t2.cb.sacked TCPCB_SACKED_RETRANS = true ∧
        tcp_skb_pcount t1 = tcp_skb_pcount s1 ∧ tcp_skb_pcount t2 = tcp_skb_pcount s2 ∧
        sk2.retrans_out = add32 (add32 0 (tcp_skb_pcount s1)) (tcp_skb_pcount s2) := by
  have h : ∃ sk1 sk2, tcp_retransmit_skb env_no_collapse tp_second_lost 1 = some (0, sk1) ∧
      tcp_retransmit_skb env_no_collapse sk1 1 = some (0, sk2) ∧
      sk1.sk_write_queue.length = 3 ∧ sk2.sk_write_queue.length = 3 := by
    have hd : ((tcp_retransmit_skb env_no_collapse tp_second_lost 1).bind (fun r =>
        (tcp_retransmit_skb env_no_collapse r.2 1).map (fun q =>
          (r.1, q.1, r.2.sk_write_queue.length, q.2.sk_write_queue.length)))) =
        some (0, 0, 3, 3) := by
      decide
    cases ha : tcp_retransmit_skb env_no_collapse tp_second_lost 1 with
    | none => rw [ha] at hd; cases hd
    | some r =>
      obtain ⟨c1, sk1⟩ := r
      rw [ha] at hd
      simp only [Option.some_bind] at hd
      cases hb : tcp_retransmit_skb env_no_collapse sk1 1 with
      | none => rw [hb] at hd; cases hd
      | some q =>
        obtain ⟨c2, sk2⟩ := q
        rw [hb] at hd
        simp only [Option.map_some', Option.some.injEq, Prod.mk.injEq] at hd
        obtain ⟨d1, d2, d3, d4⟩ := hd
        subst d1
        subst d2
        exact ⟨sk1, sk2, rfl, hb, d3, d4⟩
  obtain ⟨sk1, sk2, h1, h2, l1, l2⟩ := h
  obtain ⟨p1, s1, t1, p2, s2, t2, -, -, -, -, -, w1, -, w2, w3, w4, w5, w6, -, -, -, -, -, -, -,
      -, -, -, w7, -⟩ :=
    tcp_retransmit_skb_counts_each_call env_no_collapse env_no_collapse tp_second_lost sk1 sk2 1
      h1 h2
  obtain ⟨w8, w9⟩ := w7 (by rw [l1]; rfl) (by rw [l2, l1])
  exact ⟨sk1, sk2, h1, h2, w8, s1, s2, t1, t2, w1, w2, w3, w4, w5, w6, w9⟩

/-- C18 as stated fails: two successful calls of `tcp_retransmit_skb` in succession
on the lost second segment of three, a segment of count 1, raise `retrans_out`
from 0 to 2; with the collapsing of retransmitted segments enabled, as it is by
default, the first call also merges the third segment into it, so that
`packets_out` goes from 3 to 2. -/
theorem tcp_retransmit_skb_twice_counts_twice :
    ((tcp_retransmit_skb env_no_collapse tp_second_lost 1).bind (fun r =>
      tcp_retransmit_skb env_no_collapse r.2 1)).map
        (fun r => (r.1, r.2.packets_out, r.2.retrans_out)) = some (0, 3, 2) ∧
    ((tcp_retransmit_skb env_plain tp_second_lost 1).bind (fun r =>
      tcp_retransmit_skb env_plain r.2 1)).map
        (fun r => (r.1, r.2.packets_out, r.2.retrans_out)) = some (0, 2, 2) ∧
    (tp_second_lost.packets_out, tp_second_lost.retrans_out,
      (tp_second_lost.sk_write_queue[1]?).map tcp_skb_pcount) = (3, 0, some 1) := by
  decide

end TcpOutput
